import Mathlib

/-!
# The WAT front-end of native-wasm (`src/native-wasm/wat.cpp`)

A shallow embedding of the lexer (`TokenizeWAT`), the instruction parser
(`WatOperator`, `WatExpression`, `WatInstruction`), the module parser
(`WatModule`, `ParseWatModule`) and their helpers, followed by theorems about
them.

Conventions of the embedding.

* A C function `int F(WatState&, Queue<Token>&, ...)` becomes a function from
  the parser configuration `PState` to `Option (Int × PState)`: the `Int` is the
  returned code (`ERR_SUCCESS = 0`), the configuration is what the reference
  parameters hold when the function returns.  `none` means that the embedding
  assigns no result: either the fuel of a loop ran out, or the C code reads
  memory it never initialised (the places are marked at the definitions).
* Machine integers are `Nat`/`Int` with explicit reductions modulo `2^w`.
* Bytes are natural numbers; the input buffer is a `List Nat`, read as `0`
  past its end (the buffer is NUL terminated, the regular expression engine
  relies on it).
-/

namespace Wat

/-! ## Error codes (`include/innative/errors.h`) -/

abbrev ERR_SUCCESS : Int := 0
abbrev ERR_PARSE_INVALID_NAME : Int := -11
abbrev ERR_FATAL_INVALID_MODULE : Int := -254
abbrev ERR_FATAL_UNKNOWN_INSTRUCTION : Int := -250
abbrev ERR_FATAL_DUPLICATE_EXPORT : Int := -242
abbrev ERR_FATAL_DUPLICATE_MODULE_NAME : Int := -241
abbrev ERR_FATAL_OUT_OF_MEMORY : Int := -237
abbrev ERR_VALIDATION_ERROR : Int := -4095
abbrev ERR_INVALID_FUNCTION_INDEX : Int := -4093
abbrev ERR_INVALID_FUNCTION_BODY : Int := -4072
abbrev ERR_MULTIPLE_RETURN_VALUES : Int := -4050
abbrev ERR_SIGNATURE_MISMATCH : Int := -4040
abbrev ERR_WAT_EXPECTED_OPEN : Int := -1048574
abbrev ERR_WAT_EXPECTED_CLOSE : Int := -1048573
abbrev ERR_WAT_EXPECTED_TOKEN : Int := -1048572
abbrev ERR_WAT_EXPECTED_STRING : Int := -1048570
abbrev ERR_WAT_EXPECTED_TYPE : Int := -1048567
abbrev ERR_WAT_EXPECTED_VAR : Int := -1048566
abbrev ERR_WAT_EXPECTED_VALTYPE : Int := -1048565
abbrev ERR_WAT_EXPECTED_FUNC : Int := -1048564
abbrev ERR_WAT_EXPECTED_OPERATOR : Int := -1048563
abbrev ERR_WAT_EXPECTED_INTEGER : Int := -1048562
abbrev ERR_WAT_EXPECTED_FLOAT : Int := -1048561
abbrev ERR_WAT_EXPECTED_RESULT : Int := -1048560
abbrev ERR_WAT_EXPECTED_THEN : Int := -1048559
abbrev ERR_WAT_EXPECTED_ELSE : Int := -1048558
abbrev ERR_WAT_EXPECTED_END : Int := -1048557
abbrev ERR_WAT_EXPECTED_LOCAL : Int := -1048556
/-- The header at hand names this enumerator `ERR_WAT_EXPECTED_FUNCREF`; `wat.cpp`
uses the older name of the same slot. -/
abbrev ERR_WAT_EXPECTED_ANYFUNC : Int := -1048555
abbrev ERR_WAT_EXPECTED_MUT : Int := -1048554
abbrev ERR_WAT_EXPECTED_MODULE : Int := -1048553
abbrev ERR_WAT_EXPECTED_ELEM : Int := -1048552
abbrev ERR_WAT_EXPECTED_KIND : Int := -1048551
abbrev ERR_WAT_INVALID_TOKEN : Int := -1048546
abbrev ERR_WAT_INVALID_IMPORT_ORDER : Int := -1048544
abbrev ERR_WAT_INVALID_ALIGNMENT : Int := -1048543
abbrev ERR_WAT_INVALID_VAR : Int := -1048541
abbrev ERR_WAT_INVALID_TYPE : Int := -1048540
abbrev ERR_WAT_INVALID_LOCAL : Int := -1048539
abbrev ERR_WAT_TYPE_MISMATCH : Int := -1048536
abbrev ERR_WAT_LABEL_MISMATCH : Int := -1048535
abbrev ERR_WAT_OUT_OF_RANGE : Int := -1048534
abbrev ERR_WAT_BAD_ESCAPE : Int := -1048533
abbrev ERR_WAT_DUPLICATE_NAME : Int := -1048532
abbrev ERR_WAT_PARAM_AFTER_RESULT : Int := -1048531
/-- Modelled from the spec: `ERR_WAT_INVALID_INITIALIZER` is used by `wat.cpp` but is
not an enumerator of the `errors.h` at hand; it is placed in the WAT band, right
after the last enumerator of that band. -/
abbrev ERR_WAT_INVALID_INITIALIZER : Int := -1048530
abbrev ERR_RUNTIME_INIT_ERROR : Int := -16777215
abbrev ERR_RUNTIME_TRAP : Int := -16777214
abbrev ERR_RUNTIME_ASSERT_FAILURE : Int := -16777213

/-! ## Opcodes (`include/innative/opcodes.h`) -/

abbrev OP_block : Nat := 0x02
abbrev OP_loop : Nat := 0x03
abbrev OP_if : Nat := 0x04
abbrev OP_else : Nat := 0x05
abbrev OP_end : Nat := 0x0b
abbrev OP_br : Nat := 0x0c
abbrev OP_br_if : Nat := 0x0d
abbrev OP_br_table : Nat := 0x0e
abbrev OP_call : Nat := 0x10
abbrev OP_call_indirect : Nat := 0x11
abbrev OP_drop : Nat := 0x1a
abbrev OP_get_local : Nat := 0x20
abbrev OP_set_local : Nat := 0x21
abbrev OP_tee_local : Nat := 0x22
abbrev OP_get_global : Nat := 0x23
abbrev OP_set_global : Nat := 0x24
abbrev OP_i32_const : Nat := 0x41
abbrev OP_i64_const : Nat := 0x42
abbrev OP_f32_const : Nat := 0x43
abbrev OP_f64_const : Nat := 0x44
abbrev OP_i32_add : Nat := 0x6a

/-- The opcodes of the load and store instructions, `0x28 .. 0x3e`
(`OP_i32_load .. OP_i64_store32`). -/
def isLoadStore (op : Nat) : Bool := 0x28 ≤ op && op ≤ 0x3e

/-! ## Value types and kinds (binary-format encodings) -/

abbrev TE_i32 : Int := -0x01
abbrev TE_i64 : Int := -0x02
abbrev TE_f32 : Int := -0x03
abbrev TE_f64 : Int := -0x04
abbrev TE_anyfunc : Int := -0x10
abbrev TE_func : Int := -0x20
abbrev TE_void : Int := -0x40

abbrev KIND_FUNCTION : Nat := 0
abbrev KIND_TABLE : Nat := 1
abbrev KIND_MEMORY : Nat := 2
abbrev KIND_GLOBAL : Nat := 3

abbrev SECTION_START : Nat := 8

/-- Modelled from the spec: the typedef of `varuint32` (`innative/schema.h`, not in the
sources) is an unsigned 32-bit integer; this is the value `(varuint32)~0`. -/
abbrev U32_MAX : Nat := 4294967295

/-- Modelled from the spec: the typedef of `varuint7` (`innative/schema.h`, not in the
sources) is an unsigned byte that holds a 7-bit LEB128 value; this is `(varuint7)~0`,
which is also `std::numeric_limits<varuint7>::max()`. -/
abbrev U7_MAX : Nat := 255

/-! ## Tokens -/

/-- Token kinds.  `TOKEN_OPEN .. TOKEN_OUTPUT` are numbered by `tokenhash` in the
order of its initialiser list. -/
inductive TokenID
  | TOKEN_NONE | TOKEN_OPEN | TOKEN_CLOSE | TOKEN_MODULE | TOKEN_IMPORT | TOKEN_TYPE
  | TOKEN_START | TOKEN_FUNC | TOKEN_GLOBAL | TOKEN_TABLE | TOKEN_MEMORY | TOKEN_EXPORT
  | TOKEN_DATA | TOKEN_ELEM | TOKEN_OFFSET | TOKEN_ALIGN | TOKEN_LOCAL | TOKEN_RESULT
  | TOKEN_PARAM | TOKEN_i32 | TOKEN_i64 | TOKEN_f32 | TOKEN_f64 | TOKEN_ANYFUNC | TOKEN_MUT
  | TOKEN_BLOCK | TOKEN_LOOP | TOKEN_IF | TOKEN_THEN | TOKEN_ELSE | TOKEN_END
  | TOKEN_BINARY | TOKEN_QUOTE | TOKEN_REGISTER | TOKEN_INVOKE | TOKEN_GET
  | TOKEN_ASSERT_RETURN | TOKEN_ASSERT_RETURN_CANONICAL_NAN
  | TOKEN_ASSERT_RETURN_ARITHMETIC_NAN | TOKEN_ASSERT_TRAP | TOKEN_ASSERT_MALFORMED
  | TOKEN_ASSERT_INVALID | TOKEN_ASSERT_UNLINKABLE | TOKEN_ASSERT_EXHAUSTION
  | TOKEN_SCRIPT | TOKEN_INPUT | TOKEN_OUTPUT
  | TOKEN_INTEGER | TOKEN_FLOAT | TOKEN_STRING | TOKEN_NAME | TOKEN_OPERATOR
  deriving DecidableEq

open TokenID

/-- A token `{id, pos, union {i, f, len}}`.  `pos` is the offset of the token in the
input buffer.  The integer payload `i` and the length `len` share storage, so
`len` is read off `i`; the payload of a float token is kept as the text handed to
`strtod` (field `f`). -/
structure Token where
  id : TokenID
  pos : Nat := 0
  i : Int := 0
  f : List Nat := []
  deriving DecidableEq

/-- The `len` member of the token union. -/
def Token.len (t : Token) : Nat := t.i.toNat

/-- A span `{s, len}` of the input buffer; `isNull` stands for `s == 0`. -/
structure StringRef where
  isNull : Bool := true
  s : Nat := 0
  len : Nat := 0
  deriving DecidableEq

/-- The span `StringRef{ t.pos, t.len }` of a token. -/
def Token.ref (t : Token) : StringRef := { isNull := false, s := t.pos, len := t.len }

/-- The byte of the buffer at offset `p` (`0` past the end). -/
def byteAt (buf : List Nat) (p : Nat) : Nat := buf.getD p 0

/-- The bytes `buf[p .. p+n)`. -/
def slice (buf : List Nat) (p n : Nat) : List Nat := (List.range n).map (fun k => byteAt buf (p + k))

/-- Modelled from the spec: `StringRef::operator==` (declared in `util.h`, not in the
sources) compares two spans by length and content. -/
def StringRef.eq (buf : List Nat) (a b : StringRef) : Bool :=
  a.len == b.len && slice buf a.s a.len == slice buf b.s b.len

/-- Modelled from the spec: `Queue<T>` (`queue.h`, not in the sources) is "an
ordered, indexable queue of tokens" whose read position can be saved and restored.
`Size` counts the tokens from the read position on, `operator[]` indexes from the
read position, `Peek` is `operator[](0)` and `Pop` returns the token at the read
position and advances.  A read past the last token yields the blank token
`Token{TOKEN_NONE}`. -/
structure Queue where
  toks : List Token := []
  pos : Nat := 0
  deriving DecidableEq

def Queue.Size (q : Queue) : Nat := q.toks.length - q.pos

def Queue.get (q : Queue) (k : Nat) : Token := q.toks.getD (q.pos + k) { id := TOKEN_NONE }

def Queue.Peek (q : Queue) : Token := q.get 0

def Queue.Pop (q : Queue) : Queue := { q with pos := q.pos + 1 }

def Queue.GetPosition (q : Queue) : Nat := q.pos

def Queue.SetPosition (q : Queue) (p : Nat) : Queue := { q with pos := p }

/-! ## The module record -/

/-- A `FunctionSig`: `{form, params, returns}`; value types are `varsint7`. -/
structure FunctionSig where
  form : Int := 0
  params : List Int := []
  returns : List Int := []
  deriving DecidableEq

/-- The float payload of an immediate, kept symbolically: converted from an integer
token (`(float)tokens.Pop().i`) or from the text of a float token. -/
inductive FloatImm
  | zero
  | ofInt (i : Int)
  | ofText (txt : List Nat)
  deriving DecidableEq

/-- An `Instruction {opcode, immediates[2]}`.  `imm0`/`imm1` hold the integer members
of `immediates[0]`/`immediates[1]`, `table` the jump table of `br_table`
(`immediates[0].table`), `fimm` the float member of `immediates[0]`. -/
structure Instruction where
  opcode : Nat
  imm0 : Int := 0
  imm1 : Int := 0
  table : List Nat := []
  fimm : FloatImm := FloatImm.zero
  deriving DecidableEq

/-- A `FunctionBody`.  `param_names`/`local_names` are arrays of C strings that are
written one slot at a time; a slot that was never written is `none`. -/
structure FunctionBody where
  locals : List Nat := []
  body : List Instruction := []
  param_names : List (Option (List Nat)) := []
  local_names : List (Option (List Nat)) := []
  debug_name : List Nat := []
  deriving DecidableEq

structure ResizableLimits where
  flags : Nat := 0
  minimum : Nat := 0
  maximum : Nat := 0
  deriving DecidableEq

structure TableDesc where
  element_type : Int := 0
  resizable : ResizableLimits := {}
  deriving DecidableEq

structure MemoryDesc where
  limits : ResizableLimits := {}
  deriving DecidableEq

structure GlobalDesc where
  type : Int := 0
  mutability : Bool := false
  deriving DecidableEq

structure GlobalDecl where
  desc : GlobalDesc := {}
  init : Instruction := { opcode := 0 }
  deriving DecidableEq

/-- An `Import`; the members of its descriptor union are kept side by side. -/
structure Import where
  module_name : List Nat := []
  export_name : List Nat := []
  kind : Nat := 0
  debug_name : List Nat := []
  sig_index : Nat := 0
  param_names : List (Option (List Nat)) := []
  table_desc : TableDesc := {}
  mem_desc : MemoryDesc := {}
  global_desc : GlobalDesc := {}
  deriving DecidableEq

structure Export where
  name : List Nat := []
  kind : Nat := 0
  index : Nat := 0
  deriving DecidableEq

structure TableInit where
  index : Nat := 0
  offset : Instruction := { opcode := 0 }
  elems : List Nat := []
  deriving DecidableEq

structure DataInit where
  index : Nat := 0
  offset : Instruction := { opcode := 0 }
  data : List Nat := []
  deriving DecidableEq

/-- The import section: the array and the running counts `functions`, `tables`,
`memory` (`n_import` is the length of the array).  An element of the array is `some i` when
it holds the record `i` that was assigned to it, and `none` when its bytes are not a record
the parser wrote: the element `realloc` has added and nothing was assigned to, or an
element whose first bytes `memmove` has overwritten. -/
structure ImportSection where
  imports : List (Option Import) := []
  functions : Nat := 0
  tables : Nat := 0
  memory : Nat := 0
  deriving DecidableEq

/-- The `Module` record (the fields the WAT parser writes). -/
structure Module where
  name : List Nat := []
  knownsections : Nat := 0
  types : List FunctionSig := []
  importsection : ImportSection := {}
  funcdecl : List Nat := []
  tables : List TableDesc := []
  memory : List MemoryDesc := []
  globals : List GlobalDecl := []
  exports : List Export := []
  start : Nat := 0
  elements : List TableInit := []
  funcbody : List FunctionBody := []
  data : List DataInit := []
  deriving DecidableEq

/-! ## Parser state -/

/-- A `DeferAction {id, t, func, index}`. -/
structure DeferAction where
  id : Nat
  t : Token
  func : Nat
  index : Nat
  deriving DecidableEq

/-- A `kh_indexname_t`: the bindings name -> index, keyed by the bytes of the name
token (`kh_equal_token` compares length and content). -/
abbrev Hash := List (List Nat × Nat)

/-- The `WatState`.  `stack` is the label stack, innermost label first.

Modelled from the spec: `Stack<T>` (`stack.h`, not in the sources) "supports
push, pop, depth(name) where the innermost binding wins" with "linear search from
the innermost outward": `operator[](i)` is the i-th entry counted from the top,
`Peek` is the top. -/
structure WatState where
  m : Module := {}
  defer : List DeferAction := []
  stack : List StringRef := []
  typehash : Hash := []
  funchash : Hash := []
  tablehash : Hash := []
  memoryhash : Hash := []
  globalhash : Hash := []
  deriving DecidableEq

/-- The parser configuration: everything the parsing functions reach through their
reference parameters.  `buf` is the input buffer the tokens point into, `f` the
function body under construction (the local `body` of `WatFunction`). -/
structure PState where
  buf : List Nat := []
  tokens : Queue := {}
  state : WatState := {}
  f : FunctionBody := {}
  deriving DecidableEq

/-- The result of a parsing function: the returned code and the configuration. -/
abbrev Res := Option (Int × PState)

/-- Sequencing: `if(r = F(...)) return r; rest`. -/
def andThen (x : Res) (k : PState → Res) : Res :=
  match x with
  | none => none
  | some (r, s) => if r = 0 then k s else some (r, s)

def PState.Peek (s : PState) : Token := s.tokens.Peek

def PState.get (s : PState) (k : Nat) : Token := s.tokens.get k

def PState.Size (s : PState) : Nat := s.tokens.Size

def PState.Pop (s : PState) : PState := { s with tokens := s.tokens.Pop }

/-- The bytes of the span of a name or string token. -/
def PState.text (s : PState) (t : Token) : List Nat := slice s.buf t.pos t.len

/-- The macro `EXPECTED(t, e, err)`:
`if(t.Size() == 0 || t.Pop().id != e) return err`. -/
def EXPECTED (s : PState) (e : TokenID) (err : Int) : Res :=
  if s.Size = 0 then some (err, s)
  else if s.Peek.id ≠ e then some (err, s.Pop)
  else some (0, s.Pop)

/-! ## Label stack and `GetJump` -/

/-- The search loop of `GetJump`: `for(varuint7 i = 0; i < stack.Size(); ++i)
if(stack[i] == r) return i;`.  The counter is an unsigned byte, so `++i` wraps
from 255 to 0; each iteration consumes one unit of fuel. -/
def GetJumpLoop (buf : List Nat) (stack : List StringRef) (r : StringRef) : Nat → Nat → Option Nat
  | 0, _ => none
  | fuel + 1, i =>
    if i < stack.length then
      if StringRef.eq buf (stack.getD i {}) r then some i
      else GetJumpLoop buf stack r fuel ((i + 1) % 256)
    else some U7_MAX

/-- The method `WatState::GetJump`.  `none`: the loop does not finish within `fuel`
iterations. -/
def GetJump (fuel : Nat) (buf : List Nat) (stack : List StringRef) (var : Token) : Option Nat :=
  if var.id = TOKEN_INTEGER ∧ var.i < 255 then some (var.i % 256).toNat
  else if var.id = TOKEN_NAME then
    GetJumpLoop buf stack { isNull := false, s := var.pos, len := var.len } fuel 0
  else some U7_MAX

/-! ## Strings and names -/

/-- The test `(c >= '0' && c <= '9') || (c >= 'A' && c <= 'F')` of `WatString`. -/
def isHexUpper (c : Nat) : Bool := (48 ≤ c && c ≤ 57) || (65 ≤ c && c ≤ 70)

/-- The value `strtol` gives a digit that passed `isHexUpper`. -/
def hexVal (c : Nat) : Nat := if c ≤ 57 then c - 48 else c - 55

/-- The loop `for(int i = 0; i < t.len; ++i)` of `WatString`; `acc` is `str.bytes`.
Every iteration advances `i`, so `t.len` iterations are enough: the first argument
counts them down.  An escape at the end of the span reads the bytes behind it. -/
def WatStringLoop (buf : List Nat) (t : StringRef) : Nat → Nat → List Nat → Int × List Nat
  | 0, _, acc => (ERR_SUCCESS, acc)
  | n + 1, i, acc =>
    if i < t.len then
      let c := byteAt buf (t.s + i)
      if c = 92 then
        let d := byteAt buf (t.s + i + 1)
        if d = 110 then WatStringLoop buf t n (i + 2) (acc ++ [10])
        else if d = 116 then WatStringLoop buf t n (i + 2) (acc ++ [9])
        else if d = 92 then WatStringLoop buf t n (i + 2) (acc ++ [92])
        else if d = 39 then WatStringLoop buf t n (i + 2) (acc ++ [39])
        else if d = 34 then WatStringLoop buf t n (i + 2) (acc ++ [34])
        else if isHexUpper d then
          if isHexUpper (byteAt buf (t.s + i + 2)) then
            WatStringLoop buf t n (i + 3) (acc ++ [hexVal d * 16 + hexVal (byteAt buf (t.s + i + 2))])
          else (ERR_WAT_BAD_ESCAPE, acc)
        else (ERR_WAT_BAD_ESCAPE, acc)
      else WatStringLoop buf t n (i + 1) (acc ++ [c])
    else (ERR_SUCCESS, acc)

/-- The function `WatString(ByteArray& str, StringRef t)`: appends the decoded bytes of
`t` to `str` (allocation is taken to succeed). -/
def WatString (buf : List Nat) (str : List Nat) (t : StringRef) : Int × List Nat :=
  if t.isNull then (ERR_PARSE_INVALID_NAME, str) else WatStringLoop buf t t.len 0 str

/-- The overload `WatString(ByteArray& str, const Token& t)`. -/
def WatStringTok (buf : List Nat) (str : List Nat) (t : Token) : Int × List Nat :=
  if t.id ≠ TOKEN_STRING then (ERR_WAT_EXPECTED_STRING, str)
  else WatString buf str { isNull := false, s := t.pos, len := t.len }

/-- The function `WatName`: copies the span of a name token. -/
def WatName (buf : List Nat) (name : List Nat) (t : Token) : Int × List Nat :=
  if t.id ≠ TOKEN_NAME ∨ t.len = 0 then (ERR_PARSE_INVALID_NAME, name)
  else (ERR_SUCCESS, slice buf t.pos t.len)

/-! ## Value types and signatures -/

def WatValType (id : TokenID) : Int :=
  match id with
  | TOKEN_i32 => TE_i32
  | TOKEN_i64 => TE_i64
  | TOKEN_f32 => TE_f32
  | TOKEN_f64 => TE_f64
  | _ => 0

def AddWatValType (id : TokenID) (a : List Int) : Int × List Int :=
  if WatValType id = 0 then (ERR_WAT_EXPECTED_VALTYPE, a) else (ERR_SUCCESS, a ++ [WatValType id])

/-- Writing slot `k` of an array of names that is reallocated to `k + 1` slots:
`len = k; AppendArray(s, names, len)`.  Slots that were never written are `none`. -/
def setNameSlot (names : List (Option (List Nat))) (k : Nat) (v : List Nat) :
    List (Option (List Nat)) :=
  (names ++ List.replicate (k - names.length) none).take k ++ [some v]

/-- The loop `while(tokens.Peek().id != TOKEN_CLOSE) if(r = AddWatValType(tokens.Pop().id, a, n)) return r;`. -/
def WatValTypeLoop : Nat → PState → List Int → Option (Int × PState × List Int)
  | 0, _, _ => none
  | fuel + 1, s, a =>
    if s.Peek.id ≠ TOKEN_CLOSE then
      match AddWatValType s.Peek.id a with
      | (r, a1) => if r = 0 then WatValTypeLoop fuel s.Pop a1 else some (r, s.Pop, a1)
    else some (ERR_SUCCESS, s, a)

/-- The function `WatTypeInner(tokens, sig, names)`; `names = none` is the null pointer. -/
def WatTypeInner : Nat → PState → FunctionSig → Option (List (Option (List Nat))) →
    Option (Int × PState × FunctionSig × Option (List (Option (List Nat))))
  | 0, _, _, _ => none
  | fuel + 1, s, sig, names =>
    let sig := { sig with form := TE_func }
    if s.Peek.id = TOKEN_OPEN then
      match EXPECTED s TOKEN_OPEN ERR_WAT_EXPECTED_OPEN with
      | none => none
      | some (r, s1) =>
        if r ≠ 0 then some (r, s1, sig, names) else
        let s2 := s1.Pop
        match s1.Peek.id with
        | TOKEN_PARAM =>
          if s2.Peek.id = TOKEN_NAME then
            if names.isSome ∧ s2.Peek.len ≥ U32_MAX then some (ERR_WAT_OUT_OF_RANGE, s2, sig, names) else
            let names1 := names.map (fun ns => setNameSlot ns sig.params.length (s2.text s2.Peek))
            let s3 := s2.Pop
            match AddWatValType s3.Peek.id sig.params with
            | (r1, ps) =>
              let sig1 := { sig with params := ps }
              if r1 ≠ 0 then some (r1, s3.Pop, sig1, names1) else
              match EXPECTED s3.Pop TOKEN_CLOSE ERR_WAT_EXPECTED_CLOSE with
              | none => none
              | some (r2, s4) =>
                if r2 ≠ 0 then some (r2, s4, sig1, names1) else WatTypeInner fuel s4 sig1 names1
          else
            match WatValTypeLoop fuel s2 sig.params with
            | none => none
            | some (r1, s3, ps) =>
              let sig1 := { sig with params := ps }
              if r1 ≠ 0 then some (r1, s3, sig1, names) else
              match EXPECTED s3 TOKEN_CLOSE ERR_WAT_EXPECTED_CLOSE with
              | none => none
              | some (r2, s4) =>
                if r2 ≠ 0 then some (r2, s4, sig1, names) else WatTypeInner fuel s4 sig1 names
        | TOKEN_RESULT =>
          match WatValTypeLoop fuel s2 sig.returns with
          | none => none
          | some (r1, s3, rs) =>
            let sig1 := { sig with returns := rs }
            if r1 ≠ 0 then some (r1, s3, sig1, names) else
            match EXPECTED s3 TOKEN_CLOSE ERR_WAT_EXPECTED_CLOSE with
            | none => none
            | some (r2, s4) =>
              if r2 ≠ 0 then some (r2, s4, sig1, names) else WatTypeInner fuel s4 sig1 names
        | _ => some (ERR_WAT_EXPECTED_TOKEN, s2, sig, names)
    else some (ERR_SUCCESS, s, sig, names)

/-- Appending to the type section. -/
def PState.pushType (s : PState) (sig : FunctionSig) : PState :=
  { s with state := { s.state with m := { s.state.m with types := s.state.m.types ++ [sig] } } }

/-- The function `WatType(state, tokens, index)`; the third component is `*index`.  The code
returned by `WatTypeInner` is overwritten by the one of `AppendArray`. -/
def WatType (fuel : Nat) (s : PState) : Option (Int × PState × Nat) :=
  match EXPECTED s TOKEN_OPEN ERR_WAT_EXPECTED_OPEN with
  | none => none
  | some (r, s1) =>
    if r ≠ 0 then some (r, s1, U32_MAX) else
    match EXPECTED s1 TOKEN_FUNC ERR_WAT_EXPECTED_FUNC with
    | none => none
    | some (r1, s2) =>
      if r1 ≠ 0 then some (r1, s2, U32_MAX) else
      match WatTypeInner fuel s2 {} none with
      | none => none
      | some (_, s3, sig, _) =>
        let index := s3.state.m.types.length
        match EXPECTED (s3.pushType sig) TOKEN_CLOSE ERR_WAT_EXPECTED_CLOSE with
        | none => none
        | some (r2, s4) => some (r2, s4, index)

/-! ## Imports -/

/-- One turn `if(imports[j].kind > i.kind) *index = j;` of the loop of `WatAppendImport`.
The turn reads the member `kind` of element `j`; when that element is not a record the
parser wrote, the comparison has no determinate outcome and the result is `none`. -/
def importSlotStep (imports : List (Option Import)) (kind : Nat) (acc : Option Nat) (j : Nat) :
    Option Nat :=
  match acc, imports.getD j none with
  | some a, some x => if x.kind > kind then some j else some a
  | _, _ => none

/-- The loop `for(j = 0; j < n_import - 1; ++j) if(imports[j].kind > i.kind) *index = j;`
over the elements the array held before the call: the last position that holds an import
of a greater kind, `idx` if there is none. -/
def importSlot (imports : List (Option Import)) (kind : Nat) (idx : Nat) : Option Nat :=
  (List.range imports.length).foldl (importSlotStep imports kind) (some idx)

/-- The function `WatAppendImport(m, i, index)`; the third component is `*index`.

The array grows by one element, which `realloc` leaves unwritten.  When the slot found is
not the last one, `memmove(imports + *index + 1, imports + *index, n_import - *index - 1)`
moves that many bytes (not array elements): the element behind the slot keeps its place
with its first bytes overwritten, no element moves up, and the new last element stays
unwritten.  Then `imports[*index] = i` replaces the import that stood in the slot.  The
counts and the returned index do not depend on the bytes moved. -/
def WatAppendImport (m : Module) (i : Import) : Option (Int × Module × Nat) :=
  if m.tables.length > 0 ∨ m.funcdecl.length > 0 ∨ m.globals.length > 0 ∨ m.memory.length > 0 then
    some (ERR_WAT_INVALID_IMPORT_ORDER, m, U32_MAX)
  else
    let sec := m.importsection
    match importSlot sec.imports i.kind sec.imports.length with
    | none => none
    | some index =>
      let grown := sec.imports ++ [none]
      let moved := if sec.imports.length - index > 0 then grown.set (index + 1) none else grown
      let functions := if i.kind = KIND_FUNCTION then sec.functions + 1 else sec.functions
      let tables := if i.kind = KIND_FUNCTION ∨ i.kind = KIND_TABLE then sec.tables + 1 else sec.tables
      let memory :=
        if i.kind = KIND_FUNCTION ∨ i.kind = KIND_TABLE ∨ i.kind = KIND_MEMORY then sec.memory + 1
        else sec.memory
      let fixed :=
        if i.kind = KIND_TABLE then (index + 4294967296 - functions % 4294967296) % 4294967296
        else if i.kind = KIND_MEMORY then (index + 4294967296 - tables % 4294967296) % 4294967296
        else if i.kind = KIND_GLOBAL then (index + 4294967296 - memory % 4294967296) % 4294967296
        else index
      some (ERR_SUCCESS,
        { m with importsection :=
            { imports := moved.set index (some i), functions := functions, tables := tables,
              memory := memory } },
        fixed)

/-! ## Symbol tables -/

/-- The lookup `kh_get_indexname` followed by `kh_exist2`/`kh_val`. -/
def hashGet (h : Hash) (key : List Nat) : Option Nat :=
  match h.find? (fun e => e.1 = key) with
  | some e => some e.2
  | none => none

/-- Overwriting the value of a key that is present (`kh_val(h, iter) = index`). -/
def hashSet (h : Hash) (key : List Nat) (v : Nat) : Hash :=
  h.map (fun e => if e.1 = key then (e.1, v) else e)

/-- The function `WatGetFromHash(hash, t)`. -/
def WatGetFromHash (buf : List Nat) (h : Hash) (t : Token) : Nat :=
  if t.id = TOKEN_INTEGER ∧ t.i < 4294967295 then (t.i % 4294967296).toNat
  else if t.id = TOKEN_NAME then
    match hashGet h (slice buf t.pos t.len) with
    | some v => v
    | none => U32_MAX
  else U32_MAX

/-- Modelled from the spec: `MatchFunctionSig` (declared in `util.h`, not in the sources)
tests that two signatures are "structurally equal": the same parameter types and the
same result types. -/
def MatchFunctionSig (a b : FunctionSig) : Bool := a.params == b.params && a.returns == b.returns

/-- The function `WatFuncType(state, tokens, sig, names)`; the result carries `sig` and
`*names`.  `none` also stands for the read of `types[sig]` with `sig = n_functions`,
one element past the array, which the test `sig > n_functions` lets through. -/
def WatFuncType (fuel : Nat) (s : PState) (names : Option (List (Option (List Nat)))) :
    Option (Int × PState × Nat × Option (List (Option (List Nat)))) :=
  let step1 : Option (Int × PState × Nat) :=
    if s.Size > 1 ∧ (s.get 0).id = TOKEN_OPEN ∧ (s.get 1).id = TOKEN_TYPE then
      match EXPECTED s TOKEN_OPEN ERR_WAT_EXPECTED_OPEN with
      | none => none
      | some (r, s1) =>
        if r ≠ 0 then some (r, s1, U32_MAX) else
        match EXPECTED s1 TOKEN_TYPE ERR_WAT_EXPECTED_TYPE with
        | none => none
        | some (r1, s2) =>
          if r1 ≠ 0 then some (r1, s2, U32_MAX) else
          if s2.Peek.id ≠ TOKEN_INTEGER ∧ s2.Peek.id ≠ TOKEN_NAME then
            some (ERR_WAT_EXPECTED_VAR, s2, U32_MAX)
          else
            let sig := WatGetFromHash s2.buf s2.state.typehash s2.Peek
            let s3 := s2.Pop
            if sig > s3.state.m.types.length then some (ERR_WAT_INVALID_TYPE, s3, sig) else
            match EXPECTED s3 TOKEN_CLOSE ERR_WAT_EXPECTED_CLOSE with
            | none => none
            | some (r2, s4) => some (r2, s4, sig)
    else some (ERR_SUCCESS, s, U32_MAX)
  match step1 with
  | none => none
  | some (r, s1, sig) =>
    if r ≠ 0 then some (r, s1, sig, names) else
    if s1.Size > 1 ∧ (s1.get 0).id = TOKEN_OPEN ∧
        ((s1.get 1).id = TOKEN_PARAM ∨ (s1.get 1).id = TOKEN_RESULT) then
      match WatTypeInner fuel s1 {} names with
      | none => none
      | some (r1, s2, func, names1) =>
        if sig ≠ U32_MAX then
          match s2.state.m.types.get? sig with
          | none => none
          | some known =>
            if MatchFunctionSig known func then some (ERR_SUCCESS, s2, sig, names1)
            else some (ERR_WAT_TYPE_MISMATCH, s2, sig, names1)
        else
          let sig1 := s2.state.m.types.length
          if r1 = 0 then some (ERR_SUCCESS, s2.pushType func, sig1, names1)
          else some (r1, s2, sig1, names1)
    else some (ERR_SUCCESS, s1, sig, names)

/-! ## Operators -/

/-- The function `IsPowerOfTwo`: `(x & (x - 1)) == 0` on 32 bits. -/
def IsPowerOfTwo (x : Nat) : Bool := Nat.land x ((x + 4294967295) % 4294967296) == 0

/-- The function `Power2Log2`: the position of the highest set bit of a 32-bit value. -/
def Power2Log2 (v : Nat) : Nat :=
  (List.range 32).foldl (fun r b => if v / 2 ^ b % 2 = 1 then b else r) 0

/-- The search of `WatGetLocal` through an array of names: `for(i = 0; i < n; ++i)
if(!strcmp(names[i], n)) return i;`.  The outer `none` is the read of a slot that was
never written, the inner one "not found". -/
def findName (names : List (Option (List Nat))) (key : List Nat) : Nat → Nat → Option (Option Nat)
  | 0, _ => some none
  | n + 1, i =>
    match names.get? i with
    | some (some nm) => if nm = key then some (some i) else findName names key n (i + 1)
    | _ => none

/-- The function `WatGetLocal(f, sig, t)`; the outer `none` is an undefined read. -/
def WatGetLocal (buf : List Nat) (f : FunctionBody) (sig : Option FunctionSig) (t : Token) :
    Option Nat :=
  if t.id = TOKEN_INTEGER ∧ t.i < 4294967295 then some (t.i % 4294967296).toNat
  else if t.id = TOKEN_NAME then
    match sig with
    | none => none
    | some sg =>
      match findName f.param_names (slice buf t.pos t.len) sg.params.length 0 with
      | none => none
      | some (some i) => some i
      | some none =>
        match findName f.local_names (slice buf t.pos t.len) f.locals.length 0 with
        | none => none
        | some (some i) => some (i + sg.params.length)
        | some none => some U32_MAX
  else some U32_MAX

/-- The cast `(varsint32)x` of a 64-bit integer. -/
def toSInt32 (x : Int) : Int := (x + 2147483648) % 4294967296 - 2147483648

/-- The function `WatConstantOperator(state, tokens, op)`; the instruction is returned
next to the code and the configuration. -/
def WatConstantOperator (s : PState) (op : Instruction) : Int × PState × Instruction :=
  if op.opcode = OP_i32_const then
    if s.Peek.id ≠ TOKEN_INTEGER then (ERR_WAT_EXPECTED_INTEGER, s, op)
    else (ERR_SUCCESS, s.Pop, { op with imm0 := toSInt32 s.Peek.i })
  else if op.opcode = OP_i64_const then
    if s.Peek.id ≠ TOKEN_INTEGER then (ERR_WAT_EXPECTED_INTEGER, s, op)
    else (ERR_SUCCESS, s.Pop, { op with imm0 := s.Peek.i })
  else if op.opcode = OP_f32_const ∨ op.opcode = OP_f64_const then
    if s.Peek.id = TOKEN_INTEGER then (ERR_SUCCESS, s.Pop, { op with fimm := FloatImm.ofInt s.Peek.i })
    else if s.Peek.id = TOKEN_FLOAT then (ERR_SUCCESS, s.Pop, { op with fimm := FloatImm.ofText s.Peek.f })
    else (ERR_WAT_EXPECTED_FLOAT, s, op)
  else if op.opcode = OP_get_global then
    let v := WatGetFromHash s.buf s.state.globalhash s.Peek
    if v = U32_MAX then (ERR_WAT_INVALID_VAR, s.Pop, { op with imm0 := v })
    else (ERR_SUCCESS, s.Pop, { op with imm0 := v })
  else (ERR_WAT_INVALID_INITIALIZER, s, op)

/-- Appending an instruction to the body under construction: `AppendArray(op, f.body, f.n_body)`. -/
def PState.pushInstr (s : PState) (op : Instruction) : PState :=
  { s with f := { s.f with body := s.f.body ++ [op] } }

/-- The call `state.stack.Push(r)`. -/
def PState.pushLabel (s : PState) (r : StringRef) : PState :=
  { s with state := { s.state with stack := r :: s.state.stack } }

/-- The call `state.stack.Pop()`. -/
def PState.popLabel (s : PState) : PState :=
  { s with state := { s.state with stack := s.state.stack.tail } }

/-- The call `state.defer.Push(d)`. -/
def PState.pushDefer (s : PState) (d : DeferAction) : PState :=
  { s with state := { s.state with defer := s.state.defer ++ [d] } }

/-- The signature `desc = state.m.type.functions[sig]` a function body is parsed
against; `none` when `sig` is not an index of the type section. -/
def PState.desc (s : PState) (sig : Nat) : Option FunctionSig := s.state.m.types.get? sig

/-- The `do ... while` loop of the `br_table` case; `tbl` is `immediates[0].table`. -/
def WatBrTableLoop : Nat → PState → List Nat → Option (Int × PState × List Nat)
  | 0, _, _ => none
  | fuel + 1, s, tbl =>
    match GetJump fuel s.buf s.state.stack s.Peek with
    | none => none
    | some jump =>
      if jump = U7_MAX then some (ERR_WAT_EXPECTED_VAR, s.Pop, tbl)
      else
        if s.Pop.Peek.id = TOKEN_NAME ∨ s.Pop.Peek.id = TOKEN_INTEGER then
          WatBrTableLoop fuel s.Pop (tbl ++ [jump])
        else some (ERR_SUCCESS, s.Pop, tbl ++ [jump])

/-- The `offset=N` clause of the load and store case; `varuptr` is taken to be a 64-bit
unsigned integer. -/
def WatMemOffset (s : PState) (op : Instruction) : Int × PState × Instruction :=
  if s.Peek.id = TOKEN_OFFSET then
    if s.Pop.Peek.id ≠ TOKEN_INTEGER then (ERR_WAT_EXPECTED_INTEGER, s.Pop, op)
    else (ERR_SUCCESS, s.Pop.Pop, { op with imm1 := s.Pop.Peek.i % 18446744073709551616 })
  else (ERR_SUCCESS, s, op)

/-- The `align=N` clause of the load and store case; `memflags` is taken to be a 32-bit
unsigned integer. -/
def WatMemAlign (s : PState) (op : Instruction) : Int × PState × Instruction :=
  if s.Peek.id = TOKEN_ALIGN then
    if s.Pop.Peek.id ≠ TOKEN_INTEGER then (ERR_WAT_EXPECTED_INTEGER, s.Pop, op)
    else if s.Pop.Peek.i ≥ 4294967295 then (ERR_WAT_OUT_OF_RANGE, s.Pop, op)
    else if (s.Pop.Peek.i % 4294967296).toNat = 0 ∨
        ¬ IsPowerOfTwo (s.Pop.Peek.i % 4294967296).toNat then
      (ERR_WAT_INVALID_ALIGNMENT, s.Pop.Pop, { op with imm0 := (s.Pop.Peek.i % 4294967296).toNat })
    else (ERR_SUCCESS, s.Pop.Pop, { op with imm0 := Power2Log2 (s.Pop.Peek.i % 4294967296).toNat })
  else (ERR_SUCCESS, s, op)

/-- The `offset`/`align` part of the load and store case. -/
def WatMemArg (s : PState) (op : Instruction) : Int × PState × Instruction :=
  if (WatMemOffset s op).1 ≠ 0 then WatMemOffset s op
  else WatMemAlign (WatMemOffset s op).2.1 (WatMemOffset s op).2.2

/-- The `switch(op.opcode)` of `WatOperator` and the final `AppendArray(op, f.body, f.n_body)`;
`s1` is the configuration after the operator token was popped. -/
def WatOperatorSwitch (fuel : Nat) (s1 : PState) (op : Instruction) (sig : Nat) (index : Nat) : Res :=
  if op.opcode = 0xFF then some (ERR_FATAL_UNKNOWN_INSTRUCTION, s1)
  else if op.opcode = OP_br ∨ op.opcode = OP_br_if then
    match GetJump fuel s1.buf s1.state.stack s1.Peek with
    | none => none
    | some jump =>
      if jump = U7_MAX then some (ERR_WAT_EXPECTED_VAR, s1.Pop)
      else some (ERR_SUCCESS, s1.Pop.pushInstr { op with imm0 := jump })
  else if op.opcode = OP_get_local ∨ op.opcode = OP_set_local ∨ op.opcode = OP_tee_local then
    match WatGetLocal s1.buf s1.f (s1.desc sig) s1.Peek, s1.desc sig with
    | some v, some sg =>
      if v ≥ s1.f.locals.length + sg.params.length then some (ERR_WAT_INVALID_LOCAL, s1.Pop)
      else some (ERR_SUCCESS, s1.Pop.pushInstr { op with imm0 := v })
    | _, _ => none
  else if op.opcode = OP_get_global ∨ op.opcode = OP_set_global ∨ op.opcode = OP_call then
    some (ERR_SUCCESS,
      (s1.Pop.pushDefer
        { id := op.opcode, t := s1.Peek, func := index, index := s1.f.body.length }).pushInstr op)
  else if op.opcode = OP_i32_const ∨ op.opcode = OP_i64_const ∨ op.opcode = OP_f32_const ∨
      op.opcode = OP_f64_const then
    match WatConstantOperator s1 op with
    | (r, s2, op1) => if r ≠ 0 then some (r, s2) else some (ERR_SUCCESS, s2.pushInstr op1)
  else if op.opcode = OP_br_table then
    match WatBrTableLoop fuel s1 [] with
    | none => none
    | some (r, s2, tbl) =>
      if r ≠ 0 then some (r, s2)
      else some (ERR_SUCCESS, s2.pushInstr { op with table := tbl.dropLast, imm1 := tbl.getLastD 0 })
  else if op.opcode = OP_call_indirect then
    match WatFuncType fuel s1 none with
    | none => none
    | some (r, s2, sg, _) =>
      if r ≠ 0 then some (r, s2) else some (ERR_SUCCESS, s2.pushInstr { op with imm0 := sg })
  else if isLoadStore op.opcode then
    match WatMemArg s1 op with
    | (r, s2, op1) => if r ≠ 0 then some (r, s2) else some (ERR_SUCCESS, s2.pushInstr op1)
  else some (ERR_SUCCESS, s1.pushInstr op)

/-- The function `WatOperator(state, tokens, f, sig, index)`.  `sig` is the index of the
signature `desc` in the type section, `index` the index of the function. -/
def WatOperator (fuel : Nat) (s : PState) (sig : Nat) (index : Nat) : Res :=
  if s.Peek.id ≠ TOKEN_OPERATOR then some (ERR_WAT_EXPECTED_OPERATOR, s)
  else if s.Peek.i > 0xFF then some (ERR_WAT_OUT_OF_RANGE, s)
  else WatOperatorSwitch fuel s.Pop { opcode := (s.Peek.i % 256).toNat } sig index

/-- The function `WatLabel`. -/
def WatLabel (s : PState) : PState :=
  if s.Peek.id = TOKEN_NAME then
    (s.pushLabel { isNull := false, s := s.Peek.pos, len := s.Peek.len }).Pop
  else s.pushLabel {}

/-- The function `CheckLabel`; the second component is the returned `bool`. -/
def CheckLabel (s : PState) : PState × Bool :=
  if s.Peek.id = TOKEN_NAME then
    (s.Pop, StringRef.eq s.buf (s.state.stack.headD {})
      { isNull := false, s := s.Peek.pos, len := s.Peek.len })
  else (s, true)

/-- The function `WatBlockType(tokens, out)`; the third component is `out`. -/
def WatBlockType (s : PState) : Option (Int × PState × Int) :=
  let step1 : Option (Int × PState × Int) :=
    if s.Size > 1 ∧ (s.get 0).id = TOKEN_OPEN ∧ (s.get 1).id = TOKEN_RESULT then
      match EXPECTED s TOKEN_OPEN ERR_WAT_EXPECTED_OPEN with
      | none => none
      | some (r, s1) =>
        if r ≠ 0 then some (r, s1, TE_void) else
        match EXPECTED s1 TOKEN_RESULT ERR_WAT_EXPECTED_RESULT with
        | none => none
        | some (r1, s2) =>
          if r1 ≠ 0 then some (r1, s2, TE_void) else
          if s2.Peek.id ≠ TOKEN_CLOSE then
            if WatValType s2.Peek.id = 0 then some (ERR_WAT_EXPECTED_VALTYPE, s2.Pop, 0)
            else if s2.Pop.Peek.id ≠ TOKEN_CLOSE then
              some (ERR_MULTIPLE_RETURN_VALUES, s2.Pop, WatValType s2.Peek.id)
            else
              match EXPECTED s2.Pop TOKEN_CLOSE ERR_WAT_EXPECTED_CLOSE with
              | none => none
              | some (r2, s3) => some (r2, s3, WatValType s2.Peek.id)
          else
            match EXPECTED s2 TOKEN_CLOSE ERR_WAT_EXPECTED_CLOSE with
            | none => none
            | some (r2, s3) => some (r2, s3, TE_void)
    else some (ERR_SUCCESS, s, TE_void)
  match step1 with
  | none => none
  | some (r, s1, out) =>
    if r ≠ 0 then some (r, s1, out)
    else if s1.Size > 1 ∧ (s1.get 0).id = TOKEN_OPEN ∧ (s1.get 1).id = TOKEN_RESULT then
      some (ERR_MULTIPLE_RETURN_VALUES, s1, out)
    else some (ERR_SUCCESS, s1, out)

/-- The common opening of a `block`, `loop` or `if`: `WatLabel`, `WatBlockType`.  -/
def WatBlockOpen (s : PState) : Option (Int × PState × Int) := WatBlockType (WatLabel s)

mutual

/-- The function `WatInstruction(state, tokens, f, sig, index)`. -/
def WatInstruction : Nat → PState → Nat → Nat → Res
  | 0, _, _, _ => none
  | fuel + 1, s, sig, index =>
    match (s.get 0).id with
    | TOKEN_OPEN => WatExpression fuel s sig index
    | TOKEN_BLOCK | TOKEN_LOOP =>
      match WatBlockOpen s.Pop with
      | none => none
      | some (r, s1, blocktype) =>
        if r ≠ 0 then some (r, s1) else
        let op : Instruction :=
          { opcode := if s.Peek.id = TOKEN_BLOCK then OP_block else OP_loop, imm0 := blocktype }
        andThen (WatInstructionLoop fuel [TOKEN_END] (s1.pushInstr op) sig index) fun s2 =>
        andThen (EXPECTED s2 TOKEN_END ERR_WAT_EXPECTED_END) fun s3 =>
        if (CheckLabel s3).2 then some (1, (CheckLabel s3).1)
        else some (ERR_SUCCESS, (((CheckLabel s3).1).pushInstr { opcode := OP_end }).popLabel)
    | TOKEN_IF =>
      match WatBlockOpen s.Pop with
      | none => none
      | some (r, s1, blocktype) =>
        if r ≠ 0 then some (r, s1) else
        let op : Instruction := { opcode := OP_if, imm0 := blocktype }
        andThen (WatInstructionLoop fuel [TOKEN_ELSE, TOKEN_END] (s1.pushInstr op) sig index) fun s2 =>
        let elseBranch : Res :=
          if s2.Peek.id = TOKEN_ELSE then
            if (CheckLabel s2.Pop).2 then some (1, (CheckLabel s2.Pop).1)
            else
              andThen (WatInstructionLoop fuel [TOKEN_END]
                (((CheckLabel s2.Pop).1).pushInstr { opcode := OP_else }) sig index) fun s3 =>
              EXPECTED s3 TOKEN_END ERR_WAT_EXPECTED_END
          else some (ERR_SUCCESS, s2.Pop)
        andThen elseBranch fun s4 =>
        if (CheckLabel s4).2 then some (1, (CheckLabel s4).1)
        else some (ERR_SUCCESS, (((CheckLabel s4).1).pushInstr { opcode := OP_end }).popLabel)
    | _ => WatOperator fuel s sig index

/-- The loops `while(tokens.Peek().id != T) if(r = WatInstruction(...)) return r;`, with
`T` ranging over the token kinds in `stop`. -/
def WatInstructionLoop : Nat → List TokenID → PState → Nat → Nat → Res
  | 0, _, _, _, _ => none
  | fuel + 1, stop, s, sig, index =>
    if s.Peek.id ∈ stop then some (ERR_SUCCESS, s)
    else andThen (WatInstruction fuel s sig index) fun s1 => WatInstructionLoop fuel stop s1 sig index

/-- The loop `while(tokens.Size() > 1 && tokens[0].id == TOKEN_OPEN && tokens[1].id != TOKEN_THEN)`
of the `if` case of `WatExpression`. -/
def WatConditionLoop : Nat → PState → Nat → Nat → Res
  | 0, _, _, _ => none
  | fuel + 1, s, sig, index =>
    if s.Size > 1 ∧ (s.get 0).id = TOKEN_OPEN ∧ (s.get 1).id ≠ TOKEN_THEN then
      andThen (WatExpression fuel s sig index) fun s1 => WatConditionLoop fuel s1 sig index
    else some (ERR_SUCCESS, s)

/-- The loop `while(tokens.Peek().id == TOKEN_OPEN) { ... }` of `WatExpression`. -/
def WatExpressionLoop : Nat → PState → Nat → Nat → Res
  | 0, _, _, _ => none
  | fuel + 1, s, sig, index =>
    if s.Peek.id = TOKEN_OPEN then
      andThen (EXPECTED s TOKEN_OPEN ERR_WAT_EXPECTED_OPEN) fun s0 =>
      let once : Res :=
        match (s0.get 0).id with
        | TOKEN_BLOCK | TOKEN_LOOP =>
          match WatBlockOpen s0.Pop with
          | none => none
          | some (r, s1, blocktype) =>
            if r ≠ 0 then some (r, s1) else
            let op : Instruction :=
              { opcode := if s0.Peek.id = TOKEN_BLOCK then OP_block else OP_loop, imm0 := blocktype }
            andThen (WatInstructionLoop fuel [TOKEN_CLOSE] (s1.pushInstr op) sig index) fun s2 =>
            some (ERR_SUCCESS, (s2.pushInstr { opcode := OP_end }).popLabel)
        | TOKEN_IF =>
          match WatBlockOpen s0.Pop with
          | none => none
          | some (r, s1, blocktype) =>
            if r ≠ 0 then some (r, s1) else
            andThen (WatConditionLoop fuel s1 sig index) fun s2 =>
            let op : Instruction := { opcode := OP_if, imm0 := blocktype }
            andThen (EXPECTED (s2.pushInstr op) TOKEN_OPEN ERR_WAT_EXPECTED_OPEN) fun s3 =>
            andThen (EXPECTED s3 TOKEN_THEN ERR_WAT_EXPECTED_THEN) fun s4 =>
            andThen (WatInstructionLoop fuel [TOKEN_CLOSE] s4 sig index) fun s5 =>
            andThen (EXPECTED s5 TOKEN_CLOSE ERR_WAT_EXPECTED_CLOSE) fun s6 =>
            let elseBranch : Res :=
              if s6.Peek.id = TOKEN_OPEN then
                andThen (EXPECTED s6 TOKEN_OPEN ERR_WAT_EXPECTED_OPEN) fun s7 =>
                andThen (EXPECTED s7 TOKEN_ELSE ERR_WAT_EXPECTED_ELSE) fun s8 =>
                andThen (WatInstructionLoop fuel [TOKEN_CLOSE]
                  (s8.pushInstr { opcode := OP_else }) sig index) fun s9 =>
                EXPECTED s9 TOKEN_CLOSE ERR_WAT_EXPECTED_CLOSE
              else some (ERR_SUCCESS, s6)
            andThen elseBranch fun s10 =>
            some (ERR_SUCCESS, (s10.pushInstr { opcode := OP_end }).popLabel)
        | _ => WatOperator fuel s0 sig index
      andThen once fun s1 => WatExpressionLoop fuel s1 sig index
    else some (ERR_SUCCESS, s)

/-- The function `WatExpression(state, tokens, f, sig, index)`. -/
def WatExpression : Nat → PState → Nat → Nat → Res
  | 0, _, _, _ => none
  | fuel + 1, s, sig, index =>
    if s.Peek.id ≠ TOKEN_OPEN then some (ERR_WAT_EXPECTED_OPEN, s)
    else
      andThen (WatExpressionLoop fuel s sig index) fun s1 =>
      EXPECTED s1 TOKEN_CLOSE ERR_WAT_EXPECTED_CLOSE

end

/-! ## Functions -/

def PState.setModule (s : PState) (m : Module) : PState :=
  { s with state := { s.state with m := m } }

/-- The branch of `WatInlineImportExport` for an inline `(export "e")`. -/
def WatInlineExport (s : PState) (index : Nat) (kind : Nat) :
    Option (Int × PState × Nat × Option Nat) :=
  match EXPECTED s TOKEN_OPEN ERR_WAT_EXPECTED_OPEN with
  | none => none
  | some (r, s1) =>
    if r ≠ 0 then some (r, s1, index, none) else
    match EXPECTED s1 TOKEN_EXPORT ERR_WAT_EXPECTED_TOKEN with
    | none => none
    | some (r1, s2) =>
      if r1 ≠ 0 then some (r1, s2, index, none) else
      if (WatStringTok s2.buf [] s2.Peek).1 ≠ 0 then
        some ((WatStringTok s2.buf [] s2.Peek).1, s2.Pop, index, none)
      else
        match EXPECTED
          (s2.Pop.setModule { s2.state.m with exports := s2.state.m.exports ++
            [{ name := (WatStringTok s2.buf [] s2.Peek).2, kind := kind, index := index }] })
          TOKEN_CLOSE ERR_WAT_EXPECTED_CLOSE with
        | none => none
        | some (r3, s4) => some (r3, s4, index, none)

/-- The branch of `WatInlineImportExport` for an inline `(import "m" "e")`. -/
def WatInlineImport (s : PState) (index : Nat) (kind : Nat) :
    Option (Int × PState × Nat × Option Nat) :=
  match EXPECTED s TOKEN_OPEN ERR_WAT_EXPECTED_OPEN with
  | none => none
  | some (r, s1) =>
    if r ≠ 0 then some (r, s1, index, none) else
    match EXPECTED s1 TOKEN_IMPORT ERR_WAT_EXPECTED_TOKEN with
    | none => none
    | some (r1, s2) =>
      if r1 ≠ 0 then some (r1, s2, index, none) else
      if (WatStringTok s2.buf [] s2.Peek).1 ≠ 0 then
        some ((WatStringTok s2.buf [] s2.Peek).1, s2.Pop, index, none)
      else if (WatStringTok s2.buf [] s2.Pop.Peek).1 ≠ 0 then
        some ((WatStringTok s2.buf [] s2.Pop.Peek).1, s2.Pop.Pop, index, none)
      else
        match WatAppendImport s2.state.m
          { module_name := (WatStringTok s2.buf [] s2.Peek).2,
            export_name := (WatStringTok s2.buf [] s2.Pop.Peek).2, kind := kind } with
        | none => none
        | some (r4, m1, index1) =>
          if r4 ≠ 0 then some (r4, s2.Pop.Pop.setModule m1, index1, none) else
          match EXPECTED (s2.Pop.Pop.setModule m1) TOKEN_CLOSE ERR_WAT_EXPECTED_CLOSE with
          | none => none
          | some (r5, s4) =>
            some (r5, s4, index1,
              if kind = KIND_FUNCTION then some index1
              else if kind = KIND_TABLE then some (m1.importsection.functions + index1)
              else if kind = KIND_MEMORY then some (m1.importsection.tables + index1)
              else if kind = KIND_GLOBAL then some (m1.importsection.memory + index1)
              else none)

/-- The function `WatInlineImportExport(m, tokens, index, kind, out)`.  The third component
is `*index`, the fourth the position in the import array `*out` points to (`none` for
the null pointer). -/
def WatInlineImportExport (s : PState) (index : Nat) (kind : Nat) :
    Option (Int × PState × Nat × Option Nat) :=
  if s.Size > 1 ∧ (s.get 0).id = TOKEN_OPEN ∧ (s.get 1).id = TOKEN_EXPORT then
    WatInlineExport s index kind
  else if s.Size > 1 ∧ (s.get 0).id = TOKEN_OPEN ∧ (s.get 1).id = TOKEN_IMPORT then
    WatInlineImport s index kind
  else some (ERR_SUCCESS, s, index, none)

/-- Reading through the pointer `i` returned by `WatInlineImportExport`: the record in
element `k` of the import array, the one `WatAppendImport` has just assigned. -/
def PState.importAt (s : PState) (k : Nat) : Import :=
  (s.state.m.importsection.imports.getD k none).getD {}

/-- Writing through the pointer `i` returned by `WatInlineImportExport`. -/
def PState.updImport (s : PState) (k : Nat) (g : Import → Import) : PState :=
  s.setModule { s.state.m with importsection :=
    { s.state.m.importsection with
      imports := s.state.m.importsection.imports.modify (Option.map g) k } }

/-- The loop "Read in all the locals" of `WatFunction`:
`while(tokens.Size() > 1 && tokens.Peek().id == TOKEN_OPEN && tokens[tokens.Size() - 2].id == TOKEN_LOCAL)`. -/
def WatLocalsLoop : Nat → PState → Res
  | 0, _ => none
  | fuel + 1, s =>
    if s.Size > 1 ∧ s.Peek.id = TOKEN_OPEN ∧ (s.get (s.Size - 2)).id = TOKEN_LOCAL then
      andThen (EXPECTED s TOKEN_OPEN ERR_WAT_EXPECTED_OPEN) fun s1 =>
      andThen (EXPECTED s1 TOKEN_LOCAL ERR_WAT_EXPECTED_LOCAL) fun s2 =>
      let named : Res :=
        if s2.Peek.id = TOKEN_NAME then
          if s2.Peek.len > U32_MAX then some (ERR_WAT_OUT_OF_RANGE, s2)
          else some (ERR_SUCCESS,
            { s2.Pop with f := { s2.f with
                local_names := setNameSlot s2.f.local_names s2.f.locals.length (s2.text s2.Peek) } })
        else some (ERR_SUCCESS, s2)
      andThen named fun s3 =>
      let ty := (WatValType s3.Peek.id % 256).toNat
      if ty = 0 then some (ERR_WAT_EXPECTED_VALTYPE, s3.Pop)
      else
        andThen (EXPECTED { s3.Pop with f := { s3.f with locals := s3.f.locals ++ [ty] } }
          TOKEN_CLOSE ERR_WAT_EXPECTED_CLOSE) fun s4 =>
        WatLocalsLoop fuel s4
    else some (ERR_SUCCESS, s)

/-- The part of `WatFunction` behind the debug name: the locals, the instructions, the
closing `end` and the three `AppendArray` calls. -/
def WatFunctionBody (fuel : Nat) (s : PState) (sig index : Nat) : Option (Int × PState × Nat) :=
  match WatLocalsLoop fuel s with
  | none => none
  | some (r2, s5) =>
    if r2 ≠ 0 then some (r2, s5, index) else
    match WatInstructionLoop fuel [TOKEN_CLOSE] s5 sig index with
    | none => none
    | some (r3, s6) =>
      if r3 ≠ 0 then some (r3, s6, index) else
      some (ERR_SUCCESS,
        (s6.pushInstr { opcode := OP_end }).setModule
          { s6.state.m with
            funcdecl := s6.state.m.funcdecl ++ [sig],
            funcbody := s6.state.m.funcbody ++ [(s6.pushInstr { opcode := OP_end }).f] },
        index)

/-- The part of `WatFunction` for a function that is not an inline import; `s` is the
configuration behind `WatInlineImportExport`. -/
def WatFunctionDef (fuel : Nat) (s : PState) (index : Nat) (name : StringRef) :
    Option (Int × PState × Nat) :=
  match WatFuncType fuel { s with f := {} } (some []) with
  | none => none
  | some (r1, s2, sig, names) =>
    if r1 ≠ 0 then some (r1, { s2 with f := { s2.f with param_names := names.getD [] } }, index)
    else if name.len > 0 ∧ (WatString s2.buf s2.f.debug_name name).1 ≠ 0 then
      some ((WatString s2.buf s2.f.debug_name name).1,
        { s2 with f := { s2.f with param_names := names.getD [],
                                   debug_name := (WatString s2.buf s2.f.debug_name name).2 } }, index)
    else
      WatFunctionBody fuel
        { s2 with f := { s2.f with
            param_names := names.getD [],
            debug_name :=
              if name.len > 0 then (WatString s2.buf s2.f.debug_name name).2 else s2.f.debug_name } }
        sig index

/-- The function `WatFunction(state, tokens, index, name)`; the third component is `*index`. -/
def WatFunction (fuel : Nat) (s : PState) (name : StringRef) : Option (Int × PState × Nat) :=
  match WatInlineImportExport s
      (s.state.m.importsection.functions + s.state.m.funcdecl.length) KIND_FUNCTION with
  | none => none
  | some (r, s1, index, out) =>
    if r ≠ 0 then some (r, s1, index) else
    match out with
    | some k =>
      match WatFuncType fuel s1 (some ((s1.importAt k).param_names)) with
      | none => none
      | some (r1, s2, sig, names) =>
        some (r1, s2.updImport k (fun i =>
          { i with sig_index := sig, param_names := names.getD [] }), index)
    | none => WatFunctionDef fuel s1 index name

/-! ## Tables, memories, globals -/

/-- The function `WatResizableLimits(limits, tokens)`. -/
def WatResizableLimits (s : PState) (limits : ResizableLimits) : Int × PState × ResizableLimits :=
  if s.Peek.id ≠ TOKEN_INTEGER ∨ s.Peek.i ≥ 4294967295 then (ERR_WAT_EXPECTED_INTEGER, s, limits)
  else
    let l1 := { limits with minimum := (s.Peek.i % 4294967296).toNat }
    let s1 := s.Pop
    if s1.Peek.id = TOKEN_INTEGER then
      if s1.Peek.i ≥ 4294967295 then (ERR_WAT_OUT_OF_RANGE, s1, l1)
      else (ERR_SUCCESS, s1.Pop, { l1 with maximum := (s1.Peek.i % 4294967296).toNat, flags := 1 })
    else (ERR_SUCCESS, s1, l1)

/-- The function `WatTableDesc(t, tokens)`. -/
def WatTableDesc (s : PState) (t : TableDesc) : Option (Int × PState × TableDesc) :=
  match WatResizableLimits s t.resizable with
  | (r, s1, l) =>
    let t1 := { t with resizable := l }
    if r ≠ 0 then some (r, s1, t1) else
    match EXPECTED s1 TOKEN_ANYFUNC ERR_WAT_EXPECTED_ANYFUNC with
    | none => none
    | some (r1, s2) =>
      if r1 ≠ 0 then some (r1, s2, t1) else some (ERR_SUCCESS, s2, { t1 with element_type := TE_anyfunc })

/-- The function `WatTable(state, tokens, index)`; the third component is `*index`.

In the branch of an inline `(elem ...)` the local `TableInit init` is used without
being initialised (`AppendArray` reallocates `init.elems` and counts in `init.n_elems`,
and `init.n_elems` becomes the minimum of the table): once the tokens up to the first
element have been accepted the embedding gives no result. -/
def WatTable (_fuel : Nat) (s : PState) : Option (Int × PState × Nat) :=
  match WatInlineImportExport s s.state.m.tables.length KIND_TABLE with
  | none => none
  | some (r, s1, index, out) =>
    if r ≠ 0 then some (r, s1, index) else
    match out with
    | some k =>
      match WatTableDesc s1 (s1.importAt k).table_desc with
      | none => none
      | some (r1, s2, t) => some (r1, s2.updImport k (fun i => { i with table_desc := t }), index)
    | none =>
      if s1.Peek.id = TOKEN_INTEGER then
        match WatTableDesc s1 {} with
        | none => none
        | some (r1, s2, t) =>
          if r1 ≠ 0 then some (r1, s2, index)
          else some (ERR_SUCCESS,
            s2.setModule { s2.state.m with tables := s2.state.m.tables ++ [t] }, index)
      else
        match EXPECTED s1 TOKEN_ANYFUNC ERR_WAT_EXPECTED_ANYFUNC with
        | none => none
        | some (r1, s2) =>
          if r1 ≠ 0 then some (r1, s2, index) else
          match EXPECTED s2 TOKEN_OPEN ERR_WAT_EXPECTED_OPEN with
          | none => none
          | some (r2, s3) =>
            if r2 ≠ 0 then some (r2, s3, index) else
            match EXPECTED s3 TOKEN_ELEM ERR_WAT_EXPECTED_ELEM with
            | none => none
            | some (r3, s4) =>
              if r3 ≠ 0 then some (r3, s4, index) else
              if s4.Peek.id ≠ TOKEN_CLOSE ∧
                  WatGetFromHash s4.buf s4.state.funchash s4.Peek = U32_MAX then
                some (ERR_WAT_INVALID_VAR, s4.Pop, index)
              else none

/-- The function `WatInitializer(state, tokens, op)`. -/
def WatInitializer (s : PState) (op : Instruction) : Int × PState × Instruction :=
  if s.Peek.id ≠ TOKEN_OPERATOR then (ERR_WAT_EXPECTED_OPERATOR, s, op)
  else if s.Peek.i > 0xFF then (ERR_WAT_OUT_OF_RANGE, s, op)
  else
    match WatConstantOperator s.Pop { op with opcode := (s.Peek.i % 256).toNat } with
    | (r, s1, op1) =>
      if r ≠ 0 then (r, s1, op1)
      else if s1.Peek.id ≠ TOKEN_CLOSE then (ERR_WAT_INVALID_INITIALIZER, s1, op1)
      else (ERR_SUCCESS, s1, op1)

/-- The function `WatGlobalDesc(g, tokens)`. -/
def WatGlobalDesc (s : PState) (g : GlobalDesc) : Option (Int × PState × GlobalDesc) :=
  if s.Peek.id = TOKEN_OPEN then
    match EXPECTED s TOKEN_OPEN ERR_WAT_EXPECTED_OPEN with
    | none => none
    | some (r, s1) =>
      if r ≠ 0 then some (r, s1, g) else
      match EXPECTED s1 TOKEN_MUT ERR_WAT_EXPECTED_MUT with
      | none => none
      | some (r1, s2) =>
        if r1 ≠ 0 then some (r1, s2, g) else
        let g1 : GlobalDesc := { mutability := true, type := WatValType s2.Peek.id }
        if WatValType s2.Peek.id = 0 then some (ERR_WAT_EXPECTED_VALTYPE, s2.Pop, g1) else
        match EXPECTED s2.Pop TOKEN_CLOSE ERR_WAT_EXPECTED_CLOSE with
        | none => none
        | some (r2, s3) => some (r2, s3, g1)
  else
    let g1 : GlobalDesc := { mutability := false, type := WatValType s.Peek.id }
    if WatValType s.Peek.id = 0 then some (ERR_WAT_EXPECTED_VALTYPE, s.Pop, g1)
    else some (ERR_SUCCESS, s.Pop, g1)

/-- The function `WatGlobal(state, tokens, index)`; the third component is `*index`. -/
def WatGlobal (_fuel : Nat) (s : PState) : Option (Int × PState × Nat) :=
  match WatInlineImportExport s s.state.m.globals.length KIND_GLOBAL with
  | none => none
  | some (r, s1, index, out) =>
    if r ≠ 0 then some (r, s1, index) else
    match out with
    | some k =>
      match WatGlobalDesc s1 (s1.importAt k).global_desc with
      | none => none
      | some (r1, s2, g) => some (r1, s2.updImport k (fun i => { i with global_desc := g }), index)
    | none =>
      match WatGlobalDesc s1 {} with
      | none => none
      | some (r1, s2, desc) =>
        if r1 ≠ 0 then some (r1, s2, index) else
        match WatInitializer s2 { opcode := 0 } with
        | (r2, s3, init) =>
          if r2 ≠ 0 then some (r2, s3, index)
          else some (ERR_SUCCESS,
            s3.setModule { s3.state.m with
              globals := s3.state.m.globals ++ [{ desc := desc, init := init }] }, index)

/-- The function `WatMemoryDesc(m, tokens)`. -/
def WatMemoryDesc (s : PState) (m : MemoryDesc) : Int × PState × MemoryDesc :=
  match WatResizableLimits s m.limits with
  | (r, s1, l) => (r, s1, { m with limits := l })

/-- The loop `while(tokens[0].id != TOKEN_CLOSE)` over the strings of an inline
`(data ...)` in `WatMemory`; `data` is `init.data`. -/
def WatMemoryDataLoop : Nat → PState → List Nat → Option (Int × PState × List Nat)
  | 0, _, _ => none
  | fuel + 1, s, data =>
    if (s.get 0).id ≠ TOKEN_CLOSE then
      if (s.get 0).id ≠ TOKEN_STRING then some (ERR_WAT_EXPECTED_STRING, s, data)
      else
        match WatStringTok s.buf data s.Peek with
        | (r, data1) => if r ≠ 0 then some (r, s.Pop, data1) else WatMemoryDataLoop fuel s.Pop data1
    else some (ERR_SUCCESS, s, data)

/-- The function `WatMemory(state, tokens, index)`; the third component is `*index`. -/
def WatMemory (fuel : Nat) (s : PState) : Option (Int × PState × Nat) :=
  match WatInlineImportExport s s.state.m.memory.length KIND_MEMORY with
  | none => none
  | some (r, s1, index, out) =>
    if r ≠ 0 then some (r, s1, index) else
    match out with
    | some k =>
      match WatMemoryDesc s1 (s1.importAt k).mem_desc with
      | (r1, s2, d) => some (r1, s2.updImport k (fun i => { i with mem_desc := d }), index)
    | none =>
      let r1 : Option (Int × PState × MemoryDesc) :=
        if s1.Size > 1 ∧ (s1.get 0).id = TOKEN_OPEN ∧ (s1.get 1).id = TOKEN_DATA then
          match WatMemoryDataLoop fuel s1 [] with
          | none => none
          | some (r2, s2, data) =>
            some (r2, s2, { limits := { flags := 0, minimum := data.length, maximum := 0 } })
        else some (WatMemoryDesc s1 {})
      match r1 with
      | none => none
      | some (r2, s2, mem) =>
        if r2 ≠ 0 then some (r2, s2, index)
        else some (ERR_SUCCESS,
          s2.setModule { s2.state.m with memory := s2.state.m.memory ++ [mem] }, index)

/-! ## Names, imports, exports, segments -/

/-- The function `GetWatNameToken`. -/
def GetWatNameToken (s : PState) : Token × PState :=
  if s.Peek.id = TOKEN_NAME then (s.Peek, s.Pop) else ({ id := TOKEN_NONE }, s)

/-- The function `AddWatName(h, t, index)`. -/
def AddWatName (buf : List Nat) (h : Hash) (t : Token) (index : Nat) : Int × Hash :=
  if t.id = TOKEN_NAME then
    match hashGet h (slice buf t.pos t.len) with
    | some _ => (ERR_WAT_DUPLICATE_NAME, h)
    | none => (ERR_SUCCESS, h ++ [(slice buf t.pos t.len, index)])
  else (ERR_SUCCESS, h)

/-- The five symbol tables of a `WatState`. -/
inductive Space
  | types | funcs | tables | memories | globals
  deriving DecidableEq

def WatState.hash (st : WatState) : Space → Hash
  | Space.types => st.typehash
  | Space.funcs => st.funchash
  | Space.tables => st.tablehash
  | Space.memories => st.memoryhash
  | Space.globals => st.globalhash

def WatState.setHash (st : WatState) (sp : Space) (h : Hash) : WatState :=
  match sp with
  | Space.types => { st with typehash := h }
  | Space.funcs => { st with funchash := h }
  | Space.tables => { st with tablehash := h }
  | Space.memories => { st with memoryhash := h }
  | Space.globals => { st with globalhash := h }

/-- The tail `return AddWatName(hash, t, index)` of `WatImport` and `WatIndexProcess`. -/
def addName (s : PState) (sp : Space) (t : Token) (index : Nat) : Res :=
  match AddWatName s.buf (s.state.hash sp) t index with
  | (r, h) => some (r, { s with state := s.state.setHash sp h })

/-- The function `WatImport(state, tokens)`.  The member `kind` of the import is never
assigned and keeps the value `0` of the initialiser `Import i = { 0 }`. -/
def WatImport (fuel : Nat) (s : PState) : Res :=
  match WatStringTok s.buf [] s.Peek with
  | (r, mname) =>
    if r ≠ 0 then some (r, s.Pop) else
    match WatStringTok s.buf [] s.Pop.Peek with
    | (r1, ename) =>
      if r1 ≠ 0 then some (r1, s.Pop.Pop) else
      andThen (EXPECTED s.Pop.Pop TOKEN_OPEN ERR_WAT_EXPECTED_OPEN) fun s1 =>
      let t := s1.Peek
      match GetWatNameToken s1.Pop with
      | (name, s2) =>
        let i : Import := { module_name := mname, export_name := ename }
        let desc : Option (Int × PState × Import × Space) :=
          match t.id with
          | TOKEN_FUNC =>
            match WatName s2.buf [] name with
            | (r2, dbg) =>
              if r2 ≠ 0 then some (r2, s2, i, Space.funcs) else
              match WatFuncType fuel s2 (some []) with
              | none => none
              | some (r3, s3, sig, names) =>
                some (r3, s3, { i with debug_name := dbg, sig_index := sig,
                                       param_names := names.getD [] }, Space.funcs)
          | TOKEN_GLOBAL =>
            match WatGlobalDesc s2 {} with
            | none => none
            | some (r2, s3, g) => some (r2, s3, { i with global_desc := g }, Space.globals)
          | TOKEN_TABLE =>
            match WatTableDesc s2 {} with
            | none => none
            | some (r2, s3, d) => some (r2, s3, { i with table_desc := d }, Space.tables)
          | TOKEN_MEMORY =>
            match WatMemoryDesc s2 {} with
            | (r2, s3, d) => some (r2, s3, { i with mem_desc := d }, Space.memories)
          | _ => some (ERR_WAT_EXPECTED_KIND, s2, i, Space.funcs)
        match desc with
        | none => none
        | some (r2, s3, i1, sp) =>
          if r2 ≠ 0 then some (r2, s3) else
          andThen (EXPECTED s3 TOKEN_CLOSE ERR_WAT_EXPECTED_CLOSE) fun s4 =>
          match WatAppendImport s4.state.m i1 with
          | none => none
          | some (r3, m1, index) =>
            if r3 ≠ 0 then some (r3, s4.setModule m1) else addName (s4.setModule m1) sp name index

/-- The template `WatIndexProcess<F>(state, tokens, hash)`. -/
def WatIndexProcess (F : PState → Option (Int × PState × Nat)) (s : PState) (sp : Space) : Res :=
  match GetWatNameToken s with
  | (t, s1) =>
    match F s1 with
    | none => none
    | some (r, s2, index) => if r ≠ 0 then some (r, s2) else addName s2 sp t index

/-- The function `WatExport(state, tokens)`. -/
def WatExport (s : PState) : Res :=
  match WatStringTok s.buf [] s.Peek with
  | (r, name) =>
    if r ≠ 0 then some (r, s.Pop) else
    let s1 := s.Pop
    let s2 := s1.Pop
    let pick : Option (Nat × Hash) :=
      match s1.Peek.id with
      | TOKEN_FUNC => some (KIND_FUNCTION, s.state.funchash)
      | TOKEN_GLOBAL => some (KIND_GLOBAL, s.state.globalhash)
      | TOKEN_TABLE => some (KIND_TABLE, s.state.tablehash)
      | TOKEN_MEMORY => some (KIND_MEMORY, s.state.memoryhash)
      | _ => none
    match pick with
    | none => some (ERR_WAT_EXPECTED_KIND, s2)
    | some (kind, h) =>
      let e : Export := { name := name, kind := kind, index := WatGetFromHash s2.buf h s2.Peek }
      some (ERR_SUCCESS, s2.Pop.setModule { s2.state.m with exports := s2.state.m.exports ++ [e] })

/-- The function `WatElemData(state, tokens, index, op, hash)`; the result carries `index`
and `op`.  The test `tokens.Peek().i > 0xFF` reads the integer member of whatever
token comes next; for a float token that is the bit pattern of a double, and the
embedding gives no result. -/
def WatElemData (s : PState) (index : Nat) (op : Instruction) (h : Hash) :
    Option (Int × PState × Nat × Instruction) :=
  let idx := if (s.get 0).id = TOKEN_INTEGER ∨ (s.get 0).id = TOKEN_NAME
    then WatGetFromHash s.buf h s.Peek else index
  let s1 := if (s.get 0).id = TOKEN_INTEGER ∨ (s.get 0).id = TOKEN_NAME then s.Pop else s
  if idx = U32_MAX then some (ERR_WAT_INVALID_VAR, s1, idx, op)
  else if (s1.get 0).id = TOKEN_OPEN then
    match EXPECTED s1 TOKEN_OPEN ERR_WAT_EXPECTED_OPEN with
    | none => none
    | some (r, s2) =>
      if r ≠ 0 then some (r, s2, idx, op) else
      let s3 := if (s2.get 0).id = TOKEN_OFFSET then s2.Pop else s2
      if s3.Peek.id = TOKEN_FLOAT then none
      else if s3.Peek.i > 0xFF then some (ERR_WAT_OUT_OF_RANGE, s3, idx, op)
      else
        match WatConstantOperator s3.Pop { opcode := (s3.Peek.i % 256).toNat } with
        | (r1, s4, op1) =>
          if r1 ≠ 0 then some (r1, s4, idx, op1) else
          match EXPECTED s4 TOKEN_CLOSE ERR_WAT_EXPECTED_CLOSE with
          | none => none
          | some (r2, s5) => some (r2, s5, idx, op1)
  else some (ERR_SUCCESS, s1, idx, op)

/-- The loop `while(tokens[0].id != TOKEN_CLOSE)` of `WatElem`; `elems` is `e.elems`. -/
def WatElemLoop : Nat → PState → List Nat → Option (Int × PState × List Nat)
  | 0, _, _ => none
  | fuel + 1, s, elems =>
    if (s.get 0).id ≠ TOKEN_CLOSE then
      let v := WatGetFromHash s.buf s.state.funchash s.Peek
      if v = U32_MAX then some (ERR_WAT_INVALID_VAR, s.Pop, elems ++ [v])
      else WatElemLoop fuel s.Pop (elems ++ [v])
    else some (ERR_SUCCESS, s, elems)

/-- The function `WatElem(state, tokens)`. -/
def WatElem (fuel : Nat) (s : PState) : Res :=
  match WatElemData s 0 { opcode := 0 } s.state.tablehash with
  | none => none
  | some (r, s1, index, op) =>
    if r ≠ 0 then some (r, s1) else
    match WatElemLoop fuel s1 [] with
    | none => none
    | some (r1, s2, elems) =>
      if r1 ≠ 0 then some (r1, s2)
      else some (ERR_SUCCESS, s2.setModule { s2.state.m with
        elements := s2.state.m.elements ++ [{ index := index, offset := op, elems := elems }] })

/-- The loop `while(tokens[0].id != TOKEN_CLOSE)` of `WatData`; the code returned by
`WatString` is dropped. -/
def WatDataLoop : Nat → PState → List Nat → Option (Int × PState × List Nat)
  | 0, _, _ => none
  | fuel + 1, s, data =>
    if (s.get 0).id ≠ TOKEN_CLOSE then
      if (s.get 0).id ≠ TOKEN_STRING then some (ERR_WAT_EXPECTED_STRING, s, data)
      else WatDataLoop fuel s.Pop (WatStringTok s.buf data s.Peek).2
    else some (ERR_SUCCESS, s, data)

/-- The function `WatData(state, tokens)`. -/
def WatData (fuel : Nat) (s : PState) : Res :=
  match WatElemData s 0 { opcode := 0 } s.state.memoryhash with
  | none => none
  | some (r, s1, index, op) =>
    if r ≠ 0 then some (r, s1) else
    match WatDataLoop fuel s1 [] with
    | none => none
    | some (r1, s2, data) =>
      if r1 ≠ 0 then some (r1, s2)
      else some (ERR_SUCCESS, s2.setModule { s2.state.m with
        data := s2.state.m.data ++ [{ index := index, offset := op, data := data }] })

/-- The function `SkipSection(tokens)`; `count` is its local counter. -/
def SkipSectionLoop : Nat → PState → Nat → Option PState
  | 0, _, _ => none
  | fuel + 1, s, count =>
    if s.Size > 0 then
      if (s.get 0).id = TOKEN_OPEN then SkipSectionLoop fuel s.Pop (count + 1)
      else if (s.get 0).id = TOKEN_CLOSE then
        if count - 1 = 0 then some s else SkipSectionLoop fuel s.Pop (count - 1)
      else SkipSectionLoop fuel s.Pop count
    else some s

def SkipSection (fuel : Nat) (s : PState) : Res :=
  match SkipSectionLoop fuel s 1 with
  | none => none
  | some s1 => some (ERR_SUCCESS, s1)

/-! ## The module parser -/

/-- The first loop of `WatModule` ("This initial pass is for types only"). -/
def WatModulePass1 : Nat → PState → Res
  | 0, _ => none
  | fuel + 1, s =>
    if s.Size > 0 ∧ s.Peek.id ≠ TOKEN_CLOSE then
      andThen (EXPECTED s TOKEN_OPEN ERR_WAT_EXPECTED_OPEN) fun s1 =>
      let body : Res :=
        match s1.Peek.id with
        | TOKEN_TYPE => WatIndexProcess (WatType fuel) s1.Pop Space.types
        | _ => SkipSection fuel s1.Pop
      andThen body fun s2 =>
      andThen (EXPECTED s2 TOKEN_CLOSE ERR_WAT_EXPECTED_CLOSE) fun s3 =>
      WatModulePass1 fuel s3
    else some (ERR_SUCCESS, s)

/-- The case `TOKEN_FUNC` of the second loop of `WatModule`.  Between `kh_put_indexname`
and the assignment to `kh_val` the value of the new key is not initialised; nothing
reads the function table in between, and the embedding stores `(varuint32)~0` there. -/
def WatModuleFunc (fuel : Nat) (s : PState) : Res :=
  if s.Peek.id = TOKEN_NAME then
    let key := s.text s.Peek
    match hashGet s.state.funchash key with
    | some _ => some (ERR_WAT_DUPLICATE_NAME, s.Pop)
    | none =>
      let s1 := { s.Pop with state := { s.state with funchash := s.state.funchash ++ [(key, U32_MAX)] } }
      match WatFunction fuel s1 { isNull := false, s := s.Peek.pos, len := s.Peek.len } with
      | none => none
      | some (r, s2, index) =>
        if r ≠ 0 then some (r, s2)
        else some (ERR_SUCCESS,
          { s2 with state := { s2.state with funchash := hashSet s2.state.funchash key index } })
  else
    match WatFunction fuel s {} with
    | none => none
    | some (r, s2, _) => some (r, s2)

/-- The second loop of `WatModule` ("the main pass for functions/imports/etc."). -/
def WatModulePass2 : Nat → PState → Res
  | 0, _ => none
  | fuel + 1, s =>
    if s.Size > 0 ∧ s.Peek.id ≠ TOKEN_CLOSE then
      andThen (EXPECTED s TOKEN_OPEN ERR_WAT_EXPECTED_OPEN) fun s1 =>
      let body : Res :=
        match s1.Peek.id with
        | TOKEN_FUNC => WatModuleFunc fuel s1.Pop
        | TOKEN_IMPORT => WatImport fuel s1.Pop
        | TOKEN_TABLE => WatIndexProcess (WatTable fuel) s1.Pop Space.tables
        | TOKEN_MEMORY => WatIndexProcess (WatMemory fuel) s1.Pop Space.memories
        | TOKEN_GLOBAL => WatIndexProcess (WatGlobal fuel) s1.Pop Space.globals
        | TOKEN_EXPORT | TOKEN_TYPE | TOKEN_ELEM | TOKEN_DATA | TOKEN_START => SkipSection fuel s1.Pop
        | _ => some (ERR_WAT_INVALID_TOKEN, s1.Pop)
      andThen body fun s2 =>
      andThen (EXPECTED s2 TOKEN_CLOSE ERR_WAT_EXPECTED_CLOSE) fun s3 =>
      WatModulePass2 fuel s3
    else some (ERR_SUCCESS, s)

/-- The case `TOKEN_START` of the third loop of `WatModule`. -/
def WatModuleStart (s : PState) : Res :=
  if (s.get 0).id ≠ TOKEN_INTEGER ∧ (s.get 0).id ≠ TOKEN_NAME then some (ERR_WAT_EXPECTED_VAR, s)
  else
    let v := WatGetFromHash s.buf s.state.funchash s.Peek
    let s1 := s.Pop.setModule { s.state.m with
      start := v, knownsections := Nat.lor s.state.m.knownsections (2 ^ SECTION_START) }
    if v = U32_MAX then some (ERR_WAT_INVALID_VAR, s1) else some (ERR_SUCCESS, s1)

/-- The third loop of `WatModule` ("This pass resolves exports, elem, data, and the start
function"). -/
def WatModulePass3 : Nat → PState → Res
  | 0, _ => none
  | fuel + 1, s =>
    if s.Size > 0 ∧ s.Peek.id ≠ TOKEN_CLOSE then
      andThen (EXPECTED s TOKEN_OPEN ERR_WAT_EXPECTED_OPEN) fun s1 =>
      let body : Res :=
        match s1.Peek.id with
        | TOKEN_EXPORT => WatExport s1.Pop
        | TOKEN_ELEM => WatElem fuel s1.Pop
        | TOKEN_DATA => WatData fuel s1.Pop
        | TOKEN_START => WatModuleStart s1.Pop
        | _ => SkipSection fuel s1.Pop
      andThen body fun s2 =>
      andThen (EXPECTED s2 TOKEN_CLOSE ERR_WAT_EXPECTED_CLOSE) fun s3 =>
      WatModulePass3 fuel s3
    else some (ERR_SUCCESS, s)

/-- The body slot a deferred action points at: the position of the function body in the
code section and the offset of the instruction. -/
def DeferAction.target (m : Module) (d : DeferAction) : Nat × Nat :=
  (d.func - m.importsection.functions, d.index)

/-- The value a deferred action is resolved to: the lookup of its token in the table of
globals (`global.get`, `global.set`) or of functions (`call`). -/
def DeferAction.resolve (buf : List Nat) (st : WatState) (d : DeferAction) : Nat :=
  if d.id = OP_call then WatGetFromHash buf st.funchash d.t
  else WatGetFromHash buf st.globalhash d.t

/-- The assignment `f.body[index].immediates[0]._varuint32 = e` on body `k` of the module. -/
def Module.patch (m : Module) (k j : Nat) (e : Nat) : Module :=
  { m with funcbody := (m.funcbody.modify
      (fun f => { f with body := f.body.modify (fun op => { op with imm0 := (e : Int) }) j }) k) }

/-- The loop "Process all deferred actions" of `WatModule`, one iteration per element of
the queue. -/
def WatDeferred (buf : List Nat) : List DeferAction → WatState → Int × WatState
  | [], st => (ERR_SUCCESS, { st with defer := [] })
  | d :: rest, st =>
    if d.func < st.m.importsection.functions ∨
        d.func ≥ st.m.funcbody.length + st.m.importsection.functions then
      (ERR_INVALID_FUNCTION_INDEX, { st with defer := d :: rest })
    else if ¬ (d.id = OP_get_global ∨ d.id = OP_set_global ∨ d.id = OP_call) then
      (ERR_WAT_INVALID_TOKEN, { st with defer := d :: rest })
    else if d.index ≥ (st.m.funcbody.getD (d.func - st.m.importsection.functions) {}).body.length then
      (ERR_INVALID_FUNCTION_BODY, { st with defer := d :: rest })
    else
      WatDeferred buf rest
        { st with m := st.m.patch (d.func - st.m.importsection.functions) d.index (d.resolve buf st) }

/-- Modelled from the spec: `ParseExportFixup` (defined in `parse.cpp`, not in the sources)
builds the table export name -> export; a name that occurs twice is the fatal error
"duplicate export". -/
def ParseExportFixup (m : Module) : Int :=
  if (m.exports.map (fun e => e.name)).Nodup then ERR_SUCCESS else ERR_FATAL_DUPLICATE_EXPORT

/-- The function `WatModule(env, m, tokens, name)`.  `name = none` stands for a `StringRef`
whose pointer is null; the module record is `state.m` of the result. -/
def WatModule (fuel : Nat) (buf : List Nat) (tokens : Queue) (name : Option (List Nat)) : Res :=
  let s0 : PState := { buf := buf, tokens := tokens }
  let named : Res :=
    match name with
    | none => some (ERR_SUCCESS, s0)
    | some n =>
      if n.length = 0 then some (ERR_PARSE_INVALID_NAME, s0)
      else some (ERR_SUCCESS, s0.setModule { s0.state.m with name := n })
  andThen named fun s1 =>
  let named2 : Res :=
    if s1.Peek.id = TOKEN_NAME then
      match WatName s1.buf s1.state.m.name s1.Peek with
      | (r, n) => some (r, s1.Pop.setModule { s1.state.m with name := n })
    else some (ERR_SUCCESS, s1)
  andThen named2 fun s2 =>
  let restore := s2.tokens.GetPosition
  andThen (WatModulePass1 fuel s2) fun s3 =>
  andThen (WatModulePass2 fuel { s3 with tokens := s3.tokens.SetPosition restore }) fun s4 =>
  andThen (WatModulePass3 fuel { s4 with tokens := s4.tokens.SetPosition restore }) fun s5 =>
  match WatDeferred s5.buf s5.state.defer s5.state with
  | (r, st) =>
    if r ≠ 0 then some (r, { s5 with state := st })
    else some (ParseExportFixup st.m, { s5 with state := st })

/-! ## The lexer -/

/-- The bytes of an ASCII string. -/
def bytes (s : String) : List Nat := s.toList.map Char.toNat

/-- The reserved words of `tokenhash`, in the order of its initialiser list. -/
def tokenhash : List (String × TokenID) :=
  [("(", TOKEN_OPEN), (")", TOKEN_CLOSE), ("module", TOKEN_MODULE), ("import", TOKEN_IMPORT),
   ("type", TOKEN_TYPE), ("start", TOKEN_START), ("func", TOKEN_FUNC), ("global", TOKEN_GLOBAL),
   ("table", TOKEN_TABLE), ("memory", TOKEN_MEMORY), ("export", TOKEN_EXPORT), ("data", TOKEN_DATA),
   ("elem", TOKEN_ELEM), ("offset", TOKEN_OFFSET), ("align", TOKEN_ALIGN), ("local", TOKEN_LOCAL),
   ("result", TOKEN_RESULT), ("param", TOKEN_PARAM), ("i32", TOKEN_i32), ("i64", TOKEN_i64),
   ("f32", TOKEN_f32), ("f64", TOKEN_f64), ("anyfunc", TOKEN_ANYFUNC), ("mut", TOKEN_MUT),
   ("block", TOKEN_BLOCK), ("loop", TOKEN_LOOP), ("if", TOKEN_IF), ("then", TOKEN_THEN),
   ("else", TOKEN_ELSE), ("end", TOKEN_END), ("binary", TOKEN_BINARY), ("quote", TOKEN_QUOTE),
   ("register", TOKEN_REGISTER), ("invoke", TOKEN_INVOKE), ("get", TOKEN_GET),
   ("assert_return", TOKEN_ASSERT_RETURN),
   ("assert_return_canonical_nan", TOKEN_ASSERT_RETURN_CANONICAL_NAN),
   ("assert_return_arithmetic_nan", TOKEN_ASSERT_RETURN_ARITHMETIC_NAN),
   ("assert_trap", TOKEN_ASSERT_TRAP), ("assert_malformed", TOKEN_ASSERT_MALFORMED),
   ("assert_invalid", TOKEN_ASSERT_INVALID), ("assert_unlinkable", TOKEN_ASSERT_UNLINKABLE),
   ("assert_exhaustion", TOKEN_ASSERT_EXHAUSTION), ("script", TOKEN_SCRIPT),
   ("input", TOKEN_INPUT), ("output", TOKEN_OUTPUT)]

/-- The lookup `kh_get_tokens(tokenhash, ref)`. -/
def lookupToken (ref : List Nat) : Option TokenID :=
  match tokenhash.find? (fun e => bytes e.1 = ref) with
  | some e => some e.2
  | none => none

/-- Modelled from the spec: the instruction-mnemonic table behind `GetInstruction`
(`util.h`, not in the sources).  The spec takes "the published WebAssembly v1 MVP set";
the mnemonics are those of the enumerators of `include/innative/opcodes.h`. -/
def opnames : List (String × Nat) :=
  [
   ("unreachable", 0), ("nop", 1), ("block", 2), ("loop", 3), ("if", 4), ("else", 5), ("end", 11),
   ("br", 12), ("br_if", 13), ("br_table", 14), ("return", 15), ("call", 16), ("call_indirect", 17),
   ("drop", 26), ("select", 27), ("local.get", 32), ("local.set", 33), ("local.tee", 34), ("global.get", 35),
   ("global.set", 36), ("i32.load", 40), ("i64.load", 41), ("f32.load", 42), ("f64.load", 43), ("i32.load8_s", 44),
   ("i32.load8_u", 45), ("i32.load16_s", 46), ("i32.load16_u", 47), ("i64.load8_s", 48), ("i64.load8_u", 49),
   ("i64.load16_s", 50), ("i64.load16_u", 51), ("i64.load32_s", 52), ("i64.load32_u", 53), ("i32.store", 54),
   ("i64.store", 55), ("f32.store", 56), ("f64.store", 57), ("i32.store8", 58), ("i32.store16", 59),
   ("i64.store8", 60), ("i64.store16", 61), ("i64.store32", 62), ("memory.size", 63), ("memory.grow", 64),
   ("i32.const", 65), ("i64.const", 66), ("f32.const", 67), ("f64.const", 68), ("i32.eqz", 69),
   ("i32.eq", 70), ("i32.ne", 71), ("i32.lt_s", 72), ("i32.lt_u", 73), ("i32.gt_s", 74), ("i32.gt_u", 75),
   ("i32.le_s", 76), ("i32.le_u", 77), ("i32.ge_s", 78), ("i32.ge_u", 79), ("i64.eqz", 80), ("i64.eq", 81),
   ("i64.ne", 82), ("i64.lt_s", 83), ("i64.lt_u", 84), ("i64.gt_s", 85), ("i64.gt_u", 86), ("i64.le_s", 87),
   ("i64.le_u", 88), ("i64.ge_s", 89), ("i64.ge_u", 90), ("f32.eq", 91), ("f32.ne", 92), ("f32.lt", 93),
   ("f32.gt", 94), ("f32.le", 95), ("f32.ge", 96), ("f64.eq", 97), ("f64.ne", 98), ("f64.lt", 99),
   ("f64.gt", 100), ("f64.le", 101), ("f64.ge", 102), ("i32.clz", 103), ("i32.ctz", 104), ("i32.popcnt", 105),
   ("i32.add", 106), ("i32.sub", 107), ("i32.mul", 108), ("i32.div_s", 109), ("i32.div_u", 110),
   ("i32.rem_s", 111), ("i32.rem_u", 112), ("i32.and", 113), ("i32.or", 114), ("i32.xor", 115),
   ("i32.shl", 116), ("i32.shr_s", 117), ("i32.shr_u", 118), ("i32.rotl", 119), ("i32.rotr", 120),
   ("i64.clz", 121), ("i64.ctz", 122), ("i64.popcnt", 123), ("i64.add", 124), ("i64.sub", 125),
   ("i64.mul", 126), ("i64.div_s", 127), ("i64.div_u", 128), ("i64.rem_s", 129), ("i64.rem_u", 130),
   ("i64.and", 131), ("i64.or", 132), ("i64.xor", 133), ("i64.shl", 134), ("i64.shr_s", 135), ("i64.shr_u", 136),
   ("i64.rotl", 137), ("i64.rotr", 138), ("f32.abs", 139), ("f32.neg", 140), ("f32.ceil", 141),
   ("f32.floor", 142), ("f32.trunc", 143), ("f32.nearest", 144), ("f32.sqrt", 145), ("f32.add", 146),
   ("f32.sub", 147), ("f32.mul", 148), ("f32.div", 149), ("f32.min", 150), ("f32.max", 151), ("f32.copysign", 152),
   ("f64.abs", 153), ("f64.neg", 154), ("f64.ceil", 155), ("f64.floor", 156), ("f64.trunc", 157),
   ("f64.nearest", 158), ("f64.sqrt", 159), ("f64.add", 160), ("f64.sub", 161), ("f64.mul", 162),
   ("f64.div", 163), ("f64.min", 164), ("f64.max", 165), ("f64.copysign", 166), ("i32.wrap_i64", 167),
   ("i32.trunc_f32_s", 168), ("i32.trunc_f32_u", 169), ("i32.trunc_f64_s", 170), ("i32.trunc_f64_u", 171),
   ("i64.extend_i32_s", 172), ("i64.extend_i32_u", 173), ("i64.trunc_f32_s", 174), ("i64.trunc_f32_u", 175),
   ("i64.trunc_f64_s", 176), ("i64.trunc_f64_u", 177), ("f32.convert_i32_s", 178), ("f32.convert_i32_u", 179),
   ("f32.convert_i64_s", 180), ("f32.convert_i64_u", 181), ("f32.demote_f64", 182), ("f64.convert_i32_s", 183),
   ("f64.convert_i32_u", 184), ("f64.convert_i64_s", 185), ("f64.convert_i64_u", 186), ("f64.promote_f32", 187),
   ("i32.reinterpret_f32", 188), ("i64.reinterpret_f64", 189), ("f32.reinterpret_i32", 190), ("f64.reinterpret_i64", 191),]

/-- Modelled from the spec: `GetInstruction(ref)` gives the opcode of a mnemonic and `0xFF`
for any other text. -/
def GetInstruction (ref : List Nat) : Nat :=
  match opnames.find? (fun e => bytes e.1 = ref) with
  | some e => e.2
  | none => 0xFF

/-- Advancing over the bytes that satisfy `c`, from `p` on and not past the end of the
buffer; the first argument bounds the number of steps (`buf.length - p` are enough). -/
def scanWhile (buf : List Nat) (c : Nat → Bool) : Nat → Nat → Nat
  | 0, p => p
  | n + 1, p => if p < buf.length ∧ c (byteAt buf p) then scanWhile buf c n (p + 1) else p

def isSpace (c : Nat) : Bool := c = 32 || c = 10 || c = 13 || c = 9 || c = 12

def isDigit (c : Nat) : Bool := 48 ≤ c && c ≤ 57

/-- The character class of `LEXER_NAME`. -/
def isNameChar (c : Nat) : Bool :=
  (65 ≤ c && c ≤ 90) || (97 ≤ c && c ≤ 122) || isDigit c ||
  (bytes "_.+-*/^~=<>!?@#$%&|:" ++ [92, 39, 96]).contains c

/-- The repetition `(_?[0-9])*` of `LEXER_NUM`, matched greedily from `p`. -/
def matchNumTail (buf : List Nat) : Nat → Nat → Nat
  | 0, p => p
  | n + 1, p =>
    if byteAt buf p = 95 then
      if isDigit (byteAt buf (p + 1)) then matchNumTail buf n (p + 2) else p
    else if isDigit (byteAt buf p) then matchNumTail buf n (p + 1)
    else p

/-- Modelled from the spec: a match of `LEXER_NUM`, "dec with optional `_` separators", at
`p`; the result is the end of the match.  (The regular expression engine `trex` is
not in the sources.) -/
def matchNum (buf : List Nat) (p : Nat) : Option Nat :=
  if isDigit (byteAt buf p) then some (matchNumTail buf (buf.length - p) (p + 1)) else none

/-- Modelled from the spec: a match of `regex_INT`, `^(\+|\-)?(NUM|0xHEXNUM)`, at `p`.  The
alternatives are tried in order, and `NUM` matches wherever `0xHEXNUM` does. -/
def matchInt (buf : List Nat) (p : Nat) : Option Nat :=
  if byteAt buf p = 43 ∨ byteAt buf p = 45 then matchNum buf (p + 1) else matchNum buf p

/-- Modelled from the spec: a match of `regex_FLOAT`, `^(NUM\.NUM?(e|E NUM)?)`, at `p`. -/
def matchFloat (buf : List Nat) (p : Nat) : Option Nat :=
  match matchNum buf p with
  | none => none
  | some q =>
    if byteAt buf q ≠ 46 then none
    else
      let q1 := (matchNum buf (q + 1)).getD (q + 1)
      if byteAt buf q1 = 101 then some (q1 + 1)
      else if byteAt buf q1 = 69 ∧ byteAt buf (q1 + 1) = 32 then
        match matchNum buf (q1 + 2) with
        | some q2 => some q2
        | none => some q1
      else some q1

/-- Modelled from the spec: a match of `regex_NAME` at `p` (which holds `$`): the end of
the run of name characters behind the `$`, when there is at least one. -/
def matchName (buf : List Nat) (p : Nat) : Option Nat :=
  if isNameChar (byteAt buf (p + 1)) then
    some (scanWhile buf isNameChar (buf.length - (p + 1)) (p + 1))
  else none

/-- The content of `numbuf` after `numbuf.resize(len)` and the copy of the bytes of the
literal that are not `_`. -/
def fillNumbuf (numbuf : List Nat) (lit : List Nat) : List Nat :=
  let kept := lit.filter (fun c => c ≠ 95)
  let resized := (numbuf ++ List.replicate (lit.length - numbuf.length) 0).take lit.length
  kept ++ resized.drop kept.length

/-- The digits `strtoll` reads in base 10, accumulated from the left. -/
def strtollDigits : List Nat → Nat → Nat
  | [], acc => acc
  | c :: cs, acc => if isDigit c then strtollDigits cs (acc * 10 + (c - 48)) else acc

/-- The call `strtoll(numbuf.data(), &out, 10)` on the C string in `numbuf`: an optional
sign, the leading decimal digits, the value clamped to the range of `int64_t`. -/
def strtoll (numbuf : List Nat) : Int :=
  let str := numbuf.takeWhile (fun c => c ≠ 0)
  match str with
  | 45 :: cs => max (-(strtollDigits cs 0 : Int)) (-9223372036854775808)
  | 43 :: cs => min (strtollDigits cs 0 : Int) 9223372036854775807
  | cs => min (strtollDigits cs 0 : Int) 9223372036854775807

/-- The inner loop of a block comment `(; ... ;)`; `depth` is its counter.  An opening
parenthesis and a semicolon are skipped together with the byte that follows them. -/
def skipBlockComment (buf : List Nat) : Nat → Nat → Nat → Nat
  | 0, p, _ => p
  | n + 1, p, depth =>
    if depth > 0 ∧ p < buf.length then
      if byteAt buf p = 40 then
        skipBlockComment buf n (p + 2)
          (if p + 1 < buf.length ∧ byteAt buf (p + 1) = 59 then depth + 1 else depth)
      else if byteAt buf p = 59 then
        skipBlockComment buf n (p + 2)
          (if p + 1 < buf.length ∧ byteAt buf (p + 1) = 41 then depth - 1 else depth)
      else skipBlockComment buf n (p + 1) depth
    else p

/-- The scan of a string literal from the byte behind the opening quote:
`while(s[0] != '"' && s + 1 < end) s += (s[0] == '\\' && s[1] == '"') ? 2 : 1;`. -/
def scanString (buf : List Nat) : Nat → Nat → Nat
  | 0, p => p
  | n + 1, p =>
    if byteAt buf p ≠ 34 ∧ p + 1 < buf.length then
      scanString buf n (if byteAt buf p = 92 ∧ byteAt buf (p + 1) = 34 then p + 2 else p + 1)
    else p

/-- The separators that end a word in the `default` case. -/
def isWordEnd (c : Nat) : Bool :=
  isSpace c || c = 61 || c = 41 || c = 40 || c = 59

/-- The `default` case of the lexer at `p`: the token pushed and the new position. -/
def lexWord (buf : List Nat) (p : Nat) : Token × Nat :=
  let q := scanWhile buf (fun c => !isWordEnd c) (buf.length - p) p
  let ref := slice buf p (q - p)
  let tok : Token :=
    match lookupToken ref with
    | some id => { id := id, pos := p }
    | none =>
      if GetInstruction ref ≠ 0xFF then { id := TOKEN_OPERATOR, pos := p, i := GetInstruction ref }
      else { id := TOKEN_NONE }
  (tok, if byteAt buf q = 61 then q + 1 else q)

/-- The numeric case of the lexer at `p`, falling through to `lexWord` when neither
regular expression matches; `numbuf` is the static buffer of the lexer. -/
def lexNumber (buf : List Nat) (numbuf : List Nat) (p : Nat) : Token × Nat × List Nat :=
  match matchInt buf p with
  | some q =>
    let nb := fillNumbuf numbuf (slice buf p (q - p))
    ({ id := TOKEN_INTEGER, pos := p, i := strtoll nb }, q, nb)
  | none =>
    match matchFloat buf p with
    | some q =>
      let nb := fillNumbuf numbuf (slice buf p (q - p))
      ({ id := TOKEN_FLOAT, pos := p, f := nb.takeWhile (fun c => c ≠ 0) }, q, nb)
    | none => ((lexWord buf p).1, (lexWord buf p).2, numbuf)

/-- The loop of `TokenizeWAT(tokens, s, end)` from position `p`, with the tokens pushed so
far and the static `numbuf`; every iteration consumes at least one byte and one unit of
fuel. -/
def TokenizeLoop (buf : List Nat) : Nat → Nat → List Token → List Nat → Option (List Token × List Nat)
  | 0, _, _, _ => none
  | fuel + 1, p0, toks, numbuf =>
    let p := scanWhile buf isSpace (buf.length - p0) p0
    if p ≥ buf.length then some (toks, numbuf)
    else
      let c := byteAt buf p
      if c = 0 then TokenizeLoop buf fuel (p + 1) toks numbuf
      else if c = 40 then
        if p + 1 < buf.length ∧ byteAt buf (p + 1) = 59 then
          TokenizeLoop buf fuel (skipBlockComment buf (buf.length - p) (p + 2) 1) toks numbuf
        else TokenizeLoop buf fuel (p + 1) (toks ++ [{ id := TOKEN_OPEN, pos := p }]) numbuf
      else if c = 41 then
        TokenizeLoop buf fuel (p + 1) (toks ++ [{ id := TOKEN_CLOSE, pos := p }]) numbuf
      else if c = 59 then
        if p + 1 < buf.length ∧ byteAt buf (p + 1) = 59 then
          let q := scanWhile buf (fun c => c ≠ 10) (buf.length - p) (p + 1)
          TokenizeLoop buf fuel (if q < buf.length then q + 1 else q) toks numbuf
        else
          TokenizeLoop buf fuel (if p < buf.length then p + 1 else p) (toks ++ [{ id := TOKEN_NONE }]) numbuf
      else if c = 34 then
        let q := scanString buf (buf.length - p) (p + 1)
        let t : Token := { id := TOKEN_STRING, pos := p + 1, i := ((q - (p + 1) : Nat) : Int) }
        TokenizeLoop buf fuel (if byteAt buf q = 34 then q + 1 else q) (toks ++ [t]) numbuf
      else if c = 36 then
        match matchName buf p with
        | some q =>
          let t : Token := { id := TOKEN_NAME, pos := p + 1, i := ((q - (p + 1) : Nat) : Int) }
          TokenizeLoop buf fuel q (toks ++ [t]) numbuf
        | none =>
          match lexNumber buf numbuf p with
          | (t, q, nb) => TokenizeLoop buf fuel q (toks ++ [t]) nb
      else if c = 45 ∨ c = 43 ∨ isDigit c then
        match lexNumber buf numbuf p with
        | (t, q, nb) => TokenizeLoop buf fuel q (toks ++ [t]) nb
      else
        TokenizeLoop buf fuel (lexWord buf p).2 (toks ++ [(lexWord buf p).1]) numbuf

/-- The function `TokenizeWAT(tokens, s, end)` on an empty queue; `numbuf` is the content of
the static buffer before the call, the result carries its content after the call. -/
def TokenizeWAT (fuel : Nat) (buf : List Nat) (numbuf : List Nat) : Option (List Token × List Nat) :=
  TokenizeLoop buf fuel 0 [] numbuf

/-- The function `ParseWatModule(env, m, data, sz, name)`: the returned code and the final
configuration, whose `state.m` is the module record `m`.  The static `numbuf` of the
lexer is empty, as at program start. -/
def ParseWatModule (fuel : Nat) (data : List Nat) (name : Option (List Nat)) : Res :=
  match TokenizeWAT fuel data [] with
  | none => none
  | some (toks, _) =>
    let s0 : PState := { buf := data, tokens := { toks := toks } }
    match EXPECTED s0 TOKEN_OPEN ERR_WAT_EXPECTED_OPEN with
    | none => none
    | some (r, s1) =>
      if r ≠ 0 then some (r, s1) else
      match EXPECTED s1 TOKEN_MODULE ERR_WAT_EXPECTED_MODULE with
      | none => none
      | some (r1, s2) =>
        if r1 ≠ 0 then some (r1, s2) else
        match WatModule fuel data s2.tokens name with
        | none => none
        | some (r2, s3) =>
          if r2 = 0 then
            match EXPECTED s3 TOKEN_CLOSE ERR_WAT_EXPECTED_CLOSE with
            | none => none
            | some (r3, s4) => some (r3, s4)
          else some (r2, s3)

/-! ## Properties, relations and concrete inputs used by the theorems -/

/-- The configuration in which a parsing function meets the tokens of `src`, with an empty
label stack and an empty function body. -/
def lexState (src : List Nat) : PState :=
  { buf := src, tokens := { toks := ((TokenizeWAT (src.length + 1) src []).getD ([], [])).1 } }

/-- The instruction at offset `j` of function body `k` of the code section. -/
def Module.instrAt (m : Module) (k j : Nat) : Option Instruction :=
  (m.funcbody[k]?).bind (fun f => f.body[j]?)

/-- An instruction that opens a block: `block`, `loop` or `if`. -/
def isOpener (op : Instruction) : Bool :=
  op.opcode == OP_block || op.opcode == OP_loop || op.opcode == OP_if

/-- An `end` instruction. -/
def isEnd (op : Instruction) : Bool := op.opcode == OP_end

/-- The number of `block`, `loop` and `if` instructions of a stream. -/
def opens (l : List Instruction) : Nat := l.countP isOpener

/-- The number of `end` instructions of a stream. -/
def ends (l : List Instruction) : Nat := l.countP isEnd

/-- The running depth count of a scan from the left that starts at depth `d`: an opener
adds one, an `end` takes one away; `none` when an `end` meets depth `0`. -/
def scanDepth : List Instruction → Nat → Option Nat
  | [], d => some d
  | op :: l, d =>
    if isOpener op then scanDepth l (d + 1)
    else if isEnd op then (if d = 0 then none else scanDepth l (d - 1))
    else scanDepth l d

/-- A stream whose blocks are all closed and that closes no block it did not open. -/
def Balanced (l : List Instruction) : Prop := scanDepth l 0 = some 0

/-- The opcodes `WatOperator` must not receive from an operator token: those of `block`,
`loop`, `if` and `end`, which the lexer turns into reserved words. -/
def isBlockOpcode (n : Nat) : Bool := n == OP_block || n == OP_loop || n == OP_if || n == OP_end

/-- The configuration `s1` has the buffer, the token array, the code section and the
instructions of the current body of `s`. -/
def Keeps (s s1 : PState) : Prop :=
  s1.buf = s.buf ∧ s1.tokens.toks = s.tokens.toks ∧ s1.state.m.funcbody = s.state.m.funcbody ∧
    s1.f.body = s.f.body

/-- The configuration `s1` has the buffer, the token array and the code section of `s`, and
its current body is the one of `s` followed by a balanced stream. -/
def Ext (s s1 : PState) : Prop :=
  s1.buf = s.buf ∧ s1.tokens.toks = s.tokens.toks ∧ s1.state.m.funcbody = s.state.m.funcbody ∧
    ∃ d, s1.f.body = s.f.body ++ d ∧ Balanced d

/-- The configuration `s1` has the buffer, the token array and the code section of `s`, and
its current body is the one of `s` followed by one instruction of opcode `opc`. -/
def Adds (s s1 : PState) (opc : Nat) : Prop :=
  s1.buf = s.buf ∧ s1.tokens.toks = s.tokens.toks ∧ s1.state.m.funcbody = s.state.m.funcbody ∧
    ∃ op1, s1.f.body = s.f.body ++ [op1] ∧ op1.opcode = opc

/-- No operator token carries the opcode of `block`, `loop`, `if` or `end`. -/
def OpsOk (toks : List Token) : Prop :=
  ∀ t ∈ toks, t.id = TOKEN_OPERATOR → isBlockOpcode (t.i % 256).toNat = false

/-- A token meets `OpsOk`. -/
def TokOk (t : Token) : Prop := t.id = TOKEN_OPERATOR → isBlockOpcode (t.i % 256).toNat = false

/-- The text `(module (func $id (param $x i32) (result i32) local.get $x) (export "id" (func $id)))`. -/
def srcIdentity : List Nat :=
  bytes "(module (func $id (param $x i32) (result i32) local.get $x) (export " ++ [34] ++
    bytes "id" ++ [34] ++ bytes " (func $id)))"

/-- What a parse is observed by: the returned code, the type section, the type index and
the instruction stream of every function, the exports and the length of the deferred queue. -/
structure Observed where
  code : Int
  types : List FunctionSig
  funcdecl : List Nat
  bodies : List (List Instruction)
  exports : List Export
  deferred : Nat
  deriving DecidableEq

/-- The observation of a parse; `none` when the parse has no result. -/
def observe (r : Res) : Option Observed :=
  r.map fun x =>
    { code := x.1, types := x.2.state.m.types, funcdecl := x.2.state.m.funcdecl,
      bodies := x.2.state.m.funcbody.map (fun f => f.body),
      exports := x.2.state.m.exports, deferred := x.2.state.defer.length }

/-- The property of claim C4 on a module record: immediate 0 of every `call` is less than
the number of functions and immediate 0 of every `global.get`/`global.set` is less than
the number of globals (imported plus defined). -/
def indicesInRange (m : Module) : Bool :=
  m.funcbody.all fun f => f.body.all fun op =>
    (op.opcode != OP_call ||
      decide (op.imm0 < ((m.importsection.functions + m.funcdecl.length : Nat) : Int))) &&
    ((op.opcode != OP_get_global && op.opcode != OP_set_global) ||
      decide (op.imm0 <
        (((m.importsection.imports.length - m.importsection.memory) + m.globals.length : Nat) : Int)))

/-- The state of the witness of C4: one body `{call}`, one deferred `call $b`, and `$b`
bound to function 1 (the buffer is `b`). -/
def wC4 : WatState :=
  { m := { funcbody := [{ body := [{ opcode := OP_call }] }] },
    defer := [{ id := OP_call, t := { id := TOKEN_NAME, pos := 0, i := 1 }, func := 0, index := 0 }],
    funchash := [([98], 1)] }

/-- The configuration of the witness of C8: `WatFunction` meets `(block (nop)))`. -/
def wC8 : PState := lexState (bytes "(block (nop)))")

/-- The configuration of the witness of C9: `br $l` under the single label `$l`. -/
def wC9 : PState :=
  { lexState (bytes "br $l") with state := { stack := [{ isNull := false, s := 4, len := 1 }] } }

/-- The bytes of a string literal of the text format: the text between double quotes. -/
def quoted (s : String) : List Nat := [34] ++ bytes s ++ [34]

/-- The text `(module (func) (import "m" "f" (func $g)))`: a function import after a
function definition. -/
def srcImportAfterFunc : List Nat :=
  bytes "(module (func) (import " ++ quoted "m" ++ bytes " " ++ quoted "f" ++ bytes " (func $g)))"

/-- The text `(module (func (drop (i32.const 1))) (import "m" "f" (func $g)))`. -/
def srcImportAfterFolded : List Nat :=
  bytes "(module (func (drop (i32.const 1))) (import " ++ quoted "m" ++ bytes " " ++ quoted "f" ++
    bytes " (func $g)))"

/-- The text `(module (table (import "m" "t") 1 anyfunc) (func (import "m" "f")))`: an
imported table followed by an imported function. -/
def srcTableThenFuncImport : List Nat :=
  bytes "(module (table (import " ++ quoted "m" ++ bytes " " ++ quoted "t" ++
    bytes ") 1 anyfunc) (func (import " ++ quoted "m" ++ bytes " " ++ quoted "f" ++ bytes ")))"

/-- The text `(module (func (import "m" "f")) (table (import "m" "t") 1 anyfunc))`: an
imported function followed by an imported table. -/
def srcFuncThenTableImport : List Nat :=
  bytes "(module (func (import " ++ quoted "m" ++ bytes " " ++ quoted "f" ++
    bytes ")) (table (import " ++ quoted "m" ++ bytes " " ++ quoted "t" ++ bytes ") 1 anyfunc))"

/-- What the import section of a parse is observed by: the returned code, the kinds of the
imports in the order of the array (`none` for an element that is not a record the parser
wrote), and the counts `functions`, `tables`, `memory`. -/
def observeImports (r : Res) : Option (Int × List (Option Nat) × Nat × Nat × Nat) :=
  r.map fun x =>
    (x.1, x.2.state.m.importsection.imports.map (fun i => i.map (fun x => x.kind)),
      x.2.state.m.importsection.functions, x.2.state.m.importsection.tables,
      x.2.state.m.importsection.memory)

/-- The configuration `s1` is `s` with the read position of the token queue moved forward
(or left in place): nothing else has changed. -/
def Advances (s s1 : PState) : Prop :=
  s1.buf = s.buf ∧ s1.tokens.toks = s.tokens.toks ∧ s1.state = s.state ∧ s1.f = s.f ∧
    s.tokens.pos ≤ s1.tokens.pos

/-- The codes that the `return` statements of `WatTypeInner` can produce. -/
def isTypeInnerCode (r : Int) : Prop :=
  r = ERR_SUCCESS ∨ r = ERR_WAT_EXPECTED_OPEN ∨ r = ERR_WAT_EXPECTED_CLOSE ∨
    r = ERR_WAT_OUT_OF_RANGE ∨ r = ERR_WAT_EXPECTED_VALTYPE ∨ r = ERR_WAT_EXPECTED_TOKEN

/-- The number of tokens from the read position to the end of the token array. -/
def PState.remaining (s : PState) : Nat := s.tokens.toks.length - s.tokens.pos

/-- The test of `WatFuncType` for inline clauses: the queue holds at least two tokens, `(`
followed by `param` or `result`. -/
abbrev inlineSig (s : PState) : Prop :=
  s.Size > 1 ∧ (s.get 0).id = TOKEN_OPEN ∧ ((s.get 1).id = TOKEN_PARAM ∨ (s.get 1).id = TOKEN_RESULT)

/-- A configuration for `WatFuncType`: the tokens of `(type 0) (param i32)` with the
signature `[i32] -> []` as the only entry of the type section. -/
def wC14 : PState :=
  { lexState (bytes "(type 0) (param i32)") with
    state := { m := { types := [{ form := TE_func, params := [TE_i32] }] } } }

/-- The tokens that the lexer gives for `src`, with the static `numbuf` empty as at program
start. -/
def tokensOf (src : List Nat) : Option (List Token) :=
  (TokenizeWAT (src.length + 1) src []).map (fun r => r.1)

/-- The text `"\\" "a"`: the literal of one escaped backslash, a space and the literal `"a"`. -/
def srcEscapedBackslash : List Nat := [34, 92, 92, 34, 32, 34, 97, 34]

/-- The text `"a\"b" )`: a literal with an escaped double quote, followed by `)`. -/
def srcEscapedQuote : List Nat := [34, 97, 92, 34, 98, 34, 32, 41]

/-- The configuration after `k` calls of `tokens.Pop()`. -/
def PState.skip (s : PState) (k : Nat) : PState :=
  { s with tokens := { s.tokens with pos := s.tokens.pos + k } }

/-- The configuration of the witness of C23: `br_table $b 0 $a` under the labels `$a`
(innermost) and `$b`. -/
def wC23 : PState :=
  { lexState (bytes "br_table $b 0 $a") with
    state := { stack := [{ isNull := false, s := 15, len := 1 }, { isNull := false, s := 10, len := 1 }] } }

/-- A relation between configurations that the steps of the instruction parser respect:
reading a token, appending an instruction, a deferred reference or a signature, and a
label pushed at the start of a construct and popped at its end. -/
structure FrameRel (R : PState → PState → Prop) : Prop where
  rrefl : ∀ s, R s s
  rtrans : ∀ a b c, R a b → R b c → R a c
  rpop : ∀ s, R s s.Pop
  rinstr : ∀ s op, R s (s.pushInstr op)
  rdefer : ∀ s d, R s (s.pushDefer d)
  rtype : ∀ s sig, R s (s.pushType sig)
  rlabel : ∀ s s2 lbl, R (s.pushLabel lbl) s2 → R s s2.popLabel

/-- The module record without its type section. -/
def Module.noTypes (m : Module) : Module := { m with types := [] }

/-- The five symbol tables of a `WatState`. -/
def WatState.hashes (st : WatState) : Hash × Hash × Hash × Hash × Hash :=
  (st.typehash, st.funchash, st.tablehash, st.memoryhash, st.globalhash)

/-- The configuration `s1` has the buffer, the token array, the label stack, the symbol
tables and, but for the type section, the module record of `s`; its read position is not
before the one of `s`. -/
def Frame (s s1 : PState) : Prop :=
  s1.buf = s.buf ∧ s1.tokens.toks = s.tokens.toks ∧ s.tokens.pos ≤ s1.tokens.pos ∧
    s1.state.stack = s.state.stack ∧ s1.state.hashes = s.state.hashes ∧
    s1.state.m.noTypes = s.state.m.noTypes

/-- The opcode `OP_nop` of `opcodes.h`. -/
abbrev OP_nop : Nat := 0x01

/-- The current body of `s1` is the one of `s` followed by further instructions. -/
def Appends (s s1 : PState) : Prop := ∃ d, s1.f.body = s.f.body ++ d

/-- The stream claim C24 gives for a folded `if`: the instructions `c` of the conditions,
`if` with the block type, the instructions `t` of the then branch, `else` and the
instructions of the else branch when there is one, and one `end`. -/
def foldedIfStream (c : List Instruction) (bt : Int) (t : List Instruction)
    (e : Option (List Instruction)) : List Instruction :=
  c ++ [{ opcode := OP_if, imm0 := bt }] ++ t ++
    (match e with
     | some l => { opcode := OP_else } :: l
     | none => []) ++ [{ opcode := OP_end }]

/-- What a run of an instruction parser is observed by: the return code, the current body,
the read position, the number of tokens and the height of the label stack. -/
def observeRun (r : Res) : Option (Int × List Instruction × Nat × Nat × Nat) :=
  r.map fun x => (x.1, x.2.f.body, x.2.tokens.pos, x.2.tokens.toks.length, x.2.state.stack.length)

/-- The text `(if (i32.const 1) (then (nop)) (else (drop)))`. -/
def srcIfPlain : List Nat := bytes "(if (i32.const 1) (then (nop)) (else (drop)))"

/-- The text `(if (then (drop (i32.const 1))) (else (nop)))`. -/
def srcIfNested : List Nat := bytes "(if (then (drop (i32.const 1))) (else (nop)))"

/-- A configuration for `WatFunction`: the tokens of
`(export "e") (param i32) local.get 0)`, behind `(func $f`, in a module with two imported
functions and one function defined before. -/
def wC25 : PState :=
  { lexState (bytes "(export " ++ [34, 101, 34] ++ bytes ") (param i32) local.get 0)") with
    state := { m := { importsection := { functions := 2 }, funcdecl := [0],
                      types := [{ form := TE_func }] } } }

/-- The configuration `WatFunction` returns on `wC25`. -/
def wC25end : PState := ((WatFunction 20 wC25 {}).map (fun r => r.2.1)).getD wC25

/-- The value of a hex digit drawn from `0-9 A-F`, as claim C26 words it. -/
def refHexDigit (c : Nat) : Option Nat :=
  if 48 ≤ c ∧ c ≤ 57 then some (c - 48)
  else if 65 ≤ c ∧ c ≤ 70 then some (c - 55)
  else none

/-- The byte a one-letter escape stands for: `n`, `t`, backslash, single quote, double
quote. -/
def refSimpleEscape (d : Nat) : Option Nat :=
  if d = 110 then some 10
  else if d = 116 then some 9
  else if d = 92 then some 92
  else if d = 39 then some 39
  else if d = 34 then some 34
  else none

/-- Where the reference decoder of claim C26 stands: between escapes, behind a backslash,
or behind a backslash and a first hex digit of value `x`. -/
inductive EscState where
  | plain : EscState
  | slash : EscState
  | hex (x : Nat) : EscState

/-- The reference decoder of claim C26 run over a span: every backslash must be followed by
one of `n`, `t`, backslash, single quote, double quote, or by two hex digits; each escape is
replaced by its single byte and every other byte is copied.  The result is `none` when a
backslash is followed by something else, and otherwise the state at the end of the span
and the decoded bytes. -/
def refScan : EscState → List Nat → Option (EscState × List Nat)
  | st, [] => some (st, [])
  | EscState.plain, c :: r =>
    if c = 92 then refScan EscState.slash r
    else (refScan EscState.plain r).map (fun p => (p.1, c :: p.2))
  | EscState.slash, d :: r =>
    match refSimpleEscape d with
    | some b => (refScan EscState.plain r).map (fun p => (p.1, b :: p.2))
    | none =>
      match refHexDigit d with
      | some x => refScan (EscState.hex x) r
      | none => none
  | EscState.hex x, e :: r =>
    match refHexDigit e with
    | some y => (refScan EscState.plain r).map (fun p => (p.1, (16 * x + y) :: p.2))
    | none => none

/-- The reference decoding of a span: the decoded bytes when every backslash of the span is
followed by a complete escape. -/
def refDecode (l : List Nat) : Option (List Nat) :=
  match refScan EscState.plain l with
  | some (EscState.plain, out) => some out
  | _ => none

/-- The span ends inside an escape: behind the backslash of an escape, or behind a backslash
and one hex digit. -/
def cutEscape (l : List Nat) : Bool :=
  match refScan EscState.plain l with
  | some (EscState.slash, _) => true
  | some (EscState.hex _, _) => true
  | _ => false

/-- The result `x` of `WatString` agrees with the outcome `res` of the reference decoder
on a span that started with the accumulated bytes `acc`. -/
def Agrees (x : Int × List Nat) (acc : List Nat) (res : Option (EscState × List Nat)) : Prop :=
  match res with
  | some (EscState.plain, out) => x = (ERR_SUCCESS, acc ++ out)
  | some (_, _) => True
  | none => x.1 = ERR_WAT_BAD_ESCAPE

/-- The text of an unterminated string literal: a quote, a backslash and `n`. -/
def srcCutEscape : List Nat := [34, 92, 110]

/-! ## The script runner -/

/-- What `ParseWat` keeps between the commands of a script: the modules of the environment
(`env.modules`; `env.n_modules` is the length of the list), the table `mapping` from module
names to positions, the position `last` points at (`none` for the null pointer), and
whether `cache` is non-null. -/
structure Script where
  modules : List Module := []
  mapping : Hash := []
  last : Option Nat := none
  cache : Bool := false
  deriving DecidableEq

/-- The three branches of `ParseWatScriptModule` that fill the new record `*last`
(`module binary`, `module quote`, and a module in text form): the code, the record and
the token queue.  The binary parser `ParseModule` is not in the sources and is the
parameter `parseBinary` (from the decoded bytes and the name to a code and a module
record).  The record added by `realloc` is not initialised before `WatModule` clears
it; it is `{}` here. -/
def WatScriptModuleBody (parseBinary : List Nat → List Nat → Int × Module) (fuel : Nat)
    (s1 : PState) : Option (Int × Module × Queue) :=
  if (s1.get 0).id = TOKEN_BINARY ∨ (s1.Size > 1 ∧ (s1.get 1).id = TOKEN_BINARY) then
    match GetWatNameToken s1 with
    | (name, s2) =>
      match WatStringTok s1.buf [] s2.Pop.Peek with
      | (r1, binary) =>
        if r1 ≠ 0 then some (r1, {}, s2.Pop.Pop.tokens) else
        match parseBinary binary (slice s1.buf name.pos name.len) with
        | (r2, m) =>
          if r2 ≠ 0 then some (r2, m, s2.Pop.Pop.tokens)
          else if name.id = TOKEN_NAME then
            match WatName s1.buf m.name name with
            | (r3, nm) => some (r3, { m with name := nm }, s2.Pop.Pop.tokens)
          else some (ERR_SUCCESS, m, s2.Pop.Pop.tokens)
  else if (s1.get 0).id = TOKEN_QUOTE ∨ (s1.Size > 1 ∧ (s1.get 1).id = TOKEN_QUOTE) then
    match GetWatNameToken s1 with
    | (name, s2) =>
      match ParseWatModule fuel (slice s1.buf s2.Pop.Peek.pos s2.Pop.Peek.len)
          (if name.id = TOKEN_NAME then some (slice s1.buf name.pos name.len) else none) with
      | none => none
      | some (r2, s3) =>
        if r2 ≠ 0 then some (r2, s3.state.m, s2.Pop.Pop.tokens)
        else if name.id = TOKEN_NAME then
          match WatName s1.buf s3.state.m.name name with
          | (r3, nm) => some (r3, { s3.state.m with name := nm }, s2.Pop.Pop.tokens)
        else some (ERR_SUCCESS, s3.state.m, s2.Pop.Pop.tokens)
  else
    match WatModule fuel s1.buf s1.tokens none with
    | none => none
    | some (r2, s3) => some (r2, s3.state.m, s3.tokens)

/-- The function `ParseWatScriptModule(env, tokens, mapping, last, cache)`: the code, the
script state and the token queue.  The counter `env.n_modules` is incremented and `last`
is set before the module is parsed; no return statement undoes that. -/
def ParseWatScriptModule (parseBinary : List Nat → List Nat → Int × Module) (fuel : Nat)
    (buf : List Nat) (sc : Script) (tokens : Queue) : Option (Int × Script × Queue) :=
  match EXPECTED { buf := buf, tokens := tokens } TOKEN_MODULE ERR_WAT_EXPECTED_MODULE with
  | none => none
  | some (r, s1) =>
    if r ≠ 0 then some (r, sc, s1.tokens) else
    match WatScriptModuleBody parseBinary fuel s1 with
    | none => none
    | some (r2, m, q) =>
      if r2 ≠ 0 then
        some (r2, { sc with cache := false, modules := sc.modules ++ [m],
                            last := some sc.modules.length }, q)
      else if m.name.length > 0 then
        match hashGet sc.mapping m.name with
        | some _ =>
          some (ERR_FATAL_DUPLICATE_MODULE_NAME,
            { sc with cache := false, modules := sc.modules ++ [m],
                      last := some sc.modules.length }, q)
        | none =>
          some (ERR_SUCCESS,
            { cache := false, modules := sc.modules ++ [m], last := some sc.modules.length,
              mapping := sc.mapping ++ [(m.name, sc.modules.length)] }, q)
      else
        some (ERR_SUCCESS,
          { sc with cache := false, modules := sc.modules ++ [m],
                    last := some sc.modules.length }, q)

/-- The test `isnan(f)` on the bit pattern of a `float`: the exponent is all ones and the
fraction is not zero. -/
def isnan32 (bits : Nat) : Bool := (bits / 8388608) % 256 == 255 && bits % 8388608 != 0

/-- The test `isnan(f)` on the bit pattern of a `double`. -/
def isnan64 (bits : Nat) : Bool :=
  (bits / 4503599627370496) % 2048 == 2047 && bits % 4503599627370496 != 0

/-- The overload `WatIsNaN(float f, bool canonical)`, on the bit pattern of `f`; the mask
is `0b00000000010000000000000000000000U`. -/
def WatIsNaN32 (bits : Nat) (canonical : Bool) : Bool :=
  if !isnan32 bits then false
  else ((bits &&& 0x00400000) != 0) != canonical

/-- The overload `WatIsNaN(double f, bool canonical)`, on the bit pattern of `f`; the mask
has bit 51 set. -/
def WatIsNaN64 (bits : Nat) (canonical : Bool) : Bool :=
  if !isnan64 bits then false
  else ((bits &&& 0x0008000000000000) != 0) != canonical

/-- The cases `TOKEN_ASSERT_RETURN_ARITHMETIC_NAN` and `TOKEN_ASSERT_RETURN_CANONICAL_NAN`
of `ParseWat`: the code returned for a result of type `ty` whose bit pattern is `bits`
(`ERR_SUCCESS` when the command goes on). -/
def WatAssertNaN (ty : Int) (bits : Nat) (canonical : Bool) : Int :=
  if ty = TE_f32 ∧ WatIsNaN32 bits canonical = false then ERR_RUNTIME_ASSERT_FAILURE
  else if ty = TE_f64 ∧ WatIsNaN64 bits canonical = false then ERR_RUNTIME_ASSERT_FAILURE
  else ERR_SUCCESS

/-- A canonical NaN of 32 bits in the words of claim C34: exponent all ones, the high
fraction bit set and all other fraction bits zero, with either sign. -/
def refCanonicalNaN32 (bits : Nat) : Bool := bits % 2147483648 == 0x7FC00000

/-- A canonical NaN of 64 bits in the words of claim C34. -/
def refCanonicalNaN64 (bits : Nat) : Bool := bits % 9223372036854775808 == 0x7FF8000000000000

/-- The templates `MatchFuncSig<R>(sig)` and `MatchFuncSig<R, P, Args...>(sig)`; the list
holds `P, Args...`. -/
def MatchFuncSig (R : Int) : List Int → FunctionSig → Bool
  | [], sig =>
    if sig.params.length > 0 then false
    else if R = TE_void ∧ sig.returns.length > 0 then false
    else if R ≠ TE_void ∧ (sig.returns.length = 0 ∨ sig.returns.headD 0 ≠ R) then false
    else true
  | P :: Args, sig =>
    if sig.params.length = 0 then false
    else if sig.params.headD 0 ≠ P then false
    else MatchFuncSig R Args { sig with params := sig.params.tail }

/-- One branch of the chain `if(MatchFuncSig<R, P...>(sig)) result.x = static_cast<...>(f)(...)`
of `ParseWatScriptAction`: the result type `R`, the parameter types `P...` and, for each
argument of the call, the index `k` of the element `params[k]` it is read from. -/
structure DispatchRow where
  ret : Int
  params : List Int
  args : List Nat
  deriving DecidableEq

/-- The branches of the chain of `ParseWatScriptAction`, in the order of the source. -/
def WatDispatchTable : List DispatchRow :=
  [ { ret := TE_i32, params := [TE_i32], args := [0] },
    { ret := TE_i64, params := [TE_i32], args := [0] },
    { ret := TE_f32, params := [TE_i32], args := [0] },
    { ret := TE_f64, params := [TE_i32], args := [0] },
    { ret := TE_i32, params := [TE_i64], args := [0] },
    { ret := TE_i64, params := [TE_i64], args := [0] },
    { ret := TE_f32, params := [TE_i64], args := [0] },
    { ret := TE_f64, params := [TE_i64], args := [0] },
    { ret := TE_i32, params := [TE_f32], args := [0] },
    { ret := TE_i64, params := [TE_f32], args := [0] },
    { ret := TE_f32, params := [TE_f32], args := [0] },
    { ret := TE_f64, params := [TE_f32], args := [0] },
    { ret := TE_i32, params := [TE_f64], args := [0] },
    { ret := TE_i64, params := [TE_f64], args := [0] },
    { ret := TE_f32, params := [TE_f64], args := [0] },
    { ret := TE_f64, params := [TE_f64], args := [0] },
    { ret := TE_i32, params := [TE_i32, TE_i32], args := [0, 0] },
    { ret := TE_i64, params := [TE_i32, TE_i32], args := [0, 0] },
    { ret := TE_f32, params := [TE_i32, TE_i32], args := [0, 0] },
    { ret := TE_f64, params := [TE_i32, TE_i32], args := [0, 0] },
    { ret := TE_f32, params := [TE_f32, TE_f32], args := [0, 0] },
    { ret := TE_f64, params := [TE_f64, TE_f64], args := [0, 0] },
    { ret := TE_i64, params := [TE_i64, TE_i64], args := [0, 0] } ]

/-- The branch of the chain taken for `sig`: the first whose `MatchFuncSig` holds; `none`
stands for the final `assert(false)`. -/
def WatDispatch (sig : FunctionSig) : Option DispatchRow :=
  WatDispatchTable.find? (fun row => MatchFuncSig row.ret row.params sig)

/-- The arguments of the call made by `ParseWatScriptAction`: for each argument the
parameter type it is passed as and the element of `params` its value is read from. -/
def WatCallArgs (sig : FunctionSig) (params : List Instruction) :
    Option (List (Int × Instruction)) :=
  (WatDispatch sig).map fun row =>
    (row.params.zip row.args).map fun pa => (pa.1, params.getD pa.2 { opcode := 0 })

/-- The loop `while(tokens.Peek().id == TOKEN_OPEN)` of `ParseWatScriptAction` that reads
the constants of an `invoke`; `m` is the module invoked (every turn makes a fresh
`WatState st(*m)`), `params` the vector of the same name. -/
def WatScriptParams (m : Module) : Nat → PState → List Instruction →
    Option (Int × PState × List Instruction)
  | 0, _, _ => none
  | fuel + 1, s, params =>
    if s.Peek.id = TOKEN_OPEN then
      match EXPECTED s TOKEN_OPEN ERR_WAT_EXPECTED_OPEN with
      | none => none
      | some (r, s1) =>
        if r ≠ 0 then some (r, s1, params ++ [{ opcode := 0 }]) else
        match WatInitializer { s1 with state := { m := m } } { opcode := 0 } with
        | (r1, s2, op) =>
          if r1 ≠ 0 then some (r1, { s2 with state := s.state }, params ++ [op]) else
          match EXPECTED { s2 with state := s.state } TOKEN_CLOSE ERR_WAT_EXPECTED_CLOSE with
          | none => none
          | some (r2, s3) =>
            if r2 ≠ 0 then some (r2, s3, params ++ [op])
            else WatScriptParams m fuel s3 (params ++ [op])
    else some (ERR_SUCCESS, s, params)

/-- The call `static_cast<int32_t (*)(int32_t, int32_t)>(f)(...)` and its siblings for
integer arguments: `f` stands for the compiled function, which the sources do not hold;
its arguments are the integer members of the elements `WatCallArgs` names. -/
def WatInvokeInt (f : List Int → Int) (sig : FunctionSig) (params : List Instruction) :
    Option Int :=
  (WatCallArgs sig params).map fun args => f (args.map fun a => a.2.imm0)

/-- Modelled from the spec: the function `add` of the scenario of claim C35,
`local.get 0 local.get 1 i32.add`, as the compiled function sees its arguments. -/
def addFunction (args : List Int) : Int := toSInt32 (args.getD 0 0 + args.getD 1 0)

/-- The text `(module (memory 1) (data (i32.const 0) "\z"))`: a data segment whose string
holds the escape `\z`. -/
def srcDataBadEscape : List Nat :=
  bytes "(module (memory 1) (data (i32.const 0) " ++ [34, 92, 122, 34] ++ bytes "))"

/-- The configuration of the `WatFuncType` case of C32: the tokens of `(type 0) (param foo))`
with the signature `[] -> []` as the only entry of the type section. -/
def wC32 : PState :=
  { lexState (bytes "(type 0) (param foo))") with state := { m := { types := [{ form := TE_func }] } } }

/-- What C32 observes of a parse: the returned code, the type section and the bytes of the
data segments. -/
def observeData (r : Res) : Option (Int × List FunctionSig × List (List Nat)) :=
  r.map fun x => (x.1, x.2.state.m.types, x.2.state.m.data.map (fun d => d.data))

/-- The script state of the example of C33: one module in the environment, `last`
pointing at it, and a loaded library. -/
def scC33 : Script := { modules := [{ funcdecl := [0] }], last := some 0, cache := true }

/-- The tokens behind `(assert_malformed (` in the script
`(assert_malformed (module (func (param foo))) "msg")`. -/
def srcC33 : List Nat := bytes "module (func (param foo))) " ++ quoted "msg" ++ bytes ")"

/-- What C33 observes of a call of `ParseWatScriptModule`: the returned code, the number of
modules of the environment, `last`, and the function sections of the modules. -/
def observeScript (r : Option (Int × Script × Queue)) : Option (Int × Nat × Option Nat × List (List Nat)) :=
  r.map fun x => (x.1, x.2.1.modules.length, x.2.1.last, x.2.1.modules.map (fun m => m.funcdecl))

/-- The signature `[i32, i32] -> [i32]` of the function `add` of C35. -/
def sigAdd : FunctionSig := { form := TE_func, params := [TE_i32, TE_i32], returns := [TE_i32] }

/-- The configuration of the locals example of C37: the tokens of
`(type 0) (local $x i32) (local i64) local.get $x) (local)`, whose last token but one is
`local`, with the signature `[] -> []` in the type section. -/
def wC37 : PState :=
  { lexState (bytes "(type 0) (local $x i32) (local i64) local.get $x) (local)") with
    state := { m := { types := [{ form := TE_func }] } } }

/-- The text `(module (import "m" "e" K))` for a description `K`. -/
def srcImport (k : String) : List Nat :=
  bytes "(module (import " ++ quoted "m" ++ bytes " " ++ quoted "e" ++ bytes " " ++ bytes k ++ bytes "))"

/-- The text `(module (K $a (import "m" "a") D1) (K $b D2))`: an imported and a defined
object of one kind. -/
def srcImportThenDef (k d1 d2 : String) : List Nat :=
  bytes "(module (" ++ bytes k ++ bytes " $a (import " ++ quoted "m" ++ bytes " " ++ quoted "a" ++
    bytes ") " ++ bytes d1 ++ bytes ") (" ++ bytes k ++ bytes " $b " ++ bytes d2 ++ bytes "))"

/-- What C38 and C39 observe of a parse: the returned code and the symbol tables of
tables, memories and globals. -/
structure ObservedSpaces where
  code : Int
  tables : Hash
  memories : Hash
  globals : Hash
  deriving DecidableEq

def observeSpaces (r : Res) : Option ObservedSpaces :=
  r.map fun x =>
    { code := x.1, tables := x.2.state.tablehash, memories := x.2.state.memoryhash,
      globals := x.2.state.globalhash }

/-- The name token `$a` of the example of C40 (the input is `$a`, the span is the byte
behind the `$`). -/
def tokC40 : Token := { id := TOKEN_NAME, pos := 1, i := 1 }

/-! ## Further configurations and texts -/

/-- The tokens of `(type 0) (param i32) (result foo))` behind `(func`, with `[i32] -> []` as
entry 0 of the type section: an annotation followed by inline clauses of which the second
is malformed. -/
def wC14bad : PState :=
  { lexState (bytes "(type 0) (param i32) (result foo))") with
    state := { m := { types := [{ form := TE_func, params := [TE_i32] }] } } }

/-- The tokens of `(type 0) (param i64))`, with `[i32] -> []` as entry 0 of the type
section: an inline signature that differs from the annotated type. -/
def wC14other : PState :=
  { lexState (bytes "(type 0) (param i64))") with
    state := { m := { types := [{ form := TE_func, params := [TE_i32] }] } } }

/-- The tokens of `(type 0))`, with `[i32] -> []` as entry 0 of the type section: an
annotation without inline clauses. -/
def wC14plain : PState :=
  { lexState (bytes "(type 0))") with
    state := { m := { types := [{ form := TE_func, params := [TE_i32] }] } } }

/-- The text `(module (table (import "m" "t") 1 anyfunc) (memory (import "m" "x") 1)
(func (import "m" "f")))`: an imported table, an imported memory, an imported function. -/
def srcTableMemoryFuncImport : List Nat :=
  bytes "(module (table (import " ++ quoted "m" ++ bytes " " ++ quoted "t" ++
    bytes ") 1 anyfunc) (memory (import " ++ quoted "m" ++ bytes " " ++ quoted "x" ++
    bytes ") 1) (func (import " ++ quoted "m" ++ bytes " " ++ quoted "f" ++ bytes ")))"

/-- The configuration `br_table 0 300)` with one anonymous label on the stack. -/
def wC23big : PState :=
  { lexState (bytes "br_table 0 300)") with state := { stack := [{}] } }

/-- The configuration `br_table $a)` under 256 labels, the outermost of them `$a`: the name
is bound at depth 255. -/
def wC23deep : PState :=
  { lexState (bytes "br_table $a)") with
    state := { stack := List.replicate 255 {} ++ [{ isNull := false, s := 10, len := 1 }] } }

/-- The text `(module (import "m" "g" (global $g i32)) (func (export "e")))`: a global is
the only import, and the function is the first of the module. -/
def srcGlobalImportThenExport : List Nat :=
  bytes "(module (import " ++ quoted "m" ++ bytes " " ++ quoted "g" ++
    bytes " (global $g i32)) (func (export " ++ quoted "e" ++ bytes ")))"

/-- The text `(module (func (i32.add (i32.const 1) (i32.const 2))) (func (export "e")))`. -/
def srcFoldedThenExport : List Nat :=
  bytes "(module (func (i32.add (i32.const 1) (i32.const 2))) (func (export " ++ quoted "e" ++
    bytes ")))"

/-- The text `(module (func (import "m" "f")) (func) (func $f (export "e")))`: one imported
function, one function defined before the exported one. -/
def srcImportDefThenExport : List Nat :=
  bytes "(module (func (import " ++ quoted "m" ++ bytes " " ++ quoted "f" ++
    bytes ")) (func) (func $f (export " ++ quoted "e" ++ bytes ")))"

/-- The text `(module (func (export "a\n\41")))`: an export name with the escapes for a
line feed and for the byte 0x41. -/
def srcExportEscapes : List Nat :=
  bytes "(module (func (export " ++ [34, 97, 92, 110, 92, 52, 49, 34] ++ bytes ")))"

/-! ## Theorems -/

theorem GetJumpLoop_found (buf : List Nat) (stack : List StringRef) (r : StringRef) (d : Nat)
    (hd : d < stack.length) (hd256 : d < 256)
    (hhit : StringRef.eq buf (stack.getD d {}) r = true) :
    ∀ fuel i, i ≤ d → (∀ k, i ≤ k → k < d → StringRef.eq buf (stack.getD k {}) r = false) →
      d - i < fuel → GetJumpLoop buf stack r fuel i = some d := by
  intro fuel
  induction fuel with
  | zero => intro i _ _ h; omega
  | succ n ih =>
    intro i hi hmiss hfuel
    unfold GetJumpLoop
    have hilen : i < stack.length := by omega
    rw [if_pos hilen]
    by_cases hid : i = d
    · subst hid
      rw [if_pos hhit]
    · have hlt : i < d := by omega
      have hne : ¬ (StringRef.eq buf (stack.getD i {}) r = true) := by
        rw [hmiss i (le_refl i) hlt]; decide
      rw [if_neg hne]
      have hmod : (i + 1) % 256 = i + 1 := Nat.mod_eq_of_lt (by omega)
      rw [hmod]
      exact ih (i + 1) (by omega) (fun k hk hkd => hmiss k (by omega) hkd) (by omega)

theorem GetJumpLoop_lt (buf : List Nat) (stack : List StringRef) (r : StringRef) :
    ∀ fuel i j, GetJumpLoop buf stack r fuel i = some j → j ≠ U7_MAX → j < stack.length := by
  intro fuel
  induction fuel with
  | zero => intro i j h; simp [GetJumpLoop] at h
  | succ n ih =>
    intro i j h hj
    unfold GetJumpLoop at h
    split at h
    · split at h
      · injection h with h; omega
      · exact ih _ _ h hj
    · injection h with h; exact absurd h.symm hj

theorem GetJump_name_lt (fuel : Nat) (buf : List Nat) (stack : List StringRef) (var : Token) (j : Nat)
    (hname : var.id = TOKEN_NAME) (h : GetJump fuel buf stack var = some j) (hj : j ≠ U7_MAX) :
    j < stack.length := by
  unfold GetJump at h
  rw [if_neg (by rw [hname]; intro hc; exact absurd hc.1 (by decide)), if_pos hname] at h
  exact GetJumpLoop_lt buf stack _ fuel 0 j h hj

theorem StringRef_eq_len {buf : List Nat} {a b : StringRef} (h : StringRef.eq buf a b = true) :
    a.len = b.len := by
  unfold StringRef.eq at h
  simp only [Bool.and_eq_true, beq_iff_eq] at h
  exact h.1

/-- C10 (amended).  For a name token whose innermost occurrence on the label stack has
fewer than 256 labels above it, `GetJump` returns the number of labels above that
occurrence; a label without a name is never equal to a name of positive length; an
integer token `n` with `0 ≤ n < 255` is returned unchanged, and from 255 on the
not-found value is returned. -/
theorem C10_GetJump_depth (buf : List Nat) (stack : List StringRef) (var : Token) :
    (var.id = TOKEN_NAME → ∀ d, d < stack.length → d < 256 →
        StringRef.eq buf (stack.getD d {}) var.ref = true →
        (∀ k, k < d → StringRef.eq buf (stack.getD k {}) var.ref = false) →
        ∀ fuel, d < fuel → GetJump fuel buf stack var = some d) ∧
    (∀ lbl : StringRef, lbl.len = 0 → 0 < var.len → StringRef.eq buf lbl var.ref = false) ∧
    (var.id = TOKEN_INTEGER → 0 ≤ var.i → var.i < 255 →
        ∀ fuel, GetJump fuel buf stack var = some var.i.toNat) ∧
    (var.id = TOKEN_INTEGER → 255 ≤ var.i → ∀ fuel, GetJump fuel buf stack var = some U7_MAX) := by
  refine ⟨?_, ?_, ?_, ?_⟩
  · intro hname d hd hd256 hhit hmiss fuel hfuel
    unfold GetJump
    rw [if_neg (by rw [hname]; intro hc; exact absurd hc.1 (by decide)), if_pos hname]
    exact GetJumpLoop_found buf stack _ d hd hd256 hhit fuel 0 (Nat.zero_le d)
      (fun k _ hk => hmiss k hk) (by omega)
  · intro lbl hl hv
    cases h : StringRef.eq buf lbl var.ref with
    | false => rfl
    | true =>
      have := StringRef_eq_len h
      simp only [Token.ref] at this
      omega
  · intro hint h0 h255 fuel
    unfold GetJump
    rw [if_pos ⟨hint, h255⟩]
    congr 1
    have : var.i % 256 = var.i := Int.emod_eq_of_lt h0 (by omega)
    rw [this]
  · intro hint h255 fuel
    unfold GetJump
    rw [if_neg (by intro hc; omega), if_neg (by rw [hint]; decide)]

/-- C10, a witness: under the labels `$b`, (anonymous), `$a`, `$a` the name `$a` is at
depth 2; the integer `7` is passed through, and `300` is not. -/
theorem C10_GetJump_depth_witness :
    GetJump 3 (bytes "ab") [⟨false, 1, 1⟩, {}, ⟨false, 0, 1⟩, ⟨false, 0, 1⟩]
        { id := TOKEN_NAME, pos := 0, i := 1 } = some 2 ∧
    StringRef.eq (bytes "ab") {} (Token.ref { id := TOKEN_NAME, pos := 0, i := 1 }) = false ∧
    GetJump 0 [] [] { id := TOKEN_INTEGER, i := 7 } = some 7 ∧
    GetJump 0 [] [] { id := TOKEN_INTEGER, i := 300 } = some U7_MAX :=
  ⟨(C10_GetJump_depth (bytes "ab") [⟨false, 1, 1⟩, {}, ⟨false, 0, 1⟩, ⟨false, 0, 1⟩]
      { id := TOKEN_NAME, pos := 0, i := 1 }).1 rfl 2 (by decide) (by decide) (by decide!)
      (by decide!) 3 (by decide),
   (C10_GetJump_depth (bytes "ab") [] { id := TOKEN_NAME, pos := 0, i := 1 }).2.1 {} rfl (by decide),
   (C10_GetJump_depth [] [] { id := TOKEN_INTEGER, i := 7 }).2.2.1 rfl (by decide) (by decide) 0,
   (C10_GetJump_depth [] [] { id := TOKEN_INTEGER, i := 300 }).2.2.2 rfl (by decide) 0⟩

/-- C10, the claim fails: the integer token `300` is not returned unchanged; `GetJump` gives
the not-found value 255. -/
theorem C10_counterexample :
    ¬ (GetJump 10 [] [] { id := TOKEN_INTEGER, i := 300 } = some 300) := by
  decide!

theorem instrAt_patch (m : Module) (k j e k1 j1 : Nat) :
    (m.patch k j e).instrAt k1 j1 =
      if k = k1 ∧ j = j1 then (m.instrAt k j).map (fun op => { op with imm0 := (e : Int) })
      else m.instrAt k1 j1 := by
  unfold Module.instrAt Module.patch
  simp only [List.getElem?_modify]
  by_cases hk : k = k1
  · subst hk
    cases hf : m.funcbody[k]? with
    | none => simp
    | some f =>
      simp only [if_true, Option.map_eq_map, Option.map_some', Option.some_bind, true_and,
        List.getElem?_modify]
      by_cases hj : j = j1
      · subst hj
        cases hop : f.body[j]? <;> simp
      · cases hop : f.body[j1]? <;> simp [hj]
  · cases hf : m.funcbody[k1]? <;> simp [hk]

/-- The drain leaves the symbol tables and the import counts alone, and changes no
instruction that no deferred action points at. -/
theorem WatDeferred_frame (buf : List Nat) :
    ∀ (q : List DeferAction) (st st1 : WatState), WatDeferred buf q st = (ERR_SUCCESS, st1) →
      st1.defer = [] ∧ st1.funchash = st.funchash ∧ st1.globalhash = st.globalhash ∧
      st1.m.importsection = st.m.importsection ∧
      ∀ k j, (∀ e ∈ q, e.target st.m ≠ (k, j)) → st1.m.instrAt k j = st.m.instrAt k j := by
  intro q
  induction q with
  | nil =>
    intro st st1 h
    simp only [WatDeferred, Prod.mk.injEq, true_and] at h
    subst h
    exact ⟨rfl, rfl, rfl, rfl, fun _ _ _ => rfl⟩
  | cons d rest ih =>
    intro st st1 h
    unfold WatDeferred at h
    split at h
    · simp at h
    split at h
    · simp at h
    split at h
    · simp at h
    obtain ⟨h1, h2, h3, h4, h5⟩ := ih _ _ h
    refine ⟨h1, h2, h3, h4, ?_⟩
    intro k j hq
    have hrest : ∀ e ∈ rest, e.target (st.m.patch (d.func - st.m.importsection.functions) d.index
        (d.resolve buf st)) ≠ (k, j) := by
      intro e he
      have := hq e (List.mem_cons_of_mem _ he)
      simpa [DeferAction.target, Module.patch] using this
    rw [h5 k j hrest, instrAt_patch]
    have hd := hq d (List.mem_cons_self _ _)
    simp only [DeferAction.target, ne_eq, Prod.mk.injEq] at hd
    rw [if_neg hd]

/-- After a successful drain every deferred action that is not overridden by a later one
has written the value it resolves to into immediate 0 of the instruction it points at. -/
theorem WatDeferred_resolved (buf : List Nat) :
    ∀ (q : List DeferAction) (st st1 : WatState), WatDeferred buf q st = (ERR_SUCCESS, st1) →
      ∀ pre d post, q = pre ++ d :: post → (∀ e ∈ post, e.target st.m ≠ d.target st.m) →
        ∃ op, st1.m.instrAt (d.func - st.m.importsection.functions) d.index = some op ∧
          op.imm0 = (d.resolve buf st : Nat) := by
  intro q
  induction q with
  | nil => intro st st1 _ pre d post hq; simp at hq
  | cons d0 rest ih =>
    intro st st1 h pre d post hq hpost
    unfold WatDeferred at h
    split at h
    · simp at h
    split at h
    · simp at h
    split at h
    · simp at h
    rename_i hfun hid hidx
    cases pre with
    | nil =>
      simp only [List.nil_append, List.cons.injEq] at hq
      obtain ⟨hd, hrest⟩ := hq
      subst hd hrest
      obtain ⟨_, _, _, _, h5⟩ := WatDeferred_frame buf _ _ _ h
      have hkeep : ∀ e ∈ rest, e.target (st.m.patch (d0.func - st.m.importsection.functions) d0.index
          (d0.resolve buf st)) ≠ (d0.func - st.m.importsection.functions, d0.index) := by
        intro e he
        have := hpost e he
        simpa [DeferAction.target, Module.patch] using this
      rw [h5 _ _ hkeep, instrAt_patch, if_pos ⟨rfl, rfl⟩]
      have hlen : d0.index < (st.m.funcbody.getD (d0.func - st.m.importsection.functions) {}).body.length := by
        omega
      have hk : d0.func - st.m.importsection.functions < st.m.funcbody.length := by omega
      unfold Module.instrAt
      rw [List.getD_eq_getElem?_getD, List.getElem?_eq_getElem hk] at hlen
      simp only [Option.getD_some] at hlen
      rw [List.getElem?_eq_getElem hk]
      simp only [Option.some_bind, List.getElem?_eq_getElem hlen, Option.map_some']
      exact ⟨_, rfl, rfl⟩
    | cons p pre1 =>
      simp only [List.cons_append, List.cons.injEq] at hq
      obtain ⟨_, hrest⟩ := hq
      have := ih _ _ h pre1 d post hrest (by
        intro e he
        have := hpost e he
        simpa [DeferAction.target, Module.patch] using this)
      simpa [DeferAction.resolve, Module.patch] using this

theorem scanDepth_append (a b : List Instruction) :
    ∀ d, scanDepth (a ++ b) d = (scanDepth a d).bind (scanDepth b) := by
  induction a with
  | nil => intro d; rfl
  | cons op l ih =>
    intro d
    simp only [List.cons_append, scanDepth]
    split
    · exact ih _
    · split
      · split
        · rfl
        · exact ih _
      · exact ih _

theorem scanDepth_shift (a : List Instruction) :
    ∀ d e k, scanDepth a d = some e → scanDepth a (d + k) = some (e + k) := by
  induction a with
  | nil => intro d e k h; simp only [scanDepth, Option.some.injEq] at h ⊢; omega
  | cons op l ih =>
    intro d e k h
    simp only [scanDepth] at h ⊢
    split
    · rename_i ho
      rw [if_pos ho] at h
      have := ih _ _ k h
      rw [show d + k + 1 = d + 1 + k by omega]
      exact this
    · rename_i ho
      rw [if_neg ho] at h
      split
      · rename_i he
        rw [if_pos he] at h
        split at h
        · simp at h
        · rename_i hd
          rw [if_neg (by omega)]
          have := ih _ _ k h
          rw [show d + k - 1 = d - 1 + k by omega]
          exact this
      · rename_i he
        rw [if_neg he] at h
        exact ih _ _ k h

theorem Balanced_nil : Balanced [] := rfl

theorem Balanced_append {a b : List Instruction} (ha : Balanced a) (hb : Balanced b) :
    Balanced (a ++ b) := by
  unfold Balanced at *
  rw [scanDepth_append, ha]
  exact hb

theorem Balanced_single {op : Instruction} (h : isBlockOpcode op.opcode = false) : Balanced [op] := by
  unfold Balanced
  have h1 : isOpener op = false := by
    simp only [isBlockOpcode, Bool.or_eq_false_iff] at h
    simp only [isOpener, Bool.or_eq_false_iff]
    exact ⟨⟨h.1.1.1, h.1.1.2⟩, h.1.2⟩
  have h2 : isEnd op = false := by
    simp only [isBlockOpcode, Bool.or_eq_false_iff] at h
    exact h.2
  simp [scanDepth, h1, h2]

theorem Balanced_wrap {o : Instruction} {c : List Instruction} (ho : isOpener o = true)
    (hc : Balanced c) : Balanced (([o] ++ c) ++ [{ opcode := OP_end }]) := by
  unfold Balanced at *
  have hc1 : scanDepth c 1 = some 1 := scanDepth_shift c 0 0 1 hc
  have h1 : scanDepth ([o] ++ c) 0 = some 1 := by
    show scanDepth (o :: c) 0 = some 1
    simp only [scanDepth, ho, if_true]
    exact hc1
  rw [scanDepth_append, h1]
  decide

theorem scanDepth_counts (l : List Instruction) :
    ∀ d e, scanDepth l d = some e →
      d + opens l = e + ends l ∧ ∀ n, ends (l.take n) ≤ d + opens (l.take n) := by
  induction l with
  | nil =>
    intro d e h
    simp only [scanDepth, Option.some.injEq] at h
    simp [opens, ends, h]
  | cons op l ih =>
    intro d e h
    simp only [scanDepth] at h
    by_cases ho : isOpener op = true
    · rw [if_pos ho] at h
      have he : isEnd op = false := by
        simp only [isOpener, Bool.or_eq_true, beq_iff_eq] at ho
        simp only [isEnd, beq_eq_false_iff_ne]
        rcases ho with (ho | ho) | ho <;> rw [ho] <;> decide
      obtain ⟨h1, h2⟩ := ih _ _ h
      constructor
      · simp only [opens, ends, List.countP_cons, ho, he, if_true] at h1 ⊢
        simp only [Bool.false_eq_true, if_false]
        omega
      · intro n
        cases n with
        | zero => simp [ends, opens]
        | succ n =>
          have := h2 n
          simp only [opens, ends, List.take_succ_cons, List.countP_cons, ho, he, if_true] at this ⊢
          simp only [Bool.false_eq_true, if_false]
          omega
    · rw [if_neg ho] at h
      have ho1 : isOpener op = false := by simpa using ho
      by_cases he : isEnd op = true
      · rw [if_pos he] at h
        split at h
        · simp at h
        · rename_i hd
          obtain ⟨h1, h2⟩ := ih _ _ h
          constructor
          · simp only [opens, ends, List.countP_cons, ho1, he, if_true] at h1 ⊢
            simp only [Bool.false_eq_true, if_false]
            omega
          · intro n
            cases n with
            | zero => simp [ends, opens]
            | succ n =>
              have := h2 n
              simp only [opens, ends, List.take_succ_cons, List.countP_cons, ho1, he, if_true] at this ⊢
              simp only [Bool.false_eq_true, if_false]
              omega
      · rw [if_neg he] at h
        have he1 : isEnd op = false := by simpa using he
        obtain ⟨h1, h2⟩ := ih _ _ h
        constructor
        · simp only [opens, ends, List.countP_cons, ho1, he1] at h1 ⊢
          simp only [Bool.false_eq_true, if_false]
          omega
        · intro n
          cases n with
          | zero => simp [ends, opens]
          | succ n =>
            have := h2 n
            simp only [opens, ends, List.take_succ_cons, List.countP_cons, ho1, he1] at this ⊢
            simp only [Bool.false_eq_true, if_false]
            omega

theorem Keeps.refl (s : PState) : Keeps s s := ⟨rfl, rfl, rfl, rfl⟩

theorem Keeps.trans {a b c : PState} (h1 : Keeps a b) (h2 : Keeps b c) : Keeps a c :=
  ⟨h2.1.trans h1.1, h2.2.1.trans h1.2.1, h2.2.2.1.trans h1.2.2.1, h2.2.2.2.trans h1.2.2.2⟩

theorem Keeps.pop (s : PState) : Keeps s s.Pop := ⟨rfl, rfl, rfl, rfl⟩

theorem Keeps.ext {a b : PState} (h : Keeps a b) : Ext a b :=
  ⟨h.1, h.2.1, h.2.2.1, [], by rw [h.2.2.2, List.append_nil], Balanced_nil⟩

theorem Ext.erefl (s : PState) : Ext s s := (Keeps.refl s).ext

theorem Ext.etrans {a b c : PState} (h1 : Ext a b) (h2 : Ext b c) : Ext a c := by
  obtain ⟨a1, a2, a3, d1, a4, a5⟩ := h1
  obtain ⟨b1, b2, b3, d2, b4, b5⟩ := h2
  exact ⟨b1.trans a1, b2.trans a2, b3.trans a3, d1 ++ d2,
    by rw [b4, a4, List.append_assoc], Balanced_append a5 b5⟩

theorem EXPECTED_keeps {s : PState} {e : TokenID} {err r : Int} {s1 : PState}
    (h : EXPECTED s e err = some (r, s1)) : Keeps s s1 := by
  unfold EXPECTED at h
  split at h
  · simp only [Option.some.injEq, Prod.mk.injEq] at h; rw [← h.2]; exact Keeps.refl s
  · split at h <;>
    · simp only [Option.some.injEq, Prod.mk.injEq] at h; rw [← h.2]; exact Keeps.pop s

theorem WatLabel_keeps (s : PState) : Keeps s (WatLabel s) := by
  unfold WatLabel
  split
  · exact ⟨rfl, rfl, rfl, rfl⟩
  · exact ⟨rfl, rfl, rfl, rfl⟩

theorem CheckLabel_keeps (s : PState) : Keeps s (CheckLabel s).1 := by
  unfold CheckLabel
  split
  · exact Keeps.pop s
  · exact Keeps.refl s

theorem WatBlockType_keeps {s : PState} {r : Int} {s1 : PState} {out : Int}
    (h : WatBlockType s = some (r, s1, out)) : Keeps s s1 := by
  unfold WatBlockType at h
  simp only at h
  split at h
  · simp at h
  · rename_i r0 s0 out0 h0
    have hk0 : Keeps s s0 := by
      clear h
      split at h0
      · split at h0
        · simp at h0
        · rename_i ra sa ha
          have ka := EXPECTED_keeps ha
          split at h0
          · simp only [Option.some.injEq, Prod.mk.injEq] at h0; rw [← h0.2.1]; exact ka
          · split at h0
            · simp at h0
            · rename_i rb sb hb
              have kb := ka.trans (EXPECTED_keeps hb)
              split at h0
              · simp only [Option.some.injEq, Prod.mk.injEq] at h0; rw [← h0.2.1]; exact kb
              · split at h0
                · split at h0
                  · simp only [Option.some.injEq, Prod.mk.injEq] at h0
                    rw [← h0.2.1]; exact kb.trans (Keeps.pop _)
                  · split at h0
                    · simp only [Option.some.injEq, Prod.mk.injEq] at h0
                      rw [← h0.2.1]; exact kb.trans (Keeps.pop _)
                    · split at h0
                      · simp at h0
                      · rename_i rc sc hc
                        simp only [Option.some.injEq, Prod.mk.injEq] at h0
                        rw [← h0.2.1]
                        exact (kb.trans (Keeps.pop _)).trans (EXPECTED_keeps hc)
                · split at h0
                  · simp at h0
                  · rename_i rc sc hc
                    simp only [Option.some.injEq, Prod.mk.injEq] at h0
                    rw [← h0.2.1]
                    exact kb.trans (EXPECTED_keeps hc)
      · simp only [Option.some.injEq, Prod.mk.injEq] at h0; rw [← h0.2.1]; exact Keeps.refl s
    split at h
    · simp only [Option.some.injEq, Prod.mk.injEq] at h; rw [← h.2.1]; exact hk0
    · split at h <;>
      · simp only [Option.some.injEq, Prod.mk.injEq] at h; rw [← h.2.1]; exact hk0

theorem WatBlockOpen_keeps {s : PState} {r : Int} {s1 : PState} {out : Int}
    (h : WatBlockOpen s = some (r, s1, out)) : Keeps s s1 :=
  (WatLabel_keeps s).trans (WatBlockType_keeps h)

theorem keeps2 {s s0 s1 : PState} {r0 r : Int} (h : some (r0, s0) = some (r, s1))
    (k : Keeps s s0) : Keeps s s1 := by
  simp only [Option.some.injEq, Prod.mk.injEq] at h; rw [← h.2]; exact k

theorem keeps3 {α : Type} {s s0 s1 : PState} {r0 r : Int} {x0 x : α}
    (h : some (r0, s0, x0) = some (r, s1, x)) (k : Keeps s s0) : Keeps s s1 := by
  simp only [Option.some.injEq, Prod.mk.injEq] at h; rw [← h.2.1]; exact k

theorem WatValTypeLoop_keeps :
    ∀ fuel s a r s1 a1, WatValTypeLoop fuel s a = some (r, s1, a1) → Keeps s s1 := by
  intro fuel
  induction fuel with
  | zero => intro s a r s1 a1 h; simp [WatValTypeLoop] at h
  | succ n ih =>
    intro s a r s1 a1 h
    unfold WatValTypeLoop at h
    split at h
    · split at h
      split at h
      · exact (Keeps.pop s).trans (ih _ _ _ _ _ h)
      · exact keeps3 h (Keeps.pop s)
    · exact keeps3 h (Keeps.refl s)

theorem WatTypeInner_keeps :
    ∀ fuel s sig names r s1 sig1 names1,
      WatTypeInner fuel s sig names = some (r, s1, sig1, names1) → Keeps s s1 := by
  intro fuel
  induction fuel with
  | zero => intro s sig names r s1 sig1 names1 h; simp [WatTypeInner] at h
  | succ n ih =>
    intro s sig names r s1 sig1 names1 h
    unfold WatTypeInner at h
    simp only at h
    split at h
    · split at h
      · simp at h
      · rename_i ra sa ha
        have ka := EXPECTED_keeps ha
        split at h
        · exact keeps3 h ka
        · have kp : Keeps s sa.Pop := ka.trans (Keeps.pop _)
          split at h
          · split at h
            · split at h
              · exact keeps3 h kp
              · split at h
                · exact keeps3 h (kp.trans ((Keeps.pop _).trans (Keeps.pop _)))
                · split at h
                  · simp at h
                  · rename_i rb sb hb
                    have kb := (kp.trans ((Keeps.pop _).trans (Keeps.pop _))).trans (EXPECTED_keeps hb)
                    split at h
                    · exact keeps3 h kb
                    · exact kb.trans (ih _ _ _ _ _ _ _ h)
            · split at h
              · simp at h
              · rename_i rb sb ps hb
                have kb := kp.trans (WatValTypeLoop_keeps _ _ _ _ _ _ hb)
                split at h
                · exact keeps3 h kb
                · split at h
                  · simp at h
                  · rename_i rc sc hc
                    have kc := kb.trans (EXPECTED_keeps hc)
                    split at h
                    · exact keeps3 h kc
                    · exact kc.trans (ih _ _ _ _ _ _ _ h)
          · split at h
            · simp at h
            · rename_i rb sb ps hb
              have kb := kp.trans (WatValTypeLoop_keeps _ _ _ _ _ _ hb)
              split at h
              · exact keeps3 h kb
              · split at h
                · simp at h
                · rename_i rc sc hc
                  have kc := kb.trans (EXPECTED_keeps hc)
                  split at h
                  · exact keeps3 h kc
                  · exact kc.trans (ih _ _ _ _ _ _ _ h)
          · exact keeps3 h kp
    · exact keeps3 h (Keeps.refl s)

theorem keeps4 {α β : Type} {s s0 s1 : PState} {r0 r : Int} {x0 x : α} {y0 y : β}
    (h : some (r0, s0, x0, y0) = some (r, s1, x, y)) (k : Keeps s s0) : Keeps s s1 := by
  simp only [Option.some.injEq, Prod.mk.injEq] at h; rw [← h.2.1]; exact k

theorem Keeps.pushType (s : PState) (sig : FunctionSig) : Keeps s (s.pushType sig) :=
  ⟨rfl, rfl, rfl, rfl⟩

theorem WatFuncType_keeps {fuel : Nat} {s : PState} {names : Option (List (Option (List Nat)))}
    {r : Int} {s1 : PState} {sig : Nat} {names1 : Option (List (Option (List Nat)))}
    (h : WatFuncType fuel s names = some (r, s1, sig, names1)) : Keeps s s1 := by
  unfold WatFuncType at h
  simp only at h
  split at h
  · simp at h
  · rename_i r0 s0 sig0 h0
    have hk0 : Keeps s s0 := by
      clear h
      split at h0
      · split at h0
        · simp at h0
        · rename_i ra sa ha
          have ka := EXPECTED_keeps ha
          split at h0
          · exact keeps3 h0 ka
          · split at h0
            · simp at h0
            · rename_i rb sb hb
              have kb := ka.trans (EXPECTED_keeps hb)
              split at h0
              · exact keeps3 h0 kb
              · split at h0
                · exact keeps3 h0 kb
                · split at h0
                  · exact keeps3 h0 (kb.trans (Keeps.pop _))
                  · split at h0
                    · simp at h0
                    · rename_i rc sc hc
                      exact keeps3 h0 ((kb.trans (Keeps.pop _)).trans (EXPECTED_keeps hc))
      · exact keeps3 h0 (Keeps.refl s)
    split at h
    · exact keeps4 h hk0
    · split at h
      · split at h
        · simp at h
        · rename_i ra sa func na ha
          have ka := hk0.trans (WatTypeInner_keeps _ _ _ _ _ _ _ _ ha)
          split at h
          · split at h
            · simp at h
            · split at h
              · exact keeps4 h ka
              · exact keeps4 h ka
          · split at h
            · exact keeps4 h (ka.trans (Keeps.pushType _ _))
            · exact keeps4 h ka
      · exact keeps4 h hk0

theorem WatConstantOperator_spec (s : PState) (op : Instruction) :
    Keeps s (WatConstantOperator s op).2.1 ∧ (WatConstantOperator s op).2.2.opcode = op.opcode := by
  unfold WatConstantOperator
  split
  · split
    · exact ⟨Keeps.refl s, rfl⟩
    · exact ⟨Keeps.pop s, rfl⟩
  · split
    · split
      · exact ⟨Keeps.refl s, rfl⟩
      · exact ⟨Keeps.pop s, rfl⟩
    · split
      · split
        · exact ⟨Keeps.pop s, rfl⟩
        · split
          · exact ⟨Keeps.pop s, rfl⟩
          · exact ⟨Keeps.refl s, rfl⟩
      · split
        · simp only
          split
          · exact ⟨Keeps.pop s, rfl⟩
          · exact ⟨Keeps.pop s, rfl⟩
        · exact ⟨Keeps.refl s, rfl⟩

theorem WatMemOffset_spec (s : PState) (op : Instruction) :
    Keeps s (WatMemOffset s op).2.1 ∧ (WatMemOffset s op).2.2.opcode = op.opcode := by
  unfold WatMemOffset
  split
  · split
    · exact ⟨Keeps.pop s, rfl⟩
    · exact ⟨(Keeps.pop s).trans (Keeps.pop _), rfl⟩
  · exact ⟨Keeps.refl s, rfl⟩

theorem WatMemAlign_spec (s : PState) (op : Instruction) :
    Keeps s (WatMemAlign s op).2.1 ∧ (WatMemAlign s op).2.2.opcode = op.opcode := by
  unfold WatMemAlign
  split
  · split
    · exact ⟨Keeps.pop s, rfl⟩
    · split
      · exact ⟨Keeps.pop s, rfl⟩
      · split
        · exact ⟨(Keeps.pop s).trans (Keeps.pop _), rfl⟩
        · exact ⟨(Keeps.pop s).trans (Keeps.pop _), rfl⟩
  · exact ⟨Keeps.refl s, rfl⟩

theorem WatMemArg_spec (s : PState) (op : Instruction) :
    Keeps s (WatMemArg s op).2.1 ∧ (WatMemArg s op).2.2.opcode = op.opcode := by
  unfold WatMemArg
  split
  · exact WatMemOffset_spec s op
  · have h1 := WatMemOffset_spec s op
    have h2 := WatMemAlign_spec (WatMemOffset s op).2.1 (WatMemOffset s op).2.2
    exact ⟨h1.1.trans h2.1, h2.2.trans h1.2⟩

theorem Adds.push {s s0 : PState} (k : Keeps s s0) (op1 : Instruction) :
    Adds s (s0.pushInstr op1) op1.opcode :=
  ⟨k.1, k.2.1, k.2.2.1, op1, by show s0.f.body ++ [op1] = _; rw [k.2.2.2], rfl⟩

theorem adds2 {s s0 s1 : PState} {r : Int} {opc : Nat} (h : some (ERR_SUCCESS, s0) = some (r, s1))
    (k : Adds s s0 opc) : Adds s s1 opc := by
  simp only [Option.some.injEq, Prod.mk.injEq] at h; rw [← h.2]; exact k

theorem Keeps.pushDefer (s : PState) (d : DeferAction) : Keeps s (s.pushDefer d) :=
  ⟨rfl, rfl, rfl, rfl⟩

theorem WatBrTableLoop_keeps {fuel : Nat} {s : PState} {tbl : List Nat} {s1 : PState} {tbl1 : List Nat}
    (h : WatBrTableLoop fuel s tbl = some (ERR_SUCCESS, s1, tbl1)) : Keeps s s1 := by
  revert s tbl
  induction fuel with
  | zero => intro s tbl h; simp [WatBrTableLoop] at h
  | succ n ih =>
    intro s tbl h
    unfold WatBrTableLoop at h
    split at h
    · simp at h
    · split at h
      · simp at h
      · split at h
        · exact (Keeps.pop s).trans (ih h)
        · exact keeps3 h (Keeps.pop s)

theorem WatOperatorSwitch_spec {fuel : Nat} {s1 : PState} {op : Instruction} {sig index : Nat}
    {s2 : PState} (h : WatOperatorSwitch fuel s1 op sig index = some (ERR_SUCCESS, s2)) :
    Adds s1 s2 op.opcode := by
  unfold WatOperatorSwitch at h
  split at h
  · simp at h
  split at h
  · split at h
    · simp at h
    · split at h
      · simp at h
      · exact adds2 h (Adds.push (Keeps.pop s1) _)
  split at h
  · split at h
    · split at h
      · simp at h
      · exact adds2 h (Adds.push (Keeps.pop s1) _)
    · simp at h
  split at h
  · exact adds2 h (Adds.push ((Keeps.pop s1).trans (Keeps.pushDefer _ _)) _)
  split at h
  · have hc := WatConstantOperator_spec s1 op
    split at h
    rename_i r s3 op1 hco
    rw [hco] at hc
    split at h
    · simp only [Option.some.injEq, Prod.mk.injEq] at h
      rename_i hr
      exact absurd h.1.symm (by intro hc2; exact hr hc2.symm)
    · have := adds2 h (Adds.push hc.1 op1)
      rw [hc.2] at this
      exact this
  split at h
  · split at h
    · simp at h
    · rename_i r s3 tbl hl
      split at h
      · simp only [Option.some.injEq, Prod.mk.injEq] at h
        rename_i hr
        exact absurd h.1.symm (by intro hc2; exact hr hc2.symm)
      · rename_i hr
        have hr0 : r = ERR_SUCCESS := by
          by_contra hc; exact hr hc
        subst hr0
        exact adds2 h (Adds.push (WatBrTableLoop_keeps hl) _)
  split at h
  · split at h
    · simp at h
    · rename_i r s3 sg nm hl
      split at h
      · simp only [Option.some.injEq, Prod.mk.injEq] at h
        rename_i hr
        exact absurd h.1.symm (by intro hc2; exact hr hc2.symm)
      · exact adds2 h (Adds.push (WatFuncType_keeps hl) _)
  split at h
  · have hc := WatMemArg_spec s1 op
    split at h
    rename_i r s3 op1 hco
    rw [hco] at hc
    split at h
    · simp only [Option.some.injEq, Prod.mk.injEq] at h
      rename_i hr
      exact absurd h.1.symm (by intro hc2; exact hr hc2.symm)
    · have := adds2 h (Adds.push hc.1 op1)
      rw [hc.2] at this
      exact this
  · exact adds2 h (Adds.push (Keeps.refl s1) _)

/-- The token at the read position, as an element of the array. -/
theorem Peek_eq (s : PState) : s.Peek = s.tokens.toks.getD s.tokens.pos { id := TOKEN_NONE } := rfl

theorem Peek_mem {s : PState} (h : s.Peek.id ≠ TOKEN_NONE) : s.Peek ∈ s.tokens.toks := by
  rw [Peek_eq] at h ⊢
  rw [List.getD_eq_getElem?_getD] at h ⊢
  cases hg : s.tokens.toks[s.tokens.pos]? with
  | none => rw [hg] at h; exact absurd rfl h
  | some t =>
    simp only [Option.getD_some]
    exact List.getElem?_mem hg

/-- An accepted operator adds one instruction, whose opcode is the payload of the operator
token at the read position. -/
theorem WatOperator_spec {fuel : Nat} {s : PState} {sig index : Nat} {s1 : PState}
    (h : WatOperator fuel s sig index = some (ERR_SUCCESS, s1)) :
    s.Peek.id = TOKEN_OPERATOR ∧ s.Peek ∈ s.tokens.toks ∧ Adds s s1 (s.Peek.i % 256).toNat := by
  unfold WatOperator at h
  split at h
  · simp at h
  rename_i hid
  have hid1 : s.Peek.id = TOKEN_OPERATOR := by
    by_contra hc; exact hid hc
  split at h
  · simp at h
  have := WatOperatorSwitch_spec h
  refine ⟨hid1, Peek_mem (by rw [hid1]; decide), ?_⟩
  obtain ⟨a1, a2, a3, op1, a4, a5⟩ := this
  exact ⟨a1, a2, a3, op1, a4, a5⟩

theorem andThen_ok {x : Res} {k : PState → Res} {s1 : PState} (h : andThen x k = some (0, s1)) :
    ∃ s0, x = some (0, s0) ∧ k s0 = some (0, s1) := by
  unfold andThen at h
  split at h
  · simp at h
  · rename_i r s0
    split at h
    · rename_i hr; subst hr; exact ⟨s0, rfl, h⟩
    · rename_i hr
      simp only [Option.some.injEq, Prod.mk.injEq] at h
      exact absurd h.1 hr

theorem Adds.toExt {s s1 : PState} {opc : Nat} (h : Adds s s1 opc) (hb : isBlockOpcode opc = false) :
    Ext s s1 := by
  obtain ⟨a1, a2, a3, op1, a4, a5⟩ := h
  exact ⟨a1, a2, a3, [op1], a4, Balanced_single (by rw [a5]; exact hb)⟩

theorem Ext.epush {s : PState} (op : Instruction) (hb : isBlockOpcode op.opcode = false) :
    Ext s (s.pushInstr op) :=
  ⟨rfl, rfl, rfl, [op], rfl, Balanced_single hb⟩

/-- Closing a block: the opener, a balanced stream and the `end`. -/
theorem Ext.wrap {s s0 s2 : PState} {op : Instruction} (h0 : Ext s s0) (ho : isOpener op = true)
    (h2 : Ext (s0.pushInstr op) s2) :
    Ext s ((s2.pushInstr { opcode := OP_end }).popLabel) := by
  obtain ⟨a1, a2, a3, d0, a4, a5⟩ := h0
  obtain ⟨b1, b2, b3, d2, b4, b5⟩ := h2
  refine ⟨b1.trans a1, b2.trans a2, b3.trans a3, d0 ++ (([op] ++ d2) ++ [{ opcode := OP_end }]), ?_,
    Balanced_append a5 (Balanced_wrap ho b5)⟩
  show s2.f.body ++ [{ opcode := OP_end }] = _
  rw [b4]
  show (s0.f.body ++ [op]) ++ d2 ++ [{ opcode := OP_end }] = _
  rw [a4]
  simp only [List.append_assoc]

theorem WatOperator_ext {toks : List Token} (hops : OpsOk toks) {fuel : Nat} {s : PState}
    {sig index : Nat} {s1 : PState} (ht : s.tokens.toks = toks)
    (h : WatOperator fuel s sig index = some (ERR_SUCCESS, s1)) : Ext s s1 := by
  obtain ⟨h1, h2, h3⟩ := WatOperator_spec h
  exact h3.toExt (hops _ (ht ▸ h2) h1)

theorem opener_block (c : Prop) [Decidable c] (bt : Int) :
    isOpener { opcode := if c then OP_block else OP_loop, imm0 := bt } = true := by
  by_cases h : c
  · simp only [if_pos h]; rfl
  · simp only [if_neg h]; rfl

theorem parse_ext (toks : List Token) (hops : OpsOk toks) : ∀ fuel,
    (∀ s sig index s1, s.tokens.toks = toks →
      WatInstruction fuel s sig index = some (ERR_SUCCESS, s1) → Ext s s1) ∧
    (∀ s sig index s1, s.tokens.toks = toks →
      WatExpression fuel s sig index = some (ERR_SUCCESS, s1) → Ext s s1) ∧
    (∀ stop s sig index s1, s.tokens.toks = toks →
      WatInstructionLoop fuel stop s sig index = some (ERR_SUCCESS, s1) → Ext s s1) ∧
    (∀ s sig index s1, s.tokens.toks = toks →
      WatConditionLoop fuel s sig index = some (ERR_SUCCESS, s1) → Ext s s1) ∧
    (∀ s sig index s1, s.tokens.toks = toks →
      WatExpressionLoop fuel s sig index = some (ERR_SUCCESS, s1) → Ext s s1) := by
  intro fuel
  induction fuel with
  | zero =>
    refine ⟨?_, ?_, ?_, ?_, ?_⟩
    · intro s sig index s1 _ h; simp [WatInstruction] at h
    · intro s sig index s1 _ h; simp [WatExpression] at h
    · intro stop s sig index s1 _ h; simp [WatInstructionLoop] at h
    · intro s sig index s1 _ h; simp [WatConditionLoop] at h
    · intro s sig index s1 _ h; simp [WatExpressionLoop] at h
  | succ n ih =>
    obtain ⟨ihI, ihE, ihL, ihC, ihX⟩ := ih
    -- a flat or folded block: what follows `WatBlockOpen`
    have flatBlock : ∀ (s s0 : PState) (sig index : Nat) (op : Instruction) (s1 : PState),
        s.tokens.toks = toks → Keeps s s0 → isOpener op = true →
        (andThen (WatInstructionLoop n [TOKEN_END] (s0.pushInstr op) sig index) fun s2 =>
          andThen (EXPECTED s2 TOKEN_END ERR_WAT_EXPECTED_END) fun s3 =>
          if (CheckLabel s3).2 then some (1, (CheckLabel s3).1)
          else some (ERR_SUCCESS, (((CheckLabel s3).1).pushInstr { opcode := OP_end }).popLabel))
          = some (ERR_SUCCESS, s1) → Ext s s1 := by
      intro s s0 sig index op s1 ht k0 ho h
      obtain ⟨s2, h2, h⟩ := andThen_ok h
      obtain ⟨s3, h3, h⟩ := andThen_ok h
      have e2 := ihL _ _ _ _ _ (by show s0.tokens.toks = toks; rw [k0.2.1, ht]) h2
      have k3 := EXPECTED_keeps h3
      split at h
      · simp at h
      · simp only [Option.some.injEq, Prod.mk.injEq, true_and] at h
        rw [← h]
        exact Ext.wrap k0.ext ho (e2.etrans (k3.trans (CheckLabel_keeps s3)).ext)
    refine ⟨?_, ?_, ?_, ?_, ?_⟩
    · -- WatInstruction
      intro s sig index s1 ht h
      rw [WatInstruction] at h
      split at h
      · exact ihE _ _ _ _ ht h
      · split at h
        · simp at h
        · rename_i r s0 bt hopen
          split at h
          · simp only [Option.some.injEq, Prod.mk.injEq] at h
            rename_i hr
            exact absurd h.1 hr
          · exact flatBlock s s0 sig index _ s1 ht ((Keeps.pop s).trans (WatBlockOpen_keeps hopen))
              (opener_block _ _) h
      · split at h
        · simp at h
        · rename_i r s0 bt hopen
          split at h
          · simp only [Option.some.injEq, Prod.mk.injEq] at h
            rename_i hr
            exact absurd h.1 hr
          · exact flatBlock s s0 sig index _ s1 ht ((Keeps.pop s).trans (WatBlockOpen_keeps hopen))
              (opener_block _ _) h
      · split at h
        · simp at h
        · rename_i r s0 bt hopen
          split at h
          · simp only [Option.some.injEq, Prod.mk.injEq] at h
            rename_i hr
            exact absurd h.1 hr
          · have k0 : Keeps s s0 := (Keeps.pop s).trans (WatBlockOpen_keeps hopen)
            have ht0 : s0.tokens.toks = toks := by rw [k0.2.1, ht]
            simp only at h
            obtain ⟨s2, h2, h⟩ := andThen_ok h
            have e2 := ihL _ _ _ _ _ (by show s0.tokens.toks = toks; exact ht0) h2
            obtain ⟨s4, h4, h⟩ := andThen_ok h
            have e4 : Ext s2 s4 := by
              split at h4
              · split at h4
                · simp at h4
                · obtain ⟨s3, h3, h4⟩ := andThen_ok h4
                  have kc := (Keeps.pop s2).trans (CheckLabel_keeps s2.Pop)
                  have e3 := ihL _ _ _ _ _
                    (by show (CheckLabel s2.Pop).1.tokens.toks = toks
                        rw [kc.2.1, e2.2.1]; exact ht0) h3
                  exact ((kc.ext.etrans (Ext.epush _ (by decide))).etrans e3).etrans
                    (EXPECTED_keeps h4).ext
              · simp only [Option.some.injEq, Prod.mk.injEq, true_and] at h4
                rw [← h4]; exact (Keeps.pop s2).ext
            split at h
            · simp at h
            · simp only [Option.some.injEq, Prod.mk.injEq, true_and] at h
              rw [← h]
              exact Ext.wrap k0.ext (by rfl) ((e2.etrans e4).etrans (CheckLabel_keeps s4).ext)
      · exact WatOperator_ext hops ht h
    · -- WatExpression
      intro s sig index s1 ht h
      rw [WatExpression] at h
      split at h
      · simp at h
      · obtain ⟨s2, h2, h⟩ := andThen_ok h
        exact (ihX _ _ _ _ ht h2).etrans (EXPECTED_keeps h).ext
    · -- WatInstructionLoop
      intro stop s sig index s1 ht h
      rw [WatInstructionLoop] at h
      split at h
      · simp only [Option.some.injEq, Prod.mk.injEq, true_and] at h
        rw [← h]; exact Ext.erefl s
      · obtain ⟨s2, h2, h⟩ := andThen_ok h
        have e2 := ihI _ _ _ _ ht h2
        exact e2.etrans (ihL _ _ _ _ _ (by rw [e2.2.1, ht]) h)
    · -- WatConditionLoop
      intro s sig index s1 ht h
      rw [WatConditionLoop] at h
      split at h
      · obtain ⟨s2, h2, h⟩ := andThen_ok h
        have e2 := ihE _ _ _ _ ht h2
        exact e2.etrans (ihC _ _ _ _ (by rw [e2.2.1, ht]) h)
      · simp only [Option.some.injEq, Prod.mk.injEq, true_and] at h
        rw [← h]; exact Ext.erefl s
    · -- WatExpressionLoop
      intro s sig index s1 ht h
      rw [WatExpressionLoop] at h
      split at h
      · obtain ⟨sa, ha, h⟩ := andThen_ok h
        have ka := EXPECTED_keeps ha
        have hta : sa.tokens.toks = toks := by rw [ka.2.1, ht]
        simp only at h
        obtain ⟨sb, hb, h⟩ := andThen_ok h
        have eb : Ext sa sb := by
          have foldedBlock : ∀ (s0 : PState) (op : Instruction), Keeps sa s0 → isOpener op = true →
              (andThen (WatInstructionLoop n [TOKEN_CLOSE] (s0.pushInstr op) sig index) fun s2 =>
                some (ERR_SUCCESS, (s2.pushInstr { opcode := OP_end }).popLabel))
                = some (ERR_SUCCESS, sb) → Ext sa sb := by
            intro s0 op k0 ho h
            obtain ⟨s2, h2, h⟩ := andThen_ok h
            have e2 := ihL _ _ _ _ _ (by show s0.tokens.toks = toks; rw [k0.2.1, hta]) h2
            simp only [Option.some.injEq, Prod.mk.injEq, true_and] at h
            rw [← h]
            exact Ext.wrap k0.ext ho e2
          split at hb
          · split at hb
            · simp at hb
            · rename_i r s0 bt hopen
              split at hb
              · simp only [Option.some.injEq, Prod.mk.injEq] at hb
                rename_i hr
                exact absurd hb.1 hr
              · exact foldedBlock s0 _ ((Keeps.pop sa).trans (WatBlockOpen_keeps hopen))
                  (opener_block _ _) hb
          · split at hb
            · simp at hb
            · rename_i r s0 bt hopen
              split at hb
              · simp only [Option.some.injEq, Prod.mk.injEq] at hb
                rename_i hr
                exact absurd hb.1 hr
              · exact foldedBlock s0 _ ((Keeps.pop sa).trans (WatBlockOpen_keeps hopen))
                  (opener_block _ _) hb
          · split at hb
            · simp at hb
            · rename_i r s0 bt hopen
              split at hb
              · simp only [Option.some.injEq, Prod.mk.injEq] at hb
                rename_i hr
                exact absurd hb.1 hr
              · have k0 : Keeps sa s0 := (Keeps.pop sa).trans (WatBlockOpen_keeps hopen)
                have ht0 : s0.tokens.toks = toks := by rw [k0.2.1, hta]
                obtain ⟨s2, h2, hb⟩ := andThen_ok hb
                have e2 := ihC _ _ _ _ ht0 h2
                have ht2 : s2.tokens.toks = toks := by rw [e2.2.1, ht0]
                obtain ⟨s3, h3, hb⟩ := andThen_ok hb
                have k3 := EXPECTED_keeps h3
                obtain ⟨s4, h4, hb⟩ := andThen_ok hb
                have k4 := k3.trans (EXPECTED_keeps h4)
                obtain ⟨s5, h5, hb⟩ := andThen_ok hb
                have e5 := ihL _ _ _ _ _ (by rw [k4.2.1]; exact ht2) h5
                obtain ⟨s6, h6, hb⟩ := andThen_ok hb
                have e6 := (k4.ext.etrans e5).etrans (EXPECTED_keeps h6).ext
                obtain ⟨s10, h10, hb⟩ := andThen_ok hb
                have e10 : Ext s6 s10 := by
                  split at h10
                  · obtain ⟨s7, h7, h10⟩ := andThen_ok h10
                    obtain ⟨s8, h8, h10⟩ := andThen_ok h10
                    have k8 := (EXPECTED_keeps h7).trans (EXPECTED_keeps h8)
                    obtain ⟨s9, h9, h10⟩ := andThen_ok h10
                    have e9 := ihL _ _ _ _ _
                      (by show s8.tokens.toks = toks
                          rw [k8.2.1, e6.2.1]; exact ht2) h9
                    exact ((k8.ext.etrans (Ext.epush _ (by decide))).etrans e9).etrans
                      (EXPECTED_keeps h10).ext
                  · simp only [Option.some.injEq, Prod.mk.injEq, true_and] at h10
                    rw [← h10]; exact Ext.erefl s6
                simp only [Option.some.injEq, Prod.mk.injEq, true_and] at hb
                rw [← hb]
                exact Ext.wrap (k0.ext.etrans e2) (by rfl) (e6.etrans e10)
          · exact WatOperator_ext hops hta hb
        have e1 := ka.ext.etrans eb
        exact e1.etrans (ihX _ _ _ _ (by rw [e1.2.1, ht]) h)
      · simp only [Option.some.injEq, Prod.mk.injEq, true_and] at h
        rw [← h]; exact Ext.erefl s

theorem WatAppendImport_funcbody {m : Module} {i : Import} {r : Int} {m1 : Module} {index : Nat}
    (h : WatAppendImport m i = some (r, m1, index)) : m1.funcbody = m.funcbody := by
  unfold WatAppendImport at h
  split at h
  · simp only [Option.some.injEq, Prod.mk.injEq] at h; rw [← h.2.1]
  · simp only at h
    split at h
    · simp at h
    · simp only [Option.some.injEq, Prod.mk.injEq] at h; rw [← h.2.1]

theorem Keeps.setModule {s : PState} {m : Module} (h : m.funcbody = s.state.m.funcbody) :
    Keeps s (s.setModule m) := ⟨rfl, rfl, h, rfl⟩

theorem WatInlineExport_keeps {s : PState} {index kind : Nat} {r : Int} {s1 : PState}
    {index1 : Nat} {out : Option Nat}
    (h : WatInlineExport s index kind = some (r, s1, index1, out)) : Keeps s s1 := by
  unfold WatInlineExport at h
  split at h
  · cases h
  · rename_i ra sa ha
    have ka := EXPECTED_keeps ha
    split at h
    · exact keeps4 h ka
    · split at h
      · cases h
      · rename_i rb sb hb
        have kb := ka.trans (EXPECTED_keeps hb)
        split at h
        · exact keeps4 h kb
        · split at h
          · exact keeps4 h (kb.trans (Keeps.pop _))
          · split at h
            · cases h
            · rename_i rc sc hc
              have kc := EXPECTED_keeps hc
              refine keeps4 h (kb.trans (Keeps.trans ?_ kc))
              exact ⟨rfl, rfl, rfl, rfl⟩

theorem WatInlineImport_keeps {s : PState} {index kind : Nat} {r : Int} {s1 : PState}
    {index1 : Nat} {out : Option Nat}
    (h : WatInlineImport s index kind = some (r, s1, index1, out)) : Keeps s s1 := by
  unfold WatInlineImport at h
  split at h
  · cases h
  · rename_i ra sa ha
    have ka := EXPECTED_keeps ha
    split at h
    · exact keeps4 h ka
    · split at h
      · cases h
      · rename_i rb sb hb
        have kb := ka.trans (EXPECTED_keeps hb)
        split at h
        · exact keeps4 h kb
        · split at h
          · exact keeps4 h (kb.trans (Keeps.pop _))
          · split at h
            · exact keeps4 h (kb.trans ((Keeps.pop _).trans (Keeps.pop _)))
            · split at h
              · cases h
              · rename_i rc m1 idx hc
                have km : Keeps sb (sb.Pop.Pop.setModule m1) :=
                  ⟨rfl, rfl, WatAppendImport_funcbody hc, rfl⟩
                split at h
                · exact keeps4 h (kb.trans km)
                · split at h
                  · cases h
                  · rename_i rd sd hd
                    exact keeps4 h ((kb.trans km).trans (EXPECTED_keeps hd))

theorem WatInlineImportExport_keeps {s : PState} {index kind : Nat} {r : Int} {s1 : PState}
    {index1 : Nat} {out : Option Nat}
    (h : WatInlineImportExport s index kind = some (r, s1, index1, out)) : Keeps s s1 := by
  unfold WatInlineImportExport at h
  split at h
  · exact WatInlineExport_keeps h
  · split at h
    · exact WatInlineImport_keeps h
    · exact keeps4 h (Keeps.refl s)

theorem WatLocalsLoop_keeps :
    ∀ fuel s s1, WatLocalsLoop fuel s = some (ERR_SUCCESS, s1) → Keeps s s1 := by
  intro fuel
  induction fuel with
  | zero => intro s s1 h; simp [WatLocalsLoop] at h
  | succ n ih =>
    intro s s1 h
    unfold WatLocalsLoop at h
    split at h
    · obtain ⟨sa, ha, h⟩ := andThen_ok h
      obtain ⟨sb, hb, h⟩ := andThen_ok h
      have kb := (EXPECTED_keeps ha).trans (EXPECTED_keeps hb)
      simp only at h
      obtain ⟨sc, hc, h⟩ := andThen_ok h
      have kc : Keeps sb sc := by
        split at hc
        · split at hc
          · simp at hc
          · simp only [Option.some.injEq, Prod.mk.injEq, true_and] at hc
            rw [← hc]; exact ⟨rfl, rfl, rfl, rfl⟩
        · simp only [Option.some.injEq, Prod.mk.injEq, true_and] at hc
          rw [← hc]; exact Keeps.refl sb
      split at h
      · simp at h
      · obtain ⟨sd, hd, h⟩ := andThen_ok h
        have kd : Keeps sc sd :=
          Keeps.trans (b := { sc.Pop with f := { sc.f with
            locals := sc.f.locals ++ [(WatValType sc.Peek.id % 256).toNat] } })
            ⟨rfl, rfl, rfl, rfl⟩ (EXPECTED_keeps hd)
        exact ((kb.trans kc).trans kd).trans (ih _ _ h)
    · simp only [Option.some.injEq, Prod.mk.injEq, true_and] at h
      rw [← h]; exact Keeps.refl s

/-- What `WatFunctionBody` adds to the code section when it succeeds. -/
theorem WatFunctionBody_spec {fuel : Nat} {s : PState} {sig index : Nat} {s1 : PState} {index1 : Nat}
    (hops : OpsOk s.tokens.toks) (hbody : s.f.body = [])
    (h : WatFunctionBody fuel s sig index = some (ERR_SUCCESS, s1, index1)) :
    ∃ body core, s1.state.m.funcbody = s.state.m.funcbody ++ [body] ∧
      body.body = core ++ [{ opcode := OP_end }] ∧ Balanced core := by
  unfold WatFunctionBody at h
  split at h
  · cases h
  · rename_i rc sc hc
    split at h
    · simp only [Option.some.injEq, Prod.mk.injEq] at h
      rename_i hr
      exact absurd h.1 hr
    · rename_i hrc
      have hrc0 : rc = ERR_SUCCESS := by
        by_contra hx; exact hrc hx
      subst hrc0
      have kc := WatLocalsLoop_keeps _ _ _ hc
      split at h
      · cases h
      · rename_i rd sd hd
        split at h
        · simp only [Option.some.injEq, Prod.mk.injEq] at h
          rename_i hr
          exact absurd h.1 hr
        · rename_i hrd
          have hrd0 : rd = ERR_SUCCESS := by
            by_contra hx; exact hrd hx
          subst hrd0
          have ed := (parse_ext s.tokens.toks hops fuel).2.2.1 _ _ _ _ _ kc.2.1 hd
          obtain ⟨d1, d2, d3, core, d4, d5⟩ := ed
          rw [kc.2.2.2, hbody, List.nil_append] at d4
          simp only [Option.some.injEq, Prod.mk.injEq, true_and] at h
          refine ⟨(sd.pushInstr { opcode := OP_end }).f, core, ?_, ?_, d5⟩
          · rw [← h.1]
            show sd.state.m.funcbody ++ _ = _
            rw [d3, kc.2.2.1]
          · show sd.f.body ++ _ = _
            rw [d4]

/-- C8 (amended).  When `WatFunction` accepts a function definition whose operator tokens
carry no block opcode (the lexer makes `block`, `loop`, `if` and `end` reserved words),
then either no body is added (an inline import) or the body added to the code section is
a stream `core` followed by the `end` that closes the function: in `core` the number of
`end` instructions equals the number of `block`, `loop` and `if` instructions and no
prefix of `core` has more `end`s than openers; the whole body has one `end` more than
it has openers. -/
theorem C8_function_body_nesting (fuel : Nat) (s : PState) (name : StringRef) (s1 : PState)
    (index : Nat) (hops : OpsOk s.tokens.toks)
    (h : WatFunction fuel s name = some (ERR_SUCCESS, s1, index)) :
    s1.state.m.funcbody = s.state.m.funcbody ∨
    ∃ body core, s1.state.m.funcbody = s.state.m.funcbody ++ [body] ∧
      body.body = core ++ [{ opcode := OP_end }] ∧
      ends core = opens core ∧ (∀ n, ends (core.take n) ≤ opens (core.take n)) ∧
      ends body.body = opens body.body + 1 := by
  unfold WatFunction at h
  split at h
  · cases h
  · rename_i r sa idx out ha
    have ka := WatInlineImportExport_keeps ha
    split at h
    · simp only [Option.some.injEq, Prod.mk.injEq] at h
      rename_i hr
      exact absurd h.1 hr
    · split at h
      · -- an inline import
        left
        split at h
        · cases h
        · rename_i rb sb sig names hb
          have kb := WatFuncType_keeps hb
          simp only [Option.some.injEq, Prod.mk.injEq] at h
          rw [← h.2.1]
          show sb.state.m.funcbody = _
          rw [kb.2.2.1, ka.2.2.1]
      · -- a definition
        right
        unfold WatFunctionDef at h
        split at h
        · cases h
        · rename_i rb sb sig names hb
          have kb := WatFuncType_keeps hb
          split at h
          · simp only [Option.some.injEq, Prod.mk.injEq] at h
            rename_i hr
            exact absurd h.1 hr
          · split at h
            · simp only [Option.some.injEq, Prod.mk.injEq] at h
              rename_i hr
              exact absurd h.1 hr.2
            · have htoks : sb.tokens.toks = s.tokens.toks := by
                rw [kb.2.1]
                show sa.tokens.toks = _
                rw [ka.2.1]
              obtain ⟨body, core, h1, h2, h3⟩ := WatFunctionBody_spec
                (s := { sb with f := { sb.f with
                  param_names := names.getD [],
                  debug_name :=
                    if name.len > 0 then (WatString sb.buf sb.f.debug_name name).2
                    else sb.f.debug_name } })
                (by show OpsOk sb.tokens.toks; rw [htoks]; exact hops)
                (by show sb.f.body = []; rw [kb.2.2.2]) h
              obtain ⟨hc1, hc2⟩ := scanDepth_counts core 0 0 h3
              refine ⟨body, core, ?_, h2, by omega, fun n => by simpa using hc2 n, ?_⟩
              · rw [h1]
                show sb.state.m.funcbody ++ _ = _
                rw [kb.2.2.1]
                show sa.state.m.funcbody ++ _ = _
                rw [ka.2.2.1]
              · rw [h2]
                simp only [ends, opens, List.countP_append] at hc1 ⊢
                have e1 : List.countP isEnd [({ opcode := OP_end } : Instruction)] = 1 := by decide
                have e2 : List.countP isOpener [({ opcode := OP_end } : Instruction)] = 0 := by decide
                rw [e1, e2]
                omega

theorem tokenhash_no_operator : ∀ e ∈ tokenhash, e.2 ≠ TOKEN_OPERATOR := by decide!

theorem opnames_block_reserved :
    ∀ e ∈ opnames, isBlockOpcode (((e.2 : Nat) : Int) % 256).toNat = true →
      lookupToken (bytes e.1) ≠ none := by decide!

theorem OpsOk.snoc {toks : List Token} {t : Token} (h : OpsOk toks) (ht : TokOk t) :
    OpsOk (toks ++ [t]) := by
  intro x hx
  rcases List.mem_append.mp hx with h1 | h1
  · exact h x h1
  · have : x = t := by simpa using h1
    subst this; exact ht

theorem lexWord_ok (buf : List Nat) (p : Nat) : TokOk (lexWord buf p).1 := by
  unfold lexWord
  simp only
  split
  · rename_i id hl
    intro hid
    simp only at hid
    unfold lookupToken at hl
    split at hl
    · rename_i e he
      simp only [Option.some.injEq] at hl
      have hm := List.mem_of_find?_eq_some he
      exact absurd (hl ▸ hid) (tokenhash_no_operator e hm)
    · cases hl
  · rename_i hl
    split
    · intro _
      simp only
      unfold GetInstruction
      split
      · rename_i e he
        have hm := List.mem_of_find?_eq_some he
        have hp := List.find?_some he
        simp only [decide_eq_true_eq] at hp
        cases hb : isBlockOpcode (((e.2 : Nat) : Int) % 256).toNat with
        | false => rfl
        | true =>
          have := opnames_block_reserved e hm hb
          rw [hp] at this
          exact absurd hl this
      · decide
    · intro hid
      simp only at hid
      cases hid

theorem lexNumber_ok (buf numbuf : List Nat) (p : Nat) : TokOk (lexNumber buf numbuf p).1 := by
  unfold lexNumber
  split
  · intro hid; simp only at hid; cases hid
  · split
    · intro hid; simp only at hid; cases hid
    · exact lexWord_ok buf p

theorem TokenizeLoop_ok (buf : List Nat) :
    ∀ fuel p toks numbuf toks1 numbuf1, OpsOk toks →
      TokenizeLoop buf fuel p toks numbuf = some (toks1, numbuf1) → OpsOk toks1 := by
  intro fuel
  induction fuel with
  | zero => intro p toks numbuf toks1 numbuf1 _ h; simp [TokenizeLoop] at h
  | succ n ih =>
    intro p toks numbuf toks1 numbuf1 hok h
    unfold TokenizeLoop at h
    simp only at h
    split at h
    · simp only [Option.some.injEq, Prod.mk.injEq] at h
      rw [← h.1]; exact hok
    split at h
    · exact ih _ _ _ _ _ hok h
    split at h
    · split at h
      · exact ih _ _ _ _ _ hok h
      · exact ih _ _ _ _ _ (hok.snoc (by intro hid; cases hid)) h
    split at h
    · exact ih _ _ _ _ _ (hok.snoc (by intro hid; cases hid)) h
    split at h
    · split at h
      · exact ih _ _ _ _ _ hok h
      · exact ih _ _ _ _ _ (hok.snoc (by intro hid; cases hid)) h
    split at h
    · exact ih _ _ _ _ _ (hok.snoc (by intro hid; cases hid)) h
    split at h
    · split at h
      · exact ih _ _ _ _ _ (hok.snoc (by intro hid; cases hid)) h
      · exact ih _ _ _ _ _ (hok.snoc (lexNumber_ok _ _ _)) h
    split at h
    · exact ih _ _ _ _ _ (hok.snoc (lexNumber_ok _ _ _)) h
    · exact ih _ _ _ _ _ (hok.snoc (lexWord_ok _ _)) h

/-- No operator token of the lexer carries the opcode of `block`, `loop`, `if` or `end`. -/
theorem TokenizeWAT_ok {fuel : Nat} {buf numbuf : List Nat} {toks : List Token} {numbuf1 : List Nat}
    (h : TokenizeWAT fuel buf numbuf = some (toks, numbuf1)) : OpsOk toks :=
  TokenizeLoop_ok buf fuel 0 [] numbuf toks numbuf1 (fun _ hx => by cases hx) h

/-- The tokens of `lexState src` are those of the lexer. -/
theorem lexState_ok (src : List Nat) : OpsOk (lexState src).tokens.toks := by
  unfold lexState
  cases h : TokenizeWAT (src.length + 1) src [] with
  | none => intro t ht; simp [Option.getD] at ht
  | some r => exact @TokenizeWAT_ok _ _ _ r.1 r.2 h

@[simp] theorem Pop_buf (s : PState) : s.Pop.buf = s.buf := rfl

@[simp] theorem Pop_state (s : PState) : s.Pop.state = s.state := rfl

@[simp] theorem Pop_f (s : PState) : s.Pop.f = s.f := rfl

@[simp] theorem Pop_toks (s : PState) : s.Pop.tokens.toks = s.tokens.toks := rfl

@[simp] theorem Pop_pos (s : PState) : s.Pop.tokens.pos = s.tokens.pos + 1 := rfl

@[simp] theorem pushInstr_buf (s : PState) (op : Instruction) : (s.pushInstr op).buf = s.buf := rfl

@[simp] theorem pushInstr_state (s : PState) (op : Instruction) : (s.pushInstr op).state = s.state := rfl

@[simp] theorem pushInstr_tokens (s : PState) (op : Instruction) : (s.pushInstr op).tokens = s.tokens := rfl

@[simp] theorem pushInstr_body (s : PState) (op : Instruction) :
    (s.pushInstr op).f.body = s.f.body ++ [op] := rfl

/-- What the loop of `br_table` leaves behind when it succeeds: it has read at least one
token, and every jump it has added was resolved from one of the tokens it has read. -/
theorem WatBrTableLoop_spec :
    ∀ fuel s tbl s1 tbl1, WatBrTableLoop fuel s tbl = some (ERR_SUCCESS, s1, tbl1) →
      s1.buf = s.buf ∧ s1.state = s.state ∧ s1.f = s.f ∧ s1.tokens.toks = s.tokens.toks ∧
      s.tokens.pos < s1.tokens.pos ∧ tbl1 ≠ [] ∧
      ((∀ k, s.tokens.pos ≤ k → k < s1.tokens.pos →
          (s.tokens.toks.getD k { id := TOKEN_NONE }).id = TOKEN_NAME) →
        ∀ j ∈ tbl1, j ∈ tbl ∨ j < s.state.stack.length) := by
  intro fuel
  induction fuel with
  | zero => intro s tbl s1 tbl1 h; simp [WatBrTableLoop] at h
  | succ n ih =>
    intro s tbl s1 tbl1 h
    unfold WatBrTableLoop at h
    split at h
    · simp at h
    · rename_i jump hjump
      split at h
      · simp at h
      · rename_i hne
        split at h
        · have := ih _ _ _ _ h
          obtain ⟨h1, h2, h3, h4, h5, h6, h7⟩ := this
          simp only [Pop_buf, Pop_state, Pop_f, Pop_toks, Pop_pos] at h1 h2 h3 h4 h5 h7
          refine ⟨h1, h2, h3, h4, by omega, h6, ?_⟩
          intro hnames j hj
          have hcur : s.Peek.id = TOKEN_NAME := by
            rw [Peek_eq]; exact hnames _ (le_refl _) (by omega)
          rcases h7 (fun k hk1 hk2 => hnames k (by omega) hk2) j hj with h8 | h8
          · rcases List.mem_append.mp h8 with h9 | h9
            · exact Or.inl h9
            · right
              have : j = jump := by simpa using h9
              subst this
              exact GetJump_name_lt _ _ _ _ _ hcur hjump hne
          · exact Or.inr h8
        · simp only [Option.some.injEq, Prod.mk.injEq, true_and] at h
          obtain ⟨h1, h2⟩ := h
          subst h1 h2
          refine ⟨rfl, rfl, rfl, rfl, by simp, by simp, ?_⟩
          intro hnames j hj
          have hcur : s.Peek.id = TOKEN_NAME := by
            rw [Peek_eq]; exact hnames _ (le_refl _) (by simp)
          rcases List.mem_append.mp hj with h9 | h9
          · exact Or.inl h9
          · right
            have : j = jump := by simpa using h9
            subst this
            exact GetJump_name_lt _ _ _ _ _ hcur hjump hne

/-- C9 (amended).  When `WatOperator` accepts a `br`, `br_if` or `br_table` all of whose
operands are label names, every branch depth it stores (immediate 0 of `br`/`br_if`, the
entries of the jump table and the default target of `br_table`) is strictly less than
the height of the label stack. -/
theorem C9_named_branch_below_height (fuel : Nat) (s : PState) (sig index : Nat) (s1 : PState)
    (h : WatOperator fuel s sig index = some (ERR_SUCCESS, s1))
    (hbr : (s.Peek.i % 256).toNat = OP_br ∨ (s.Peek.i % 256).toNat = OP_br_if ∨
      (s.Peek.i % 256).toNat = OP_br_table)
    (hnames : ∀ k, s.tokens.pos < k → k < s1.tokens.pos →
      (s.tokens.toks.getD k { id := TOKEN_NONE }).id = TOKEN_NAME) :
    ∃ op, s1.f.body = s.f.body ++ [op] ∧ op.opcode = (s.Peek.i % 256).toNat ∧
      (op.opcode ≠ OP_br_table → op.imm0 < (s.state.stack.length : Int)) ∧
      (op.opcode = OP_br_table →
        (∀ j ∈ op.table, j < s.state.stack.length) ∧ op.imm1 < (s.state.stack.length : Int)) := by
  unfold WatOperator at h
  split at h
  · simp at h
  split at h
  · simp at h
  unfold WatOperatorSwitch at h
  split at h
  · simp at h
  rename_i hff
  simp only at hff h
  by_cases hb : (s.Peek.i % 256).toNat = OP_br ∨ (s.Peek.i % 256).toNat = OP_br_if
  · rw [if_pos hb] at h
    split at h
    · simp at h
    · rename_i jump hjump
      split at h
      · simp at h
      · rename_i hne
        simp only [Option.some.injEq, Prod.mk.injEq, true_and] at h
        subst h
        have hcur : s.Pop.Peek.id = TOKEN_NAME := by
          rw [Peek_eq]; exact hnames _ (by simp) (by simp)
        have hlt := GetJump_name_lt _ _ _ _ _ hcur hjump hne
        refine ⟨_, rfl, rfl, ?_, ?_⟩
        · intro _
          simp only [Pop_state] at hlt
          show ((jump : Nat) : Int) < _
          exact_mod_cast hlt
        · intro hc
          simp only at hc
          rcases hb with hb | hb <;> rw [hb] at hc <;> exact absurd hc (by decide)
  · rw [if_neg hb] at h
    have htab : (s.Peek.i % 256).toNat = OP_br_table := by
      rcases hbr with h1 | h1 | h1
      · exact absurd (Or.inl h1) hb
      · exact absurd (Or.inr h1) hb
      · exact h1
    rw [if_neg (by rw [htab]; decide), if_neg (by rw [htab]; decide),
      if_neg (by rw [htab]; decide), if_pos htab] at h
    split at h
    · simp at h
    · rename_i r s2 tbl hloop
      split at h
      · rename_i hr
        simp only [Option.some.injEq, Prod.mk.injEq] at h
        exact absurd h.1 hr
      · rename_i hr
        have hr0 : r = ERR_SUCCESS := by
          by_contra hc; exact hr hc
        subst hr0
        simp only [Option.some.injEq, Prod.mk.injEq, true_and] at h
        subst h
        obtain ⟨h1, h2, h3, h4, h5, h6, h7⟩ := WatBrTableLoop_spec _ _ _ _ _ hloop
        simp only [Pop_buf, Pop_state, Pop_f, Pop_toks, Pop_pos] at h1 h2 h3 h4 h5 h7
        have hall : ∀ j ∈ tbl, j < s.state.stack.length := by
          intro j hj
          rcases h7 (fun k hk1 hk2 => hnames k (by omega) (by simpa using hk2)) j hj with h8 | h8
          · simp at h8
          · exact h8
        refine ⟨{ opcode := (s.Peek.i % 256).toNat, table := tbl.dropLast, imm1 := tbl.getLastD 0 },
          by simp [h3], rfl, ?_, ?_⟩
        · intro hc; exact absurd htab hc
        · intro _
          refine ⟨fun j hj => hall j (List.mem_of_mem_dropLast hj), ?_⟩
          have hlast : tbl.getLastD 0 ∈ tbl := by
            cases tbl with
            | nil => exact absurd rfl h6
            | cons a l => exact List.getLast_mem (l := a :: l) (List.cons_ne_nil a l)
          show ((tbl.getLastD 0 : Nat) : Int) < _
          exact_mod_cast hall _ hlast

/-- C1, the claim fails: on the identity module `ParseWatModule` returns
`ERR_WAT_EXPECTED_KIND`.  The type section `[i32] -> [i32]` and the body `{local.get 0, end}`
are as claimed, but no export is recorded: `WatExport` reads the kind keyword at the
parenthesis that opens `(func $id)`. -/
theorem C1_identity_module_export_rejected :
    observe (ParseWatModule 200 srcIdentity none) =
      some { code := ERR_WAT_EXPECTED_KIND,
             types := [{ form := TE_func, params := [TE_i32], returns := [TE_i32] }],
             funcdecl := [0],
             bodies := [[{ opcode := OP_get_local, imm0 := 0 }, { opcode := OP_end }]],
             exports := [], deferred := 0 } := by
  decide!

/-- C2: for `(module (func $a (call $b)) (func $b))` the first body is `{call 1, end}`, as
claimed.  The claim fails on `(module (func $a (call $b) (drop (i32.const 1))) (func $b))`:
`WatExpression` leaves one parenthesis of `(drop (i32.const 1))` open, the second pass stops
before `(func $b)`, the module is accepted with one function, and immediate 0 of the `call`
is `4294967295`. -/
theorem C2_forward_call_lost :
    observe (ParseWatModule 200 (bytes "(module (func $a (call $b)) (func $b))") none) =
      some { code := ERR_SUCCESS, types := [], funcdecl := [U32_MAX, U32_MAX],
             bodies := [[{ opcode := OP_call, imm0 := 1 }, { opcode := OP_end }], [{ opcode := OP_end }]],
             exports := [], deferred := 0 } ∧
    observe (ParseWatModule 200
        (bytes "(module (func $a (call $b) (drop (i32.const 1))) (func $b))") none) =
      some { code := ERR_SUCCESS, types := [], funcdecl := [U32_MAX],
             bodies := [[{ opcode := OP_call, imm0 := 4294967295 }, { opcode := OP_drop },
                         { opcode := OP_i32_const, imm0 := 1 }, { opcode := OP_end }]],
             exports := [], deferred := 0 } := by
  decide!

/-- C3: `(module (func $f) (func $f))` fails with `ERR_WAT_DUPLICATE_NAME`, as claimed.
The claim fails on `(module (func $f (drop (i32.const 1))) (func $f))`: the second pass
stops before the second `(func $f)` and the module is accepted with one function. -/
theorem C3_duplicate_name_accepted :
    (ParseWatModule 200 (bytes "(module (func $f) (func $f))") none).map Prod.fst =
      some ERR_WAT_DUPLICATE_NAME ∧
    observe (ParseWatModule 200 (bytes "(module (func $f (drop (i32.const 1))) (func $f))") none) =
      some { code := ERR_SUCCESS, types := [], funcdecl := [U32_MAX],
             bodies := [[{ opcode := OP_drop }, { opcode := OP_i32_const, imm0 := 1 }, { opcode := OP_end }]],
             exports := [], deferred := 0 } := by
  decide!

/-- C5, the claim fails: `(module (func (call $missing)))` is accepted with `ERR_SUCCESS`;
the deferred queue is empty and immediate 0 of the `call` is `4294967295`, the value that
`WatGetFromHash` gives for a name that is absent. -/
theorem C5_missing_callee_accepted :
    observe (ParseWatModule 200 (bytes "(module (func (call $missing)))") none) =
      some { code := ERR_SUCCESS, types := [], funcdecl := [U32_MAX],
             bodies := [[{ opcode := OP_call, imm0 := 4294967295 }, { opcode := OP_end }]],
             exports := [], deferred := 0 } := by
  decide!

/-- C6, the claim fails: for `(i32.add (i32.const 1) (i32.const 2))` the operator comes
first.  The function body of the module is `{i32.add, i32.const 1, i32.const 2, end}`, and
`WatExpression` alone appends `{i32.add, i32.const 1}` and returns `ERR_SUCCESS` after six of
the eleven tokens. -/
theorem C6_folded_add_emitted_first :
    observe (ParseWatModule 200 (bytes "(module (func (i32.add (i32.const 1) (i32.const 2))))") none) =
      some { code := ERR_SUCCESS, types := [], funcdecl := [U32_MAX],
             bodies := [[{ opcode := OP_i32_add }, { opcode := OP_i32_const, imm0 := 1 },
                         { opcode := OP_i32_const, imm0 := 2 }, { opcode := OP_end }]],
             exports := [], deferred := 0 } ∧
    (WatExpression 50 (lexState (bytes "(i32.add (i32.const 1) (i32.const 2))")) 0 0).map
        (fun r => (r.1, r.2.f.body, r.2.tokens.pos, r.2.tokens.toks.length)) =
      some (ERR_SUCCESS, [{ opcode := OP_i32_add }, { opcode := OP_i32_const, imm0 := 1 }], 6, 11) := by
  decide!

/-- C7, the claim fails: on the flat forms `block end` and `block $l end $l`
`WatInstruction` returns 1, not `ERR_SUCCESS`; the body holds the `block` alone, without an
`end`, and the label stack is one higher than on entry.  `ParseWatModule` returns 1 for
`(module (func block end))`. -/
theorem C7_flat_block_returns_one :
    (WatInstruction 50 (lexState (bytes "block end")) 0 0).map
        (fun r => (r.1, r.2.f.body, r.2.state.stack.length)) =
      some (1, [{ opcode := OP_block, imm0 := TE_void }], 1) ∧
    (WatInstruction 50 (lexState (bytes "block $l end $l")) 0 0).map
        (fun r => (r.1, r.2.f.body, r.2.state.stack.length)) =
      some (1, [{ opcode := OP_block, imm0 := TE_void }], 1) ∧
    (ParseWatModule 200 (bytes "(module (func block end))") none).map Prod.fst = some 1 := by
  decide!

/-- C4, the claim fails: `(module (func (call 7)))` is accepted, and the `call` of its only
function keeps the immediate 7. -/
theorem C4_counterexample :
    (ParseWatModule 200 (bytes "(module (func (call 7)))") none).map
        (fun r => (r.1, r.2.state.m.funcbody.map (fun f => f.body), indicesInRange r.2.state.m)) =
      some (ERR_SUCCESS, [[{ opcode := OP_call, imm0 := 7 }, { opcode := OP_end }]], false) := by
  decide!

/-- C4 (amended).  `WatOperator` records every `call`, `global.get` and `global.set` in the
deferred queue, with the operand token and the offset of the instruction it appends.
When the drain of the queue succeeds the queue is empty, and every deferred reference
that no later one overrides has set immediate 0 of the instruction it points at: to the
index bound to its name in the table of functions (`call`) or of globals, and to the
literal for an integer operand `0 ≤ n < 2^32 - 1`.  The value is not compared with the
number of functions or of globals. -/
theorem C4_deferred_references_resolved :
    (∀ (fuel : Nat) (s : PState) (sig index : Nat), s.Peek.id = TOKEN_OPERATOR → s.Peek.i ≤ 0xFF →
      ((s.Peek.i % 256).toNat = OP_call ∨ (s.Peek.i % 256).toNat = OP_get_global ∨
        (s.Peek.i % 256).toNat = OP_set_global) →
      WatOperator fuel s sig index = some (ERR_SUCCESS,
        (s.Pop.Pop.pushDefer { id := (s.Peek.i % 256).toNat, t := s.Pop.Peek, func := index,
                               index := s.f.body.length }).pushInstr
          { opcode := (s.Peek.i % 256).toNat })) ∧
    (∀ (buf : List Nat) (st st1 : WatState), WatDeferred buf st.defer st = (ERR_SUCCESS, st1) →
      st1.defer = [] ∧
      ∀ pre d post, st.defer = pre ++ d :: post → (∀ e ∈ post, e.target st.m ≠ d.target st.m) →
        ∃ op, st1.m.instrAt (d.func - st.m.importsection.functions) d.index = some op ∧
          (∀ v, d.t.id = TOKEN_NAME →
            hashGet (if d.id = OP_call then st.funchash else st.globalhash)
              (slice buf d.t.pos d.t.len) = some v → op.imm0 = (v : Int)) ∧
          (d.t.id = TOKEN_INTEGER → 0 ≤ d.t.i → d.t.i < 4294967295 → op.imm0 = d.t.i)) := by
  constructor
  · intro fuel s sig index hid hi hop
    unfold WatOperator
    rw [if_neg (by rw [hid]; simp), if_neg (by omega)]
    unfold WatOperatorSwitch
    have h1 : ¬ (s.Peek.i % 256).toNat = 0xFF := by
      rcases hop with h | h | h <;> rw [h] <;> decide
    have h2 : ¬ ((s.Peek.i % 256).toNat = OP_br ∨ (s.Peek.i % 256).toNat = OP_br_if) := by
      rcases hop with h | h | h <;> rw [h] <;> decide
    have h3 : ¬ ((s.Peek.i % 256).toNat = OP_get_local ∨ (s.Peek.i % 256).toNat = OP_set_local ∨
        (s.Peek.i % 256).toNat = OP_tee_local) := by
      rcases hop with h | h | h <;> rw [h] <;> decide
    have h4 : (s.Peek.i % 256).toNat = OP_get_global ∨ (s.Peek.i % 256).toNat = OP_set_global ∨
        (s.Peek.i % 256).toNat = OP_call := by
      rcases hop with h | h | h
      · exact Or.inr (Or.inr h)
      · exact Or.inl h
      · exact Or.inr (Or.inl h)
    simp only [if_neg h1, if_neg h2, if_neg h3, if_pos h4]
    rfl
  · intro buf st st1 h
    refine ⟨(WatDeferred_frame buf _ _ _ h).1, ?_⟩
    intro pre d post hq hpost
    obtain ⟨op, h1, h2⟩ := WatDeferred_resolved buf _ _ _ h pre d post hq hpost
    refine ⟨op, h1, ?_, ?_⟩
    · intro v hname hv
      rw [h2]
      unfold DeferAction.resolve
      by_cases hc : d.id = OP_call
      · rw [if_pos hc] at hv ⊢
        unfold WatGetFromHash
        rw [if_neg (by rw [hname]; simp), if_pos hname, hv]
      · rw [if_neg hc] at hv ⊢
        unfold WatGetFromHash
        rw [if_neg (by rw [hname]; simp), if_pos hname, hv]
    · intro hint h0 hlt
      rw [h2]
      have hv : ∀ hsh, WatGetFromHash buf hsh d.t = d.t.i.toNat := by
        intro hsh
        unfold WatGetFromHash
        rw [if_pos ⟨hint, hlt⟩, Int.emod_eq_of_lt h0 (by omega)]
      unfold DeferAction.resolve
      split <;> rw [hv] <;> exact Int.toNat_of_nonneg h0

/-- C4, a witness: the operator `call $b` is deferred, and the drain writes the index of
`$b` into the `call`. -/
theorem C4_deferred_references_resolved_witness :
    (WatOperator 1 (lexState (bytes "call $b")) 0 0).map (fun r => (r.1, r.2.state.defer, r.2.f.body)) =
      some (ERR_SUCCESS,
        [{ id := OP_call, t := { id := TOKEN_NAME, pos := 6, i := 1 }, func := 0, index := 0 }],
        [{ opcode := OP_call }]) ∧
    WatDeferred [98] wC4.defer wC4 = (ERR_SUCCESS, (WatDeferred [98] wC4.defer wC4).2) ∧
    (WatDeferred [98] wC4.defer wC4).2.defer = [] ∧
    ∃ op, (WatDeferred [98] wC4.defer wC4).2.m.instrAt 0 0 = some op ∧ op.imm0 = 1 := by
  refine ⟨?_, by decide!, ?_, ?_⟩
  · rw [C4_deferred_references_resolved.1 1 (lexState (bytes "call $b")) 0 0 (by decide!) (by decide!)
      (Or.inl (by decide!))]
    decide!
  · exact (C4_deferred_references_resolved.2 [98] wC4 _ (by decide!)).1
  · obtain ⟨op, h1, h2, _⟩ := (C4_deferred_references_resolved.2 [98] wC4 _
      (show WatDeferred [98] wC4.defer wC4 = (ERR_SUCCESS, (WatDeferred [98] wC4.defer wC4).2) by decide!)).2
      [] { id := OP_call, t := { id := TOKEN_NAME, pos := 0, i := 1 }, func := 0, index := 0 } []
      rfl (fun e he => by cases he)
    exact ⟨op, h1, h2 1 rfl (by decide!)⟩

/-- C8, a witness: the body of `(func (block (nop)))` is `{block, nop, end, end}`. -/
theorem C8_function_body_nesting_witness :
    OpsOk wC8.tokens.toks ∧
    (WatFunction 20 wC8 {}).map (fun r => (r.1, r.2.1.state.m.funcbody.map (fun f => f.body))) =
      some (ERR_SUCCESS, [[{ opcode := OP_block, imm0 := TE_void }, { opcode := 1 },
        { opcode := OP_end }, { opcode := OP_end }]]) ∧
    (((WatFunction 20 wC8 {}).getD (0, wC8, 0)).2.1.state.m.funcbody = wC8.state.m.funcbody ∨
      ∃ body core,
        ((WatFunction 20 wC8 {}).getD (0, wC8, 0)).2.1.state.m.funcbody = wC8.state.m.funcbody ++ [body] ∧
        body.body = core ++ [{ opcode := OP_end }] ∧
        ends core = opens core ∧ (∀ n, ends (core.take n) ≤ opens (core.take n)) ∧
        ends body.body = opens body.body + 1) :=
  ⟨lexState_ok _, by decide!,
    C8_function_body_nesting 20 wC8 {} ((WatFunction 20 wC8 {}).getD (0, wC8, 0)).2.1 0
      (lexState_ok _) (by decide!)⟩

/-- C8, the claim fails: the body that `WatFunction` accepts for `(func)` is `{end}`, one
`end` and no opener. -/
theorem C8_counterexample :
    (WatFunction 20 (lexState (bytes ")")) {}).map
        (fun r => (r.1, r.2.1.state.m.funcbody.map (fun f => (f.body, ends f.body, opens f.body)))) =
      some (ERR_SUCCESS, [([{ opcode := OP_end }], 1, 0)]) := by
  decide!

/-- C9, a witness: under the label `$l` the instruction `br $l` gets depth 0, below the
height 1 of the label stack. -/
theorem C9_named_branch_below_height_witness :
    WatOperator 5 wC9 0 0 = some (ERR_SUCCESS, wC9.Pop.Pop.pushInstr { opcode := OP_br, imm0 := 0 }) ∧
    ∃ op, (wC9.Pop.Pop.pushInstr { opcode := OP_br, imm0 := 0 }).f.body = wC9.f.body ++ [op] ∧
      op.opcode = (wC9.Peek.i % 256).toNat ∧
      (op.opcode ≠ OP_br_table → op.imm0 < (wC9.state.stack.length : Int)) ∧
      (op.opcode = OP_br_table →
        (∀ j ∈ op.table, j < wC9.state.stack.length) ∧ op.imm1 < (wC9.state.stack.length : Int)) :=
  ⟨by decide!,
    C9_named_branch_below_height 5 wC9 0 0 _ (by decide!) (Or.inl (by decide!)) (by
      intro k h1 h2
      have h1a : 0 < k := h1
      have h2a : k < 2 := h2
      have hk : k = 1 := by omega
      subst hk
      decide!)⟩

/-- C9, the claim fails: with an empty label stack `WatOperator` accepts `br 5` and stores
the depth 5. -/
theorem C9_counterexample :
    (WatOperator 5 (lexState (bytes "br 5")) 0 0).map
        (fun r => (r.1, r.2.f.body, decide (5 < (lexState (bytes "br 5")).state.stack.length))) =
      some (ERR_SUCCESS, [{ opcode := OP_br, imm0 := 5 }], false) := by
  decide!

/-! ### The signature parser: frame, return codes, termination -/

theorem Advances_refl (s : PState) : Advances s s := ⟨rfl, rfl, rfl, rfl, Nat.le_refl _⟩

theorem Advances_trans {a b c : PState} (h1 : Advances a b) (h2 : Advances b c) : Advances a c :=
  ⟨h2.1.trans h1.1, h2.2.1.trans h1.2.1, h2.2.2.1.trans h1.2.2.1, h2.2.2.2.1.trans h1.2.2.2.1,
    Nat.le_trans h1.2.2.2.2 h2.2.2.2.2⟩

theorem Advances_pop (s : PState) : Advances s s.Pop :=
  ⟨rfl, rfl, rfl, rfl, Nat.le_succ _⟩

/-- A token that is not the blank token lies inside the token array. -/
theorem Peek_lt {s : PState} (h : s.Peek.id ≠ TOKEN_NONE) : s.tokens.pos < s.tokens.toks.length := by
  rw [Peek_eq, List.getD_eq_getElem?_getD] at h
  cases hg : s.tokens.toks[s.tokens.pos]? with
  | none => rw [hg] at h; exact absurd rfl h
  | some t => exact (List.getElem?_eq_some_iff.mp hg).1

/-- The macro `EXPECTED` moves the read position by at most one token, never back, and
returns 0 or the given code. -/
theorem EXPECTED_adv {s : PState} {e : TokenID} {err r : Int} {s1 : PState}
    (h : EXPECTED s e err = some (r, s1)) : Advances s s1 ∧ (r = 0 ∨ r = err) := by
  unfold EXPECTED at h
  split at h
  · simp only [Option.some.injEq, Prod.mk.injEq] at h
    rw [← h.2, ← h.1]; exact ⟨Advances_refl s, Or.inr rfl⟩
  · split at h
    · simp only [Option.some.injEq, Prod.mk.injEq] at h
      rw [← h.2, ← h.1]; exact ⟨Advances_pop s, Or.inr rfl⟩
    · simp only [Option.some.injEq, Prod.mk.injEq] at h
      rw [← h.2, ← h.1]; exact ⟨Advances_pop s, Or.inl rfl⟩

/-- When `EXPECTED` returns 0 it has consumed the token it was asked for. -/
theorem EXPECTED_ok {s : PState} {e : TokenID} {err : Int} {s1 : PState} (herr : err ≠ 0)
    (h : EXPECTED s e err = some (0, s1)) : s1 = s.Pop ∧ s.Peek.id = e := by
  unfold EXPECTED at h
  split at h
  · simp only [Option.some.injEq, Prod.mk.injEq] at h; exact absurd h.1 herr
  · split at h
    · simp only [Option.some.injEq, Prod.mk.injEq] at h; exact absurd h.1 herr
    · rename_i hne
      simp only [Option.some.injEq, Prod.mk.injEq] at h
      exact ⟨h.2.symm, not_not.mp hne⟩

theorem EXPECTED_isSome (s : PState) (e : TokenID) (err : Int) : EXPECTED s e err ≠ none := by
  unfold EXPECTED
  split
  · simp
  · split <;> simp

theorem WatValTypeLoop_adv :
    ∀ fuel s a r s1 a1, WatValTypeLoop fuel s a = some (r, s1, a1) →
      Advances s s1 ∧ (r = 0 ∨ r = ERR_WAT_EXPECTED_VALTYPE) := by
  intro fuel
  induction fuel with
  | zero => intro s a r s1 a1 h; simp [WatValTypeLoop] at h
  | succ n ih =>
    intro s a r s1 a1 h
    unfold WatValTypeLoop at h
    split at h
    · split at h
      rename_i r0 a0 hadd
      split at h
      · have := ih _ _ _ _ _ h
        exact ⟨Advances_trans (Advances_pop s) this.1, this.2⟩
      · simp only [Option.some.injEq, Prod.mk.injEq] at h
        rw [← h.2.1, ← h.1]
        refine ⟨Advances_pop s, ?_⟩
        unfold AddWatValType at hadd
        split at hadd
        · simp only [Prod.mk.injEq] at hadd; exact Or.inr hadd.1.symm
        · simp only [Prod.mk.injEq] at hadd; exact Or.inl hadd.1.symm
    · simp only [Option.some.injEq, Prod.mk.injEq] at h
      rw [← h.2.1, ← h.1]; exact ⟨Advances_refl s, Or.inl rfl⟩

/-- A value type token is not the blank token. -/
theorem AddWatValType_ok {id : TokenID} {a a1 : List Int} (h : AddWatValType id a = (0, a1)) :
    id ≠ TOKEN_NONE := by
  intro hid
  subst hid
  simp [AddWatValType, WatValType] at h

theorem WatValTypeLoop_total :
    ∀ fuel s a, s.remaining < fuel → WatValTypeLoop fuel s a ≠ none := by
  intro fuel
  induction fuel with
  | zero => intro s a h; omega
  | succ n ih =>
    intro s a hf
    unfold WatValTypeLoop
    split
    · split
      rename_i r0 a0 hadd
      split
      · rename_i hr
        subst hr
        have hlt := Peek_lt (AddWatValType_ok hadd)
        apply ih
        unfold PState.remaining at hf ⊢
        show s.tokens.toks.length - (s.tokens.pos + 1) < n
        omega
      · simp
    · simp

theorem AddWatValType_code (id : TokenID) (a : List Int) :
    (AddWatValType id a).1 = 0 ∨ (AddWatValType id a).1 = ERR_WAT_EXPECTED_VALTYPE := by
  unfold AddWatValType
  split
  · exact Or.inr rfl
  · exact Or.inl rfl

theorem typeInner_leaf {α β : Type} {s s0 s1 : PState} {r0 r : Int} {x0 x : α} {y0 y : β}
    (h : some (r0, s0, x0, y0) = some (r, s1, x, y)) (k : Advances s s0) (c : isTypeInnerCode r0) :
    Advances s s1 ∧ isTypeInnerCode r := by
  simp only [Option.some.injEq, Prod.mk.injEq] at h
  rw [← h.2.1, ← h.1]; exact ⟨k, c⟩

/-- The function `WatTypeInner` changes nothing but the read position, and returns one of
six codes. -/
theorem WatTypeInner_adv :
    ∀ fuel s sig names r s1 sig1 names1,
      WatTypeInner fuel s sig names = some (r, s1, sig1, names1) →
        Advances s s1 ∧ isTypeInnerCode r := by
  intro fuel
  induction fuel with
  | zero => intro s sig names r s1 sig1 names1 h; simp [WatTypeInner] at h
  | succ n ih =>
    intro s sig names r s1 sig1 names1 h
    unfold WatTypeInner at h
    simp only at h
    split at h
    · split at h
      · simp at h
      · rename_i ra sa ha
        have ka := EXPECTED_adv ha
        split at h
        · refine typeInner_leaf h ka.1 ?_
          rcases ka.2 with e | e
          · rename_i hne; exact absurd e hne
          · exact Or.inr (Or.inl e)
        · have kp : Advances s sa.Pop := Advances_trans ka.1 (Advances_pop _)
          split at h
          · split at h
            · split at h
              · exact typeInner_leaf h kp (Or.inr (Or.inr (Or.inr (Or.inl rfl))))
              · have hr1 := AddWatValType_code sa.Pop.Pop.Peek.id sig.params
                have kq : Advances s sa.Pop.Pop.Pop :=
                  Advances_trans kp (Advances_trans (Advances_pop _) (Advances_pop _))
                split at h
                · refine typeInner_leaf h kq ?_
                  rcases hr1 with e | e
                  · rename_i hne; exact absurd e hne
                  · exact Or.inr (Or.inr (Or.inr (Or.inr (Or.inl e))))
                · split at h
                  · simp at h
                  · rename_i rb sb hb
                    have kb := EXPECTED_adv hb
                    split at h
                    · refine typeInner_leaf h (Advances_trans kq kb.1) ?_
                      rcases kb.2 with e | e
                      · rename_i hne; exact absurd e hne
                      · exact Or.inr (Or.inr (Or.inl e))
                    · have := ih _ _ _ _ _ _ _ h
                      exact ⟨Advances_trans (Advances_trans kq kb.1) this.1, this.2⟩
            · split at h
              · simp at h
              · rename_i rb sb ps hb
                have kb := WatValTypeLoop_adv _ _ _ _ _ _ hb
                split at h
                · refine typeInner_leaf h (Advances_trans kp kb.1) ?_
                  rcases kb.2 with e | e
                  · rename_i hne; exact absurd e hne
                  · exact Or.inr (Or.inr (Or.inr (Or.inr (Or.inl e))))
                · split at h
                  · simp at h
                  · rename_i rc sc hc
                    have kc := EXPECTED_adv hc
                    split at h
                    · refine typeInner_leaf h (Advances_trans (Advances_trans kp kb.1) kc.1) ?_
                      rcases kc.2 with e | e
                      · rename_i hne; exact absurd e hne
                      · exact Or.inr (Or.inr (Or.inl e))
                    · have := ih _ _ _ _ _ _ _ h
                      exact ⟨Advances_trans (Advances_trans (Advances_trans kp kb.1) kc.1) this.1,
                        this.2⟩
          · split at h
            · simp at h
            · rename_i rb sb ps hb
              have kb := WatValTypeLoop_adv _ _ _ _ _ _ hb
              split at h
              · refine typeInner_leaf h (Advances_trans kp kb.1) ?_
                rcases kb.2 with e | e
                · rename_i hne; exact absurd e hne
                · exact Or.inr (Or.inr (Or.inr (Or.inr (Or.inl e))))
              · split at h
                · simp at h
                · rename_i rc sc hc
                  have kc := EXPECTED_adv hc
                  split at h
                  · refine typeInner_leaf h (Advances_trans (Advances_trans kp kb.1) kc.1) ?_
                    rcases kc.2 with e | e
                    · rename_i hne; exact absurd e hne
                    · exact Or.inr (Or.inr (Or.inl e))
                  · have := ih _ _ _ _ _ _ _ h
                    exact ⟨Advances_trans (Advances_trans (Advances_trans kp kb.1) kc.1) this.1,
                      this.2⟩
          · exact typeInner_leaf h kp (Or.inr (Or.inr (Or.inr (Or.inr (Or.inr rfl)))))
    · exact typeInner_leaf h (Advances_refl s) (Or.inl rfl)

theorem remaining_lt {s s1 : PState} {n : Nat} (hf : s.remaining < n + 1)
    (hlt : s.tokens.pos < s.tokens.toks.length) (k : Advances s.Pop s1) : s1.remaining < n := by
  unfold PState.remaining at hf ⊢
  have h1 : s1.tokens.toks = s.tokens.toks := k.2.1
  have h2 : s.tokens.pos + 1 ≤ s1.tokens.pos := k.2.2.2.2
  rw [h1]; omega

/-- The function `WatTypeInner` returns when its fuel exceeds the number of tokens left. -/
theorem WatTypeInner_total :
    ∀ fuel s sig names, s.remaining < fuel → WatTypeInner fuel s sig names ≠ none := by
  intro fuel
  induction fuel with
  | zero => intro s sig names h; omega
  | succ n ih =>
    intro s sig names hf
    unfold WatTypeInner
    simp only
    split
    · rename_i hopen
      have hlt : s.tokens.pos < s.tokens.toks.length := Peek_lt (by rw [hopen]; decide)
      split
      · rename_i ha; exact absurd ha (EXPECTED_isSome _ _ _)
      · rename_i ra sa ha
        split
        · simp
        · rename_i hra
          have hra0 : ra = 0 := not_not.mp hra
          subst hra0
          have hsa := (EXPECTED_ok (by decide) ha).1
          subst hsa
          have kp : Advances s.Pop s.Pop.Pop := Advances_pop _
          split
          · split
            · split
              · simp
              · split
                · simp
                · split
                  · rename_i hb; exact absurd hb (EXPECTED_isSome _ _ _)
                  · rename_i rb sb hb
                    split
                    · simp
                    · apply ih
                      exact remaining_lt hf hlt (Advances_trans kp (Advances_trans
                        (Advances_trans (Advances_pop _) (Advances_pop _)) (EXPECTED_adv hb).1))
            · split
              · rename_i hb
                refine absurd hb (WatValTypeLoop_total _ _ _ ?_)
                exact Nat.lt_of_lt_of_le (remaining_lt hf hlt kp) (Nat.le_refl _)
              · rename_i rb sb ps hb
                split
                · simp
                · split
                  · rename_i hc; exact absurd hc (EXPECTED_isSome _ _ _)
                  · rename_i rc sc hc
                    split
                    · simp
                    · apply ih
                      exact remaining_lt hf hlt (Advances_trans kp (Advances_trans
                        (WatValTypeLoop_adv _ _ _ _ _ _ hb).1 (EXPECTED_adv hc).1))
          · split
            · rename_i hb
              exact absurd hb (WatValTypeLoop_total _ _ _ (remaining_lt hf hlt kp))
            · rename_i rb sb ps hb
              split
              · simp
              · split
                · rename_i hc; exact absurd hc (EXPECTED_isSome _ _ _)
                · rename_i rc sc hc
                  split
                  · simp
                  · apply ih
                    exact remaining_lt hf hlt (Advances_trans kp (Advances_trans
                      (WatValTypeLoop_adv _ _ _ _ _ _ hb).1 (EXPECTED_adv hc).1))
          · simp
    · simp

/-- A token that is not the blank token lies inside the token array. -/
theorem get_lt {s : PState} {k : Nat} (h : (s.get k).id ≠ TOKEN_NONE) :
    s.tokens.pos + k < s.tokens.toks.length := by
  have h1 : s.get k = s.tokens.toks.getD (s.tokens.pos + k) { id := TOKEN_NONE } := rfl
  rw [h1, List.getD_eq_getElem?_getD] at h
  cases hg : s.tokens.toks[s.tokens.pos + k]? with
  | none => rw [hg] at h; exact absurd rfl h
  | some t => exact (List.getElem?_eq_some_iff.mp hg).1

/-- The macro `EXPECTED` on the token it asks for. -/
theorem EXPECTED_hit {s : PState} {e : TokenID} (err : Int) (h : s.Peek.id = e)
    (hne : e ≠ TOKEN_NONE) : EXPECTED s e err = some (0, s.Pop) := by
  have hlt := Peek_lt (s := s) (by rw [h]; exact hne)
  have hsz : ¬ s.Size = 0 := by
    show ¬ s.tokens.toks.length - s.tokens.pos = 0
    omega
  unfold EXPECTED
  rw [if_neg hsz, if_neg (not_not.mpr h)]

/-- Let the queue of `WatFuncType` start with the annotation `(type v)`, `v` an
integer or a name that `WatGetFromHash` resolves to an index `idx` of the type section.
When no inline `(param ...)`/`(result ...)` clause follows, `WatFuncType` succeeds, returns
`idx` and leaves the configuration as it is but for the four tokens read.  When inline
clauses follow, `WatTypeInner` gives a signature `func` for them, the type section is
as before, and `WatFuncType` returns `idx` with `ERR_SUCCESS` when `types[idx]` and `func`
are structurally equal and with `ERR_WAT_TYPE_MISMATCH` when they are not. -/
theorem WatFuncType_annotated (fuel : Nat) (s : PState) (names : Option (List (Option (List Nat))))
    (h0 : (s.get 0).id = TOKEN_OPEN) (h1 : (s.get 1).id = TOKEN_TYPE)
    (h2 : (s.get 2).id = TOKEN_INTEGER ∨ (s.get 2).id = TOKEN_NAME)
    (h3 : (s.get 3).id = TOKEN_CLOSE)
    (hidx : WatGetFromHash s.buf s.state.typehash (s.get 2) < s.state.m.types.length)
    (hn : s.state.m.types.length ≤ U32_MAX)
    (hfuel : s.remaining < fuel) :
    (¬ inlineSig s.Pop.Pop.Pop.Pop →
      WatFuncType fuel s names =
        some (ERR_SUCCESS, s.Pop.Pop.Pop.Pop, WatGetFromHash s.buf s.state.typehash (s.get 2), names) ∧
      s.Pop.Pop.Pop.Pop.state.m.types = s.state.m.types) ∧
    (inlineSig s.Pop.Pop.Pop.Pop →
      ∃ r0 s1 func names1,
        WatTypeInner fuel s.Pop.Pop.Pop.Pop {} names = some (r0, s1, func, names1) ∧
        s1.state.m.types = s.state.m.types ∧
        WatFuncType fuel s names =
          some (if MatchFunctionSig
                  (s.state.m.types.getD (WatGetFromHash s.buf s.state.typehash (s.get 2)) {}) func = true
                then ERR_SUCCESS else ERR_WAT_TYPE_MISMATCH,
            s1, WatGetFromHash s.buf s.state.typehash (s.get 2), names1)) := by
  have hsize : s.Size > 1 := by
    have := get_lt (s := s) (k := 1) (by rw [h1]; decide)
    show s.tokens.toks.length - s.tokens.pos > 1
    omega
  have e0 : EXPECTED s TOKEN_OPEN ERR_WAT_EXPECTED_OPEN = some (0, s.Pop) :=
    EXPECTED_hit _ h0 (by decide)
  have e1 : EXPECTED s.Pop TOKEN_TYPE ERR_WAT_EXPECTED_TYPE = some (0, s.Pop.Pop) :=
    EXPECTED_hit _ h1 (by decide)
  have e3 : EXPECTED s.Pop.Pop.Pop TOKEN_CLOSE ERR_WAT_EXPECTED_CLOSE = some (0, s.Pop.Pop.Pop.Pop) :=
    EXPECTED_hit _ h3 (by decide)
  have hv : ¬ (s.Pop.Pop.Peek.id ≠ TOKEN_INTEGER ∧ s.Pop.Pop.Peek.id ≠ TOKEN_NAME) := by
    intro hc
    rcases h2 with h | h
    · exact hc.1 h
    · exact hc.2 h
  have hle : ¬ WatGetFromHash s.Pop.Pop.buf s.Pop.Pop.state.typehash s.Pop.Pop.Peek >
      s.Pop.Pop.Pop.state.m.types.length := by
    show ¬ WatGetFromHash s.buf s.state.typehash (s.get 2) > s.state.m.types.length
    omega
  have hne : WatGetFromHash s.buf s.state.typehash (s.get 2) ≠ U32_MAX := by
    omega
  have hstep : WatFuncType fuel s names =
      (if inlineSig s.Pop.Pop.Pop.Pop then
        match WatTypeInner fuel s.Pop.Pop.Pop.Pop {} names with
        | none => none
        | some (r1, s2, func, names1) =>
          match s2.state.m.types.get? (WatGetFromHash s.buf s.state.typehash (s.get 2)) with
          | none => none
          | some known =>
            if MatchFunctionSig known func then
              some (ERR_SUCCESS, s2, WatGetFromHash s.buf s.state.typehash (s.get 2), names1)
            else some (ERR_WAT_TYPE_MISMATCH, s2, WatGetFromHash s.buf s.state.typehash (s.get 2), names1)
      else some (ERR_SUCCESS, s.Pop.Pop.Pop.Pop, WatGetFromHash s.buf s.state.typehash (s.get 2), names)) := by
    unfold WatFuncType
    simp only
    rw [if_pos ⟨hsize, h0, h1⟩, e0]
    simp only [ne_eq, not_true_eq_false, if_false]
    rw [e1]
    simp only [ne_eq, not_true_eq_false, if_false]
    rw [if_neg hv, if_neg hle, e3]
    simp only [ne_eq, not_true_eq_false, if_false]
    have hne1 : WatGetFromHash s.Pop.Pop.buf s.Pop.Pop.state.typehash s.Pop.Pop.Peek ≠ U32_MAX := hne
    simp only [hne1, ne_eq, not_false_eq_true, if_true]
    rfl
  constructor
  · intro hno
    rw [hstep, if_neg hno]
    exact ⟨rfl, rfl⟩
  · intro hin
    rw [hstep, if_pos hin]
    cases hti : WatTypeInner fuel s.Pop.Pop.Pop.Pop {} names with
    | none =>
      refine absurd hti (WatTypeInner_total _ _ _ _ ?_)
      have : s.Pop.Pop.Pop.Pop.remaining ≤ s.remaining := by
        show s.tokens.toks.length - (s.tokens.pos + 1 + 1 + 1 + 1) ≤ s.tokens.toks.length - s.tokens.pos
        omega
      omega
    | some res =>
      obtain ⟨r0, s1, func, names1⟩ := res
      have hadv := (WatTypeInner_adv _ _ _ _ _ _ _ _ hti).1
      have hty : s1.state.m.types = s.state.m.types := by
        rw [hadv.2.2.1]; rfl
      refine ⟨r0, s1, func, names1, rfl, hty, ?_⟩
      simp only
      rw [hty]
      have hget : s.state.m.types.get? (WatGetFromHash s.buf s.state.typehash (s.get 2)) =
          some (s.state.m.types.getD (WatGetFromHash s.buf s.state.typehash (s.get 2)) {}) := by
        rw [List.getD_eq_getElem?_getD, List.get?_eq_getElem?, List.getElem?_eq_getElem hidx]
        rfl
      rw [hget]
      simp only
      split <;> rfl

/-- C15, the claim fails: no `return` of `WatTypeInner` produces
`ERR_WAT_PARAM_AFTER_RESULT`.  On the clauses `(result i32) (param i64)` it returns
`ERR_SUCCESS` with the signature `[i64] -> [i32]`, and
`(module (type (func (result i32) (param i32))))` is accepted with that order of clauses. -/
theorem C15_param_after_result_accepted :
    (∀ (fuel : Nat) (s : PState) (sig : FunctionSig) (names : Option (List (Option (List Nat)))),
      (WatTypeInner fuel s sig names).map (fun r => r.1) ≠ some ERR_WAT_PARAM_AFTER_RESULT) ∧
    (WatTypeInner 20 (lexState (bytes "(result i32) (param i64)")) {} none).map
        (fun r => (r.1, r.2.2.1)) =
      some (ERR_SUCCESS, { form := TE_func, params := [TE_i64], returns := [TE_i32] }) ∧
    observe (ParseWatModule 200 (bytes "(module (type (func (result i32) (param i32))))") none) =
      some { code := ERR_SUCCESS,
             types := [{ form := TE_func, params := [TE_i32], returns := [TE_i32] }],
             funcdecl := [], bodies := [], exports := [], deferred := 0 } := by
  refine ⟨?_, by decide!, by decide!⟩
  intro fuel s sig names
  cases h : WatTypeInner fuel s sig names with
  | none => simp
  | some res =>
    obtain ⟨r, s1, sig1, names1⟩ := res
    have hc := (WatTypeInner_adv _ _ _ _ _ _ _ _ h).2
    simp only [Option.map_some', ne_eq, Option.some.injEq]
    intro hr
    rw [hr] at hc
    revert hc
    unfold isTypeInnerCode
    decide

/-- C16, the claim fails: no `return` of `WatTypeInner` produces
`ERR_MULTIPLE_RETURN_VALUES`.  On the clause `(result i32 i64)` it returns `ERR_SUCCESS`
with two result types, and `(module (type (func (result i32 i32))))` is accepted with a
signature of two results in the type section. -/
theorem C16_multiple_results_accepted :
    (∀ (fuel : Nat) (s : PState) (sig : FunctionSig) (names : Option (List (Option (List Nat)))),
      (WatTypeInner fuel s sig names).map (fun r => r.1) ≠ some ERR_MULTIPLE_RETURN_VALUES) ∧
    (WatTypeInner 20 (lexState (bytes "(result i32 i64)")) {} none).map
        (fun r => (r.1, r.2.2.1)) =
      some (ERR_SUCCESS, { form := TE_func, params := [], returns := [TE_i32, TE_i64] }) ∧
    observe (ParseWatModule 200 (bytes "(module (type (func (result i32 i32))))") none) =
      some { code := ERR_SUCCESS,
             types := [{ form := TE_func, params := [], returns := [TE_i32, TE_i32] }],
             funcdecl := [], bodies := [], exports := [], deferred := 0 } := by
  refine ⟨?_, by decide!, by decide!⟩
  intro fuel s sig names
  cases h : WatTypeInner fuel s sig names with
  | none => simp
  | some res =>
    obtain ⟨r, s1, sig1, names1⟩ := res
    have hc := (WatTypeInner_adv _ _ _ _ _ _ _ _ h).2
    simp only [Option.map_some', ne_eq, Option.some.injEq]
    intro hr
    rw [hr] at hc
    revert hc
    unfold isTypeInnerCode
    decide

/-- C20, the claim fails: no `return` of `WatConstantOperator` produces
`ERR_WAT_OUT_OF_RANGE`.  The integer token `4294967296` after `i32.const` is accepted and
the immediate stored is 0; `(module (func (i32.const 4294967296)))` is accepted with the
body `{i32.const 0, end}`. -/
theorem C20_i32_const_truncated :
    (∀ (s : PState) (op : Instruction), (WatConstantOperator s op).1 ≠ ERR_WAT_OUT_OF_RANGE) ∧
    (lexState (bytes "4294967296")).Peek = { id := TOKEN_INTEGER, pos := 0, i := 4294967296 } ∧
    ((WatConstantOperator (lexState (bytes "4294967296")) { opcode := OP_i32_const }).1,
      (WatConstantOperator (lexState (bytes "4294967296")) { opcode := OP_i32_const }).2.2) =
        (ERR_SUCCESS, { opcode := OP_i32_const, imm0 := 0 }) ∧
    observe (ParseWatModule 200 (bytes "(module (func (i32.const 4294967296)))") none) =
      some { code := ERR_SUCCESS, types := [], funcdecl := [U32_MAX],
             bodies := [[{ opcode := OP_i32_const, imm0 := 0 }, { opcode := OP_end }]],
             exports := [], deferred := 0 } := by
  refine ⟨?_, by decide!, by decide!, by decide!⟩
  intro s op
  unfold WatConstantOperator
  split
  · split <;> simp
  · split
    · split <;> simp
    · split
      · split
        · simp
        · split <;> simp
      · split
        · simp only
          split <;> simp
        · simp

/-- An instance: with `[i32] -> []` as entry 0 of the type section, `(type 0) (param i32)`
is accepted with index 0 and the type section keeps its single entry. -/
theorem WatFuncType_annotated_example :
    (WatFuncType 20 wC14 none).map (fun r => (r.1, r.2.2.1, r.2.1.state.m.types)) =
      some (ERR_SUCCESS, 0, [{ form := TE_func, params := [TE_i32] }]) ∧
    inlineSig wC14.Pop.Pop.Pop.Pop ∧
    ((¬ inlineSig wC14.Pop.Pop.Pop.Pop →
      WatFuncType 20 wC14 none =
        some (ERR_SUCCESS, wC14.Pop.Pop.Pop.Pop,
          WatGetFromHash wC14.buf wC14.state.typehash (wC14.get 2), none) ∧
      wC14.Pop.Pop.Pop.Pop.state.m.types = wC14.state.m.types) ∧
    (inlineSig wC14.Pop.Pop.Pop.Pop →
      ∃ r0 s1 func names1,
        WatTypeInner 20 wC14.Pop.Pop.Pop.Pop {} none = some (r0, s1, func, names1) ∧
        s1.state.m.types = wC14.state.m.types ∧
        WatFuncType 20 wC14 none =
          some (if MatchFunctionSig
                  (wC14.state.m.types.getD
                    (WatGetFromHash wC14.buf wC14.state.typehash (wC14.get 2)) {}) func = true
                then ERR_SUCCESS else ERR_WAT_TYPE_MISMATCH,
            s1, WatGetFromHash wC14.buf wC14.state.typehash (wC14.get 2), names1))) :=
  ⟨by decide!, by decide!,
    WatFuncType_annotated 20 wC14 none (by decide!) (by decide!) (Or.inl (by decide!)) (by decide!)
      (by decide!) (by decide!) (by decide!)⟩

/-- C11, the claim fails: `(module (func (block $L (br $L) end)))` is rejected with
`ERR_WAT_EXPECTED_OPERATOR`; inside a folded block the keyword `end` is taken for an
instruction, and no function is recorded. -/
theorem C11_counterexample :
    observe (ParseWatModule 200 (bytes "(module (func (block $L (br $L) end)))") none) =
      some { code := ERR_WAT_EXPECTED_OPERATOR, types := [], funcdecl := [], bodies := [],
             exports := [], deferred := 0 } := by
  decide!

/-- C11 (amended).  `ParseWatModule` accepts `(module (func (block $L (br $L))))`, the folded
block closed by its parenthesis, and the body of its function is
`{block void, br 0, end, end}`. -/
theorem C11_folded_block_label :
    observe (ParseWatModule 200 (bytes "(module (func (block $L (br $L))))") none) =
      some { code := ERR_SUCCESS, types := [], funcdecl := [U32_MAX],
             bodies := [[{ opcode := OP_block, imm0 := TE_void }, { opcode := OP_br, imm0 := 0 },
                         { opcode := OP_end }, { opcode := OP_end }]],
             exports := [], deferred := 0 } := by
  decide!

/-- C12, the claim fails: in flat form `block $a end $b`, whose closing name differs from
the label, is accepted and `OP_end` is appended, while `block $a end $a` returns 1 without
appending `OP_end`; the same holds for the names after `else`: `if $a else $b end $c` is
accepted and `if $a else $a end $a` returns 1 at the `else`. -/
theorem C12_label_check_inverted :
    (WatInstruction 50 (lexState (bytes "block $a end $b")) 0 0).map
        (fun r => (r.1, r.2.f.body, r.2.state.stack.length)) =
      some (ERR_SUCCESS, [{ opcode := OP_block, imm0 := TE_void }, { opcode := OP_end }], 0) ∧
    (WatInstruction 50 (lexState (bytes "block $a end $a")) 0 0).map
        (fun r => (r.1, r.2.f.body, r.2.state.stack.length)) =
      some (1, [{ opcode := OP_block, imm0 := TE_void }], 1) ∧
    (WatInstruction 50 (lexState (bytes "if $a else $b end $c")) 0 0).map
        (fun r => (r.1, r.2.f.body, r.2.state.stack.length)) =
      some (ERR_SUCCESS, [{ opcode := OP_if, imm0 := TE_void }, { opcode := OP_else },
        { opcode := OP_end }], 0) ∧
    (WatInstruction 50 (lexState (bytes "if $a else $a end $a")) 0 0).map
        (fun r => (r.1, r.2.f.body, r.2.state.stack.length)) =
      some (1, [{ opcode := OP_if, imm0 := TE_void }], 1) := by
  decide!

/-- C13, the claim fails: for `(module (func))` the type index recorded for the function
is `4294967295` and the type section is empty; for `(module (type (func)) (func (type 1)))`
the recorded index is 1 while the type section has one entry. -/
theorem C13_signature_index_missing :
    observe (ParseWatModule 200 (bytes "(module (func))") none) =
      some { code := ERR_SUCCESS, types := [], funcdecl := [4294967295],
             bodies := [[{ opcode := OP_end }]], exports := [], deferred := 0 } ∧
    observe (ParseWatModule 200 (bytes "(module (type (func)) (func (type 1)))") none) =
      some { code := ERR_SUCCESS, types := [{ form := TE_func }], funcdecl := [1],
             bodies := [[{ opcode := OP_end }]], exports := [], deferred := 0 } := by
  decide!

/-- C17: `(module (func) (import "m" "f" (func $g)))` fails with
`ERR_WAT_INVALID_IMPORT_ORDER`, as claimed.  The claim fails on
`(module (func (drop (i32.const 1))) (import "m" "f" (func $g)))`: the second pass stops
before the import, and the module is accepted with one function and no import. -/
theorem C17_import_after_definition_accepted :
    (ParseWatModule 200 srcImportAfterFunc none).map Prod.fst = some ERR_WAT_INVALID_IMPORT_ORDER ∧
    observe (ParseWatModule 200 srcImportAfterFolded none) =
      some { code := ERR_SUCCESS, types := [], funcdecl := [U32_MAX],
             bodies := [[{ opcode := OP_drop }, { opcode := OP_i32_const, imm0 := 1 },
                         { opcode := OP_end }]],
             exports := [], deferred := 0 } ∧
    observeImports (ParseWatModule 200 srcImportAfterFolded none) = some (ERR_SUCCESS, [], 0, 0, 0) := by
  decide!

/-- A positive number that shares no bit with its predecessor is a power of two. -/
theorem pow2_of_and_pred : ∀ x : Nat, 0 < x → x &&& (x - 1) = 0 → ∃ k, x = 2 ^ k := by
  intro x
  induction x using Nat.strong_induction_on with
  | _ x ih =>
    intro hx h
    rcases Nat.even_or_odd' x with ⟨m, hm | hm⟩
    · subst hm
      have hm0 : 0 < m := by omega
      have e1 : 2 * m = Nat.bit false m := by simp [Nat.bit]
      have e2 : 2 * m - 1 = Nat.bit true (m - 1) := by simp [Nat.bit]; omega
      rw [e2, e1, Nat.land_bit] at h
      have h1 : m &&& (m - 1) = 0 := by
        simp [Nat.bit] at h
        exact h
      obtain ⟨k, hk⟩ := ih m (by omega) hm0 h1
      exact ⟨k + 1, by rw [hk, pow_succ]; ring⟩
    · subst hm
      have e1 : 2 * m + 1 = Nat.bit true m := by simp [Nat.bit]
      have e2 : 2 * m + 1 - 1 = Nat.bit false m := by simp [Nat.bit]
      rw [e2, e1, Nat.land_bit] at h
      have h1 : m = 0 := by
        simp [Nat.bit] at h
        exact h
      exact ⟨0, by rw [h1]; rfl⟩

/-- The functions `IsPowerOfTwo` and `Power2Log2` on the powers of two below `2^32`. -/
theorem Power2Log2_pow (k : Nat) (hk : k < 32) :
    IsPowerOfTwo (2 ^ k) = true ∧ Power2Log2 (2 ^ k) = k := by
  interval_cases k <;> exact ⟨by decide!, by decide!⟩

/-- A positive 32-bit value that `IsPowerOfTwo` accepts is a power of two. -/
theorem IsPowerOfTwo_pow (x : Nat) (h0 : 0 < x) (hx : x < 4294967296)
    (h : IsPowerOfTwo x = true) : ∃ k, x = 2 ^ k := by
  unfold IsPowerOfTwo at h
  have e : (x + 4294967295) % 4294967296 = x - 1 := by omega
  rw [e] at h
  exact pow2_of_and_pred x h0 (by simpa using h)

/-- The load and store case of `WatOperator`: the operator token is popped, the clauses
`offset=` and `align=` are read by `WatMemArg`, and the instruction is appended. -/
theorem WatOperator_loadstore (fuel : Nat) (s : PState) (sig index : Nat)
    (hid : s.Peek.id = TOKEN_OPERATOR) (hi : s.Peek.i ≤ 0xFF)
    (hls : isLoadStore (s.Peek.i % 256).toNat = true) :
    WatOperator fuel s sig index =
      if (WatMemArg s.Pop { opcode := (s.Peek.i % 256).toNat }).1 ≠ 0 then
        some ((WatMemArg s.Pop { opcode := (s.Peek.i % 256).toNat }).1,
          (WatMemArg s.Pop { opcode := (s.Peek.i % 256).toNat }).2.1)
      else
        some (ERR_SUCCESS, (WatMemArg s.Pop { opcode := (s.Peek.i % 256).toNat }).2.1.pushInstr
          (WatMemArg s.Pop { opcode := (s.Peek.i % 256).toNat }).2.2) := by
  have hr : 0x28 ≤ (s.Peek.i % 256).toNat ∧ (s.Peek.i % 256).toNat ≤ 0x3e := by
    unfold isLoadStore at hls
    simpa using hls
  unfold WatOperator
  rw [if_neg (by rw [hid]; simp), if_neg (by omega)]
  unfold WatOperatorSwitch
  have h1 : ¬ (s.Peek.i % 256).toNat = 0xFF := by omega
  have h2 : ¬ ((s.Peek.i % 256).toNat = OP_br ∨ (s.Peek.i % 256).toNat = OP_br_if) := by
    show ¬ ((s.Peek.i % 256).toNat = 0x0c ∨ (s.Peek.i % 256).toNat = 0x0d)
    omega
  have h3 : ¬ ((s.Peek.i % 256).toNat = OP_get_local ∨ (s.Peek.i % 256).toNat = OP_set_local ∨
      (s.Peek.i % 256).toNat = OP_tee_local) := by
    show ¬ ((s.Peek.i % 256).toNat = 0x20 ∨ (s.Peek.i % 256).toNat = 0x21 ∨
      (s.Peek.i % 256).toNat = 0x22)
    omega
  have h4 : ¬ ((s.Peek.i % 256).toNat = OP_get_global ∨ (s.Peek.i % 256).toNat = OP_set_global ∨
      (s.Peek.i % 256).toNat = OP_call) := by
    show ¬ ((s.Peek.i % 256).toNat = 0x23 ∨ (s.Peek.i % 256).toNat = 0x24 ∨
      (s.Peek.i % 256).toNat = 0x10)
    omega
  have h5 : ¬ ((s.Peek.i % 256).toNat = OP_i32_const ∨ (s.Peek.i % 256).toNat = OP_i64_const ∨
      (s.Peek.i % 256).toNat = OP_f32_const ∨ (s.Peek.i % 256).toNat = OP_f64_const) := by
    show ¬ ((s.Peek.i % 256).toNat = 0x41 ∨ (s.Peek.i % 256).toNat = 0x42 ∨
      (s.Peek.i % 256).toNat = 0x43 ∨ (s.Peek.i % 256).toNat = 0x44)
    omega
  have h6 : ¬ (s.Peek.i % 256).toNat = OP_br_table := by
    show ¬ (s.Peek.i % 256).toNat = 0x0e
    omega
  have h7 : ¬ (s.Peek.i % 256).toNat = OP_call_indirect := by
    show ¬ (s.Peek.i % 256).toNat = 0x11
    omega
  simp only [if_neg h1, if_neg h2, if_neg h3, if_neg h4, if_neg h5, if_neg h6, if_neg h7, if_pos hls]

/-- C21 (amended).  In the load and store case of `WatOperator` (last conjunct) an
`align=N` clause with `N = 2^k`, `k < 32`, sets the memflags immediate to `k`; with
`0 <= N < 2^32 - 1` zero or not a power of two it fails with `ERR_WAT_INVALID_ALIGNMENT`;
with `N >= 2^32 - 1` it fails with `ERR_WAT_OUT_OF_RANGE`.  An `offset=N` clause with
`0 <= N < 2^64` stores `N` in the offset immediate. -/
theorem C21_align_and_offset :
    (∀ (s : PState) (op : Instruction) (k : Nat), s.Peek.id = TOKEN_ALIGN →
      s.Pop.Peek.id = TOKEN_INTEGER → k < 32 → s.Pop.Peek.i = 2 ^ k →
      WatMemAlign s op = (ERR_SUCCESS, s.Pop.Pop, { op with imm0 := (k : Int) })) ∧
    (∀ (s : PState) (op : Instruction), s.Peek.id = TOKEN_ALIGN →
      s.Pop.Peek.id = TOKEN_INTEGER → 0 ≤ s.Pop.Peek.i → s.Pop.Peek.i < 4294967295 →
      (∀ k : Nat, s.Pop.Peek.i ≠ 2 ^ k) →
      (WatMemAlign s op).1 = ERR_WAT_INVALID_ALIGNMENT) ∧
    (∀ (s : PState) (op : Instruction), s.Peek.id = TOKEN_ALIGN →
      s.Pop.Peek.id = TOKEN_INTEGER → 4294967295 ≤ s.Pop.Peek.i →
      (WatMemAlign s op).1 = ERR_WAT_OUT_OF_RANGE) ∧
    (∀ (s : PState) (op : Instruction), s.Peek.id = TOKEN_OFFSET →
      s.Pop.Peek.id = TOKEN_INTEGER → 0 ≤ s.Pop.Peek.i → s.Pop.Peek.i < 18446744073709551616 →
      WatMemOffset s op = (ERR_SUCCESS, s.Pop.Pop, { op with imm1 := s.Pop.Peek.i })) ∧
    (∀ (fuel : Nat) (s : PState) (sig index : Nat), s.Peek.id = TOKEN_OPERATOR → s.Peek.i ≤ 0xFF →
      isLoadStore (s.Peek.i % 256).toNat = true →
      WatMemArg s.Pop { opcode := (s.Peek.i % 256).toNat } =
        (if (WatMemOffset s.Pop { opcode := (s.Peek.i % 256).toNat }).1 ≠ 0 then
          WatMemOffset s.Pop { opcode := (s.Peek.i % 256).toNat }
        else WatMemAlign (WatMemOffset s.Pop { opcode := (s.Peek.i % 256).toNat }).2.1
          (WatMemOffset s.Pop { opcode := (s.Peek.i % 256).toNat }).2.2) ∧
      WatOperator fuel s sig index =
        if (WatMemArg s.Pop { opcode := (s.Peek.i % 256).toNat }).1 ≠ 0 then
          some ((WatMemArg s.Pop { opcode := (s.Peek.i % 256).toNat }).1,
            (WatMemArg s.Pop { opcode := (s.Peek.i % 256).toNat }).2.1)
        else
          some (ERR_SUCCESS, (WatMemArg s.Pop { opcode := (s.Peek.i % 256).toNat }).2.1.pushInstr
            (WatMemArg s.Pop { opcode := (s.Peek.i % 256).toNat }).2.2)) := by
  refine ⟨?_, ?_, ?_, ?_, ?_⟩
  · intro s op k ha hint hk hv
    have hp := Power2Log2_pow k hk
    have hlt : (2 : Int) ^ k < 4294967295 := by
      have : (2 : Nat) ^ k ≤ 2 ^ 31 := Nat.pow_le_pow_right (by decide) (by omega)
      have h2 : ((2 : Nat) ^ k : Int) ≤ 2147483648 := by exact_mod_cast this
      push_cast at h2
      omega
    have hnat : (s.Pop.Peek.i % 4294967296).toNat = 2 ^ k := by
      rw [hv]
      have h0 : (0 : Int) ≤ 2 ^ k := by positivity
      rw [Int.emod_eq_of_lt h0 (by omega)]
      have : ((2 : Int) ^ k) = ((2 ^ k : Nat) : Int) := by push_cast; rfl
      rw [this, Int.toNat_natCast]
    unfold WatMemAlign
    rw [if_pos ha, if_neg (not_not.mpr hint), if_neg (by rw [hv]; omega), hnat,
      if_neg (by
        intro hc
        rcases hc with hc | hc
        · have := Nat.pos_pow_of_pos k (by decide : 0 < 2)
          omega
        · exact hc hp.1), hp.2]
  · intro s op ha hint h0 hlt hnp
    unfold WatMemAlign
    have hlt2 : ¬ s.Pop.Peek.i ≥ 4294967295 := by omega
    rw [if_pos ha, if_neg (not_not.mpr hint), if_neg hlt2, if_pos]
    by_cases hz : (s.Pop.Peek.i % 4294967296).toNat = 0
    · exact Or.inl hz
    · refine Or.inr ?_
      intro hc
      have hmod : s.Pop.Peek.i % 4294967296 = s.Pop.Peek.i := Int.emod_eq_of_lt h0 (by omega)
      rw [hmod] at hz hc
      have hpos : 0 < (s.Pop.Peek.i).toNat := by omega
      have hbd : (s.Pop.Peek.i).toNat < 4294967296 := by omega
      obtain ⟨k, hk⟩ := IsPowerOfTwo_pow (s.Pop.Peek.i).toNat hpos hbd (by simpa using hc)
      apply hnp k
      have : s.Pop.Peek.i = ((s.Pop.Peek.i).toNat : Int) := (Int.toNat_of_nonneg h0).symm
      rw [this, hk]
      push_cast
      rfl
  · intro s op ha hint hge
    unfold WatMemAlign
    rw [if_pos ha, if_neg (not_not.mpr hint), if_pos (by omega)]
  · intro s op ho hint h0 hlt
    unfold WatMemOffset
    rw [if_pos ho, if_neg (not_not.mpr hint), Int.emod_eq_of_lt h0 hlt]
  · intro fuel s sig index hid hi hls
    exact ⟨rfl, WatOperator_loadstore fuel s sig index hid hi hls⟩

/-- C21, a witness: `i32.load offset=8 align=4` appends the instruction with memflags 2 and
offset 8. -/
theorem C21_align_and_offset_witness :
    WatMemOffset (lexState (bytes "i32.load offset=8 align=4")).Pop { opcode := 0x28 } =
      (ERR_SUCCESS, (lexState (bytes "i32.load offset=8 align=4")).Pop.Pop.Pop,
        { opcode := 0x28, imm1 := 8 }) ∧
    WatMemAlign (lexState (bytes "i32.load offset=8 align=4")).Pop.Pop.Pop { opcode := 0x28, imm1 := 8 } =
      (ERR_SUCCESS, (lexState (bytes "i32.load offset=8 align=4")).Pop.Pop.Pop.Pop.Pop,
        { opcode := 0x28, imm0 := 2, imm1 := 8 }) ∧
    WatOperator 5 (lexState (bytes "i32.load offset=8 align=4")) 0 0 =
      some (ERR_SUCCESS, (lexState (bytes "i32.load offset=8 align=4")).Pop.Pop.Pop.Pop.Pop.pushInstr
        { opcode := 0x28, imm0 := 2, imm1 := 8 }) ∧
    (WatMemAlign (lexState (bytes "align=6")) { opcode := 0x28 }).1 = ERR_WAT_INVALID_ALIGNMENT ∧
    (WatMemAlign (lexState (bytes "align=4294967296")) { opcode := 0x28 }).1 = ERR_WAT_OUT_OF_RANGE :=
  ⟨C21_align_and_offset.2.2.2.1 _ _ (by decide!) (by decide!) (by decide!) (by decide!),
    C21_align_and_offset.1 _ _ 2 (by decide!) (by decide!) (by decide!) (by decide!),
    by
      rw [(C21_align_and_offset.2.2.2.2 5 (lexState (bytes "i32.load offset=8 align=4")) 0 0
        (by decide!) (by decide!) (by decide!)).2]
      decide!,
    C21_align_and_offset.2.1 _ _ (by decide!) (by decide!) (by decide!) (by decide!) (by
      intro k hk
      have h6 : (lexState (bytes "align=6")).Pop.Peek.i = 6 := by decide!
      rw [h6] at hk
      have hk2 : (6 : Nat) = 2 ^ k := by exact_mod_cast hk
      rcases Nat.lt_or_ge k 3 with h | h
      · interval_cases k <;> omega
      · have : 2 ^ 3 ≤ 2 ^ k := Nat.pow_le_pow_right (by decide) h
        omega),
    C21_align_and_offset.2.2.1 _ _ (by decide!) (by decide!) (by decide!)⟩

/-- C21, the claim fails: `i32.load align=4294967296`, whose alignment is `2^32`, is
rejected with `ERR_WAT_OUT_OF_RANGE`, and no instruction is appended. -/
theorem C21_counterexample :
    (lexState (bytes "i32.load align=4294967296")).Pop.Pop.Peek.i = 2 ^ 32 ∧
    (WatOperator 5 (lexState (bytes "i32.load align=4294967296")) 0 0).map
        (fun r => (r.1, r.2.f.body)) = some (ERR_WAT_OUT_OF_RANGE, []) := by
  decide!

/-- C22 (amended).  A load or store operator without an `align=` clause (after the
`offset=` clause, when there is one, the next token is not `align`) is accepted, and the
memflags immediate of the instruction appended is 0, whatever the access width. -/
theorem C22_missing_align_is_zero (fuel : Nat) (s : PState) (sig index : Nat)
    (hid : s.Peek.id = TOKEN_OPERATOR) (hi : s.Peek.i ≤ 0xFF)
    (hls : isLoadStore (s.Peek.i % 256).toNat = true)
    (hoff : (WatMemOffset s.Pop { opcode := (s.Peek.i % 256).toNat }).1 = 0)
    (hno : (WatMemOffset s.Pop { opcode := (s.Peek.i % 256).toNat }).2.1.Peek.id ≠ TOKEN_ALIGN) :
    WatOperator fuel s sig index =
      some (ERR_SUCCESS, (WatMemOffset s.Pop { opcode := (s.Peek.i % 256).toNat }).2.1.pushInstr
        (WatMemOffset s.Pop { opcode := (s.Peek.i % 256).toNat }).2.2) ∧
    (WatMemOffset s.Pop { opcode := (s.Peek.i % 256).toNat }).2.2.opcode = (s.Peek.i % 256).toNat ∧
    (WatMemOffset s.Pop { opcode := (s.Peek.i % 256).toNat }).2.2.imm0 = 0 := by
  have harg : WatMemArg s.Pop { opcode := (s.Peek.i % 256).toNat } =
      (ERR_SUCCESS, (WatMemOffset s.Pop { opcode := (s.Peek.i % 256).toNat }).2.1,
        (WatMemOffset s.Pop { opcode := (s.Peek.i % 256).toNat }).2.2) := by
    unfold WatMemArg
    rw [if_neg (not_not.mpr hoff)]
    unfold WatMemAlign
    rw [if_neg hno]
  refine ⟨?_, ?_, ?_⟩
  · rw [WatOperator_loadstore fuel s sig index hid hi hls, harg]
    simp
  · unfold WatMemOffset
    split
    · split <;> rfl
    · rfl
  · unfold WatMemOffset
    split
    · split <;> rfl
    · rfl

/-- C22, a witness: `i64.store offset=16` appends the instruction with offset 16 and
memflags 0. -/
theorem C22_missing_align_is_zero_witness :
    WatOperator 5 (lexState (bytes "i64.store offset=16")) 0 0 =
      some (ERR_SUCCESS, (lexState (bytes "i64.store offset=16")).Pop.Pop.Pop.pushInstr
        { opcode := 0x37, imm0 := 0, imm1 := 16 }) :=
  (C22_missing_align_is_zero 5 (lexState (bytes "i64.store offset=16")) 0 0 (by decide!)
    (by decide!) (by decide!) (by decide!) (by decide!)).1.trans (by decide!)

/-- C22, the claim fails: `i32.load` and `i64.load` without an `align=` clause get the
memflags immediate 0, not 2 and 3. -/
theorem C22_counterexample :
    (WatOperator 5 (lexState (bytes "i32.load")) 0 0).map (fun r => (r.1, r.2.f.body)) =
      some (ERR_SUCCESS, [{ opcode := 0x28, imm0 := 0 }]) ∧
    (WatOperator 5 (lexState (bytes "i64.load")) 0 0).map (fun r => (r.1, r.2.f.body)) =
      some (ERR_SUCCESS, [{ opcode := 0x29, imm0 := 0 }]) := by
  decide!

/-- More fuel does not change a result of the search loop of `GetJump`. -/
theorem GetJumpLoop_mono (buf : List Nat) (stack : List StringRef) (r : StringRef) :
    ∀ f g i d, f ≤ g → GetJumpLoop buf stack r f i = some d → GetJumpLoop buf stack r g i = some d := by
  intro f
  induction f with
  | zero => intro g i d _ h; simp [GetJumpLoop] at h
  | succ n ih =>
    intro g i d hfg h
    obtain ⟨g1, rfl⟩ : ∃ g1, g = g1 + 1 := ⟨g - 1, by omega⟩
    unfold GetJumpLoop at h ⊢
    split
    · rename_i hi
      rw [if_pos hi] at h
      split
      · rename_i he
        rw [if_pos he] at h
        exact h
      · rename_i he
        rw [if_neg he] at h
        exact ih _ _ _ (by omega) h
    · rename_i hi
      rw [if_neg hi] at h
      exact h

/-- More fuel does not change a result of `GetJump`. -/
theorem GetJump_mono {buf : List Nat} {stack : List StringRef} {var : Token} {f g d : Nat}
    (hfg : f ≤ g) (h : GetJump f buf stack var = some d) : GetJump g buf stack var = some d := by
  unfold GetJump at h ⊢
  split
  · rename_i hc; rw [if_pos hc] at h; exact h
  · rename_i hc
    rw [if_neg hc] at h
    split
    · rename_i hn
      rw [if_pos hn] at h
      exact GetJumpLoop_mono _ _ _ _ _ _ _ hfg h
    · rename_i hn
      rw [if_neg hn] at h
      exact h

theorem get_Pop (s : PState) (j : Nat) : s.Pop.get j = s.get (j + 1) := by
  show s.tokens.toks.getD (s.tokens.pos + 1 + j) _ = s.tokens.toks.getD (s.tokens.pos + (j + 1)) _
  rw [Nat.add_assoc, Nat.add_comm 1 j]

theorem skip_Pop (s : PState) (k : Nat) : s.Pop.skip k = s.skip (k + 1) := by
  show ({ s with tokens := { s.tokens with pos := s.tokens.pos + 1 + k } } : PState) =
    { s with tokens := { s.tokens with pos := s.tokens.pos + (k + 1) } }
  rw [Nat.add_assoc, Nat.add_comm 1 k]

/-- The loop of the `br_table` case on a run of operands that resolve to the depths `ds`. -/
theorem WatBrTableLoop_run (f0 : Nat) :
    ∀ (ds : List Nat) (fuel : Nat) (s : PState) (tbl : List Nat), ds ≠ [] →
      (∀ j, j < ds.length → GetJump f0 s.buf s.state.stack (s.get j) = some (ds.getD j 0)) →
      (∀ d ∈ ds, d ≠ U7_MAX) →
      (∀ j, 0 < j → j < ds.length → (s.get j).id = TOKEN_NAME ∨ (s.get j).id = TOKEN_INTEGER) →
      ¬ ((s.get ds.length).id = TOKEN_NAME ∨ (s.get ds.length).id = TOKEN_INTEGER) →
      f0 + ds.length ≤ fuel →
      WatBrTableLoop fuel s tbl = some (ERR_SUCCESS, s.skip ds.length, tbl ++ ds) := by
  intro ds
  induction ds with
  | nil => intro fuel s tbl h; exact absurd rfl h
  | cons d rest ih =>
    intro fuel s tbl _ hres hok hrun hend hfuel
    obtain ⟨g, rfl⟩ : ∃ g, fuel = g + 1 := ⟨fuel - 1, by simp only [List.length_cons] at hfuel; omega⟩
    simp only [List.length_cons] at hfuel hend
    have h0 : GetJump g s.buf s.state.stack s.Peek = some d :=
      GetJump_mono (by omega) (hres 0 (by simp))
    have hd : d ≠ U7_MAX := hok d (List.mem_cons_self _ _)
    unfold WatBrTableLoop
    rw [h0]
    simp only
    rw [if_neg hd]
    cases rest with
    | nil =>
      have hp : ¬ (s.Pop.Peek.id = TOKEN_NAME ∨ s.Pop.Peek.id = TOKEN_INTEGER) := hend
      rw [if_neg hp]
      rfl
    | cons e rest1 =>
      have hp : s.Pop.Peek.id = TOKEN_NAME ∨ s.Pop.Peek.id = TOKEN_INTEGER :=
        hrun 1 (by decide) (by simp)
      rw [if_pos hp]
      have := ih g s.Pop (tbl ++ [d]) (by simp)
        (fun j hj => by
          rw [get_Pop]
          have := hres (j + 1) (by simp only [List.length_cons] at hj ⊢; omega)
          simpa using this)
        (fun x hx => hok x (List.mem_cons_of_mem _ hx))
        (fun j hj0 hj => by
          rw [get_Pop]
          exact hrun (j + 1) (by omega) (by simp only [List.length_cons] at hj ⊢; omega))
        (by rw [get_Pop]; exact hend)
        (by simp only [List.length_cons] at hfuel ⊢; omega)
      rw [this, skip_Pop]
      simp

/-- C23.  Let `br_table` be followed by a run of `n >= 1` branch operands (names or
integers, the token behind the run being neither) that `GetJump` resolves to the depths
`ds`, each of them below 255, the value `GetJump` returns for a miss.  Then `WatOperator`
succeeds, reads the operator and the `n` operands, and appends one `br_table` instruction
whose jump table is `ds` without its last entry and whose default target is the last
entry of `ds`. -/
theorem C23_br_table_operands (fuel f0 : Nat) (s : PState) (sig index : Nat) (ds : List Nat)
    (hid : s.Peek.id = TOKEN_OPERATOR) (hi : s.Peek.i ≤ 0xFF)
    (hop : (s.Peek.i % 256).toNat = OP_br_table) (hn : ds ≠ [])
    (hres : ∀ j, j < ds.length →
      GetJump f0 s.buf s.state.stack (s.get (j + 1)) = some (ds.getD j 0))
    (hok : ∀ d ∈ ds, d ≠ U7_MAX)
    (hrun : ∀ j, 0 < j → j < ds.length →
      (s.get (j + 1)).id = TOKEN_NAME ∨ (s.get (j + 1)).id = TOKEN_INTEGER)
    (hend : ¬ ((s.get (ds.length + 1)).id = TOKEN_NAME ∨ (s.get (ds.length + 1)).id = TOKEN_INTEGER))
    (hfuel : f0 + ds.length ≤ fuel) :
    WatOperator fuel s sig index =
      some (ERR_SUCCESS, (s.skip (ds.length + 1)).pushInstr
        { opcode := OP_br_table, table := ds.dropLast, imm1 := ((ds.getLastD 0 : Nat) : Int) }) := by
  have hrunloop := WatBrTableLoop_run f0 ds fuel s.Pop [] hn
    (fun j hj => by rw [get_Pop]; exact hres j hj) hok
    (fun j hj0 hj => by rw [get_Pop]; exact hrun j hj0 hj)
    (by rw [get_Pop]; exact hend) hfuel
  unfold WatOperator
  rw [if_neg (by rw [hid]; simp), if_neg (by omega)]
  unfold WatOperatorSwitch
  have h1 : ¬ (s.Peek.i % 256).toNat = 0xFF := by rw [hop]; decide
  have h2 : ¬ ((s.Peek.i % 256).toNat = OP_br ∨ (s.Peek.i % 256).toNat = OP_br_if) := by
    rw [hop]; decide
  have h3 : ¬ ((s.Peek.i % 256).toNat = OP_get_local ∨ (s.Peek.i % 256).toNat = OP_set_local ∨
      (s.Peek.i % 256).toNat = OP_tee_local) := by rw [hop]; decide
  have h4 : ¬ ((s.Peek.i % 256).toNat = OP_get_global ∨ (s.Peek.i % 256).toNat = OP_set_global ∨
      (s.Peek.i % 256).toNat = OP_call) := by rw [hop]; decide
  have h5 : ¬ ((s.Peek.i % 256).toNat = OP_i32_const ∨ (s.Peek.i % 256).toNat = OP_i64_const ∨
      (s.Peek.i % 256).toNat = OP_f32_const ∨ (s.Peek.i % 256).toNat = OP_f64_const) := by
    rw [hop]; decide
  simp only [if_neg h1, if_neg h2, if_neg h3, if_neg h4, if_neg h5, if_pos hop, hrunloop,
    List.nil_append, skip_Pop, hop]
  rfl

/-- C23, a witness: under the labels `$a` (innermost) and `$b`, `br_table $b 0 $a` gives the
jump table `[1, 0]` and the default target 0. -/
theorem C23_br_table_operands_witness :
    WatOperator 9 wC23 0 0 =
      some (ERR_SUCCESS, (wC23.skip 4).pushInstr
        { opcode := OP_br_table, table := [1, 0], imm1 := 0 }) :=
  C23_br_table_operands 9 3 wC23 0 0 [1, 0, 0] (by decide!) (by decide!) (by decide!) (by decide)
    (fun j hj => by
      have hj3 : j < 3 := hj
      interval_cases j <;> decide!)
    (by decide)
    (fun j _ hj => by
      have hj3 : j < 3 := hj
      interval_cases j <;> decide!)
    (by decide!) (by decide)

/-! ### What the instruction parser leaves unchanged -/

theorem skip_zero (s : PState) : s.skip 0 = s := rfl

theorem skip_rel {R : PState → PState → Prop} (hR : FrameRel R) (s : PState) :
    ∀ k, R s (s.skip k) := by
  intro k
  induction k with
  | zero => exact hR.rrefl s
  | succ n ih => exact hR.rtrans _ _ _ ih (hR.rpop _)

/-- A configuration that differs only by a later read position is related. -/
theorem Advances_rel {R : PState → PState → Prop} (hR : FrameRel R) {s s1 : PState}
    (h : Advances s s1) : R s s1 := by
  obtain ⟨h1, h2, h3, h4, h5⟩ := h
  have e : s1 = s.skip (s1.tokens.pos - s.tokens.pos) := by
    obtain ⟨b1, ⟨t1, p1⟩, st1, f1⟩ := s1
    obtain ⟨b, ⟨t, p⟩, st, f⟩ := s
    simp only at h1 h2 h3 h4 h5
    subst h1 h2 h3 h4
    show _ = ({ buf := _, tokens := { toks := _, pos := p + (p1 - p) }, state := _, f := _ } : PState)
    have : p + (p1 - p) = p1 := by omega
    rw [this]
  rw [e]
  exact skip_rel hR s _

theorem CheckLabel_adv (s : PState) : Advances s (CheckLabel s).1 := by
  unfold CheckLabel
  split
  · exact Advances_pop s
  · exact Advances_refl s

theorem adv3 {α : Type} {s s0 s1 : PState} {r0 r : Int} {x0 x : α}
    (h : some (r0, s0, x0) = some (r, s1, x)) (k : Advances s s0) : Advances s s1 := by
  simp only [Option.some.injEq, Prod.mk.injEq] at h; rw [← h.2.1]; exact k

theorem WatBlockType_adv {s : PState} {r : Int} {s1 : PState} {out : Int}
    (h : WatBlockType s = some (r, s1, out)) : Advances s s1 := by
  unfold WatBlockType at h
  simp only at h
  split at h
  · simp at h
  · rename_i r0 s0 out0 h0
    have hk0 : Advances s s0 := by
      clear h
      split at h0
      · split at h0
        · simp at h0
        · rename_i ra sa ha
          have ka := (EXPECTED_adv ha).1
          split at h0
          · exact adv3 h0 ka
          · split at h0
            · simp at h0
            · rename_i rb sb hb
              have kb := Advances_trans ka (EXPECTED_adv hb).1
              split at h0
              · exact adv3 h0 kb
              · split at h0
                · split at h0
                  · exact adv3 h0 (Advances_trans kb (Advances_pop _))
                  · split at h0
                    · exact adv3 h0 (Advances_trans kb (Advances_pop _))
                    · split at h0
                      · simp at h0
                      · rename_i rc sc hc
                        exact adv3 h0 (Advances_trans (Advances_trans kb (Advances_pop _))
                          (EXPECTED_adv hc).1)
                · split at h0
                  · simp at h0
                  · rename_i rc sc hc
                    exact adv3 h0 (Advances_trans kb (EXPECTED_adv hc).1)
      · exact adv3 h0 (Advances_refl s)
    split at h
    · exact adv3 h hk0
    · split at h <;> exact adv3 h hk0

/-- The opening of a block pushes one label and reads tokens. -/
theorem WatBlockOpen_rel {R : PState → PState → Prop} (hR : FrameRel R) {s : PState} {r : Int}
    {s1 : PState} {out : Int} (h : WatBlockOpen s = some (r, s1, out)) :
    ∃ lbl, R (s.pushLabel lbl) s1 := by
  unfold WatBlockOpen at h
  have ha := Advances_rel hR (WatBlockType_adv h)
  unfold WatLabel at ha
  split at ha
  · exact ⟨_, hR.rtrans _ _ _ (hR.rpop _) ha⟩
  · exact ⟨_, ha⟩

theorem WatConstantOperator_adv (s : PState) (op : Instruction) :
    Advances s (WatConstantOperator s op).2.1 := by
  unfold WatConstantOperator
  split
  · split
    · exact Advances_refl s
    · exact Advances_pop s
  · split
    · split
      · exact Advances_refl s
      · exact Advances_pop s
    · split
      · split
        · exact Advances_pop s
        · split
          · exact Advances_pop s
          · exact Advances_refl s
      · split
        · simp only
          split
          · exact Advances_pop s
          · exact Advances_pop s
        · exact Advances_refl s

theorem WatMemArg_adv (s : PState) (op : Instruction) : Advances s (WatMemArg s op).2.1 := by
  have hoff : ∀ (t : PState) (o : Instruction), Advances t (WatMemOffset t o).2.1 := by
    intro t o
    unfold WatMemOffset
    split
    · split
      · exact Advances_pop t
      · exact Advances_trans (Advances_pop t) (Advances_pop _)
    · exact Advances_refl t
  have hal : ∀ (t : PState) (o : Instruction), Advances t (WatMemAlign t o).2.1 := by
    intro t o
    unfold WatMemAlign
    split
    · split
      · exact Advances_pop t
      · split
        · exact Advances_pop t
        · split
          · exact Advances_trans (Advances_pop t) (Advances_pop _)
          · exact Advances_trans (Advances_pop t) (Advances_pop _)
    · exact Advances_refl t
  unfold WatMemArg
  split
  · exact hoff s op
  · exact Advances_trans (hoff s op) (hal _ _)

theorem rel4 {R : PState → PState → Prop} {α β : Type} {s s0 s1 : PState} {r0 r : Int}
    {x0 x : α} {y0 y : β} (h : some (r0, s0, x0, y0) = some (r, s1, x, y)) (k : R s s0) :
    R s s1 := by
  simp only [Option.some.injEq, Prod.mk.injEq] at h; rw [← h.2.1]; exact k

theorem rel2 {R : PState → PState → Prop} {s s0 s1 : PState} {r0 r : Int}
    (h : some (r0, s0) = some (r, s1)) (k : R s s0) : R s s1 := by
  simp only [Option.some.injEq, Prod.mk.injEq] at h; rw [← h.2]; exact k

theorem WatFuncType_rel {R : PState → PState → Prop} (hR : FrameRel R) {fuel : Nat} {s : PState}
    {names : Option (List (Option (List Nat)))} {r : Int} {s1 : PState} {sig : Nat}
    {names1 : Option (List (Option (List Nat)))}
    (h : WatFuncType fuel s names = some (r, s1, sig, names1)) : R s s1 := by
  unfold WatFuncType at h
  simp only at h
  split at h
  · simp at h
  · rename_i r0 s0 sig0 h0
    have hk0 : Advances s s0 := by
      clear h
      split at h0
      · split at h0
        · simp at h0
        · rename_i ra sa ha
          have ka := (EXPECTED_adv ha).1
          split at h0
          · exact adv3 h0 ka
          · split at h0
            · simp at h0
            · rename_i rb sb hb
              have kb := Advances_trans ka (EXPECTED_adv hb).1
              split at h0
              · exact adv3 h0 kb
              · split at h0
                · exact adv3 h0 kb
                · split at h0
                  · exact adv3 h0 (Advances_trans kb (Advances_pop _))
                  · split at h0
                    · simp at h0
                    · rename_i rc sc hc
                      exact adv3 h0 (Advances_trans (Advances_trans kb (Advances_pop _))
                        (EXPECTED_adv hc).1)
      · exact adv3 h0 (Advances_refl s)
    have hr0 := Advances_rel hR hk0
    split at h
    · exact rel4 h hr0
    · split at h
      · split at h
        · simp at h
        · rename_i ra sa func na ha
          have ka := hR.rtrans _ _ _ hr0
            (Advances_rel hR (WatTypeInner_adv _ _ _ _ _ _ _ _ ha).1)
          split at h
          · split at h
            · simp at h
            · split at h
              · exact rel4 h ka
              · exact rel4 h ka
          · split at h
            · exact rel4 h (hR.rtrans _ _ _ ka (hR.rtype _ _))
            · exact rel4 h ka
      · exact rel4 h hr0

/-- An accepted operator body is a sequence of steps of the instruction parser. -/
theorem WatOperatorSwitch_rel {R : PState → PState → Prop} (hR : FrameRel R) {fuel : Nat}
    {s1 : PState} {op : Instruction} {sig index : Nat} {s2 : PState}
    (h : WatOperatorSwitch fuel s1 op sig index = some (ERR_SUCCESS, s2)) : R s1 s2 := by
  unfold WatOperatorSwitch at h
  split at h
  · simp at h
  split at h
  · split at h
    · simp at h
    · split at h
      · simp at h
      · exact rel2 h (hR.rtrans _ _ _ (hR.rpop s1) (hR.rinstr _ _))
  split at h
  · split at h
    · split at h
      · simp at h
      · exact rel2 h (hR.rtrans _ _ _ (hR.rpop s1) (hR.rinstr _ _))
    · simp at h
  split at h
  · exact rel2 h (hR.rtrans _ _ _ (hR.rtrans _ _ _ (hR.rpop s1) (hR.rdefer _ _)) (hR.rinstr _ _))
  split at h
  · have hc := Advances_rel hR (WatConstantOperator_adv s1 op)
    split at h
    rename_i r s3 op1 hco
    rw [hco] at hc
    split at h
    · simp only [Option.some.injEq, Prod.mk.injEq] at h
      rename_i hr
      exact absurd h.1.symm (by intro hc2; exact hr hc2.symm)
    · exact rel2 h (hR.rtrans _ _ _ hc (hR.rinstr _ _))
  split at h
  · split at h
    · simp at h
    · rename_i r s3 tbl hl
      split at h
      · simp only [Option.some.injEq, Prod.mk.injEq] at h
        rename_i hr
        exact absurd h.1.symm (by intro hc2; exact hr hc2.symm)
      · rename_i hr
        have hr0 : r = ERR_SUCCESS := by
          by_contra hc; exact hr hc
        subst hr0
        have hb := WatBrTableLoop_spec _ _ _ _ _ hl
        have ha : Advances s1 s3 := ⟨hb.1, hb.2.2.2.1, hb.2.1, hb.2.2.1, Nat.le_of_lt hb.2.2.2.2.1⟩
        exact rel2 h (hR.rtrans _ _ _ (Advances_rel hR ha) (hR.rinstr _ _))
  split at h
  · split at h
    · simp at h
    · rename_i r s3 sg nm hl
      split at h
      · simp only [Option.some.injEq, Prod.mk.injEq] at h
        rename_i hr
        exact absurd h.1.symm (by intro hc2; exact hr hc2.symm)
      · exact rel2 h (hR.rtrans _ _ _ (WatFuncType_rel hR hl) (hR.rinstr _ _))
  split at h
  · have hc := Advances_rel hR (WatMemArg_adv s1 op)
    split at h
    rename_i r s3 op1 hco
    rw [hco] at hc
    split at h
    · simp only [Option.some.injEq, Prod.mk.injEq] at h
      rename_i hr
      exact absurd h.1.symm (by intro hc2; exact hr hc2.symm)
    · exact rel2 h (hR.rtrans _ _ _ hc (hR.rinstr _ _))
  · exact rel2 h (hR.rinstr _ _)

/-- An accepted operator is a sequence of steps of the instruction parser. -/
theorem WatOperator_rel {R : PState → PState → Prop} (hR : FrameRel R) {fuel : Nat} {s : PState}
    {sig index : Nat} {s2 : PState} (h : WatOperator fuel s sig index = some (ERR_SUCCESS, s2)) :
    R s s2 := by
  unfold WatOperator at h
  split at h
  · simp at h
  split at h
  · simp at h
  exact hR.rtrans _ _ _ (hR.rpop s) (WatOperatorSwitch_rel hR h)

/-- Every accepted run of the five mutually recursive instruction parsers is a sequence of
steps of a frame relation `R`: whatever every single step preserves, the parsers preserve. -/
theorem parse_rel {R : PState → PState → Prop} (hR : FrameRel R) : ∀ fuel,
    (∀ s sig index s1, WatInstruction fuel s sig index = some (ERR_SUCCESS, s1) → R s s1) ∧
    (∀ s sig index s1, WatExpression fuel s sig index = some (ERR_SUCCESS, s1) → R s s1) ∧
    (∀ stop s sig index s1,
      WatInstructionLoop fuel stop s sig index = some (ERR_SUCCESS, s1) → R s s1) ∧
    (∀ s sig index s1, WatConditionLoop fuel s sig index = some (ERR_SUCCESS, s1) → R s s1) ∧
    (∀ s sig index s1, WatExpressionLoop fuel s sig index = some (ERR_SUCCESS, s1) → R s s1) := by
  intro fuel
  induction fuel with
  | zero =>
    refine ⟨?_, ?_, ?_, ?_, ?_⟩
    · intro s sig index s1 h; simp [WatInstruction] at h
    · intro s sig index s1 h; simp [WatExpression] at h
    · intro stop s sig index s1 h; simp [WatInstructionLoop] at h
    · intro s sig index s1 h; simp [WatConditionLoop] at h
    · intro s sig index s1 h; simp [WatExpressionLoop] at h
  | succ n ih =>
    obtain ⟨ihI, ihE, ihL, ihC, ihX⟩ := ih
    have adv : ∀ {a b : PState}, Advances a b → R a b := fun h => Advances_rel hR h
    have tr : ∀ {a b c : PState}, R a b → R b c → R a c := fun h1 h2 => hR.rtrans _ _ _ h1 h2
    have flatBlock : ∀ (sp s0 : PState) (sig index : Nat) (op : Instruction) (s1 : PState)
        (lbl : StringRef), R (sp.pushLabel lbl) s0 →
        (andThen (WatInstructionLoop n [TOKEN_END] (s0.pushInstr op) sig index) fun s2 =>
          andThen (EXPECTED s2 TOKEN_END ERR_WAT_EXPECTED_END) fun s3 =>
          if (CheckLabel s3).2 then some (1, (CheckLabel s3).1)
          else some (ERR_SUCCESS, (((CheckLabel s3).1).pushInstr { opcode := OP_end }).popLabel))
          = some (ERR_SUCCESS, s1) → R sp s1 := by
      intro sp s0 sig index op s1 lbl k0 h
      obtain ⟨s2, h2, h⟩ := andThen_ok h
      obtain ⟨s3, h3, h⟩ := andThen_ok h
      have e2 := ihL _ _ _ _ _ h2
      have k3 := adv (EXPECTED_adv h3).1
      split at h
      · simp at h
      · simp only [Option.some.injEq, Prod.mk.injEq, true_and] at h
        rw [← h]
        exact hR.rlabel _ _ lbl
          (tr (tr (tr (tr k0 (hR.rinstr _ _)) e2) k3) (tr (adv (CheckLabel_adv s3)) (hR.rinstr _ _)))
    refine ⟨?_, ?_, ?_, ?_, ?_⟩
    · -- WatInstruction
      intro s sig index s1 h
      rw [WatInstruction] at h
      split at h
      · exact ihE _ _ _ _ h
      · split at h
        · simp at h
        · rename_i r s0 bt hopen
          split at h
          · simp only [Option.some.injEq, Prod.mk.injEq] at h
            rename_i hr
            exact absurd h.1 hr
          · obtain ⟨lbl, hl⟩ := WatBlockOpen_rel hR hopen
            exact tr (hR.rpop s) (flatBlock s.Pop s0 sig index _ s1 lbl hl h)
      · split at h
        · simp at h
        · rename_i r s0 bt hopen
          split at h
          · simp only [Option.some.injEq, Prod.mk.injEq] at h
            rename_i hr
            exact absurd h.1 hr
          · obtain ⟨lbl, hl⟩ := WatBlockOpen_rel hR hopen
            exact tr (hR.rpop s) (flatBlock s.Pop s0 sig index _ s1 lbl hl h)
      · split at h
        · simp at h
        · rename_i r s0 bt hopen
          split at h
          · simp only [Option.some.injEq, Prod.mk.injEq] at h
            rename_i hr
            exact absurd h.1 hr
          · obtain ⟨lbl, hl⟩ := WatBlockOpen_rel hR hopen
            simp only at h
            obtain ⟨s2, h2, h⟩ := andThen_ok h
            have e2 := ihL _ _ _ _ _ h2
            obtain ⟨s4, h4, h⟩ := andThen_ok h
            have e4 : R s2 s4 := by
              split at h4
              · split at h4
                · simp at h4
                · obtain ⟨s3, h3, h4⟩ := andThen_ok h4
                  have kc := tr (hR.rpop s2) (adv (CheckLabel_adv s2.Pop))
                  have e3 := ihL _ _ _ _ _ h3
                  exact tr (tr (tr kc (hR.rinstr _ _)) e3) (adv (EXPECTED_adv h4).1)
              · simp only [Option.some.injEq, Prod.mk.injEq, true_and] at h4
                rw [← h4]; exact hR.rpop s2
            split at h
            · simp at h
            · simp only [Option.some.injEq, Prod.mk.injEq, true_and] at h
              rw [← h]
              exact tr (hR.rpop s) (hR.rlabel _ _ lbl
                (tr (tr (tr (tr hl (hR.rinstr _ _)) e2) e4)
                  (tr (adv (CheckLabel_adv s4)) (hR.rinstr _ _))))
      · exact WatOperator_rel hR h
    · -- WatExpression
      intro s sig index s1 h
      rw [WatExpression] at h
      split at h
      · simp at h
      · obtain ⟨s2, h2, h⟩ := andThen_ok h
        exact tr (ihX _ _ _ _ h2) (adv (EXPECTED_adv h).1)
    · -- WatInstructionLoop
      intro stop s sig index s1 h
      rw [WatInstructionLoop] at h
      split at h
      · simp only [Option.some.injEq, Prod.mk.injEq, true_and] at h
        rw [← h]; exact hR.rrefl s
      · obtain ⟨s2, h2, h⟩ := andThen_ok h
        exact tr (ihI _ _ _ _ h2) (ihL _ _ _ _ _ h)
    · -- WatConditionLoop
      intro s sig index s1 h
      rw [WatConditionLoop] at h
      split at h
      · obtain ⟨s2, h2, h⟩ := andThen_ok h
        exact tr (ihE _ _ _ _ h2) (ihC _ _ _ _ h)
      · simp only [Option.some.injEq, Prod.mk.injEq, true_and] at h
        rw [← h]; exact hR.rrefl s
    · -- WatExpressionLoop
      intro s sig index s1 h
      rw [WatExpressionLoop] at h
      split at h
      · obtain ⟨sa, ha, h⟩ := andThen_ok h
        have ka := adv (EXPECTED_adv ha).1
        simp only at h
        obtain ⟨sb, hb, h⟩ := andThen_ok h
        have eb : R sa sb := by
          have foldedBlock : ∀ (s0 : PState) (op : Instruction) (lbl : StringRef),
              R (sa.Pop.pushLabel lbl) s0 →
              (andThen (WatInstructionLoop n [TOKEN_CLOSE] (s0.pushInstr op) sig index) fun s2 =>
                some (ERR_SUCCESS, (s2.pushInstr { opcode := OP_end }).popLabel))
                = some (ERR_SUCCESS, sb) → R sa sb := by
            intro s0 op lbl k0 h
            obtain ⟨s2, h2, h⟩ := andThen_ok h
            have e2 := ihL _ _ _ _ _ h2
            simp only [Option.some.injEq, Prod.mk.injEq, true_and] at h
            rw [← h]
            exact tr (hR.rpop sa) (hR.rlabel _ _ lbl
              (tr (tr (tr k0 (hR.rinstr _ _)) e2) (hR.rinstr _ _)))
          split at hb
          · split at hb
            · simp at hb
            · rename_i r s0 bt hopen
              split at hb
              · simp only [Option.some.injEq, Prod.mk.injEq] at hb
                rename_i hr
                exact absurd hb.1 hr
              · obtain ⟨lbl, hl⟩ := WatBlockOpen_rel hR hopen
                exact foldedBlock s0 _ lbl hl hb
          · split at hb
            · simp at hb
            · rename_i r s0 bt hopen
              split at hb
              · simp only [Option.some.injEq, Prod.mk.injEq] at hb
                rename_i hr
                exact absurd hb.1 hr
              · obtain ⟨lbl, hl⟩ := WatBlockOpen_rel hR hopen
                exact foldedBlock s0 _ lbl hl hb
          · split at hb
            · simp at hb
            · rename_i r s0 bt hopen
              split at hb
              · simp only [Option.some.injEq, Prod.mk.injEq] at hb
                rename_i hr
                exact absurd hb.1 hr
              · obtain ⟨lbl, hl⟩ := WatBlockOpen_rel hR hopen
                obtain ⟨s2, h2, hb⟩ := andThen_ok hb
                have e2 := ihC _ _ _ _ h2
                obtain ⟨s3, h3, hb⟩ := andThen_ok hb
                have k3 := adv (EXPECTED_adv h3).1
                obtain ⟨s4, h4, hb⟩ := andThen_ok hb
                have k4 := tr k3 (adv (EXPECTED_adv h4).1)
                obtain ⟨s5, h5, hb⟩ := andThen_ok hb
                have e5 := ihL _ _ _ _ _ h5
                obtain ⟨s6, h6, hb⟩ := andThen_ok hb
                have e6 := tr (tr k4 e5) (adv (EXPECTED_adv h6).1)
                obtain ⟨s10, h10, hb⟩ := andThen_ok hb
                have e10 : R s6 s10 := by
                  split at h10
                  · obtain ⟨s7, h7, h10⟩ := andThen_ok h10
                    obtain ⟨s8, h8, h10⟩ := andThen_ok h10
                    have k8 := tr (adv (EXPECTED_adv h7).1) (adv (EXPECTED_adv h8).1)
                    obtain ⟨s9, h9, h10⟩ := andThen_ok h10
                    have e9 := ihL _ _ _ _ _ h9
                    exact tr (tr (tr k8 (hR.rinstr _ _)) e9) (adv (EXPECTED_adv h10).1)
                  · simp only [Option.some.injEq, Prod.mk.injEq, true_and] at h10
                    rw [← h10]; exact hR.rrefl s6
                simp only [Option.some.injEq, Prod.mk.injEq, true_and] at hb
                rw [← hb]
                exact tr (hR.rpop sa) (hR.rlabel _ _ lbl
                  (tr (tr (tr (tr (tr hl e2) (hR.rinstr _ _)) e6) e10) (hR.rinstr _ _)))
          · exact WatOperator_rel hR hb
        exact tr (tr ka eb) (ihX _ _ _ _ h)
      · simp only [Option.some.injEq, Prod.mk.injEq, true_and] at h
        rw [← h]; exact hR.rrefl s

/-- The relation `Frame` is preserved by every step of the instruction parser. -/
theorem Frame_rel : FrameRel Frame where
  rrefl := fun s => ⟨rfl, rfl, Nat.le_refl _, rfl, rfl, rfl⟩
  rtrans := fun a b c h1 h2 =>
    ⟨h2.1.trans h1.1, h2.2.1.trans h1.2.1, Nat.le_trans h1.2.2.1 h2.2.2.1,
      h2.2.2.2.1.trans h1.2.2.2.1, h2.2.2.2.2.1.trans h1.2.2.2.2.1,
      h2.2.2.2.2.2.trans h1.2.2.2.2.2⟩
  rpop := fun s => ⟨rfl, rfl, Nat.le_succ _, rfl, rfl, rfl⟩
  rinstr := fun s op => ⟨rfl, rfl, Nat.le_refl _, rfl, rfl, rfl⟩
  rdefer := fun s d => ⟨rfl, rfl, Nat.le_refl _, rfl, rfl, rfl⟩
  rtype := fun s sig => ⟨rfl, rfl, Nat.le_refl _, rfl, rfl, rfl⟩
  rlabel := fun s s2 lbl h =>
    ⟨h.1, h.2.1, h.2.2.1, by
      show s2.state.stack.tail = s.state.stack
      have := h.2.2.2.1
      rw [this]; rfl, h.2.2.2.2.1, h.2.2.2.2.2⟩

/-- Every step of the instruction parser only appends to the current body. -/
theorem Appends_rel : FrameRel Appends where
  rrefl := fun s => ⟨[], (List.append_nil _).symm⟩
  rtrans := fun a b c h1 h2 => by
    obtain ⟨d1, e1⟩ := h1
    obtain ⟨d2, e2⟩ := h2
    exact ⟨d1 ++ d2, by rw [e2, e1, List.append_assoc]⟩
  rpop := fun s => ⟨[], (List.append_nil _).symm⟩
  rinstr := fun s op => ⟨[op], rfl⟩
  rdefer := fun s d => ⟨[], (List.append_nil _).symm⟩
  rtype := fun s sig => ⟨[], (List.append_nil _).symm⟩
  rlabel := fun s s2 lbl h => h

/-- C24: the stream of a folded `if`.  `WatExpression` accepts
`(if (then (drop (i32.const 1))) (else (nop)))` after 12 of its 19 tokens with the body
`if, drop, i32.const 1, end`: the else branch is not read and no `else` is emitted.
On `(if (i32.const 1) (then (nop)) (else (drop)))` the body is the claimed one.  In general,
when the token behind the opening parenthesis is `if` and `WatExpression` succeeds, a
configuration `sI` is reached whose body is the one before followed by the stream of the
claim, built from what `WatConditionLoop` appended (`c`), the block type, what the loop of
the then branch appended up to the first `)` it meets (`t`) and, when a `(` follows, what
the loop of the else branch appended (`e`); the label stack of `sI` and of the returned
configuration is the one before, and when no `(` follows `sI` the returned configuration
is `sI` behind the closing parenthesis. -/
theorem C24_folded_if_stream :
    observeRun (WatExpression 30 (lexState srcIfNested) 0 0) =
      some (ERR_SUCCESS, [{ opcode := OP_if, imm0 := TE_void }, { opcode := OP_drop },
        { opcode := OP_i32_const, imm0 := 1 }, { opcode := OP_end }], 12, 19, 0) ∧
    observeRun (WatExpression 30 (lexState srcIfPlain) 0 0) =
      some (ERR_SUCCESS, foldedIfStream [{ opcode := OP_i32_const, imm0 := 1 }] TE_void
        [{ opcode := OP_nop }] (some [{ opcode := OP_drop }]), 19, 19, 0) ∧
    ∀ (g : Nat) (s : PState) (sig index : Nat) (s1 : PState), (s.get 1).id = TOKEN_IF →
      WatExpression (g + 2) s sig index = some (ERR_SUCCESS, s1) →
      ∃ (bt : Int) (s0 s2 s5 sI : PState) (c t : List Instruction)
        (e : Option (List Instruction)),
        WatBlockOpen s.Pop.Pop = some (ERR_SUCCESS, s0, bt) ∧
        WatConditionLoop g s0 sig index = some (ERR_SUCCESS, s2) ∧
        s2.f.body = s.f.body ++ c ∧
        WatInstructionLoop g [TOKEN_CLOSE] (s2.pushInstr { opcode := OP_if, imm0 := bt }).Pop.Pop
          sig index = some (ERR_SUCCESS, s5) ∧
        s5.f.body = s2.f.body ++ [{ opcode := OP_if, imm0 := bt }] ++ t ∧
        (match e with
         | none => s5.Pop.Peek.id ≠ TOKEN_OPEN ∧
             sI = (s5.Pop.pushInstr { opcode := OP_end }).popLabel
         | some l => s5.Pop.Peek.id = TOKEN_OPEN ∧ (s5.Pop.get 1).id = TOKEN_ELSE ∧
             ∃ s9, WatInstructionLoop g [TOKEN_CLOSE]
                 (s5.Pop.Pop.Pop.pushInstr { opcode := OP_else }) sig index
                 = some (ERR_SUCCESS, s9) ∧
               s9.f.body = s5.f.body ++ [{ opcode := OP_else }] ++ l ∧
               sI = (s9.Pop.pushInstr { opcode := OP_end }).popLabel) ∧
        sI.f.body = s.f.body ++ foldedIfStream c bt t e ∧
        sI.state.stack = s.state.stack ∧
        (sI.Peek.id ≠ TOKEN_OPEN → s1 = sI.Pop) ∧
        s1.state.stack = s.state.stack := by
  refine ⟨?_, ?_, ?_⟩
  · decide!
  · decide!
  intro g s sig index s1 hif h
  have hstack : s1.state.stack = s.state.stack := ((parse_rel Frame_rel (g + 2)).2.1 _ _ _ _ h).2.2.2.1
  rw [WatExpression] at h
  split at h
  · simp at h
  obtain ⟨sX, hX, hcl⟩ := andThen_ok h
  rw [WatExpressionLoop] at hX
  split at hX
  swap
  · rename_i h1 h2
    exact absurd h2 (by simpa using h1)
  obtain ⟨sa, ha, hX⟩ := andThen_ok hX
  have hsa := (EXPECTED_ok (by decide) ha).1
  subst hsa
  simp only at hX
  obtain ⟨sI, hb, hX⟩ := andThen_ok hX
  have hid : (s.Pop.get 0).id = TOKEN_IF := by rw [get_Pop]; exact hif
  rw [hid] at hb
  simp only at hb
  split at hb
  · simp at hb
  rename_i r s0 bt hopen
  split at hb
  · simp only [Option.some.injEq, Prod.mk.injEq] at hb
    rename_i hr
    exact absurd hb.1 hr
  rename_i hr
  have hr0 : r = ERR_SUCCESS := by
    by_contra hc; exact hr hc
  subst hr0
  obtain ⟨lbl, hl⟩ := WatBlockOpen_rel Frame_rel hopen
  have hk0 := WatBlockOpen_keeps hopen
  obtain ⟨s2, h2, hb⟩ := andThen_ok hb
  obtain ⟨c, hc⟩ := (parse_rel Appends_rel g).2.2.2.1 _ _ _ _ h2
  have f2 := (parse_rel Frame_rel g).2.2.2.1 _ _ _ _ h2
  obtain ⟨s3, h3, hb⟩ := andThen_ok hb
  have e3 := (EXPECTED_ok (by decide) h3).1
  subst e3
  obtain ⟨s4, h4, hb⟩ := andThen_ok hb
  have e4 := (EXPECTED_ok (by decide) h4).1
  subst e4
  obtain ⟨s5, h5, hb⟩ := andThen_ok hb
  obtain ⟨t, ht⟩ := (parse_rel Appends_rel g).2.2.1 _ _ _ _ _ h5
  have f5 := (parse_rel Frame_rel g).2.2.1 _ _ _ _ _ h5
  obtain ⟨s6, h6, hb⟩ := andThen_ok hb
  have e6 := (EXPECTED_ok (by decide) h6).1
  subst e6
  obtain ⟨s10, h10, hb⟩ := andThen_ok hb
  simp only [Option.some.injEq, Prod.mk.injEq, true_and] at hb
  have hbody0 : s0.f.body = s.f.body := hk0.2.2.2
  have hc2 : s2.f.body = s.f.body ++ c := by rw [hc, hbody0]
  have ht2 : s5.f.body = s2.f.body ++ [{ opcode := OP_if, imm0 := bt }] ++ t := by
    rw [ht]; rfl
  have hst5 : s5.state.stack = lbl :: s.state.stack := by
    rw [f5.2.2.2.1]
    show s2.state.stack = _
    rw [f2.2.2.2.1, hl.2.2.2.1]; rfl
  have hrest : sI.Peek.id ≠ TOKEN_OPEN → s1 = sI.Pop := by
    intro hp
    cases g with
    | zero => simp [WatConditionLoop] at h2
    | succ n =>
      rw [WatExpressionLoop, if_neg hp] at hX
      simp only [Option.some.injEq, Prod.mk.injEq, true_and] at hX
      subst hX
      exact (EXPECTED_ok (by decide) hcl).1
  split at h10
  · rename_i hopen2
    obtain ⟨s7, h7, h10⟩ := andThen_ok h10
    have e7 := (EXPECTED_ok (by decide) h7).1
    subst e7
    obtain ⟨s8, h8, h10⟩ := andThen_ok h10
    have e8 := EXPECTED_ok (by decide) h8
    have e8a := e8.1
    subst e8a
    obtain ⟨s9, h9, h10⟩ := andThen_ok h10
    obtain ⟨l, hl9⟩ := (parse_rel Appends_rel g).2.2.1 _ _ _ _ _ h9
    have f9 := (parse_rel Frame_rel g).2.2.1 _ _ _ _ _ h9
    have e10 := (EXPECTED_ok (by decide) h10).1
    subst e10
    refine ⟨bt, s0, s2, s5, sI, c, t, some l, hopen, h2, hc2, h5, ht2,
      ⟨hopen2, ?_, s9, h9, ?_, hb.symm⟩, ?_, ?_, hrest, hstack⟩
    · have := e8.2
      rw [← this]; rfl
    · rw [hl9]; rfl
    · rw [← hb]
      show s9.f.body ++ [{ opcode := OP_end }] = _
      rw [hl9]
      show s5.f.body ++ [{ opcode := OP_else }] ++ l ++ [{ opcode := OP_end }] = _
      rw [ht2, hc2]
      simp [foldedIfStream]
    · rw [← hb]
      show s9.state.stack.tail = _
      rw [f9.2.2.2.1]
      show s5.state.stack.tail = _
      rw [hst5]; rfl
  · rename_i hopen2
    simp only [Option.some.injEq, Prod.mk.injEq, true_and] at h10
    subst h10
    refine ⟨bt, s0, s2, s5, sI, c, t, none, hopen, h2, hc2, h5, ht2,
      ⟨hopen2, hb.symm⟩, ?_, ?_, hrest, hstack⟩
    · rw [← hb]
      show s5.f.body ++ [{ opcode := OP_end }] = _
      rw [ht2, hc2]
      simp [foldedIfStream]
    · rw [← hb]
      show s5.state.stack.tail = _
      rw [hst5]; rfl

/-- The loop over the `(local ...)` clauses changes the current body and the read position
only. -/
theorem WatLocalsLoop_state : ∀ (fuel : Nat) (s s1 : PState),
    WatLocalsLoop fuel s = some (ERR_SUCCESS, s1) → s1.state = s.state ∧ s1.buf = s.buf := by
  intro fuel
  induction fuel with
  | zero => intro s s1 h; simp [WatLocalsLoop] at h
  | succ n ih =>
    intro s s1 h
    rw [WatLocalsLoop] at h
    split at h
    · obtain ⟨sa, ha, h⟩ := andThen_ok h
      have ka := (EXPECTED_adv ha).1
      obtain ⟨sb, hb, h⟩ := andThen_ok h
      have kb := (EXPECTED_adv hb).1
      simp only at h
      obtain ⟨sc, hc, h⟩ := andThen_ok h
      have kc : sc.state = sb.state ∧ sc.buf = sb.buf := by
        split at hc
        · split at hc
          · simp at hc
          · simp only [Option.some.injEq, Prod.mk.injEq, true_and] at hc
            rw [← hc]; exact ⟨rfl, rfl⟩
        · simp only [Option.some.injEq, Prod.mk.injEq, true_and] at hc
          rw [← hc]; exact ⟨rfl, rfl⟩
      split at h
      · simp at h
      · obtain ⟨sd, hd, h⟩ := andThen_ok h
        have kd := (EXPECTED_adv hd).1
        have := ih _ _ h
        refine ⟨?_, ?_⟩
        · rw [this.1, kd.2.2.1]
          show sc.state = _
          rw [kc.1, kb.2.2.1, ka.2.2.1]
        · rw [this.2, kd.1]
          show sc.buf = _
          rw [kc.2, kb.1, ka.1]
    · simp only [Option.some.injEq, Prod.mk.injEq, true_and] at h
      rw [← h]; exact ⟨rfl, rfl⟩

/-- When `WatFunction` is called behind `(func $f?` with `(export` as the next two
tokens and succeeds, the index it returns is the counter `importsection.functions` plus the
number of functions defined before, the export section has gained exactly one record, of
kind function, with the string `WatString` decodes from the third token (without error)
as name and that index, the function section has gained one entry and the import section
is unchanged. -/
theorem WatFunction_inline_export (fuel : Nat) (s : PState) (name : StringRef) (s1 : PState)
    (index : Nat) (hsz : s.Size > 1) (ho : (s.get 0).id = TOKEN_OPEN)
    (he : (s.get 1).id = TOKEN_EXPORT)
    (h : WatFunction fuel s name = some (ERR_SUCCESS, s1, index)) :
    index = s.state.m.importsection.functions + s.state.m.funcdecl.length ∧
    s1.state.m.exports = s.state.m.exports ++
      [{ name := (WatStringTok s.buf [] (s.get 2)).2, kind := KIND_FUNCTION, index := index }] ∧
    s1.state.m.funcdecl.length = s.state.m.funcdecl.length + 1 ∧
    s1.state.m.importsection = s.state.m.importsection ∧
    (WatStringTok s.buf [] (s.get 2)).1 = ERR_SUCCESS := by
  unfold WatFunction WatInlineImportExport at h
  rw [if_pos ⟨hsz, ho, he⟩] at h
  unfold WatInlineExport at h
  split at h
  · simp at h
  rename_i r0 sx idx out hx
  split at hx
  · simp at hx
  rename_i ra sa ha
  split at hx
  · rename_i hra
    simp only [Option.some.injEq, Prod.mk.injEq] at hx
    rw [if_pos (by rw [← hx.1]; exact hra)] at h
    simp only [Option.some.injEq, Prod.mk.injEq] at h
    rw [← hx.1] at h
    exact absurd h.1 hra
  rename_i hra
  have hra0 : ra = 0 := by
    by_contra hc; exact hra hc
  subst hra0
  have ea := (EXPECTED_ok (by decide) ha).1
  subst ea
  split at hx
  · simp at hx
  rename_i rb sb hb
  split at hx
  · rename_i hrb
    simp only [Option.some.injEq, Prod.mk.injEq] at hx
    rw [if_pos (by rw [← hx.1]; exact hrb)] at h
    simp only [Option.some.injEq, Prod.mk.injEq] at h
    rw [← hx.1] at h
    exact absurd h.1 hrb
  rename_i hrb
  have hrb0 : rb = 0 := by
    by_contra hc; exact hrb hc
  subst hrb0
  have eb := (EXPECTED_ok (by decide) hb).1
  subst eb
  split at hx
  · rename_i hrc
    simp only [Option.some.injEq, Prod.mk.injEq] at hx
    rw [if_pos (by rw [← hx.1]; exact hrc)] at h
    simp only [Option.some.injEq, Prod.mk.injEq] at h
    rw [← hx.1] at h
    exact absurd h.1 hrc
  rename_i hrc
  split at hx
  · simp at hx
  rename_i rd sd hd
  simp only [Option.some.injEq, Prod.mk.injEq] at hx
  obtain ⟨hx1, hx2, hx3, hx4⟩ := hx
  subst hx1 hx2 hx3 hx4
  split at h
  · rename_i hrd
    simp only [Option.some.injEq, Prod.mk.injEq] at h
    exact absurd h.1 hrd
  rename_i hrd
  have hrd0 : rd = 0 := by
    by_contra hc; exact hrd hc
  subst hrd0
  have ed := (EXPECTED_ok (by decide) hd).1
  subst ed
  simp only at h
  -- the function definition behind the inline export
  unfold WatFunctionDef at h
  split at h
  · simp at h
  rename_i r1 s2 sig names hft
  have f2 : Frame _ s2 := WatFuncType_rel Frame_rel hft
  split at h
  · rename_i hr1
    simp only [Option.some.injEq, Prod.mk.injEq] at h
    exact absurd h.1 hr1
  split at h
  · rename_i hr1 hnm
    simp only [Option.some.injEq, Prod.mk.injEq] at h
    exact absurd h.1 hnm.2
  unfold WatFunctionBody at h
  split at h
  · simp at h
  rename_i r2 s5 hloc
  split at h
  · rename_i hr2
    simp only [Option.some.injEq, Prod.mk.injEq] at h
    exact absurd h.1 hr2
  rename_i hr2
  have hr20 : r2 = 0 := by
    by_contra hc; exact hr2 hc
  subst hr20
  have k5 := WatLocalsLoop_state _ _ _ hloc
  split at h
  · simp at h
  rename_i r3 s6 hbody
  split at h
  · rename_i hr3
    simp only [Option.some.injEq, Prod.mk.injEq] at h
    exact absurd h.1 hr3
  rename_i hr3
  have hr30 : r3 = 0 := by
    by_contra hc; exact hr3 hc
  subst hr30
  have f6 : Frame s5 s6 := (parse_rel Frame_rel fuel).2.2.1 _ _ _ _ _ hbody
  simp only [Option.some.injEq, Prod.mk.injEq, true_and] at h
  obtain ⟨h1, h2⟩ := h
  have hm6 : s6.state.m.noTypes = ({ s.state.m with exports := s.state.m.exports ++
      [{ name := (WatStringTok s.buf [] s.Pop.Pop.Peek).2, kind := KIND_FUNCTION,
         index := s.state.m.importsection.functions + s.state.m.funcdecl.length }] } :
        Module).noTypes := by
    rw [f6.2.2.2.2.2, k5.1]
    exact f2.2.2.2.2.2
  have hpk : s.Pop.Pop.Peek = s.get 2 := by
    show s.Pop.Pop.get 0 = _
    rw [get_Pop, get_Pop]
  rw [hpk] at hm6
  refine ⟨h2.symm, ?_, ?_, ?_, ?_⟩
  · rw [← h1, ← h2]
    have := congrArg Module.exports hm6
    exact this
  · rw [← h1]
    show (s6.state.m.funcdecl ++ [sig]).length = _
    rw [List.length_append]
    have := congrArg Module.funcdecl hm6
    have e : s6.state.m.funcdecl = s.state.m.funcdecl := this
    rw [e]; rfl
  · rw [← h1]
    have := congrArg Module.importsection hm6
    exact this
  · rw [← hpk]
    exact not_not.mp hrc

/-- An instance: with two imported functions and one function defined before,
`(export "e") (param i32) local.get 0)` is accepted with index 3 and the export section
becomes the single record `("e", function, 3)`. -/
theorem WatFunction_inline_export_example :
    WatFunction 20 wC25 {} = some (ERR_SUCCESS, wC25end, 3) ∧
    wC25end.state.m.exports = [{ name := [101], kind := KIND_FUNCTION, index := 3 }] ∧
    wC25end.state.m.funcdecl = [0, 1] ∧
    (3 = wC25.state.m.importsection.functions + wC25.state.m.funcdecl.length ∧
      wC25end.state.m.exports = wC25.state.m.exports ++
        [{ name := (WatStringTok wC25.buf [] (wC25.get 2)).2, kind := KIND_FUNCTION,
           index := 3 }] ∧
      wC25end.state.m.funcdecl.length = wC25.state.m.funcdecl.length + 1 ∧
      wC25end.state.m.importsection = wC25.state.m.importsection ∧
      (WatStringTok wC25.buf [] (wC25.get 2)).1 = ERR_SUCCESS) :=
  ⟨by decide!, by decide!, by decide!,
    WatFunction_inline_export 20 wC25 {} wC25end 3 (by decide!) (by decide!) (by decide!) (by decide!)⟩

theorem slice_zero (buf : List Nat) (p : Nat) : slice buf p 0 = [] := rfl

theorem slice_succ (buf : List Nat) (p k : Nat) :
    slice buf p (k + 1) = byteAt buf p :: slice buf (p + 1) k := by
  unfold slice
  rw [List.range_succ_eq_map, List.map_cons, List.map_map]
  congr 1
  apply List.map_congr_left
  intro a _
  show byteAt buf (p + (a + 1)) = byteAt buf (p + 1 + a)
  rw [Nat.add_assoc, Nat.add_comm 1 a]

theorem refHexDigit_eq (c : Nat) :
    refHexDigit c = if isHexUpper c = true then some (hexVal c) else none := by
  unfold refHexDigit isHexUpper hexVal
  by_cases h1 : 48 ≤ c ∧ c ≤ 57
  · have : c ≤ 57 := h1.2
    simp [h1, this]
  · by_cases h2 : 65 ≤ c ∧ c ≤ 70
    · have h3 : ¬ c ≤ 57 := by omega
      simp [h1, h2, h3]
    · rw [if_neg h1, if_neg h2]
      have : ¬ ((decide (48 ≤ c) && decide (c ≤ 57) || decide (65 ≤ c) && decide (c ≤ 70)) = true) := by
        simp only [Bool.or_eq_true, Bool.and_eq_true, decide_eq_true_eq]
        intro h
        cases h with
        | inl h => exact h1 h
        | inr h => exact h2 h
      rw [if_neg this]

theorem Agrees_step {x : Int × List Nat} {acc : List Nat} {b : Nat}
    {res : Option (EscState × List Nat)} (h : Agrees x (acc ++ [b]) res) :
    Agrees x acc (res.map (fun p => (p.1, b :: p.2))) := by
  cases res with
  | none => exact h
  | some p =>
    obtain ⟨st, out⟩ := p
    cases st with
    | plain =>
      show x = (ERR_SUCCESS, acc ++ b :: out)
      have h1 : x = (ERR_SUCCESS, (acc ++ [b]) ++ out) := h
      rw [h1, List.append_assoc]; rfl
    | slash => trivial
    | hex y => trivial

theorem refSimpleEscape_none {d : Nat} (h : refSimpleEscape d = none) :
    d ≠ 110 ∧ d ≠ 116 ∧ d ≠ 92 ∧ d ≠ 39 ∧ d ≠ 34 := by
  unfold refSimpleEscape at h
  refine ⟨?_, ?_, ?_, ?_, ?_⟩ <;> intro hd <;> subst hd <;> simp at h

/-- The loop of `WatString` against the reference decoder on the rest of the span. -/
theorem WatStringLoop_ref (buf : List Nat) (t : StringRef) : ∀ (n i : Nat) (acc : List Nat),
    i ≤ t.len → t.len - i ≤ n →
    Agrees (WatStringLoop buf t n i acc) acc
      (refScan EscState.plain (slice buf (t.s + i) (t.len - i))) := by
  intro n
  induction n with
  | zero =>
    intro i acc hi hn
    have h0 : t.len - i = 0 := by omega
    rw [h0, slice_zero]
    show WatStringLoop buf t 0 i acc = (ERR_SUCCESS, acc ++ [])
    rw [List.append_nil]; rfl
  | succ n ih =>
    intro i acc hi hn
    by_cases hlt : i < t.len
    swap
    · have h0 : t.len - i = 0 := by omega
      rw [h0, slice_zero]
      show WatStringLoop buf t (n + 1) i acc = (ERR_SUCCESS, acc ++ [])
      rw [List.append_nil, WatStringLoop, if_neg hlt]
    obtain ⟨k, hk⟩ : ∃ k, t.len - i = k + 1 := ⟨t.len - i - 1, by omega⟩
    rw [hk, slice_succ, WatStringLoop, if_pos hlt]
    simp only
    by_cases hc : byteAt buf (t.s + i) = 92
    swap
    · -- an ordinary byte
      rw [if_neg hc, refScan, if_neg hc]
      have hk1 : t.len - (i + 1) = k := by omega
      have := ih (i + 1) (acc ++ [byteAt buf (t.s + i)]) (by omega) (by omega)
      rw [hk1, ← Nat.add_assoc] at this
      exact Agrees_step this
    · -- a backslash
      rw [if_pos hc, refScan, if_pos hc]
      cases k with
      | zero => rw [slice_zero]; trivial
      | succ k1 =>
        rw [slice_succ, refScan]
        have hk2 : t.len - (i + 2) = k1 := by omega
        have hi2 := fun a => ih (i + 2) a (by omega) (by omega)
        rw [hk2] at hi2
        have ha : t.s + (i + 2) = t.s + i + 1 + 1 := by omega
        rw [ha] at hi2
        cases hs : refSimpleEscape (byteAt buf (t.s + i + 1)) with
        | some b =>
          simp only
          unfold refSimpleEscape at hs
          by_cases h1 : byteAt buf (t.s + i + 1) = 110
          · rw [if_pos h1] at hs
            simp only [Option.some.injEq] at hs
            rw [if_pos h1, ← hs]
            exact Agrees_step (hi2 _)
          rw [if_neg h1] at hs ⊢
          by_cases h2 : byteAt buf (t.s + i + 1) = 116
          · rw [if_pos h2] at hs
            simp only [Option.some.injEq] at hs
            rw [if_pos h2, ← hs]
            exact Agrees_step (hi2 _)
          rw [if_neg h2] at hs ⊢
          by_cases h3 : byteAt buf (t.s + i + 1) = 92
          · rw [if_pos h3] at hs
            simp only [Option.some.injEq] at hs
            rw [if_pos h3, ← hs]
            exact Agrees_step (hi2 _)
          rw [if_neg h3] at hs ⊢
          by_cases h4 : byteAt buf (t.s + i + 1) = 39
          · rw [if_pos h4] at hs
            simp only [Option.some.injEq] at hs
            rw [if_pos h4, ← hs]
            exact Agrees_step (hi2 _)
          rw [if_neg h4] at hs ⊢
          by_cases h5 : byteAt buf (t.s + i + 1) = 34
          · rw [if_pos h5] at hs
            simp only [Option.some.injEq] at hs
            rw [if_pos h5, ← hs]
            exact Agrees_step (hi2 _)
          rw [if_neg h5] at hs
          simp at hs
        | none =>
          simp only
          obtain ⟨h1, h2, h3, h4, h5⟩ := refSimpleEscape_none hs
          rw [if_neg h1, if_neg h2, if_neg h3, if_neg h4, if_neg h5, refHexDigit_eq]
          by_cases hx : isHexUpper (byteAt buf (t.s + i + 1)) = true
          swap
          · rw [if_neg hx, if_neg hx]; rfl
          rw [if_pos hx, if_pos hx]
          simp only
          cases k1 with
          | zero => rw [slice_zero]; trivial
          | succ k2 =>
            rw [slice_succ, refScan, refHexDigit_eq]
            have hb : t.s + i + 1 + 1 = t.s + i + 2 := by omega
            rw [hb]
            by_cases hy : isHexUpper (byteAt buf (t.s + i + 2)) = true
            swap
            · rw [if_neg hy, if_neg hy]; rfl
            rw [if_pos hy, if_pos hy]
            simp only
            have hk3 : t.len - (i + 3) = k2 := by omega
            have hi3 := fun a => ih (i + 3) a (by omega) (by omega)
            rw [hk3] at hi3
            have ha3 : t.s + (i + 3) = t.s + i + 2 + 1 := by omega
            rw [ha3] at hi3
            rw [Nat.mul_comm 16]
            exact Agrees_step (hi3 _)

/-- C26: `WatString` against the reference decoding.  The lexer turns the unterminated
literal made of a quote, a backslash and `n` into a string token whose span is the single
backslash; the reference decoding rejects that span, but `WatString` reads the `n` behind
the span and succeeds with the byte 10.  For every span that does not end inside an escape,
`WatString` succeeds exactly when the reference decoding exists, appending it to the bytes
accumulated before, and returns `ERR_WAT_BAD_ESCAPE` otherwise. -/
theorem C26_string_decoding :
    tokensOf srcCutEscape =
      some [{ id := TOKEN_STRING, pos := 1, i := 1 }, { id := TOKEN_NONE }] ∧
    refDecode (slice srcCutEscape 1 1) = none ∧
    WatStringTok srcCutEscape [] { id := TOKEN_STRING, pos := 1, i := 1 } = (ERR_SUCCESS, [10]) ∧
    ∀ (buf str : List Nat) (t : StringRef), t.isNull = false →
      (∀ d, refDecode (slice buf t.s t.len) = some d →
        WatString buf str t = (ERR_SUCCESS, str ++ d)) ∧
      (refDecode (slice buf t.s t.len) = none → cutEscape (slice buf t.s t.len) = false →
        (WatString buf str t).1 = ERR_WAT_BAD_ESCAPE) := by
  refine ⟨?_, ?_, ?_, ?_⟩
  · decide!
  · decide!
  · decide!
  · intro buf str t ht
    have h := WatStringLoop_ref buf t t.len 0 str (Nat.zero_le _) (Nat.le_refl _)
    have hw : WatString buf str t = WatStringLoop buf t t.len 0 str := by
      unfold WatString; rw [ht]; rfl
    rw [hw]
    have e0 : slice buf (t.s + 0) (t.len - 0) = slice buf t.s t.len := rfl
    rw [e0] at h
    unfold refDecode cutEscape
    cases hr : refScan EscState.plain (slice buf t.s t.len) with
    | none =>
      rw [hr] at h
      refine ⟨?_, ?_⟩
      · intro d hd; simp at hd
      · intro _ _; exact h
    | some p =>
      obtain ⟨st, out⟩ := p
      rw [hr] at h
      cases st with
      | plain =>
        refine ⟨?_, ?_⟩
        · intro d hd
          simp only [Option.some.injEq] at hd
          rw [← hd]; exact h
        · intro hd; simp at hd
      | slash =>
        refine ⟨?_, ?_⟩
        · intro d hd; simp at hd
        · intro _ hcut; simp at hcut
      | hex y =>
        refine ⟨?_, ?_⟩
        · intro d hd; simp at hd
        · intro _ hcut; simp at hcut

/-- C27, the claim fails: the payload of `1_0` depends on what was lexed before it.  Alone
it is 10; after the literal `123` it is 103, because the third character of the static
`numbuf` still holds the `3` of `123`; and with `999` left in `numbuf` by an earlier call
it is 109. -/
theorem C27_separator_reads_stale_digits :
    tokensOf (bytes "1_0") = some [{ id := TOKEN_INTEGER, pos := 0, i := 10 }] ∧
    tokensOf (bytes "123 1_0") =
      some [{ id := TOKEN_INTEGER, pos := 0, i := 123 }, { id := TOKEN_INTEGER, pos := 4, i := 103 }] ∧
    (TokenizeWAT 10 (bytes "123 1_0") []).map (fun r => r.2) = some (bytes "103") ∧
    (TokenizeWAT 10 (bytes "1_0") (bytes "999")).map (fun r => r.1) =
      some [{ id := TOKEN_INTEGER, pos := 0, i := 109 }] := by
  decide!

/-- C28, the claim fails: for `0x1F` the lexer emits the integer token 0 for the leading
`0` and the blank token for the rest `x1F`, not one integer token of payload 31; `-0x10`
gives 0 and the blank token likewise. -/
theorem C28_hex_literal_not_lexed :
    tokensOf (bytes "0x1F") = some [{ id := TOKEN_INTEGER, pos := 0, i := 0 }, { id := TOKEN_NONE }] ∧
    matchInt (bytes "0x1F") 0 = some 1 ∧
    strtoll (bytes "0x1F") = 0 ∧
    tokensOf (bytes "-0x10") = some [{ id := TOKEN_INTEGER, pos := 0, i := 0 }, { id := TOKEN_NONE }] := by
  decide!

/-- C29, the claim fails: in `( (;;;) )` the comment `(;;;)`, whose interior is a lone `;`,
is not closed by the lexer, which skips the byte behind every `;`: the tokens are `(`
alone, while `(   )` gives `(` and `)`.  A comment without a lone `(` or `;` directly
before a delimiter, as in `( (; a (; b ;) c ;) )`, is skipped as claimed. -/
theorem C29_block_comment_swallows_input :
    tokensOf (bytes "( (;;;) )") = some [{ id := TOKEN_OPEN, pos := 0 }] ∧
    tokensOf (bytes "(   )") = some [{ id := TOKEN_OPEN, pos := 0 }, { id := TOKEN_CLOSE, pos := 4 }] ∧
    skipBlockComment (bytes "( (;;;) )") 9 4 1 = 9 ∧
    tokensOf (bytes "( (; a (; b ;) c ;) )") =
      some [{ id := TOKEN_OPEN, pos := 0 }, { id := TOKEN_CLOSE, pos := 20 }] := by
  decide!

/-- C30, the claim fails: in `"\\" "a"` the string token that starts behind the first quote
does not end at the second quote; the lexer takes the second backslash and the quote for
an escaped quote, the token spans the four bytes up to the third quote, and the rest `a"`
gives the blank token.  A literal with an escaped quote, `"a\"b"`, is lexed as claimed. -/
theorem C30_escaped_backslash_before_quote :
    tokensOf srcEscapedBackslash =
      some [{ id := TOKEN_STRING, pos := 1, i := 4 }, { id := TOKEN_NONE }] ∧
    scanString srcEscapedBackslash 8 1 = 5 ∧
    tokensOf srcEscapedQuote =
      some [{ id := TOKEN_STRING, pos := 1, i := 4 }, { id := TOKEN_CLOSE, pos := 7 }] := by
  decide!

/-! ### Return codes, swallowed errors, the script runner, names and indices -/

/-- C31, the claim fails: `ParseWatModule` returns 1, a positive value that is no code of
`IN_ERROR`, for a module whose function holds a flat `block end`, `block $a end $a` or
`if else end`; a module without flat blocks returns 0. -/
theorem C31_positive_return_code :
    (ParseWatModule 200 (bytes "(module (func block end))") none).map Prod.fst = some 1 ∧
    (ParseWatModule 200 (bytes "(module (func block $a end $a))") none).map Prod.fst = some 1 ∧
    (ParseWatModule 200 (bytes "(module (func if else end))") none).map Prod.fst = some 1 ∧
    (ParseWatModule 200 (bytes "(module (func))") none).map Prod.fst = some ERR_SUCCESS := by
  decide!

/-- C36, the claim fails: `(module (func (i32.add (i32.const 1) (i32.const 2))) (func))` is
accepted with one function body, though it has two top-level `(func ...)` forms: the call
of `WatExpression` for the folded `i32.add` returns after 6 of its 11 tokens, the second
pass stops behind the first function, and the second `(func)` is never parsed.  With the
flat body `i32.const 1 i32.const 2 i32.add` both functions are recorded. -/
theorem C36_second_function_skipped :
    observe (ParseWatModule 200
        (bytes "(module (func (i32.add (i32.const 1) (i32.const 2))) (func))") none) =
      some { code := ERR_SUCCESS, types := [], funcdecl := [U32_MAX],
             bodies := [[{ opcode := OP_i32_add }, { opcode := OP_i32_const, imm0 := 1 },
                         { opcode := OP_i32_const, imm0 := 2 }, { opcode := OP_end }]],
             exports := [], deferred := 0 } ∧
    observeRun (WatExpression 50 (lexState (bytes "(i32.add (i32.const 1) (i32.const 2))")) 0 0) =
      some (ERR_SUCCESS, [{ opcode := OP_i32_add }, { opcode := OP_i32_const, imm0 := 1 }],
        6, 11, 0) ∧
    observe (ParseWatModule 200
        (bytes "(module (func i32.const 1 i32.const 2 i32.add) (func))") none) =
      some { code := ERR_SUCCESS, types := [], funcdecl := [U32_MAX, U32_MAX],
             bodies := [[{ opcode := OP_i32_const, imm0 := 1 }, { opcode := OP_i32_const, imm0 := 2 },
                         { opcode := OP_i32_add }, { opcode := OP_end }], [{ opcode := OP_end }]],
             exports := [], deferred := 0 } := by
  decide!

/-- The code `WatType` returns is one of its own three `EXPECTED` codes or success: the
code of `WatTypeInner` never reaches the caller. -/
theorem WatType_codes {fuel : Nat} {s : PState} {r : Int} {s1 : PState} {index : Nat}
    (h : WatType fuel s = some (r, s1, index)) :
    r = ERR_SUCCESS ∨ r = ERR_WAT_EXPECTED_OPEN ∨ r = ERR_WAT_EXPECTED_FUNC ∨
      r = ERR_WAT_EXPECTED_CLOSE := by
  unfold WatType at h
  split at h
  · simp at h
  rename_i ra sa ha
  have ca := (EXPECTED_adv ha).2
  split at h
  · simp only [Option.some.injEq, Prod.mk.injEq] at h
    rw [← h.1]
    rcases ca with ca | ca
    · exact Or.inl ca
    · exact Or.inr (Or.inl ca)
  split at h
  · simp at h
  rename_i rb sb hb
  have cb := (EXPECTED_adv hb).2
  split at h
  · simp only [Option.some.injEq, Prod.mk.injEq] at h
    rw [← h.1]
    rcases cb with cb | cb
    · exact Or.inl cb
    · exact Or.inr (Or.inr (Or.inl cb))
  split at h
  · simp at h
  simp only at h
  split at h
  · simp at h
  rename_i rc sc hc
  have cc := (EXPECTED_adv hc).2
  simp only [Option.some.injEq, Prod.mk.injEq] at h
  rw [← h.1]
  rcases cc with cc | cc
  · exact Or.inl cc
  · exact Or.inr (Or.inr (Or.inr cc))

/-- C32, the claim fails in three places.  On `(func (param foo)))` `WatTypeInner` returns
`ERR_WAT_EXPECTED_VALTYPE`, but `WatType` returns success and appends the signature read
so far, and `(module (type (func (param foo))))` is accepted; in general `WatType` returns
no code of `WatTypeInner`.  Behind a `(type 0)` annotation `WatFuncType` drops the error of
`WatTypeInner` too: it returns success when the partial signature matches and
`ERR_WAT_TYPE_MISMATCH` when it does not; without annotation it returns the error, as
claimed.  `WatData` drops the code of `WatString`: a data segment with the string `"\z"`
is accepted with no bytes. -/
theorem C32_inner_errors_dropped :
    (WatTypeInner 20 (lexState (bytes "(func (param foo)))")).Pop.Pop {} none).map
        (fun r => r.1) = some ERR_WAT_EXPECTED_VALTYPE ∧
    (WatType 20 (lexState (bytes "(func (param foo)))"))).map
        (fun r => (r.1, r.2.1.state.m.types)) = some (ERR_SUCCESS, [{ form := TE_func }]) ∧
    observeData (ParseWatModule 200 (bytes "(module (type (func (param foo))))") none) =
      some (ERR_SUCCESS, [{ form := TE_func }], []) ∧
    (∀ (fuel : Nat) (s : PState) (r : Int) (s1 : PState) (index : Nat),
      WatType fuel s = some (r, s1, index) →
      r = ERR_SUCCESS ∨ r = ERR_WAT_EXPECTED_OPEN ∨ r = ERR_WAT_EXPECTED_FUNC ∨
        r = ERR_WAT_EXPECTED_CLOSE) ∧
    (WatTypeInner 20 wC32.Pop.Pop.Pop.Pop {} none).map (fun r => r.1) =
      some ERR_WAT_EXPECTED_VALTYPE ∧
    (WatFuncType 20 wC32 none).map (fun r => r.1) = some ERR_SUCCESS ∧
    observeData (ParseWatModule 200
        (bytes "(module (type (func (param i32))) (func (type 0) (param foo)))") none) =
      some (ERR_WAT_TYPE_MISMATCH, [{ form := TE_func, params := [TE_i32] }], []) ∧
    (WatFuncType 20 (lexState (bytes "(param foo))")) none).map (fun r => r.1) =
      some ERR_WAT_EXPECTED_VALTYPE ∧
    (WatStringTok srcDataBadEscape [] { id := TOKEN_STRING, pos := 40, i := 2 }).1 =
      ERR_WAT_BAD_ESCAPE ∧
    (tokensOf srcDataBadEscape).map (fun l => l.getD 12 { id := TOKEN_NONE }) =
      some { id := TOKEN_STRING, pos := 40, i := 2 } ∧
    observeData (ParseWatModule 200 srcDataBadEscape none) = some (ERR_SUCCESS, [], [[]]) := by
  refine ⟨?_, ?_, ?_, ?_, ?_, ?_, ?_, ?_, ?_, ?_, ?_⟩
  · decide!
  · decide!
  · decide!
  · intro fuel s r s1 index h
    exact WatType_codes h
  · decide!
  · decide!
  · decide!
  · decide!
  · decide!
  · decide!
  · decide!

/-- C33, the claim fails: when `ParseWatScriptModule` has read the keyword `module`, the
environment has one module more and `last` designates the new record, whatever the code
returned.  On the module of `(assert_malformed (module (func (param foo))) "msg")` the
call fails with `ERR_WAT_EXPECTED_VALTYPE`, and afterwards the environment holds two
modules (one before) and `last` is 1 (0 before): the failed record is kept. -/
theorem C33_failed_module_kept :
    observeScript (ParseWatScriptModule (fun _ _ => (ERR_SUCCESS, {})) 200 srcC33 scC33
        (lexState srcC33).tokens) =
      some (ERR_WAT_EXPECTED_VALTYPE, 2, some 1, [[0], []]) ∧
    (scC33.modules.length = 1 ∧ scC33.last = some 0) ∧
    ∀ (parseBinary : List Nat → List Nat → Int × Module) (fuel : Nat) (buf : List Nat)
      (sc : Script) (tokens : Queue) (r : Int) (sc1 : Script) (q : Queue),
      tokens.Peek.id = TOKEN_MODULE →
      ParseWatScriptModule parseBinary fuel buf sc tokens = some (r, sc1, q) →
      sc1.modules.length = sc.modules.length + 1 ∧ sc1.last = some sc.modules.length ∧
        sc1.cache = false := by
  refine ⟨?_, ?_, ?_⟩
  · decide!
  · decide!
  · intro parseBinary fuel buf sc tokens r sc1 q hm h
    unfold ParseWatScriptModule at h
    have he : EXPECTED { buf := buf, tokens := tokens } TOKEN_MODULE ERR_WAT_EXPECTED_MODULE =
        some (0, ({ buf := buf, tokens := tokens } : PState).Pop) :=
      EXPECTED_hit _ hm (by decide)
    rw [he] at h
    simp only [ne_eq, not_true_eq_false, if_false] at h
    split at h
    · simp at h
    · split at h
      · simp only [Option.some.injEq, Prod.mk.injEq] at h
        rw [← h.2.1]
        exact ⟨by simp, rfl, rfl⟩
      · split at h
        · split at h
          · simp only [Option.some.injEq, Prod.mk.injEq] at h
            rw [← h.2.1]
            exact ⟨by simp, rfl, rfl⟩
          · simp only [Option.some.injEq, Prod.mk.injEq] at h
            rw [← h.2.1]
            exact ⟨by simp, rfl, rfl⟩
        · simp only [Option.some.injEq, Prod.mk.injEq] at h
          rw [← h.2.1]
          exact ⟨by simp, rfl, rfl⟩

/-- C34, the claim fails: `WatIsNaN(x, true)` is false for the canonical NaNs `0x7FC00000`
and `0x7FF8000000000000` of either sign, and in general for every canonical NaN, and true
for the NaNs `0x7F800001` and `0x7FF0000000000001`, which are not canonical; it holds
exactly when `x` is a NaN whose high fraction bit is clear.  So the canonical NaN result
makes `assert_return_canonical_nan` fail with `ERR_RUNTIME_ASSERT_FAILURE`, a result that
is not canonical makes it pass, and a result of type i32 passes unchecked. -/
theorem C34_canonical_nan_inverted :
    WatIsNaN32 0x7FC00000 true = false ∧ WatIsNaN32 0xFFC00000 true = false ∧
    WatIsNaN64 0x7FF8000000000000 true = false ∧ WatIsNaN64 0xFFF8000000000000 true = false ∧
    WatIsNaN32 0x7F800001 true = true ∧ WatIsNaN64 0x7FF0000000000001 true = true ∧
    refCanonicalNaN32 0x7F800001 = false ∧ refCanonicalNaN64 0x7FF0000000000001 = false ∧
    (∀ bits : Nat, bits < 4294967296 → refCanonicalNaN32 bits = true →
      WatIsNaN32 bits true = false) ∧
    (∀ bits : Nat, bits < 18446744073709551616 → refCanonicalNaN64 bits = true →
      WatIsNaN64 bits true = false) ∧
    (∀ bits : Nat, WatIsNaN32 bits true = (isnan32 bits && (bits &&& 0x00400000) == 0)) ∧
    (∀ bits : Nat, WatIsNaN64 bits true = (isnan64 bits && (bits &&& 0x0008000000000000) == 0)) ∧
    WatAssertNaN TE_f32 0x7FC00000 true = ERR_RUNTIME_ASSERT_FAILURE ∧
    WatAssertNaN TE_f32 0x7F800001 true = ERR_SUCCESS ∧
    WatAssertNaN TE_f64 0x7FF8000000000000 true = ERR_RUNTIME_ASSERT_FAILURE ∧
    WatAssertNaN TE_i32 7 true = ERR_SUCCESS := by
  refine ⟨by decide, by decide, by decide, by decide, by decide, by decide, by decide,
    by decide, ?_, ?_, ?_, ?_, by decide, by decide, by decide, by decide⟩
  · intro bits hlt hc
    unfold refCanonicalNaN32 at hc
    have hc1 : bits % 2147483648 = 0x7FC00000 := by simpa using hc
    have : bits = 0x7FC00000 ∨ bits = 0xFFC00000 := by omega
    rcases this with h | h <;> subst h <;> decide
  · intro bits hlt hc
    unfold refCanonicalNaN64 at hc
    have hc1 : bits % 9223372036854775808 = 0x7FF8000000000000 := by simpa using hc
    have : bits = 0x7FF8000000000000 ∨ bits = 0xFFF8000000000000 := by omega
    rcases this with h | h <;> subst h <;> decide
  · intro bits
    unfold WatIsNaN32
    cases isnan32 bits <;> cases h : (bits &&& 0x00400000) == 0 <;> simp_all
  · intro bits
    unfold WatIsNaN64
    cases isnan64 bits <;> cases h : (bits &&& 0x0008000000000000) == 0 <;> simp_all

/-- C35, the claim fails: for every branch of the dispatch of `ParseWatScriptAction` every
argument is read from `params[0]`.  For `(invoke "add" (i32.const 1) (i32.const 2))` the
constants read are 1 and 2, the signature `[i32, i32] -> [i32]` takes the branch
`MatchFuncSig<TE_i32, TE_i32, TE_i32>`, the function is called with (1, 1), and `add`
returns 2, not 3. -/
theorem C35_second_argument_from_first :
    (WatScriptParams {} 10 (lexState (bytes "(i32.const 1) (i32.const 2))")) []).map
        (fun r => (r.1, r.2.2)) =
      some (ERR_SUCCESS, [{ opcode := OP_i32_const, imm0 := 1 }, { opcode := OP_i32_const, imm0 := 2 }]) ∧
    WatDispatch sigAdd = some { ret := TE_i32, params := [TE_i32, TE_i32], args := [0, 0] } ∧
    WatCallArgs sigAdd [{ opcode := OP_i32_const, imm0 := 1 }, { opcode := OP_i32_const, imm0 := 2 }] =
      some [(TE_i32, { opcode := OP_i32_const, imm0 := 1 }),
            (TE_i32, { opcode := OP_i32_const, imm0 := 1 })] ∧
    WatInvokeInt addFunction sigAdd
        [{ opcode := OP_i32_const, imm0 := 1 }, { opcode := OP_i32_const, imm0 := 2 }] = some 2 ∧
    addFunction [1, 2] = 3 ∧
    (∀ row ∈ WatDispatchTable, ∀ k ∈ row.args, k = 0) ∧
    (∀ (sig : FunctionSig) (row : DispatchRow), WatDispatch sig = some row →
      ∀ k ∈ row.args, k = 0) := by
  refine ⟨by decide!, by decide!, by decide!, by decide!, by decide!, by decide, ?_⟩
  intro sig row h k hk
  have hmem : row ∈ WatDispatchTable := List.mem_of_find?_eq_some h
  have hall : ∀ row ∈ WatDispatchTable, ∀ k ∈ row.args, k = 0 := by decide
  exact hall row hmem k hk

theorem setHash_m (st : WatState) (sp : Space) (h : Hash) : (st.setHash sp h).m = st.m := by
  cases sp <;> rfl

theorem addName_m {s : PState} {sp : Space} {t : Token} {index : Nat} {r : Int} {s1 : PState}
    (h : addName s sp t index = some (r, s1)) : s1.state.m = s.state.m := by
  unfold addName at h
  simp only [Option.some.injEq, Prod.mk.injEq] at h
  rw [← h.2]
  exact setHash_m _ _ _

/-- C37, the claim fails: a function whose body begins with `(local i32)` is rejected with
`ERR_WAT_EXPECTED_OPERATOR`, with or without a type annotation.  The loop over the
`(local ...)` clauses tests `tokens[tokens.Size() - 2]`, the last token but one of the whole
queue, instead of the token behind the parenthesis: when that token is not `local` the loop
reads nothing.  When it happens to be `local`, as in
`(type 0) (local $x i32) (local i64) local.get $x) (local)`, the locals are recorded in
order and `local.get $x` resolves to 0, as claimed. -/
theorem C37_locals_not_read :
    (ParseWatModule 200
        (bytes "(module (type (func)) (func (type 0) (local i32) local.get 0))") none).map
      Prod.fst = some ERR_WAT_EXPECTED_OPERATOR ∧
    (ParseWatModule 200 (bytes "(module (func (local i32) local.get 0))") none).map Prod.fst =
      some ERR_WAT_EXPECTED_OPERATOR ∧
    (∀ (fuel : Nat) (s : PState), (s.get (s.Size - 2)).id ≠ TOKEN_LOCAL →
      WatLocalsLoop (fuel + 1) s = some (ERR_SUCCESS, s)) ∧
    (WatFunction 20 wC37 {}).map
        (fun r => (r.1, r.2.1.state.m.funcbody.map (fun f => (f.locals, f.body)))) =
      some (ERR_SUCCESS, [([255, 254], [{ opcode := OP_get_local, imm0 := 0 }, { opcode := OP_end }])]) := by
  refine ⟨?_, ?_, ?_, ?_⟩
  · decide!
  · decide!
  · intro fuel s h
    rw [WatLocalsLoop, if_neg]
    intro hc
    exact h hc.2.2
  · decide!

theorem WatInlineExport_index {s : PState} {index kind : Nat} {r : Int} {s1 : PState}
    {i1 : Nat} {out : Option Nat} (h : WatInlineExport s index kind = some (r, s1, i1, out)) :
    i1 = index ∧ out = none := by
  unfold WatInlineExport at h
  split at h
  · simp at h
  split at h
  · simp only [Option.some.injEq, Prod.mk.injEq] at h
    exact ⟨h.2.2.1.symm, h.2.2.2.symm⟩
  split at h
  · simp at h
  split at h
  · simp only [Option.some.injEq, Prod.mk.injEq] at h
    exact ⟨h.2.2.1.symm, h.2.2.2.symm⟩
  split at h
  · simp only [Option.some.injEq, Prod.mk.injEq] at h
    exact ⟨h.2.2.1.symm, h.2.2.2.symm⟩
  split at h
  · simp at h
  simp only [Option.some.injEq, Prod.mk.injEq] at h
  exact ⟨h.2.2.1.symm, h.2.2.2.symm⟩

/-- Without an inline import `WatInlineImportExport` leaves `*index` and the pointer `i`
as they were. -/
theorem WatInlineImportExport_index {s : PState} {index kind : Nat} {r : Int} {s1 : PState}
    {i1 : Nat} {out : Option Nat}
    (hno : ¬ (s.Size > 1 ∧ (s.get 0).id = TOKEN_OPEN ∧ (s.get 1).id = TOKEN_IMPORT))
    (h : WatInlineImportExport s index kind = some (r, s1, i1, out)) :
    i1 = index ∧ out = none := by
  unfold WatInlineImportExport at h
  by_cases he : s.Size > 1 ∧ (s.get 0).id = TOKEN_OPEN ∧ (s.get 1).id = TOKEN_EXPORT
  · rw [if_pos he] at h
    exact WatInlineExport_index h
  · rw [if_neg he, if_neg hno] at h
    simp only [Option.some.injEq, Prod.mk.injEq] at h
    exact ⟨h.2.2.1.symm, h.2.2.2.symm⟩

/-- The index `WatGlobal` returns for a definition that is no inline import is the number
of globals defined before. -/
theorem WatGlobal_index {fuel : Nat} {s : PState} {r : Int} {s1 : PState} {index : Nat}
    (hno : ¬ (s.Size > 1 ∧ (s.get 0).id = TOKEN_OPEN ∧ (s.get 1).id = TOKEN_IMPORT))
    (h : WatGlobal fuel s = some (r, s1, index)) : index = s.state.m.globals.length := by
  unfold WatGlobal at h
  split at h
  · simp at h
  rename_i r0 s0 i0 out hx
  obtain ⟨hi, ho⟩ := WatInlineImportExport_index hno hx
  subst hi ho
  split at h
  · simp only [Option.some.injEq, Prod.mk.injEq] at h; exact h.2.2.symm
  simp only at h
  split at h
  · simp at h
  split at h
  · simp only [Option.some.injEq, Prod.mk.injEq] at h; exact h.2.2.symm
  split at h
  · simp only [Option.some.injEq, Prod.mk.injEq] at h; exact h.2.2.symm
  · simp only [Option.some.injEq, Prod.mk.injEq] at h; exact h.2.2.symm

/-- The index `WatMemory` returns for a definition that is no inline import is the number
of memories defined before. -/
theorem WatMemory_index {fuel : Nat} {s : PState} {r : Int} {s1 : PState} {index : Nat}
    (hno : ¬ (s.Size > 1 ∧ (s.get 0).id = TOKEN_OPEN ∧ (s.get 1).id = TOKEN_IMPORT))
    (h : WatMemory fuel s = some (r, s1, index)) : index = s.state.m.memory.length := by
  unfold WatMemory at h
  split at h
  · simp at h
  rename_i r0 s0 i0 out hx
  obtain ⟨hi, ho⟩ := WatInlineImportExport_index hno hx
  subst hi ho
  split at h
  · simp only [Option.some.injEq, Prod.mk.injEq] at h; exact h.2.2.symm
  simp only at h
  split at h
  · simp at h
  split at h
  · simp only [Option.some.injEq, Prod.mk.injEq] at h; exact h.2.2.symm
  · simp only [Option.some.injEq, Prod.mk.injEq] at h; exact h.2.2.symm

/-- The index `WatTable` returns for a definition that is no inline import is the number
of tables defined before. -/
theorem WatTable_index {fuel : Nat} {s : PState} {r : Int} {s1 : PState} {index : Nat}
    (hno : ¬ (s.Size > 1 ∧ (s.get 0).id = TOKEN_OPEN ∧ (s.get 1).id = TOKEN_IMPORT))
    (h : WatTable fuel s = some (r, s1, index)) : index = s.state.m.tables.length := by
  unfold WatTable at h
  split at h
  · simp at h
  rename_i r0 s0 i0 out hx
  obtain ⟨hi, ho⟩ := WatInlineImportExport_index hno hx
  subst hi ho
  split at h
  · simp only [Option.some.injEq, Prod.mk.injEq] at h; exact h.2.2.symm
  simp only at h
  split at h
  · split at h
    · simp at h
    split at h
    · simp only [Option.some.injEq, Prod.mk.injEq] at h; exact h.2.2.symm
    · simp only [Option.some.injEq, Prod.mk.injEq] at h; exact h.2.2.symm
  · split at h
    · simp at h
    split at h
    · simp only [Option.some.injEq, Prod.mk.injEq] at h; exact h.2.2.symm
    split at h
    · simp at h
    split at h
    · simp only [Option.some.injEq, Prod.mk.injEq] at h; exact h.2.2.symm
    split at h
    · simp at h
    split at h
    · simp only [Option.some.injEq, Prod.mk.injEq] at h; exact h.2.2.symm
    split at h
    · simp only [Option.some.injEq, Prod.mk.injEq] at h; exact h.2.2.symm
    · simp at h

/-- C39, the claim fails: the index bound to the name of a defined table, memory or global
is the number of earlier definitions of that kind, without the imports.  In
`(module (global $a (import "m" "a") i32) (global $b i32 i32.const 0))` the imported global
`$a` and the defined global `$b` both get the index 0, and likewise for memories and
tables, and for the explicit form `(import "m" "a" (global $a i32))`; without imports `$a`
and `$b` get 0 and 1. -/
theorem C39_definition_index_ignores_imports :
    observeSpaces (ParseWatModule 200 (srcImportThenDef "global" "i32" "i32 i32.const 0") none) =
      some { code := ERR_SUCCESS, tables := [], memories := [],
             globals := [([97], 0), ([98], 0)] } ∧
    observeImports (ParseWatModule 200 (srcImportThenDef "global" "i32" "i32 i32.const 0") none) =
      some (ERR_SUCCESS, [some KIND_GLOBAL], 0, 0, 0) ∧
    observeSpaces (ParseWatModule 200
        (bytes "(module (import " ++ quoted "m" ++ bytes " " ++ quoted "a" ++
          bytes " (global $a i32)) (global $b i32 i32.const 0))") none) =
      some { code := ERR_SUCCESS, tables := [], memories := [],
             globals := [([97], 0), ([98], 0)] } ∧
    observeSpaces (ParseWatModule 200 (srcImportThenDef "memory" "1" "1") none) =
      some { code := ERR_SUCCESS, tables := [], memories := [([97], 0), ([98], 0)],
             globals := [] } ∧
    observeSpaces (ParseWatModule 200 (srcImportThenDef "table" "1 anyfunc" "1 anyfunc") none) =
      some { code := ERR_SUCCESS, tables := [([97], 0), ([98], 0)], memories := [],
             globals := [] } ∧
    observeSpaces (ParseWatModule 200
        (bytes "(module (global $a i32 i32.const 0) (global $b i32 i32.const 0))") none) =
      some { code := ERR_SUCCESS, tables := [], memories := [],
             globals := [([97], 0), ([98], 1)] } ∧
    (∀ (fuel : Nat) (s : PState) (r : Int) (s1 : PState) (index : Nat),
      ¬ (s.Size > 1 ∧ (s.get 0).id = TOKEN_OPEN ∧ (s.get 1).id = TOKEN_IMPORT) →
      (WatGlobal fuel s = some (r, s1, index) → index = s.state.m.globals.length) ∧
      (WatMemory fuel s = some (r, s1, index) → index = s.state.m.memory.length) ∧
      (WatTable fuel s = some (r, s1, index) → index = s.state.m.tables.length)) := by
  refine ⟨?_, ?_, ?_, ?_, ?_, ?_, ?_⟩
  · decide!
  · decide!
  · decide!
  · decide!
  · decide!
  · decide!
  · intro fuel s r s1 index hno
    exact ⟨WatGlobal_index hno, WatMemory_index hno, WatTable_index hno⟩

theorem GetJumpLoop_diverges (buf : List Nat) (stack : List StringRef) (r : StringRef)
    (hlen : 256 ≤ stack.length)
    (hmiss : ∀ k, k < 256 → StringRef.eq buf (stack.getD k {}) r = false) :
    ∀ fuel i, i < 256 → GetJumpLoop buf stack r fuel i = none := by
  intro fuel
  induction fuel with
  | zero => intro i _; rfl
  | succ n ih =>
    intro i hi
    rw [GetJumpLoop, if_pos (by omega), hmiss i hi]
    simp only [Bool.false_eq_true, if_false]
    exact ih _ (Nat.mod_lt _ (by decide))

theorem GetJumpLoop_total (buf : List Nat) (stack : List StringRef) (r : StringRef)
    (hlen : stack.length < 256) :
    ∀ fuel i, i ≤ stack.length → stack.length - i < fuel →
      (GetJumpLoop buf stack r fuel i).isSome = true := by
  intro fuel
  induction fuel with
  | zero => intro i _ h; omega
  | succ n ih =>
    intro i hi hf
    rw [GetJumpLoop]
    by_cases hlt : i < stack.length
    · rw [if_pos hlt]
      by_cases he : StringRef.eq buf (stack.getD i {}) r = true
      · rw [if_pos he]; rfl
      · rw [if_neg he]
        have hm : (i + 1) % 256 = i + 1 := Nat.mod_eq_of_lt (by omega)
        rw [hm]
        exact ih (i + 1) (by omega) (by omega)
    · rw [if_neg hlt]; rfl

theorem GetJumpLoop_sentinel (buf : List Nat) (stack : List StringRef) (r : StringRef)
    (hlen : stack.length < 256)
    (hmiss : ∀ k, k < stack.length → StringRef.eq buf (stack.getD k {}) r = false) :
    ∀ fuel i, i ≤ stack.length → stack.length - i < fuel →
      GetJumpLoop buf stack r fuel i = some U7_MAX := by
  intro fuel
  induction fuel with
  | zero => intro i _ h; omega
  | succ n ih =>
    intro i hi hf
    rw [GetJumpLoop]
    by_cases hlt : i < stack.length
    · rw [if_pos hlt, hmiss i hlt]
      simp only [Bool.false_eq_true, if_false]
      have hm : (i + 1) % 256 = i + 1 := Nat.mod_eq_of_lt (by omega)
      rw [hm]
      exact ih (i + 1) (by omega) (by omega)
    · rw [if_neg hlt]

/-- C40, the claim fails for label stacks of height 256 and more: when the token is a name
that none of the 256 innermost labels carries, the loop of `GetJump` never ends (its
counter is a byte and wraps from 255 to 0 below `stack.Size()`), so no amount of fuel gives
a result; an instance is the name `$a` under 256 anonymous labels.  For heights below 256
`GetJump` does return, within `height + 1` iterations, and the result for a name that is
not on the stack is the not-found value. -/
theorem C40_GetJump_diverges :
    (∀ (buf : List Nat) (stack : List StringRef) (var : Token), var.id = TOKEN_NAME →
      256 ≤ stack.length →
      (∀ k, k < 256 → StringRef.eq buf (stack.getD k {}) var.ref = false) →
      ∀ fuel, GetJump fuel buf stack var = none) ∧
    (∀ fuel, GetJump fuel (bytes "$a") (List.replicate 256 {}) tokC40 = none) ∧
    (∀ (buf : List Nat) (stack : List StringRef) (var : Token), stack.length < 256 →
      (GetJump (stack.length + 1) buf stack var).isSome = true) ∧
    (∀ (buf : List Nat) (stack : List StringRef) (var : Token), var.id = TOKEN_NAME →
      stack.length < 256 →
      (∀ k, k < stack.length → StringRef.eq buf (stack.getD k {}) var.ref = false) →
      GetJump (stack.length + 1) buf stack var = some U7_MAX) := by
  have hname : ∀ var : Token, var.id = TOKEN_NAME → ¬ (var.id = TOKEN_INTEGER ∧ var.i < 255) := by
    intro var h hc
    rw [h] at hc
    exact absurd hc.1 (by decide)
  have main : ∀ (buf : List Nat) (stack : List StringRef) (var : Token), var.id = TOKEN_NAME →
      256 ≤ stack.length →
      (∀ k, k < 256 → StringRef.eq buf (stack.getD k {}) var.ref = false) →
      ∀ fuel, GetJump fuel buf stack var = none := by
    intro buf stack var hn hlen hmiss fuel
    unfold GetJump
    rw [if_neg (hname var hn), if_pos hn]
    exact GetJumpLoop_diverges buf stack _ hlen hmiss fuel 0 (by decide)
  refine ⟨main, ?_, ?_, ?_⟩
  · intro fuel
    refine main _ _ tokC40 rfl (by rw [List.length_replicate]) ?_ fuel
    intro k hk
    have hg : (List.replicate 256 ({} : StringRef)).getD k {} = {} := by
      rw [List.getD_eq_getElem?_getD, List.getElem?_replicate]
      split <;> rfl
    rw [hg]
    decide
  · intro buf stack var hlen
    unfold GetJump
    split
    · rfl
    · split
      · exact GetJumpLoop_total buf stack _ hlen _ 0 (Nat.zero_le _) (by omega)
      · rfl
  · intro buf stack var hn hlen hmiss
    unfold GetJump
    rw [if_neg (hname var hn), if_pos hn]
    exact GetJumpLoop_sentinel buf stack _ hlen hmiss _ 0 (Nat.zero_le _) (by omega)

/-! ### The import array -/

theorem importSlot_succ (l : List (Option Import)) (kind idx n : Nat) :
    (List.range (n + 1)).foldl (importSlotStep l kind) (some idx) =
      importSlotStep l kind ((List.range n).foldl (importSlotStep l kind) (some idx)) n := by
  rw [List.range_succ, List.foldl_append]
  rfl

/-- The slot the loop of `WatAppendImport` finds is the initial one or a position of the
array. -/
theorem importSlot_bound (l : List (Option Import)) (kind idx : Nat) :
    ∀ n k, (List.range n).foldl (importSlotStep l kind) (some idx) = some k → k = idx ∨ k < n := by
  intro n
  induction n with
  | zero =>
    intro k h
    simp only [List.range_zero, List.foldl_nil, Option.some.injEq] at h
    exact Or.inl h.symm
  | succ n ih =>
    intro k h
    rw [importSlot_succ] at h
    cases hf : (List.range n).foldl (importSlotStep l kind) (some idx) with
    | none =>
      rw [hf] at h
      unfold importSlotStep at h
      simp at h
    | some a =>
      rw [hf] at h
      unfold importSlotStep at h
      split at h
      · rename_i a1 x hacc _
        simp only [Option.some.injEq] at hacc
        split at h
        · simp only [Option.some.injEq] at h
          right; omega
        · simp only [Option.some.injEq] at h
          rcases ih a hf with h1 | h1
          · left; omega
          · right; omega
      · simp at h

/-- On an array of which every element is a record, the loop of `WatAppendImport` ends
with the initial slot when no import has a greater kind, and otherwise with the position of
an import of a greater kind. -/
theorem importSlot_range (l : List (Option Import)) (kind idx : Nat)
    (hall : ∀ x ∈ l, x ≠ none) :
    ∀ n, n ≤ l.length →
      ∃ k, (List.range n).foldl (importSlotStep l kind) (some idx) = some k ∧
        ((k = idx ∧ ∀ j, j < n → ∀ y, l[j]? = some (some y) → ¬ y.kind > kind) ∨
         (k < n ∧ ∃ y, l[k]? = some (some y) ∧ y.kind > kind)) := by
  intro n
  induction n with
  | zero =>
    intro _
    refine ⟨idx, rfl, Or.inl ⟨rfl, ?_⟩⟩
    intro j hj; omega
  | succ n ih =>
    intro hn
    obtain ⟨k0, hk0, hcase⟩ := ih (by omega)
    have hlt : n < l.length := by omega
    have hmem : l[n] ∈ l := List.getElem_mem hlt
    cases hx : l[n] with
    | none => exact absurd hx (hall _ hmem)
    | some y =>
      have hget : l[n]? = some (some y) := by
        rw [List.getElem?_eq_getElem hlt, hx]
      have hgetD : l.getD n none = some y := by
        rw [List.getD_eq_getElem?_getD, hget]; rfl
      rw [importSlot_succ, hk0]
      unfold importSlotStep
      rw [hgetD]
      simp only
      by_cases hgt : y.kind > kind
      · rw [if_pos hgt]
        exact ⟨n, rfl, Or.inr ⟨by omega, y, hget, hgt⟩⟩
      · rw [if_neg hgt]
        refine ⟨k0, rfl, ?_⟩
        rcases hcase with ⟨h1, h2⟩ | ⟨h1, h2⟩
        · left
          refine ⟨h1, ?_⟩
          intro j hj z hz
          by_cases hjn : j = n
          · subst hjn
            rw [hget] at hz
            simp only [Option.some.injEq] at hz
            rw [← hz]; exact hgt
          · exact h2 j (by omega) z hz
        · right
          exact ⟨by omega, h2⟩

/-- What a successful call of `WatAppendImport` leaves in the array: one element more, and
the record `i` in the slot the loop has found. -/
theorem WatAppendImport_stored {m : Module} {i : Import} {m1 : Module} {index : Nat}
    (h : WatAppendImport m i = some (ERR_SUCCESS, m1, index)) :
    ∃ k, k ≤ m.importsection.imports.length ∧
      m1.importsection.imports[k]? = some (some i) ∧
      m1.importsection.imports.length = m.importsection.imports.length + 1 ∧
      (i.kind = KIND_FUNCTION → m1.importsection.functions = m.importsection.functions + 1) := by
  unfold WatAppendImport at h
  split at h
  · simp only [Option.some.injEq, Prod.mk.injEq] at h
    exact absurd h.1 (by decide)
  · simp only at h
    split at h
    · simp at h
    · rename_i k hk
      have hb := importSlot_bound _ _ _ _ _ hk
      have hle : k ≤ m.importsection.imports.length := by omega
      simp only [Option.some.injEq, Prod.mk.injEq, true_and] at h
      refine ⟨k, hle, ?_, ?_, ?_⟩
      · rw [← h.1]
        simp only
        split
        · rw [List.getElem?_set_self]
          simp only [List.length_set, List.length_append, List.length_singleton]
          omega
        · rw [List.getElem?_set_self]
          simp only [List.length_append, List.length_singleton]
          omega
      · rw [← h.1]
        simp only
        split <;> simp
      · intro hkind
        rw [← h.1]
        simp only [hkind, if_true]

/-- An insertion into an array of records of which one has a greater kind than the record
to insert: the call succeeds and leaves an element that is no record. -/
theorem WatAppendImport_damaged (m : Module) (i : Import)
    (ht : m.tables.length = 0) (hf : m.funcdecl.length = 0) (hg : m.globals.length = 0)
    (hm : m.memory.length = 0) (hall : ∀ x ∈ m.importsection.imports, x ≠ none)
    (hgt : ∃ y, some y ∈ m.importsection.imports ∧ y.kind > i.kind) :
    ∃ m1 index, WatAppendImport m i = some (ERR_SUCCESS, m1, index) ∧
      none ∈ m1.importsection.imports ∧
      m1.importsection.imports.length = m.importsection.imports.length + 1 := by
  obtain ⟨k, hk, hcase⟩ := importSlot_range m.importsection.imports i.kind
    m.importsection.imports.length hall m.importsection.imports.length (Nat.le_refl _)
  have hlt : k < m.importsection.imports.length := by
    rcases hcase with ⟨_, h2⟩ | ⟨h1, _⟩
    · obtain ⟨y, hy, hyk⟩ := hgt
      obtain ⟨j, hj, hjy⟩ := List.getElem_of_mem hy
      exact absurd hyk (h2 j hj y (by rw [List.getElem?_eq_getElem hj, hjy]))
    · exact h1
  have hnd : ¬ (m.tables.length > 0 ∨ m.funcdecl.length > 0 ∨ m.globals.length > 0 ∨
      m.memory.length > 0) := by omega
  have hslot : importSlot m.importsection.imports i.kind m.importsection.imports.length = some k := hk
  unfold WatAppendImport
  rw [if_neg hnd]
  simp only [hslot]
  refine ⟨_, _, rfl, ?_, ?_⟩
  · simp only
    rw [if_pos (by omega)]
    rw [List.mem_iff_getElem?]
    refine ⟨k + 1, ?_⟩
    rw [List.getElem?_set_ne (by omega), List.getElem?_set_self]
    simp only [List.length_append, List.length_singleton]
    omega
  · simp only
    rw [if_pos (by omega)]
    simp

/-- C18, the claim fails.  After a table import has been appended to the empty import
section (index 0, counts 0, 1, 1), appending a function import returns `ERR_SUCCESS` and the
index 0 with the counts 1, 2, 2, but the array is then the function import followed by an
element that is no record: the table import is gone.  So it is after the parse of
`(module (table (import "m" "t") 1 anyfunc) (func (import "m" "f")))`.  The loop has no
`break`: behind a table and a memory import the slot found for a function import is 1, the
last one of a greater kind, and the array becomes table, function, no record.  With the
two imports in the order function, table the array holds both, with the counts 1, 2, 2.
In general, whenever every element is a record and one of them has a greater kind than
the import to insert, the call returns `ERR_SUCCESS` and leaves an array, one element
longer, with an element that is no record: it holds fewer imports than were inserted. -/
theorem C18_import_inserted_out_of_order :
    (WatAppendImport {} { kind := KIND_TABLE }).map
        (fun r => (r.1, r.2.1.importsection, r.2.2)) =
      some (ERR_SUCCESS,
        { imports := [some { kind := KIND_TABLE }], functions := 0, tables := 1, memory := 1 }, 0) ∧
    (WatAppendImport
        { importsection :=
            { imports := [some { kind := KIND_TABLE }], functions := 0, tables := 1, memory := 1 } }
        { kind := KIND_FUNCTION }).map (fun r => (r.1, r.2.1.importsection, r.2.2)) =
      some (ERR_SUCCESS,
        { imports := [some { kind := KIND_FUNCTION }, none], functions := 1, tables := 2,
          memory := 2 }, 0) ∧
    observeImports (ParseWatModule 200 srcTableThenFuncImport none) =
      some (ERR_SUCCESS, [some KIND_FUNCTION, none], 1, 2, 2) ∧
    importSlot [some { kind := KIND_TABLE }, some { kind := KIND_MEMORY }] KIND_FUNCTION 2 = some 1 ∧
    observeImports (ParseWatModule 200 srcTableMemoryFuncImport none) =
      some (ERR_SUCCESS, [some KIND_TABLE, some KIND_FUNCTION, none], 1, 2, 3) ∧
    observeImports (ParseWatModule 200 srcFuncThenTableImport none) =
      some (ERR_SUCCESS, [some KIND_FUNCTION, some KIND_TABLE], 1, 2, 2) ∧
    (∀ (m : Module) (i : Import),
      m.tables.length = 0 → m.funcdecl.length = 0 → m.globals.length = 0 → m.memory.length = 0 →
      (∀ x ∈ m.importsection.imports, x ≠ none) →
      (∃ y, some y ∈ m.importsection.imports ∧ y.kind > i.kind) →
      ∃ m1 index, WatAppendImport m i = some (ERR_SUCCESS, m1, index) ∧
        none ∈ m1.importsection.imports ∧
        m1.importsection.imports.length = m.importsection.imports.length + 1) := by
  refine ⟨?_, ?_, ?_, ?_, ?_, ?_, ?_⟩
  · decide!
  · decide!
  · decide!
  · decide!
  · decide!
  · decide!
  · intro m i ht hf hg hm hall hgt
    exact WatAppendImport_damaged m i ht hf hg hm hall hgt

/-- The import record `WatImport` stores has the kind 0, `KIND_FUNCTION`, whatever the
keyword of the description: no statement of the function assigns `i.kind`.  The record is
the one with the module and export names of the form. -/
theorem WatImport_stored {fuel : Nat} {s s1 : PState}
    (h : WatImport fuel s = some (ERR_SUCCESS, s1)) :
    ∃ (k : Nat) (imp : Import), s1.state.m.importsection.imports[k]? = some (some imp) ∧
      imp.kind = KIND_FUNCTION ∧
      imp.module_name = (WatStringTok s.buf [] s.Peek).2 ∧
      imp.export_name = (WatStringTok s.buf [] s.Pop.Peek).2 := by
  unfold WatImport at h
  simp only at h
  split at h
  · simp only [Option.some.injEq, Prod.mk.injEq] at h
    rename_i hr
    exact absurd h.1 hr
  split at h
  · simp only [Option.some.injEq, Prod.mk.injEq] at h
    rename_i hr
    exact absurd h.1 hr
  obtain ⟨sa, ha, h⟩ := andThen_ok h
  split at h
  · simp at h
  rename_i r2 s3 i1 sp hdesc
  have hk : i1.kind = KIND_FUNCTION ∧ i1.module_name = (WatStringTok s.buf [] s.Peek).2 ∧
      i1.export_name = (WatStringTok s.buf [] s.Pop.Peek).2 := by
    split at hdesc
    · split at hdesc
      · simp only [Option.some.injEq, Prod.mk.injEq] at hdesc
        rw [← hdesc.2.2.1]
        exact ⟨rfl, rfl, rfl⟩
      · split at hdesc
        · simp at hdesc
        · simp only [Option.some.injEq, Prod.mk.injEq] at hdesc
          rw [← hdesc.2.2.1]
          exact ⟨rfl, rfl, rfl⟩
    · split at hdesc
      · simp at hdesc
      · simp only [Option.some.injEq, Prod.mk.injEq] at hdesc
        rw [← hdesc.2.2.1]
        exact ⟨rfl, rfl, rfl⟩
    · split at hdesc
      · simp at hdesc
      · simp only [Option.some.injEq, Prod.mk.injEq] at hdesc
        rw [← hdesc.2.2.1]
        exact ⟨rfl, rfl, rfl⟩
    · simp only [Option.some.injEq, Prod.mk.injEq] at hdesc
      rw [← hdesc.2.2.1]
      exact ⟨rfl, rfl, rfl⟩
    · simp only [Option.some.injEq, Prod.mk.injEq] at hdesc
      rw [← hdesc.2.2.1]
      exact ⟨rfl, rfl, rfl⟩
  split at h
  · simp only [Option.some.injEq, Prod.mk.injEq] at h
    rename_i hr
    exact absurd h.1 hr
  obtain ⟨s4, h4, h⟩ := andThen_ok h
  split at h
  · simp at h
  rename_i r3 m1 index happ
  split at h
  · simp only [Option.some.injEq, Prod.mk.injEq] at h
    rename_i hr
    exact absurd h.1 hr
  rename_i hr
  have hr0 : r3 = ERR_SUCCESS := by
    by_contra hc; exact hr hc
  subst hr0
  have hm := addName_m h
  obtain ⟨k, _, hget, _, _⟩ := WatAppendImport_stored happ
  refine ⟨k, i1, ?_, hk⟩
  rw [hm]
  exact hget

/-- C38, the claim fails twice.  An explicit import of a function without a name,
`(import "m" "e" (func))`, fails with `ERR_PARSE_INVALID_NAME`: `WatImport` calls `WatName`
on the blank token.  An import of a global, a table or a memory is accepted, its name is
registered in the table of its kind, but its record has the kind 0 (function) and it is
counted as a function import, as is every record `WatImport` stores.  A named
function import is handled as claimed. -/
theorem C38_import_kind_and_name :
    (ParseWatModule 200 (srcImport "(func)") none).map Prod.fst = some ERR_PARSE_INVALID_NAME ∧
    observeImports (ParseWatModule 200 (srcImport "(global $g i32)") none) =
      some (ERR_SUCCESS, [some KIND_FUNCTION], 1, 1, 1) ∧
    observeSpaces (ParseWatModule 200 (srcImport "(global $g i32)") none) =
      some { code := ERR_SUCCESS, tables := [], memories := [], globals := [([103], 0)] } ∧
    observeImports (ParseWatModule 200 (srcImport "(table $t 1 anyfunc)") none) =
      some (ERR_SUCCESS, [some KIND_FUNCTION], 1, 1, 1) ∧
    observeImports (ParseWatModule 200 (srcImport "(memory $m 1)") none) =
      some (ERR_SUCCESS, [some KIND_FUNCTION], 1, 1, 1) ∧
    observeImports (ParseWatModule 200 (srcImport "(func $f)") none) =
      some (ERR_SUCCESS, [some KIND_FUNCTION], 1, 1, 1) ∧
    (∀ (fuel : Nat) (s s1 : PState), WatImport fuel s = some (ERR_SUCCESS, s1) →
      ∃ (k : Nat) (imp : Import), s1.state.m.importsection.imports[k]? = some (some imp) ∧
        imp.kind = KIND_FUNCTION ∧
        imp.module_name = (WatStringTok s.buf [] s.Peek).2 ∧
        imp.export_name = (WatStringTok s.buf [] s.Pop.Peek).2) := by
  refine ⟨?_, ?_, ?_, ?_, ?_, ?_, ?_⟩
  · decide!
  · decide!
  · decide!
  · decide!
  · decide!
  · decide!
  · intro fuel s s1 h
    exact WatImport_stored h

/-- C23, the claim fails for an operand that resolves to 255.  `GetJump` gives the miss
value 255 for the integer 300, and `br_table 0 300` is rejected with `ERR_WAT_EXPECTED_VAR`,
no instruction emitted; so is the function `(func br_table 0 300)`, while
`(func br_table 0 200)` is accepted with the table `[0]` and the default 200.  A name bound
at depth 255 resolves to 255 as well, and `br_table $a` is rejected. -/
theorem C23_counterexample :
    GetJump 9 wC23big.buf wC23big.state.stack (wC23big.get 2) = some U7_MAX ∧
    (WatOperator 9 wC23big 0 0).map (fun r => (r.1, r.2.f.body)) =
      some (ERR_WAT_EXPECTED_VAR, []) ∧
    (ParseWatModule 200 (bytes "(module (func br_table 0 300))") none).map Prod.fst =
      some ERR_WAT_EXPECTED_VAR ∧
    observe (ParseWatModule 200 (bytes "(module (func br_table 0 200))") none) =
      some { code := ERR_SUCCESS, types := [], funcdecl := [U32_MAX],
             bodies := [[{ opcode := OP_br_table, table := [0], imm1 := 200 },
                         { opcode := OP_end }]],
             exports := [], deferred := 0 } ∧
    GetJump 300 wC23deep.buf wC23deep.state.stack (wC23deep.get 1) = some U7_MAX ∧
    (WatOperator 300 wC23deep 0 0).map (fun r => (r.1, r.2.f.body)) =
      some (ERR_WAT_EXPECTED_VAR, []) := by
  refine ⟨?_, ?_, ?_, ?_, ?_, ?_⟩
  · decide!
  · decide!
  · decide!
  · decide!
  · decide!
  · decide!

/-- C14, the claim fails behind an annotation when the inline clauses are malformed.  On
`(type 0) (param i32) (result foo)` with `[i32] -> []` as type 0, `WatTypeInner` fails with
`ERR_WAT_EXPECTED_VALTYPE` and leaves the signature `[i32] -> []` it had read so far;
`WatFuncType` does not consult that code, finds the remains equal to type 0 and returns
`ERR_SUCCESS` with the index 0.  Without an annotation the same clauses make `WatFuncType`
fail with `ERR_WAT_EXPECTED_VALTYPE`.  The rest is as claimed: `(type 0)` alone returns 0,
`(type 0) (param i64)` fails with `ERR_WAT_TYPE_MISMATCH`, the type section unchanged; and
in general, behind `(type v)` with `v` resolving to an index of the type section, the
result without inline clauses is that index, and with inline clauses it is `ERR_SUCCESS`
or `ERR_WAT_TYPE_MISMATCH` according to whether type `v` equals the signature `WatTypeInner`
has left, whatever code `WatTypeInner` returned. -/
theorem C14_malformed_inline_signature_accepted :
    (WatTypeInner 20 wC14bad.Pop.Pop.Pop.Pop {} none).map (fun r => (r.1, r.2.2.1)) =
      some (ERR_WAT_EXPECTED_VALTYPE, { form := TE_func, params := [TE_i32] }) ∧
    (WatFuncType 20 wC14bad none).map (fun r => (r.1, r.2.2.1, r.2.1.state.m.types)) =
      some (ERR_SUCCESS, 0, [{ form := TE_func, params := [TE_i32] }]) ∧
    (WatFuncType 20 wC14bad.Pop.Pop.Pop.Pop none).map (fun r => r.1) =
      some ERR_WAT_EXPECTED_VALTYPE ∧
    (WatFuncType 20 wC14plain none).map (fun r => (r.1, r.2.2.1, r.2.1.state.m.types)) =
      some (ERR_SUCCESS, 0, [{ form := TE_func, params := [TE_i32] }]) ∧
    (WatFuncType 20 wC14other none).map (fun r => (r.1, r.2.2.1, r.2.1.state.m.types)) =
      some (ERR_WAT_TYPE_MISMATCH, 0, [{ form := TE_func, params := [TE_i32] }]) ∧
    (∀ (fuel : Nat) (s : PState) (names : Option (List (Option (List Nat)))),
      (s.get 0).id = TOKEN_OPEN → (s.get 1).id = TOKEN_TYPE →
      ((s.get 2).id = TOKEN_INTEGER ∨ (s.get 2).id = TOKEN_NAME) →
      (s.get 3).id = TOKEN_CLOSE →
      WatGetFromHash s.buf s.state.typehash (s.get 2) < s.state.m.types.length →
      s.state.m.types.length ≤ U32_MAX →
      s.remaining < fuel →
      (¬ inlineSig s.Pop.Pop.Pop.Pop →
        WatFuncType fuel s names =
          some (ERR_SUCCESS, s.Pop.Pop.Pop.Pop, WatGetFromHash s.buf s.state.typehash (s.get 2),
            names) ∧
        s.Pop.Pop.Pop.Pop.state.m.types = s.state.m.types) ∧
      (inlineSig s.Pop.Pop.Pop.Pop →
        ∃ r0 s1 func names1,
          WatTypeInner fuel s.Pop.Pop.Pop.Pop {} names = some (r0, s1, func, names1) ∧
          s1.state.m.types = s.state.m.types ∧
          WatFuncType fuel s names =
            some (if MatchFunctionSig
                    (s.state.m.types.getD (WatGetFromHash s.buf s.state.typehash (s.get 2)) {})
                    func = true
                  then ERR_SUCCESS else ERR_WAT_TYPE_MISMATCH,
              s1, WatGetFromHash s.buf s.state.typehash (s.get 2), names1))) := by
  refine ⟨?_, ?_, ?_, ?_, ?_, ?_⟩
  · decide!
  · decide!
  · decide!
  · decide!
  · decide!
  · intro fuel s names h0 h1 h2 h3 hidx hn hfuel
    exact WatFuncType_annotated fuel s names h0 h1 h2 h3 hidx hn hfuel

/-- A string token that `WatString` decodes without error, and whose span does not end
inside an escape, decodes to the reference decoding of its span. -/
theorem WatStringTok_decoded {buf : List Nat} {t : Token}
    (h : (WatStringTok buf [] t).1 = ERR_SUCCESS)
    (hc : cutEscape (slice buf t.pos t.len) = false) :
    refDecode (slice buf t.pos t.len) = some (WatStringTok buf [] t).2 := by
  unfold WatStringTok at h ⊢
  split at h
  · exact absurd h (by decide)
  · rename_i hid
    rw [if_neg hid]
    have hw : WatString buf [] { isNull := false, s := t.pos, len := t.len } =
        WatStringLoop buf { isNull := false, s := t.pos, len := t.len } t.len 0 [] := rfl
    rw [hw] at h ⊢
    have href := WatStringLoop_ref buf { isNull := false, s := t.pos, len := t.len } t.len 0 []
      (Nat.zero_le _) (Nat.le_refl _)
    have e0 : slice buf (t.pos + 0) (t.len - 0) = slice buf t.pos t.len := rfl
    simp only at href
    rw [e0] at href
    unfold refDecode
    unfold cutEscape at hc
    cases hr : refScan EscState.plain (slice buf t.pos t.len) with
    | none =>
      rw [hr] at href
      have : (WatStringLoop buf { isNull := false, s := t.pos, len := t.len } t.len 0 []).1 =
          ERR_WAT_BAD_ESCAPE := href
      rw [this] at h
      exact absurd h (by decide)
    | some p =>
      obtain ⟨st, out⟩ := p
      rw [hr] at href hc
      cases st with
      | plain =>
        have : WatStringLoop buf { isNull := false, s := t.pos, len := t.len } t.len 0 [] =
            (ERR_SUCCESS, [] ++ out) := href
        rw [this]
        rfl
      | slash => simp at hc
      | hex y => simp at hc

/-- C25, the claim fails on definitions that stand behind an explicit import that is no
function, and on definitions the second pass does not reach.  In
`(module (import "m" "g" (global $g i32)) (func (export "e")))` the function is the first
of the module and no function is imported, but the export record has the index 1:
`WatImport` has stored the global import with the kind of a function and counted it in
`importsection.functions`.  In
`(module (func (i32.add (i32.const 1) (i32.const 2))) (func (export "e")))` the module is
accepted without any export record.  Behind one imported and one defined function the
record is `("e", function, 2)` as claimed, and the name `"a\n\41"` is decoded to the bytes
97, 10, 65.  In general, a successful call of `WatFunction` on `(export` returns the index
`importsection.functions + n_funcdecl`, appends exactly one export record, of kind
function, with that index and, when the span of the string does not end inside an escape,
the reference decoding of the string as name, adds one entry to the function section and
leaves the import section as it is. -/
theorem C25_export_index_counts_every_import :
    observe (ParseWatModule 200 srcGlobalImportThenExport none) =
      some { code := ERR_SUCCESS, types := [], funcdecl := [U32_MAX],
             bodies := [[{ opcode := OP_end }]],
             exports := [{ name := [101], kind := KIND_FUNCTION, index := 1 }], deferred := 0 } ∧
    observeImports (ParseWatModule 200 srcGlobalImportThenExport none) =
      some (ERR_SUCCESS, [some KIND_FUNCTION], 1, 1, 1) ∧
    observe (ParseWatModule 200 srcFoldedThenExport none) =
      some { code := ERR_SUCCESS, types := [], funcdecl := [U32_MAX],
             bodies := [[{ opcode := OP_i32_add }, { opcode := OP_i32_const, imm0 := 1 },
                         { opcode := OP_i32_const, imm0 := 2 }, { opcode := OP_end }]],
             exports := [], deferred := 0 } ∧
    (ParseWatModule 200 srcImportDefThenExport none).map
        (fun r => (r.1, r.2.state.m.exports, r.2.state.m.importsection.functions,
          r.2.state.m.funcdecl.length)) =
      some (ERR_SUCCESS, [{ name := [101], kind := KIND_FUNCTION, index := 2 }], 1, 2) ∧
    (ParseWatModule 200 srcExportEscapes none).map (fun r => (r.1, r.2.state.m.exports)) =
      some (ERR_SUCCESS, [{ name := [97, 10, 65], kind := KIND_FUNCTION, index := 0 }]) ∧
    (∀ (fuel : Nat) (s : PState) (name : StringRef) (s1 : PState) (index : Nat),
      s.Size > 1 → (s.get 0).id = TOKEN_OPEN → (s.get 1).id = TOKEN_EXPORT →
      WatFunction fuel s name = some (ERR_SUCCESS, s1, index) →
      index = s.state.m.importsection.functions + s.state.m.funcdecl.length ∧
      (∃ e : Export, s1.state.m.exports = s.state.m.exports ++ [e] ∧
        e.kind = KIND_FUNCTION ∧ e.index = index ∧
        (cutEscape (slice s.buf (s.get 2).pos (s.get 2).len) = false →
          refDecode (slice s.buf (s.get 2).pos (s.get 2).len) = some e.name)) ∧
      s1.state.m.funcdecl.length = s.state.m.funcdecl.length + 1 ∧
      s1.state.m.importsection = s.state.m.importsection) := by
  refine ⟨?_, ?_, ?_, ?_, ?_, ?_⟩
  · decide!
  · decide!
  · decide!
  · decide!
  · decide!
  · intro fuel s name s1 index hsz ho he h
    obtain ⟨h1, h2, h3, h4, h5⟩ := WatFunction_inline_export fuel s name s1 index hsz ho he h
    refine ⟨h1, ⟨_, h2, rfl, rfl, ?_⟩, h3, h4⟩
    intro hc
    exact WatStringTok_decoded h5 hc

end Wat
